import Mathlib

/-!
# phantomtcp/dns.go: wire codec, resolution cache and virtual address table

A shallow embedding of `src/phantomtcp/dns.go`.

* Bytes are natural numbers below 256, strings are lists of bytes (Go strings are
  byte sequences), byte slices are `Slice` values: the backing array from the
  start of the slice to its capacity, together with the length.
* Go code that can fail at run time (index or slice bounds out of range) returns
  `Exec`; loops without a static bound and the recursion of `GetName` run on a
  budget, and an exhausted budget is the separate outcome `Exec.hang`.
* Package-level variables declared in other files, the Go standard library and
  the network are fields of `Env`.
-/

namespace PhantomTCP

/-! ## Outcomes of Go code -/

/-- Outcome of running a piece of Go code: a value, a run-time panic (index or
slice bounds out of range), or an exhausted iteration budget. -/
inductive Exec (α : Type) where
  | ok (a : α) : Exec α
  | crash : Exec α
  | hang : Exec α
deriving DecidableEq, Repr

/-- Sequencing: the first outcome that is not a value ends the run. -/
def Exec.bind {α β : Type} (x : Exec α) (f : α → Exec β) : Exec β :=
  match x with
  | .ok a => f a
  | .crash => .crash
  | .hang => .hang

instance : Monad Exec where
  pure := Exec.ok
  bind := Exec.bind

/-! ## Byte slices -/

/-- A Go `[]byte`: `arr` is the backing array from the first element of the slice
up to its capacity (`cap = arr.length`), `len` is the length of the slice. -/
structure Slice where
  arr : List Nat
  len : Nat
deriving DecidableEq, Repr

/-- The slice `make([]byte, n)` filled with `bs`, or a `[]byte` literal: length and
capacity agree. -/
def Slice.ofList (bs : List Nat) : Slice := ⟨bs, bs.length⟩

/-- The bytes of the slice, `s[0:len(s)]`. -/
def Slice.bytes (s : Slice) : List Nat := s.arr.take s.len

/-- Index expression `s[i]`: checked against the length. -/
def Slice.get (s : Slice) (i : Nat) : Exec Nat :=
  if i < s.len then .ok (s.arr.getD i 0) else .crash

/-- Slice expression `s[lo:hi]` read as a value: for a slice the upper bound is
checked against the capacity, not the length. -/
def Slice.slice (s : Slice) (lo hi : Nat) : Exec (List Nat) :=
  if lo ≤ hi ∧ hi ≤ s.arr.length then .ok ((s.arr.drop lo).take (hi - lo)) else .crash

/-- Slice expression `s[lo:]`: the upper bound is the length. -/
def Slice.sliceFrom (s : Slice) (lo : Nat) : Exec (List Nat) :=
  if lo ≤ s.len then .ok ((s.arr.drop lo).take (s.len - lo)) else .crash

/-- The call `binary.BigEndian.Uint16(s[off : off+2])`. -/
def Slice.u16 (s : Slice) (off : Nat) : Exec Nat := do
  let b ← s.slice off (off + 2)
  pure (b.getD 0 0 * 256 + b.getD 1 0)

/-- The call `binary.BigEndian.Uint32(s[off : off+4])`. -/
def Slice.u32 (s : Slice) (off : Nat) : Exec Nat := do
  let b ← s.slice off (off + 4)
  pure (((b.getD 0 0 * 256 + b.getD 1 0) * 256 + b.getD 2 0) * 256 + b.getD 3 0)

/-! ## Writes into a byte array whose length equals its capacity -/

/-- The statement `dst[i] = byte(v)`. -/
def setByte (dst : List Nat) (i v : Nat) : Exec (List Nat) :=
  if i < dst.length then .ok (dst.set i (v % 256)) else .crash

/-- The call `copy(dst[off:], src)`: copies as many bytes as fit. -/
def copyAt (dst : List Nat) (off : Nat) (src : List Nat) : Exec (List Nat) :=
  if off ≤ dst.length then
    .ok (dst.take off ++ src.take (dst.length - off) ++ dst.drop (off + src.length))
  else .crash

/-- The call `binary.BigEndian.PutUint16(dst[off:], uint16(v))`. -/
def putU16 (dst : List Nat) (off v : Nat) : Exec (List Nat) :=
  if off + 2 ≤ dst.length then
    .ok ((dst.set off (v / 256 % 256)).set (off + 1) (v % 256))
  else .crash

/-- The call `binary.BigEndian.PutUint32(dst[off:], uint32(v))`. -/
def putU32 (dst : List Nat) (off v : Nat) : Exec (List Nat) :=
  if off + 4 ≤ dst.length then
    .ok ((((dst.set off (v / 16777216 % 256)).set (off + 1) (v / 65536 % 256)).set
      (off + 2) (v / 256 % 256)).set (off + 3) (v % 256))
  else .crash

/-! ## net.IP -/

/-- A `net.IP`: a byte list of length 4 or 16; the nil address is the empty list. -/
abbrev IP := List Nat

/-- The call `net.IPv4(a, b, c, d)`: the 16-byte form of an IPv4 address. -/
def IPv4 (a b c d : Nat) : IP := [0, 0, 0, 0, 0, 0, 0, 0, 0, 0, 0xff, 0xff, a, b, c, d]

/-- The method `IP.To4`: the 4-byte form of an IPv4 address, nil for any other address. -/
def To4 (ip : IP) : IP :=
  if ip.length = 4 then ip
  else if ip.length = 16 ∧ ip.take 10 = List.replicate 10 0 ∧ ip.getD 10 0 = 0xff
      ∧ ip.getD 11 0 = 0xff then ip.drop 12
  else []

/-- A `net.IPNet`: network number and mask. -/
structure IPNet where
  IP : IP
  Mask : List Nat
deriving DecidableEq, Repr

/-- The library helper `networkNumberAndMask`; a nil pair is the pair of empty lists. -/
def networkNumberAndMask (n : IPNet) : IP × List Nat :=
  let ip := if To4 n.IP ≠ [] then To4 n.IP else n.IP
  if To4 n.IP = [] ∧ ip.length ≠ 16 then ([], [])
  else if n.Mask.length = 4 then
    if ip.length ≠ 4 then ([], []) else (ip, n.Mask)
  else if n.Mask.length = 16 then
    if ip.length = 4 then (ip, n.Mask.drop 12) else (ip, n.Mask)
  else ([], [])

/-- The method `IPNet.Contains`. -/
def IPNet.Contains (n : IPNet) (ip : List Nat) : Bool :=
  let nm := networkNumberAndMask n
  let ip := if To4 ip ≠ [] then To4 ip else ip
  if ip.length ≠ nm.1.length then false
  else (List.range ip.length).all fun i =>
    Nat.land (nm.1.getD i 0) (nm.2.getD i 0) = Nat.land (ip.getD i 0) (nm.2.getD i 0)

/-! ## Strings -/

/-- The bytes of an ASCII string literal. -/
def str (s : String) : List Nat := s.toList.map Char.toNat

/-! ## Records, options and the environment -/

/-- The struct `RecordAddresses`; `TTL` is an `int64`. -/
structure RecordAddresses where
  TTL : Int
  Addresses : List IP
deriving DecidableEq, Repr

/-- The struct `DNSRecords` read through its pointers: `A` and `AAAA` are `none`
for a nil pointer. `Index` is a Go `int`, `Hint` a `uint`. -/
structure DNSRecords where
  Index : Int
  Hint : Nat
  A : Option RecordAddresses
  AAAA : Option RecordAddresses
  Echo : List Nat
deriving DecidableEq, Repr

/-- The zero value `new(DNSRecords)`. -/
def DNSRecords.fresh : DNSRecords := ⟨0, 0, none, none, []⟩

/-- The struct `ServerOptions` (`Typ` is its field `Type`); `BadSubnet` is `none` for a
nil pointer, `Fallback` is empty for a nil address. -/
structure ServerOptions where
  ECS : List Nat
  Typ : List Nat
  PD : List Nat
  Domain : List Nat
  BadSubnet : Option IPNet
  Fallback : IP
deriving DecidableEq, Repr

/-- The zero value of `ServerOptions`. -/
def ServerOptions.empty : ServerOptions := ⟨[], [], [], [], none, []⟩

/-- The fields of a parsed `url.URL` that the resolver reads. -/
structure URL where
  Scheme : List Nat
  Host : List Nat
  RawQuery : List Nat
deriving DecidableEq, Repr

/-- The fields of a `PhantomInterface` that the resolver reads. -/
structure PhantomInterface where
  Hint : Nat
  DNS : List Nat
  Protocol : Nat
deriving DecidableEq, Repr

/-- What `dns.go` takes from outside: package variables and constants declared in
other files, standard-library functions, the policy lookup, the clock and the
upstream transports (`none` is a returned error). -/
structure Env where
  VirtualAddrPrefix : Nat
  DNSMinTTL : Nat
  SubdomainDepth : Nat
  OPT_IPV6 : Nat
  OPT_HTTPS : Nat
  OPT_HTTP3 : Nat
  OPT_UDP : Nat
  OPT_MODIFY : Nat
  OPT_DNS : Nat
  now : Int
  ParseIP : List Nat → IP
  ParseCIDR : List Nat → Option IPNet
  IPString : IP → List Nat
  urlParse : List Nat → Option URL
  ConfigLookup : List Nat → Option PhantomInterface
  UDPlookup : List Nat → List Nat → Option Slice
  TCPlookup : List Nat → List Nat → Option Slice
  TLSlookup : List Nat → List Nat → Option Slice
  HTTPSlookup : List Nat → URL → List Nat → Option Slice
  TFOlookup : List Nat → List Nat → Option Slice

/-! ## GetQName -/

/-- The label loop of `GetQName`: `none` is the early `return "", 0, 0`, a value is
the name and the offset after the terminating zero byte. -/
def GetQName.labels (buf : Slice) : Nat → List Nat → Nat → Exec (Option (List Nat × Nat))
  | 0, _, _ => .hang
  | fuel + 1, qname, off =>
    if off ≥ buf.len then .ok none
    else do
      let length ← buf.get off
      let off := off + 1
      if length = 0 then pure (some (qname, off))
      else
        let endOff := off + length
        if endOff > buf.len then pure none
        else do
          let label ← buf.slice off endOff
          GetQName.labels buf fuel (qname ++ 46 :: label) endOff

/-- The function `GetQName`: name, query type and end offset of the question that
starts at offset 12. Every pass of the loop moves `off` forward and stops at
`bufflen`, so `bufflen + 1` passes are enough. -/
def GetQName (buf : Slice) : Exec (List Nat × Nat × Nat) :=
  let bufflen := buf.len
  if bufflen < 13 then .ok ([], 0, 0)
  else do
    let length ← buf.get 12
    let off := 13
    let endOff := off + length
    let qname ← buf.slice off endOff
    let r ← GetQName.labels buf (bufflen + 1) qname endOff
    match r with
    | none => pure ([], 0, 0)
    | some (qname, off) =>
      let endOff := off + 4
      if endOff > bufflen then pure ([], 0, 0)
      else do
        let qtype ← buf.u16 off
        pure (qname, qtype, endOff)

/-! ## PackQName and PackRequest -/

/-- Bytes that the rune starting with `c` takes in `utf8.RuneCountInString`, given
the bytes `rest` that follow it. -/
def runeSize (c : Nat) (rest : List Nat) : Nat :=
  let cont (i : Nat) (lo hi : Nat) : Bool := lo ≤ rest.getD i 0 ∧ rest.getD i 0 ≤ hi
  let sized (size lo hi : Nat) : Nat :=
    if rest.length + 1 < size then 1
    else if ¬ cont 0 lo hi then 1
    else if size = 2 then 2
    else if ¬ cont 1 0x80 0xBF then 1
    else if size = 3 then 3
    else if ¬ cont 2 0x80 0xBF then 1
    else size
  if c < 0x80 then 1
  else if c < 0xC2 then 1
  else if c < 0xE0 then sized 2 0x80 0xBF
  else if c = 0xE0 then sized 3 0xA0 0xBF
  else if c = 0xED then sized 3 0x80 0x9F
  else if c < 0xF0 then sized 3 0x80 0xBF
  else if c = 0xF0 then sized 4 0x90 0xBF
  else if c < 0xF4 then sized 4 0x80 0xBF
  else if c = 0xF4 then sized 4 0x80 0x8F
  else 1

/-- The loop of `utf8.RuneCountInString`; `skip` bytes belong to the rune counted last. -/
def runeCountFrom : Nat → List Nat → Nat
  | _, [] => 0
  | skip + 1, _ :: rest => runeCountFrom skip rest
  | 0, c :: rest => 1 + runeCountFrom (runeSize c rest - 1) rest

/-- The call `strings.Count(name, "")`: the number of runes plus one. -/
def stringsCountEmpty (name : List Nat) : Nat := runeCountFrom 0 name + 1

/-- The loop of `PackQName` over `i = 1 .. length-1`, with the array and the
variables `o` and `l` as state; `n` counts the passes that remain. -/
def PackQName.loop : Nat → Nat → List Nat → Nat → Nat → List Nat × Nat × Nat
  | 0, _, QName, o, l => (QName, o, l)
  | n + 1, i, QName, o, l =>
    if QName.getD i 0 = 46 then PackQName.loop n (i + 1) (QName.set o (l % 256)) i 0
    else PackQName.loop n (i + 1) QName o (l + 1)

/-- The function `PackQName`. All indices it writes are below `length`, inside the array. -/
def PackQName (name : List Nat) : List Nat :=
  let length := stringsCountEmpty name
  let QName := List.replicate (length + 1) 0
  let QName := QName.take 1 ++ name.take (QName.length - 1) ++ QName.drop (1 + name.length)
  let r := PackQName.loop (length - 1) 1 QName 0 0
  r.1.set r.2.1 (r.2.2 % 256)

/-- The function `PackRequest`. -/
def PackRequest (E : Env) (name : List Nat) (qtype id : Nat) (ecs : List Nat) : Exec Slice := do
  let Request := List.replicate 512 0
  let Request ← putU16 Request 0 id
  let Request ← putU16 Request 2 0x0100
  let Request ← putU16 Request 4 1
  let Request ← putU16 Request 6 0
  let Request ← putU16 Request 8 0
  let Request ← if ecs ≠ [] then putU16 Request 10 1 else putU16 Request 10 0
  let qname := PackQName name
  let length := qname.length
  let Request ← copyAt Request 12 qname
  let length := length + 12
  let Request ← putU16 Request length qtype
  let length := length + 2
  let Request ← putU16 Request length 0x01
  let length := length + 2
  if ecs ≠ [] then do
    let Request ← setByte Request length 0
    let length := length + 1
    let Request ← putU16 Request length 41
    let length := length + 2
    let Request ← putU16 Request length 4096
    let length := length + 2
    let Request ← setByte Request length 0
    let length := length + 1
    let Request ← setByte Request length 0
    let length := length + 1
    let Request ← putU16 Request length 0x800
    let length := length + 2
    let ecsip := E.ParseIP ecs
    let ecsip4 := To4 ecsip
    if ecsip4 ≠ [] then do
      let Request ← putU16 Request length 11
      let length := length + 2
      let Request ← putU16 Request length 8
      let length := length + 2
      let Request ← putU16 Request length 7
      let length := length + 2
      let Request ← putU16 Request length 1
      let length := length + 2
      let Request ← setByte Request length 24
      let length := length + 1
      let Request ← setByte Request length 0
      let length := length + 1
      let head ← if 3 ≤ ecsip4.length then Exec.ok (ecsip4.take 3) else Exec.crash
      let Request ← copyAt Request length head
      let length := length + 3
      if length ≤ Request.length then pure ⟨Request, length⟩ else Exec.crash
    else do
      let Request ← putU16 Request length 15
      let length := length + 2
      let Request ← putU16 Request length 8
      let length := length + 2
      let Request ← putU16 Request length 11
      let length := length + 2
      let Request ← putU16 Request length 2
      let length := length + 2
      let Request ← setByte Request length 56
      let length := length + 1
      let Request ← setByte Request length 0
      let length := length + 1
      let head ← if 7 ≤ ecsip.length then Exec.ok (ecsip.take 7) else Exec.crash
      let Request ← copyAt Request length head
      let length := length + 7
      if length ≤ Request.length then pure ⟨Request, length⟩ else Exec.crash
  else
    if length ≤ Request.length then pure ⟨Request, length⟩ else Exec.crash

/-! ## GetName and GetNameOffset -/

/-- The function `GetName`, with the name read so far as an argument. One unit of
`fuel` pays for one pass of the loop or one recursive call; following a pointer
is a recursive call from offset `buf[offset]` with an empty name. -/
def GetName.loop (buf : Slice) : Nat → List Nat → Nat → Exec (List Nat × Nat)
  | 0, _, _ => .hang
  | fuel + 1, name, offset => do
    let length ← buf.get offset
    let offset := offset + 1
    if length = 0 then pure (name, offset)
    else
      let name := if name ≠ [] then name ++ [46] else name
      if length < 63 then do
        let label ← buf.slice offset (offset + length)
        let name := name ++ label
        let offset := offset + length
        if offset + 2 > buf.len then pure ([], offset)
        else GetName.loop buf fuel name offset
      else do
        let target ← buf.get offset
        let r ← GetName.loop buf fuel [] target
        pure (name ++ r.1, offset + 1)

/-- The function `GetName(buf, offset)`, run on a budget of `fuel` loop passes and calls. -/
def GetName (fuel : Nat) (buf : Slice) (offset : Nat) : Exec (List Nat × Nat) :=
  GetName.loop buf fuel [] offset

/-- The loop of `GetNameOffset`; the result 0 is the truncation signal. -/
def GetNameOffset.loop (response : Slice) : Nat → Nat → Exec Nat
  | 0, _ => .hang
  | fuel + 1, offset =>
    if offset ≥ response.len then .ok 0
    else do
      let length ← response.get offset
      let offset := offset + 1
      if length = 0 then pure offset
      else if length < 63 then
        let offset := offset + length
        if offset + 2 > response.len then pure 0
        else GetNameOffset.loop response fuel offset
      else pure (offset + 1)

/-- The function `GetNameOffset`. Every pass of the loop moves `offset` forward and
stops at `responseLen`, so `responseLen + 1` passes are enough. -/
def GetNameOffset (response : Slice) (offset : Nat) : Exec Nat :=
  GetNameOffset.loop response (response.len + 1) offset

/-! ## GetAnswers -/

/-- The closure `nsfilter` of `GetAnswers`. -/
def nsfilter (E : Env) (options : ServerOptions) (address : IP) : IP :=
  if (match options.BadSubnet with
      | some subnet => subnet.Contains address
      | none => false) then []
  else if options.PD ≠ [] then E.ParseIP (options.PD ++ E.IPString address)
  else address

/-- Wrap-around of a sum into the range of `int64`. -/
def wrapInt64 (x : Int) : Int := (x + 9223372036854775808) % 18446744073709551616 - 9223372036854775808

/-- Appends `ip` to an address set, creating the set with expiry `TTL + now` when the
pointer is nil. -/
def addAddress (E : Env) (set : Option RecordAddresses) (TTL : Nat) (ip : IP) :
    Option RecordAddresses :=
  match set with
  | none => some ⟨wrapInt64 (Int.ofNat TTL + E.now), [ip]⟩
  | some s => some { s with Addresses := s.Addresses ++ [ip] }

/-- One pass of the answer loop of `GetAnswers` from `offset`: `none` is a `return`,
a value is the record and the offset at the next pass. The `continue` of a
filtered address leaves the offset where the RDATA starts. -/
def GetAnswers.answer (E : Env) (fuel : Nat) (options : ServerOptions) (response : Slice)
    (records : DNSRecords) (offset : Nat) : Exec (Option (DNSRecords × Nat)) := do
  let responseLen := response.len
  let _offset ← GetNameOffset response offset
  if _offset = 0 then pure none
  else
    let offset := _offset
    if offset + 2 > responseLen then pure none
    else do
      let AType ← response.u16 offset
      let offset := offset + 4
      if offset + 4 > responseLen then pure none
      else do
        let TTL ← response.u32 offset
        let TTL := if TTL < E.DNSMinTTL then E.DNSMinTTL else TTL
        let offset := offset + 4
        if offset + 2 > responseLen then pure none
        else do
          let DataLength ← response.u16 offset
          let offset := offset + 2
          if AType = 1 then
            if offset + 4 > responseLen then pure none
            else do
              let data ← response.slice offset (offset + 4)
              let ip := IPv4 (data.getD 0 0) (data.getD 1 0) (data.getD 2 0) (data.getD 3 0)
              let ip := To4 (nsfilter E options ip)
              if ip = [] then pure (some (records, offset))
              else pure (some ({ records with A := addAddress E records.A TTL ip },
                offset + DataLength))
          else if AType = 28 then
            if offset + 16 > responseLen then pure none
            else do
              let ip ← response.slice offset (offset + 16)
              let ip := nsfilter E options ip
              if ip = [] then pure (some (records, offset))
              else pure (some ({ records with AAAA := addAddress E records.AAAA TTL ip },
                offset + DataLength))
          else if AType = 65 then do
            let _ ← response.sliceFrom offset
            pure (some (records, offset + DataLength))
          else if AType = 5 then do
            let _ ← GetName fuel response offset
            pure (some (records, offset + DataLength))
          else pure (some (records, offset + DataLength))

/-- The answer loop of `GetAnswers` with `n` passes to go. The record is returned
together with the way the loop ended: it is what the caller's pointer shows
also after a panic. -/
def GetAnswers.answers (E : Env) (fuel : Nat) (options : ServerOptions) (response : Slice) :
    Nat → DNSRecords → Nat → DNSRecords × Exec Unit
  | 0, records, _ => (records, .ok ())
  | n + 1, records, offset =>
    match GetAnswers.answer E fuel options response records offset with
    | .ok none => (records, .ok ())
    | .ok (some next) => GetAnswers.answers E fuel options response n next.1 next.2
    | .crash => (records, .crash)
    | .hang => (records, .hang)

/-- The question loop of `GetAnswers` with `n` passes to go: `none` is a `return`. -/
def GetAnswers.questions (response : Slice) : Nat → Nat → Exec (Option Nat)
  | 0, offset => .ok (some offset)
  | n + 1, offset => do
    let _offset ← GetNameOffset response offset
    if _offset = 0 then pure none
    else GetAnswers.questions response n (_offset + 4)

/-- The method `GetAnswers`: the record after the call and the way the call ended.
`fuel` is the budget of each call of `GetName`. -/
def GetAnswers (E : Env) (fuel : Nat) (records : DNSRecords) (response : Slice)
    (options : ServerOptions) : DNSRecords × Exec Unit :=
  let responseLen := response.len
  let offset := 12
  if offset > responseLen then (records, .ok ())
  else
    match response.u16 4, response.u16 6 with
    | .ok QDCount, .ok ANCount =>
      if ANCount = 0 then (records, .ok ())
      else
        match GetAnswers.questions response QDCount offset with
        | .ok none => (records, .ok ())
        | .ok (some offset) => GetAnswers.answers E fuel options response ANCount records offset
        | .crash => (records, .crash)
        | .hang => (records, .hang)
    | .hang, _ => (records, .hang)
    | _, .hang => (records, .hang)
    | _, _ => (records, .crash)

/-! ## packAnswers and BuildResponse -/

/-- First loop of the closure `packA`: number of records and their total length. -/
def packA.measure : List IP → Nat × Nat
  | [] => (0, 0)
  | ip :: ips =>
    let r := packA.measure ips
    if To4 ip ≠ [] then (r.1 + 1, r.2 + 16) else (r.1 + 1, r.2 + 28)

/-- Second loop of the closure `packA`: writes one record per address at `length`. -/
def packA.fill (ttl : Nat) : List IP → List Nat → Nat → Exec (List Nat)
  | [], answers, _ => .ok answers
  | ip :: ips, answers, length =>
    let ip4 := To4 ip
    if ip4 ≠ [] then do
      let answers ← copyAt answers length [0xC0, 0x0C, 0x00, 1, 0x00, 0x01]
      let length := length + 6
      let answers ← putU32 answers length ttl
      let length := length + 4
      let answers ← copyAt answers length [0x00, 0x04]
      let length := length + 2
      let answers ← copyAt answers length ip4
      let length := length + 4
      packA.fill ttl ips answers length
    else do
      let answers ← copyAt answers length [0xC0, 0x0C, 0x00, 28, 0x00, 0x01]
      let length := length + 6
      let answers ← putU32 answers length ttl
      let length := length + 4
      let answers ← copyAt answers length [0x00, 0x10]
      let length := length + 2
      let answers ← copyAt answers length ip
      let length := length + 16
      packA.fill ttl ips answers length

/-- The closure `packA` of `packAnswers`. -/
def packA (ttl : Nat) (ips : List IP) : Exec (Nat × List Nat) := do
  let m := packA.measure ips
  let answers ← packA.fill ttl ips (List.replicate m.2 0) 0
  pure (m.1, answers)

/-- The method `IP.To16`. -/
def To16 (ip : IP) : IP :=
  if ip.length = 4 then IPv4 (ip.getD 0 0) (ip.getD 1 0) (ip.getD 2 0) (ip.getD 3 0)
  else if ip.length = 16 then ip
  else []

/-- The IPv4-hint loop of `packAnswers`: `none` is the `return 0, nil` at an address
that is not IPv4. -/
def packAnswers.hint4 : List IP → List Nat → Nat → Exec (Option (List Nat × Nat))
  | [], answers, length => .ok (some (answers, length))
  | ip :: ips, answers, length =>
    let ip4 := To4 ip
    if ip4 = [] then .ok none
    else do
      let answers ← copyAt answers length ip4
      packAnswers.hint4 ips answers (length + 4)

/-- The IPv6-hint loop of `packAnswers`. -/
def packAnswers.hint6 : List IP → List Nat → Nat → Exec (List Nat × Nat)
  | [], answers, length => .ok (answers, length)
  | ip :: ips, answers, length => do
    let answers ← copyAt answers length (To16 ip)
    packAnswers.hint6 ips answers (length + 16)

/-- The function `packAnswers`; `totalLen` of the HTTPS case is a `uint16`. -/
def packAnswers (E : Env) (qtype ttl : Nat) (records : DNSRecords) : Exec (Nat × List Nat) :=
  if qtype = 1 then
    match records.A with
    | none => .ok (0, [])
    | some a => packA ttl a.Addresses
  else if qtype = 28 then
    match records.AAAA with
    | none => .ok (0, [])
    | some a => packA ttl a.Addresses
  else if qtype = 65 then
    let alpn : Bool := Nat.land records.Hint (Nat.lor E.OPT_HTTPS E.OPT_HTTP3) ≠ 0
    let h3 : Bool := Nat.land records.Hint E.OPT_HTTP3 ≠ 0
    let h2 : Bool := Nat.land records.Hint E.OPT_HTTPS ≠ 0
    let totalLen := 15
    let totalLen :=
      if alpn then
        let t := (totalLen + 4) % 65536
        let t := if h3 then (t + 3) % 65536 else t
        if h2 then (t + 3) % 65536 else t
      else totalLen
    let echoLen := records.Echo.length
    let totalLen := if echoLen > 0 then (totalLen + (4 + echoLen) % 65536) % 65536 else totalLen
    let v4Count := match records.A with
      | some a => a.Addresses.length
      | none => 0
    let totalLen := if records.A.isSome then (totalLen + (4 + v4Count * 4) % 65536) % 65536
      else totalLen
    let v6Count := match records.AAAA with
      | some a => a.Addresses.length
      | none => 0
    let totalLen := if records.AAAA.isSome then (totalLen + (4 + v6Count * 16) % 65536) % 65536
      else totalLen
    if totalLen = 15 then .ok (0, [])
    else do
      let answers := List.replicate totalLen 0
      let answers ← copyAt answers 0 [0xC0, 0x0C, 0x00, 65, 0x00, 0x01]
      let answers ← putU32 answers 6 ttl
      let answers ← putU16 answers 10 ((totalLen + 65536 - 12) % 65536)
      let answers ← putU16 answers 12 1
      let answers ← setByte answers 14 0
      let length := 15
      let (answers, length) ←
        if alpn then do
          let answers ← copyAt answers length [0, 1, 0, 0]
          let svcLenOffset := length + 2
          let length := length + 4
          let (answers, length) ←
            if h3 then do
              let answers ← copyAt answers length [2, 0x68, 0x33]
              pure (answers, length + 3)
            else pure (answers, length)
          let (answers, length) ←
            if h2 then do
              let answers ← copyAt answers length [2, 0x68, 0x32]
              pure (answers, length + 3)
            else pure (answers, length)
          let answers ← putU16 answers svcLenOffset (length - svcLenOffset - 2)
          pure (answers, length)
        else pure (answers, length)
      let (answers, length) ←
        if echoLen > 0 then do
          let answers ← copyAt answers length [0, 5]
          let length := length + 2
          let answers ← putU16 answers length echoLen
          let length := length + 2
          let answers ← copyAt answers length records.Echo
          pure (answers, length + echoLen)
        else pure (answers, length)
      let r ←
        match records.A with
        | some a => do
          let answers ← copyAt answers length [0, 4]
          let length := length + 2
          let answers ← putU16 answers length (v4Count * 4)
          let length := length + 2
          packAnswers.hint4 a.Addresses answers length
        | none => pure (some (answers, length))
      match r with
      | none => pure (0, [])
      | some (answers, length) =>
        match records.AAAA with
        | some a => do
          let answers ← copyAt answers length [0, 6]
          let length := length + 2
          let answers ← putU16 answers length (v6Count * 16)
          let length := length + 2
          let r ← packAnswers.hint6 a.Addresses answers length
          pure (1, r.1)
        | none => pure (1, answers)
  else .ok (0, [])

/-- The slice expression `response[:length]` on the 1024-byte response array. -/
def sliceTo (response : List Nat) (length : Nat) : Exec Slice :=
  if length ≤ response.length then .ok ⟨response, length⟩ else .crash

/-- The method `BuildResponse`. -/
def BuildResponse (E : Env) (records : DNSRecords) (request : Slice) (qtype ttl : Nat) :
    Exec Slice := do
  let response := List.replicate 1024 0
  let response ← copyAt response 0 request.bytes
  let length := request.len
  let response ← setByte response 2 0x81
  let response ← setByte response 3 0x80
  if records.Index > 0 then
    if qtype = 1 then do
      let answer := [0xC0, 0x0C, 0x00, 1, 0x00, 0x01, 0x00, 0x00, 0x00, 0x10, 0x00, 0x04,
        E.VirtualAddrPrefix % 256, 0]
      let response ← copyAt response length answer
      let length := length + 14
      let response ← putU16 response length (records.Index % 65536).toNat
      let length := length + 2
      let response ← putU16 response 6 1
      sliceTo response length
    else if qtype = 28 then sliceTo response length
    else if qtype = 65 then do
      let response ← copyAt response length [0xC0, 0x0C, 0x00, 65, 0, 1, 0, 0, 0, 16, 0, 0, 0, 1, 0]
      let dataLenOffset := length + 10
      let length := length + 15
      let (response, length) ←
        if Nat.land records.Hint (Nat.lor E.OPT_HTTPS E.OPT_HTTP3) ≠ 0 then do
          let response ← copyAt response length [0, 1, 0, 0]
          let svcLenOffset := length + 2
          let length := length + 4
          let (response, length) ←
            if Nat.land records.Hint E.OPT_HTTP3 ≠ 0 then do
              let response ← copyAt response length [2, 0x68, 0x33]
              let length := length + 3
              let response ← copyAt response length [5, 0x68, 0x33, 0x2d, 0x32, 0x39]
              pure (response, length + 6)
            else pure (response, length)
          let (response, length) ←
            if Nat.land records.Hint E.OPT_HTTPS ≠ 0 then do
              let response ← copyAt response length [2, 0x68, 0x32]
              pure (response, length + 3)
            else pure (response, length)
          let response ← putU16 response svcLenOffset (length - svcLenOffset - 2)
          pure (response, length)
        else pure (response, length)
      let response ← copyAt response length [0, 4, 0, 4, E.VirtualAddrPrefix % 256, 0]
      let length := length + 6
      let response ← putU16 response length (records.Index % 65536).toNat
      let length := length + 2
      let response ← putU16 response 6 1
      let response ← putU16 response dataLenOffset (length - dataLenOffset - 2)
      sliceTo response length
    else sliceTo response length
  else do
    let r ← packAnswers E qtype ttl records
    if r.1 > 0 then do
      let response ← putU16 response 6 r.1
      let response ← copyAt response length r.2
      sliceTo response (length + r.2.length)
    else sliceTo response length

/-! ## ParseOptions -/

/-- The call `strings.Index(s, c)` for a one-byte string `c`; `none` is the result -1. -/
def indexByte (c : Nat) : List Nat → Option Nat
  | [] => none
  | b :: bs => if b = c then some 0 else (indexByte c bs).map (· + 1)

/-- The call `strings.Split(s, sep)` for a one-byte separator. -/
def splitByte (sep : Nat) : List Nat → List (List Nat)
  | [] => [[]]
  | b :: bs =>
    if b = sep then [] :: splitByte sep bs
    else
      match splitByte sep bs with
      | [] => [[b]]
      | p :: ps => (b :: p) :: ps

/-- One pass of the loop of `ParseOptions`: `strings.SplitN(opt, "=", 2)` and the switch. -/
def ParseOptions.step (E : Env) (serverOpts : ServerOptions) (opt : List Nat) : ServerOptions :=
  match indexByte 61 opt with
  | none => serverOpts
  | some i =>
    let key := opt.take i
    let value := opt.drop (i + 1)
    if key = str "ecs" then { serverOpts with ECS := value }
    else if key = str "pd" then { serverOpts with PD := value }
    else if key = str "type" then { serverOpts with Typ := value }
    else if key = str "domain" then { serverOpts with Domain := value }
    else if key = str "badsubnet" then { serverOpts with BadSubnet := E.ParseCIDR value }
    else if key = str "fallback" then { serverOpts with Fallback := E.ParseIP value }
    else serverOpts

/-- The function `ParseOptions`. -/
def ParseOptions (E : Env) (options : List Nat) : ServerOptions :=
  (splitByte 38 options).foldl (ParseOptions.step E) ServerOptions.empty

/-! ## The resolution cache and the virtual address table -/

/-- A `DNSRecords` struct in memory: `A` and `AAAA` are pointers into `World.sets`. -/
structure DNSRecordsCell where
  Index : Int
  Hint : Nat
  A : Option Nat
  AAAA : Option Nat
  Echo : List Nat
deriving DecidableEq, Repr

/-- The shared state of the package: the heap of `DNSRecords` objects and of
`RecordAddresses` objects (a pointer is a position in the list), the map `DNSCache`
from names to `*DNSRecords` (the entry stored last comes first) and the list `Nose`. -/
structure World where
  cells : List DNSRecordsCell
  sets : List RecordAddresses
  DNSCache : List (List Nat × Nat)
  Nose : List (List Nat)
deriving DecidableEq, Repr

/-- The state at program start: empty cache, `Nose = ["phantom.socks"]`. -/
def World.init : World := ⟨[], [], [], [str "phantom.socks"]⟩

/-- The object behind a `*DNSRecords`. -/
def World.cell (w : World) (p : Nat) : DNSRecordsCell := w.cells.getD p ⟨0, 0, none, none, []⟩

/-- The assignment `*p = c`. -/
def World.setCell (w : World) (p : Nat) (c : DNSRecordsCell) : World :=
  { w with cells := w.cells.set p c }

/-- The record behind a `*DNSRecords` with its address sets read through their pointers. -/
def World.view (w : World) (p : Nat) : DNSRecords :=
  let c := w.cell p
  ⟨c.Index, c.Hint, c.A.map fun q => w.sets.getD q ⟨0, []⟩,
    c.AAAA.map fun q => w.sets.getD q ⟨0, []⟩, c.Echo⟩

/-- The expression `new(DNSRecords)`: the pointer and the heap with the new object. -/
def World.newRecords (w : World) : Nat × World :=
  (w.cells.length, { w with cells := w.cells ++ [⟨0, 0, none, none, []⟩] })

/-- The expression `&RecordAddresses{...}`: the pointer and the heap with the new object. -/
def World.newSet (w : World) (s : RecordAddresses) : Nat × World :=
  (w.sets.length, { w with sets := w.sets ++ [s] })

/-- The function `LoadDNSCache`; `none` is nil. -/
def LoadDNSCache (w : World) (qname : List Nat) : Option Nat := w.DNSCache.lookup qname

/-- The function `StoreDNSCache`. -/
def StoreDNSCache (w : World) (qname : List Nat) (record : Nat) : World :=
  { w with DNSCache := (qname, record) :: w.DNSCache }

/-- The ancestor loop of `NSLookup` and `NSRequest` with `n` passes to go: the key looked
up is `name[offset:]` with `offset` at a dot, so it starts with that dot; a hit copies
the object, `*records = *top`. -/
def seedFromAncestor (name : List Nat) (records : Nat) : Nat → Nat → World → World
  | 0, _, w => w
  | n + 1, offset, w =>
    match indexByte 46 (name.drop offset) with
    | none => w
    | some off =>
      let offset := offset + off
      match LoadDNSCache w (name.drop offset) with
      | some top => w.setCell records (w.cell top)
      | none => seedFromAncestor name records n (offset + 1) w

/-- The cache lookup at the start of `NSLookup` and of `NSRequest`: the entry of `name`, or
a new stored record seeded from an ancestor entry. -/
def lookupRecords (E : Env) (name : List Nat) (w : World) : Nat × World :=
  match LoadDNSCache w name with
  | some records => (records, w)
  | none =>
    let r := w.newRecords
    let w := StoreDNSCache r.2 name r.1
    (r.1, seedFromAncestor name r.1 E.SubdomainDepth 0 w)

/-- The locked block that gives `records` the next virtual index: `records.Index =
len(Nose)`, `records.Hint = hint` where the caller sets it, `Nose = append(Nose, name)`. -/
def assignIndex (name : List Nat) (records : Nat) (hint : Option Nat) (w : World) : World :=
  let c := w.cell records
  let c := { c with Index := Int.ofNat w.Nose.length }
  let c := match hint with
    | some h => { c with Hint := h }
    | none => c
  { w.setCell records c with Nose := w.Nose ++ [name] }

/-- An address set after `GetAnswers`, written back through the pointer of the record: an
existing object is updated in place, a set created by the call is a new object. -/
def writeBackSet (w : World) (old : Option Nat) (set : Option RecordAddresses) :
    Option Nat × World :=
  match old, set with
  | some q, some s => (some q, { w with sets := w.sets.set q s })
  | none, some s => (some w.sets.length, { w with sets := w.sets ++ [s] })
  | old, none => (old, w)

/-- The call `records.GetAnswers(response, options)` through the pointer `records`. -/
def World.GetAnswers (E : Env) (fuel : Nat) (records : Nat) (response : Slice)
    (options : ServerOptions) (w : World) : Exec World :=
  let r := PhantomTCP.GetAnswers E fuel (w.view records) response options
  match r.2 with
  | .ok _ =>
    let c := w.cell records
    let a := writeBackSet w c.A r.1.A
    let aaaa := writeBackSet a.2 c.AAAA r.1.AAAA
    .ok (aaaa.2.setCell records { c with A := a.1, AAAA := aaaa.1 })
  | .crash => .crash
  | .hang => .hang

/-- The fallback substitution of `NSLookup` and `NSRequest` for the family of `qtype`,
followed by the empty set that replaces a nil pointer; the result says whether the
set was still nil after the fallback. -/
def applyFallback (qtype : Nat) (records : Nat) (options : ServerOptions) (w : World) :
    Bool × World :=
  let c := w.cell records
  if qtype = 1 then
    let r : Option Nat × World :=
      if c.A = none ∧ options.Fallback ≠ [] ∧ To4 options.Fallback ≠ [] then
        let s := w.newSet ⟨0, [options.Fallback]⟩
        (some s.1, s.2)
      else (c.A, w)
    match r.1 with
    | none =>
      let s := r.2.newSet ⟨0, []⟩
      (true, s.2.setCell records { c with A := some s.1 })
    | some q => (false, r.2.setCell records { c with A := some q })
  else if qtype = 28 then
    let r : Option Nat × World :=
      if c.AAAA = none ∧ options.Fallback ≠ [] ∧ To4 options.Fallback = [] then
        let s := w.newSet ⟨0, [options.Fallback]⟩
        (some s.1, s.2)
      else (c.AAAA, w)
    match r.1 with
    | none =>
      let s := r.2.newSet ⟨0, []⟩
      (true, s.2.setCell records { c with AAAA := some s.1 })
    | some q => (false, r.2.setCell records { c with AAAA := some q })
  else (false, w)

/-- The addresses behind an address-set pointer. -/
def World.addresses (w : World) (set : Option Nat) : List IP :=
  match set with
  | none => []
  | some q => (w.sets.getD q ⟨0, []⟩).Addresses

/-! ## NSLookup and NSRequest -/

/-- The function `NSLookup`: the returned index and addresses, and the state after the
call. `fuel` is the budget of `GetName`. -/
def NSLookup (E : Env) (fuel : Nat) (name : List Nat) (hint : Nat) (server : List Nat)
    (w : World) : Exec ((Int × List IP) × World) :=
  let qtype := if Nat.land hint E.OPT_IPV6 ≠ 0 then 28 else 1
  let r := lookupRecords E name w
  let records := r.1
  let w := r.2
  if qtype = 1 ∧ (w.cell records).A ≠ none then
    .ok (((w.cell records).Index, w.addresses (w.cell records).A), w)
  else if qtype = 28 ∧ (w.cell records).AAAA ≠ none then
    .ok (((w.cell records).Index, w.addresses (w.cell records).AAAA), w)
  else
    match E.urlParse server with
    | none => .ok ((0, []), w)
    | some u =>
      let options := if u.RawQuery ≠ [] then ParseOptions E u.RawQuery else ServerOptions.empty
      let query : (List Nat → Option Slice) → Exec (Option Slice) := fun lookup => do
        let request ← PackRequest E name qtype 0 options.ECS
        pure (lookup request.bytes)
      let exchange : Exec (Option (Option Slice)) :=
        if u.Host ≠ [] then
          if u.Scheme = str "udp" then (query fun q => E.UDPlookup q u.Host).bind (pure ∘ some)
          else if u.Scheme = str "tcp" then (query fun q => E.TCPlookup q u.Host).bind (pure ∘ some)
          else if u.Scheme = str "tls" then (query fun q => E.TLSlookup q u.Host).bind (pure ∘ some)
          else if u.Scheme = str "https" then
            (query fun q => E.HTTPSlookup q u options.Domain).bind (pure ∘ some)
          else if u.Scheme = str "tfo" then (query fun q => E.TFOlookup q u.Host).bind (pure ∘ some)
          else pure none
        else pure (some (some ⟨[], 0⟩))
      match exchange with
      | .crash => .crash
      | .hang => .hang
      | .ok none =>
        let w := assignIndex name records (some hint) w
        .ok (((w.cell records).Index, []), w)
      | .ok (some none) => .ok ((0, []), w)
      | .ok (some (some response)) =>
        let w := if (w.cell records).Index = 0 ∧ hint ≠ 0 then
            assignIndex name records (some hint) w
          else w
        match World.GetAnswers E fuel records response options w with
        | .crash => .crash
        | .hang => .hang
        | .ok w =>
          let f := applyFallback qtype records options w
          let w := f.2
          if qtype = 1 then .ok (((w.cell records).Index, w.addresses (w.cell records).A), w)
          else .ok (((w.cell records).Index, w.addresses (w.cell records).AAAA), w)

/-- The function `NSRequest`: the returned index and response (`none` is nil), and the
state after the call. `fuel` is the budget of `GetName`. -/
def NSRequest (E : Env) (fuel : Nat) (request : Slice) (cache : Bool) (w : World) :
    Exec ((Int × Option Slice) × World) := do
  let q ← GetQName request
  let name := q.1
  let qtype := q.2.1
  let endOff := q.2.2
  let arr ← if 12 ≤ request.arr.length then putU16 request.arr 10 0 else Exec.crash
  let request ← sliceTo arr endOff
  if name = [] then pure ((0, none), w)
  else
    let r := if cache then lookupRecords E name w else w.newRecords
    let records := r.1
    let w := r.2
    let respond (index : Int) (ttl : Nat) (w : World) : Exec ((Int × Option Slice) × World) := do
      let response ← BuildResponse E (w.view records) request qtype ttl
      pure ((index, some response), w)
    let c := w.cell records
    if qtype = 1 ∧ c.A ≠ none then respond c.Index 0 w
    else if qtype = 28 ∧ c.AAAA ≠ none then respond c.Index 0 w
    else if qtype = 65 ∧
        Nat.land c.Hint (Nat.lor (Nat.lor E.OPT_HTTP3 E.OPT_HTTPS) E.OPT_UDP) ≠ 0 then
      respond c.Index 3600 w
    else if qtype ≠ 1 ∧ qtype ≠ 28 ∧ qtype ≠ 65 then respond c.Index 3600 w
    else
      match E.ConfigLookup name with
      | none => respond 0 3600 w
      | some server =>
        let w := w.setCell records { w.cell records with Hint := Nat.land server.Hint E.OPT_DNS }
        if server.DNS = [] then
          let w := if (w.cell records).Index = 0 ∧ server.Protocol ≠ 0 then
              assignIndex name records none w
            else w
          respond (w.cell records).Index 3600 w
        else
          match E.urlParse server.DNS with
          | none => pure ((0, none), w)
          | some u =>
            let options := if u.RawQuery ≠ [] then ParseOptions E u.RawQuery
              else ServerOptions.empty
            if u.RawQuery ≠ [] ∧ options.Typ = str "A" ∧ qtype = 28 then
              respond (w.cell records).Index 0 w
            else if u.RawQuery ≠ [] ∧ options.Typ = str "AAAA" ∧ qtype = 1 then
              respond (w.cell records).Index 0 w
            else do
              let _qtype := if Nat.land (w.cell records).Hint E.OPT_IPV6 ≠ 0 then 28
                else qtype % 65536
              let _request ←
                if u.RawQuery ≠ [] ∧ (options.ECS ≠ [] ∨ _qtype ≠ qtype % 65536) then do
                  let id ← request.u16 0
                  PackRequest E name _qtype id options.ECS
                else pure request
              let exchange : Option (Option Slice) :=
                if u.Scheme = str "udp" then some (E.UDPlookup _request.bytes u.Host)
                else if u.Scheme = str "tcp" then some (E.TCPlookup _request.bytes u.Host)
                else if u.Scheme = str "tls" then some (E.TLSlookup _request.bytes u.Host)
                else if u.Scheme = str "https" then
                  some (E.HTTPSlookup _request.bytes u options.Domain)
                else if u.Scheme = str "tfo" then some (E.TFOlookup _request.bytes u.Host)
                else none
              match exchange with
              | none => pure ((0, none), w)
              | some none => pure ((0, none), w)
              | some (some response) =>
                let w ← World.GetAnswers E fuel records response options w
                let f := applyFallback qtype records options w
                let w := f.2
                if f.1 then respond 0 0 w
                else
                  let w := if (w.cell records).Index = 0 ∧
                      (Nat.land server.Hint E.OPT_MODIFY ≠ 0 ∨ server.Protocol ≠ 0) then
                      assignIndex name records none w
                    else w
                  respond (w.cell records).Index 0 w

/-! ## TCPlookupDNS64 -/

/-- The name-skipping loop inside the answer loop of `TCPlookupDNS64`: `none` is the
`return nil, nil` at a truncated name. Every pass moves `offset` forward and stops at
`len(response)`, so `len(response) + 1` passes are enough. -/
def TCPlookupDNS64.skipName (response : Slice) : Nat → Nat → Exec (Option Nat)
  | 0, _ => .hang
  | fuel + 1, offset =>
    if offset ≥ response.len then .ok none
    else do
      let length ← response.get offset
      let offset := offset + 1
      if length = 0 then pure (some offset)
      else if length < 63 then
        let offset := offset + length
        if offset + 2 > response.len then pure none
        else TCPlookupDNS64.skipName response fuel offset
      else pure (some (offset + 1))

/-- The answer loop of `TCPlookupDNS64` with `n` passes to go, on the array of
`response6` and the three offsets: `none` is a `return nil, nil`, a value is the array
and `offset6` after the loop. -/
def TCPlookupDNS64.answers (response pfx : Slice) :
    Nat → List Nat → Nat → Nat → Nat → Exec (Option (List Nat × Nat))
  | 0, response6, _, offset6, _ => .ok (some (response6, offset6))
  | n + 1, response6, offset, offset6, offset4 => do
    let r ← TCPlookupDNS64.skipName response (response.len + 1) offset
    match r with
    | none => pure none
    | some offset =>
      if offset + 2 > response.len then pure none
      else do
        let name ← response.slice offset4 offset
        let response6 ← copyAt response6 offset6 name
        let offset6 := offset6 + (offset - offset4)
        let offset4 := offset
        let AType ← response.u16 offset
        let offset := offset + 8
        if offset + 2 > response.len then pure none
        else do
          let DataLength ← response.u16 offset
          let offset := offset + 2
          let offset := offset + DataLength
          if AType = 1 then
            if offset > response.len then pure none
            else do
              let response6 ← putU16 response6 offset6 28
              let offset6 := offset6 + 2
              let offset4 := offset4 + 2
              let b ← response.slice offset4 (offset4 + 6)
              let response6 ← copyAt response6 offset6 b
              let offset6 := offset6 + 6
              let offset4 := offset4 + 6
              let response6 ← putU16 response6 offset6 ((DataLength + 12) % 65536)
              let offset6 := offset6 + 2
              let offset4 := offset4 + 2
              let p ← pfx.slice 0 12
              let response6 ← copyAt response6 offset6 p
              let offset6 := offset6 + 12
              let b ← response.slice offset4 offset
              let response6 ← copyAt response6 offset6 b
              let offset6 := offset6 + (offset - offset4)
              TCPlookupDNS64.answers response pfx n response6 offset offset6 offset
          else do
            let b ← response.slice offset4 offset
            let response6 ← copyAt response6 offset6 b
            let offset6 := offset6 + (offset - offset4)
            TCPlookupDNS64.answers response pfx n response6 offset offset6 offset

/-- The function `TCPlookupDNS64`: the array of `request` after the call, which writes
QTYPE 1 into it, and the result: `none` is `nil` with the error of `TCPlookup`,
`some none` is `nil, nil`. -/
def TCPlookupDNS64 (E : Env) (request : Slice) (address : List Nat) (offset : Nat)
    (pfx : Slice) : Exec (List Nat × Option (Option Slice)) := do
  let response6 := List.replicate 1024 0
  let offset6 := offset
  let offset4 := offset
  let arr ← if 4 ≤ offset then putU16 request.arr (offset - 4) 1 else Exec.crash
  match E.TCPlookup (arr.take request.len) address with
  | none => pure (arr, none)
  | some response => do
    let head ← response.slice 0 offset
    let response6 ← copyAt response6 0 head
    let response6 ← putU16 response6 (offset - 4) 28
    let count ← response.u16 6
    let r ← TCPlookupDNS64.answers response pfx count response6 offset offset6 offset4
    match r with
    | none => pure (arr, some none)
    | some (response6, offset6) => do
      let s ← sliceTo response6 offset6
      pure (arr, some (some s))

/-! ## UDPlookup -/

/-- The connection that `net.Dial("udp", address)` gives, as data: whether the dial and
the write fail, and the results of the successive `conn.Read` calls, each a datagram or
an error (`none`). After the last of them the read deadline passes, which is an error. -/
structure UDPConn where
  dialErr : Bool
  writeErr : Bool
  reads : List (Option (List Nat))

/-- The loop of `UDPlookup` for a request with `request[11] != 0`. A read copies the
datagram over the start of `response` and leaves the rest of the array as it was. The
result is the returned slice (`none` is nil) and whether the error is non-nil. -/
def UDPlookup.loop (request : Slice) :
    List Nat → List (Option (List Nat)) → Exec (Option Slice × Bool)
  | _, [] => pure (none, true)
  | _, none :: _ => pure (none, true)
  | response, some d :: rest => do
    let n := min d.length response.length
    let response := d.take response.length ++ response.drop d.length
    let r11 ← request.get 11
    if r11 = 0 then do
      let s ← sliceTo response n
      pure (some s, false)
    else do
      let b ← (Slice.ofList response).get 11
      if b > 0 then do
        let s ← sliceTo response n
        pure (some s, false)
      else UDPlookup.loop request response rest

/-- The function `UDPlookup`; `dial` gives the connection to an address. -/
def UDPlookup (dial : List Nat → UDPConn) (request : Slice) (address : List Nat) :
    Exec (Option Slice × Bool) :=
  let conn := dial address
  if conn.dialErr then pure (none, true)
  else if conn.writeErr then pure (none, true)
  else do
    let response := List.replicate 1024 0
    let r11 ← request.get 11
    if r11 = 0 then
      match conn.reads with
      | some d :: _ => do
        let s ← sliceTo (d.take response.length ++ response.drop d.length)
          (min d.length response.length)
        pure (some s, false)
      | _ => do
        let s ← sliceTo response 0
        pure (some s, true)
    else UDPlookup.loop request response conn.reads

/-! ## Definitions used in statements and proofs -/

/-- Wire form of a list of labels: each label preceded by its length. -/
def encodeLabels : List (List Nat) → List Nat
  | [] => []
  | l :: ls => l.length :: l ++ encodeLabels ls

/-- The labels joined by dots, each preceded by a dot. -/
def dotted : List (List Nat) → List Nat
  | [] => []
  | l :: ls => 46 :: l ++ dotted ls

/-- Passes that remain when the loop stands at the start of label `lab`. -/
def restLen (lab : List Nat) (rest : List (List Nat)) : Nat := lab.length + (dotted rest).length

/-- The array is a full 512-byte request buffer whose first `L` bytes are `X`. -/
def Filled (L : Nat) (X R : List Nat) : Prop := R.length = 512 ∧ R.take L = X

/-- A sample environment: no upstream answers, no policy, `ParseIP` knows one address,
`url.Parse` knows two URLs. -/
def Env.sample : Env where
  VirtualAddrPrefix := 255
  DNSMinTTL := 0
  SubdomainDepth := 2
  OPT_IPV6 := 1
  OPT_HTTPS := 2
  OPT_HTTP3 := 4
  OPT_UDP := 8
  OPT_MODIFY := 16
  OPT_DNS := 31
  now := 1000
  ParseIP := fun s => if s = str "1.2.3.4" then IPv4 1 2 3 4 else []
  ParseCIDR := fun _ => none
  IPString := fun _ => []
  urlParse := fun s =>
    if s = str "udp://127.0.0.1:53" then some ⟨str "udp", str "127.0.0.1:53", []⟩
    else if s = str "virtual://x" then some ⟨str "virtual", str "x", []⟩
    else none
  ConfigLookup := fun _ => none
  UDPlookup := fun _ _ => none
  TCPlookup := fun _ _ => none
  TLSlookup := fun _ _ => none
  HTTPSlookup := fun _ _ _ => none
  TFOlookup := fun _ _ => none

/-- The four bytes that `PutUint32` writes. -/
def be32 (v : Nat) : List Nat := [v / 16777216 % 256, v / 65536 % 256, v / 256 % 256, v % 256]

/-- The resource record that `packA` writes for one address. -/
def rrOf (ttl : Nat) (ip : IP) : List Nat :=
  if To4 ip ≠ [] then [0xC0, 0x0C, 0x00, 1, 0x00, 0x01] ++ be32 ttl ++ [0x00, 0x04] ++ To4 ip
  else [0xC0, 0x0C, 0x00, 28, 0x00, 0x01] ++ be32 ttl ++ [0x00, 0x10] ++ ip

/-- The answer section that `packA` writes for a list of addresses. -/
def rrsOf (ttl : Nat) : List IP → List Nat
  | [] => []
  | ip :: ips => rrOf ttl ip ++ rrsOf ttl ips

/-- The TTL that `GetAnswers` stores for a record with TTL `ttl`. -/
def clampTTL (E : Env) (ttl : Nat) : Nat := if ttl < E.DNSMinTTL then E.DNSMinTTL else ttl

/-- What parsing the record `rrOf ttl ip` does to the record set under empty options. -/
def parsedInto (E : Env) (ttl : Nat) (records : DNSRecords) (ip : IP) : DNSRecords :=
  if To4 ip ≠ [] then { records with A := addAddress E records.A (clampTTL E ttl) (To4 ip) }
  else { records with AAAA := addAddress E records.AAAA (clampTTL E ttl) ip }

/-- The addresses of an optional address set. -/
def addressesOf (set : Option RecordAddresses) : List IP :=
  match set with
  | none => []
  | some s => s.Addresses

/-- The method `IP.Equal`: same address, in 4-byte or 16-byte form. -/
def IPEqual (ip x : IP) : Bool :=
  if ip.length = x.length then ip = x
  else if ip.length = 4 ∧ x.length = 16 then
    x.take 12 = [0, 0, 0, 0, 0, 0, 0, 0, 0, 0, 0xff, 0xff] ∧ ip = x.drop 12
  else if ip.length = 16 ∧ x.length = 4 then
    ip.take 12 = [0, 0, 0, 0, 0, 0, 0, 0, 0, 0, 0xff, 0xff] ∧ ip.drop 12 = x
  else false

/-- The address sets of `r2` are those of `r` with addresses outside `subnet` added. -/
def AddsOutside (subnet : IPNet) (r r2 : DNSRecords) : Prop :=
  (∃ added, addressesOf r2.A = addressesOf r.A ++ added ∧
    ∀ ip ∈ added, subnet.Contains ip = false) ∧
  (∃ added, addressesOf r2.AAAA = addressesOf r.AAAA ++ added ∧
    ∀ ip ∈ added, subnet.Contains ip = false)

/-- The keys that the ancestor loop tries, in its order: the suffixes of `name` that begin
with a dot. -/
def dotSuffixes : List Nat → List (List Nat)
  | [] => []
  | b :: bs => if b = 46 then (b :: bs) :: dotSuffixes bs else dotSuffixes bs

/-- The nearest cached ancestor: the first of the first `depth` dot suffixes of `name` that
has a cache entry. -/
def cachedAncestor (w : World) (depth : Nat) (name : List Nat) : Option Nat :=
  ((dotSuffixes name).take depth).findSome? (LoadDNSCache w)

/-- A cache with entries for exactly `a.example.com` and `example.com`. -/
def World.plainKeys : World :=
  ⟨[⟨3, 5, none, none, []⟩, ⟨7, 9, none, none, []⟩], [],
    [(str "a.example.com", 0), (str "example.com", 1)], [str "phantom.socks"]⟩

/-- A cache with entries for exactly `.a.example.com` and `.example.com`. -/
def World.dottedKeys : World :=
  ⟨[⟨3, 5, none, none, []⟩, ⟨7, 9, none, none, []⟩], [],
    [(str ".a.example.com", 0), (str ".example.com", 1)], [str "phantom.socks"]⟩

/-- The environment `E` with other transports in place of its own. -/
def Env.withTransports (E : Env) (udp tcp tls : List Nat → List Nat → Option Slice)
    (https : List Nat → URL → List Nat → Option Slice)
    (tfo : List Nat → List Nat → Option Slice) : Env :=
  { E with UDPlookup := udp, TCPlookup := tcp, TLSlookup := tls, HTTPSlookup := https,
           TFOlookup := tfo }

/-- A policy that matches every name with an empty upstream URL and protocol 1. -/
def Env.virtualOnly : Env :=
  { Env.sample with ConfigLookup := fun _ => some ⟨0, [], 1⟩ }

/-- A policy that sends every name to the udp upstream `127.0.0.1:53` with protocol 0 and
no hint, and an upstream that answers every query with its question and the A record
1.2.3.4 with TTL 60. -/
def Env.udpUpstream : Env :=
  { Env.sample with
    ConfigLookup := fun _ => some ⟨0, str "udp://127.0.0.1:53", 0⟩
    UDPlookup := fun q _ => some (Slice.ofList (q.take 2 ++ [0x81, 0x80, 0, 1, 0, 1, 0, 0, 0, 0] ++
      (q.drop 12 ++ ([0xC0, 0x0C, 0, 1, 0, 1] ++ be32 60 ++ [0, 4, 1, 2, 3, 4])))) }

/-- A resource record on the wire: the bytes of its name, its type, the six bytes of
class and TTL, and its RDATA. -/
structure RR where
  name : List Nat
  typ : Nat
  classTTL : List Nat
  rdata : List Nat

/-- The bytes of a resource record. -/
def RR.wire (r : RR) : List Nat :=
  r.name ++ [r.typ / 256 % 256, r.typ % 256] ++ r.classTTL ++
    [r.rdata.length / 256 % 256, r.rdata.length % 256] ++ r.rdata

/-- A well-formed record: the name is a sequence of labels of 1 to 62 bytes ended by a
zero byte or by a two-byte compression pointer, the type fits 16 bits, class and TTL
take six bytes, the RDATA length fits 16 bits, and an A record has four bytes of RDATA. -/
def RR.WellFormed (r : RR) : Prop :=
  (∃ labels term, r.name = encodeLabels labels ++ term ∧
    (∀ l ∈ labels, l ≠ [] ∧ l.length < 63) ∧
    (term = [0] ∨ ∃ p q, term = [p, q] ∧ 63 ≤ p)) ∧
  r.typ < 65536 ∧ r.classTTL.length = 6 ∧ r.rdata.length < 65536 ∧
  (r.typ = 1 → r.rdata.length = 4)

/-- The DNS64 image of a record: an A record becomes an AAAA record with the same name,
class and TTL whose 16 bytes of RDATA are the first 12 bytes of the prefix and the
address; any other record is unchanged. -/
def RR.dns64 (pfx : List Nat) (r : RR) : List Nat :=
  if r.typ = 1 then r.name ++ [0, 28] ++ r.classTTL ++ [0, 16] ++ pfx.take 12 ++ r.rdata
  else r.wire

/-- The bytes of a sequence of resource records. -/
def RR.wires : List RR → List Nat
  | [] => []
  | r :: rs => r.wire ++ RR.wires rs

/-- The DNS64 images of a sequence of resource records, in the same order. -/
def RR.dns64s (pfx : List Nat) : List RR → List Nat
  | [] => []
  | r :: rs => r.dns64 pfx ++ RR.dns64s pfx rs

/-- A TCP upstream that answers every query with its question and the A record
93.184.216.34 with TTL 60. -/
def Env.dns64Upstream : Env :=
  { Env.sample with
    TCPlookup := fun q _ => some (Slice.ofList (q.take 2 ++ [0x81, 0x80, 0, 1, 0, 1, 0, 0, 0, 0] ++
      (q.drop 12 ++ [0xC0, 0x0C, 0, 1, 0, 1, 0, 0, 0, 60, 0, 4, 93, 184, 216, 34]))) }

/-- The run `x` ends with a value that satisfies `Q`. -/
def Exec.Returns {α : Type} (x : Exec α) (Q : α → Prop) : Prop := ∃ a, x = .ok a ∧ Q a

/-- A policy that sends every name to the udp upstream `127.0.0.1:53` restricted to
AAAA (`?type=AAAA`) with protocol 1, and an upstream that answers every query with its
question and the AAAA record `2001:db8::1` with TTL 60. -/
def Env.typeAAAA : Env :=
  { Env.sample with
    ConfigLookup := fun _ => some ⟨0, str "udp://127.0.0.1:53?type=AAAA", 1⟩
    urlParse := fun s =>
      if s = str "udp://127.0.0.1:53?type=AAAA" then
        some ⟨str "udp", str "127.0.0.1:53", str "type=AAAA"⟩
      else none
    UDPlookup := fun q _ => some (Slice.ofList (q.take 2 ++ [0x81, 0x80, 0, 1, 0, 1, 0, 0, 0, 0] ++
      (q.drop 12 ++ ([0xC0, 0x0C, 0, 28, 0, 1] ++ be32 60 ++
        [0, 16, 0x20, 0x01, 0x0d, 0xb8, 0, 0, 0, 0, 0, 0, 0, 0, 0, 0, 0, 1])))) }

/-- The state after `Env.typeAAAA` has answered the AAAA query for `example.com` from
the initial state: the record of the name has the virtual index 1 and an AAAA set. -/
def World.afterAAAA : World :=
  ⟨[⟨1, 0, none, some 0, []⟩],
    [⟨1060, [[0x20, 0x01, 0x0d, 0xb8, 0, 0, 0, 0, 0, 0, 0, 0, 0, 0, 0, 1]]⟩],
    [(str "example.com", 0)], [str "phantom.socks", str "example.com"]⟩

/-- A policy that gives every name the IPv6-preferred hint bit, protocol 0 and the udp
upstream URL `dns`, a `url.Parse` that knows `udp://127.0.0.1:53` with and without the
query string `domain=x`, and a udp transport that fails on every query other than
`q` and answers `q` with its question and the record `rr`. -/
def Env.ipv6Hint (dns q rr : List Nat) : Env :=
  { Env.sample with
    ConfigLookup := fun _ => some ⟨1, dns, 0⟩
    urlParse := fun s =>
      if s = str "udp://127.0.0.1:53" then some ⟨str "udp", str "127.0.0.1:53", []⟩
      else if s = str "udp://127.0.0.1:53?domain=x" then
        some ⟨str "udp", str "127.0.0.1:53", str "domain=x"⟩
      else none
    UDPlookup := fun q2 _ =>
      if q2 = q then
        some (Slice.ofList (q2.take 2 ++ [0x81, 0x80, 0, 1, 0, 1, 0, 0, 0, 0] ++ (q2.drop 12 ++ rr)))
      else none }

/-- A policy that sends every name to the udp upstream `127.0.0.1:53` with the option
`fallback=1.2.3.4` and protocol 0, and an upstream that answers every query with its
question and no record. -/
def Env.fallbackUpstream : Env :=
  { Env.sample with
    ConfigLookup := fun _ => some ⟨0, str "udp://127.0.0.1:53?fallback=1.2.3.4", 0⟩
    urlParse := fun s =>
      if s = str "udp://127.0.0.1:53?fallback=1.2.3.4" then
        some ⟨str "udp", str "127.0.0.1:53", str "fallback=1.2.3.4"⟩
      else none
    UDPlookup := fun q _ => some (Slice.ofList (q.take 2 ++ [0x81, 0x80, 0, 1, 0, 0, 0, 0, 0, 0] ++
      q.drop 12)) }

/-- The address set `s` followed by the addresses of the set `d`: the set `d` itself
when `s` is nil, and `s` with its own expiry otherwise. -/
def mergeSet (s d : Option RecordAddresses) : Option RecordAddresses :=
  match s, d with
  | s, none => s
  | none, some d => some d
  | some s, some d => some { s with Addresses := s.Addresses ++ d.Addresses }

/-- The record `records` with the address sets of `d` merged into its own. -/
def DNSRecords.merge (records d : DNSRecords) : DNSRecords :=
  { records with A := mergeSet records.A d.A, AAAA := mergeSet records.AAAA d.AAAA }

/-- Partial correctness: every value that `x` returns satisfies `Q`. -/
def Exec.Ensures {α : Type} (x : Exec α) (Q : α → Prop) : Prop := ∀ a, x = .ok a → Q a

/-- The response array `R` of `BuildResponse` for a request with bytes `X` and length
`L`: 1024 bytes, the flags set, and the first `L` bytes those of the request outside the
flags and the ANCOUNT. -/
def BuildResponse.Frame (X : List Nat) (L : Nat) (R : List Nat) : Prop :=
  R.length = 1024 ∧ R.getD 2 0 = 0x81 ∧ R.getD 3 0 = 0x80 ∧
    ∀ i, i < L → i ≠ 2 → i ≠ 3 → i ≠ 6 → i ≠ 7 → R.getD i 0 = X.getD i 0

/-! # Theorems -/

/-! ## Outcomes -/

@[simp] theorem Exec.bind_ok {α β : Type} (a : α) (f : α → Exec β) : (Exec.ok a >>= f) = f a := rfl

@[simp] theorem Exec.bind_crash {α β : Type} (f : α → Exec β) : (Exec.crash >>= f) = Exec.crash := rfl

@[simp] theorem Exec.bind_hang {α β : Type} (f : α → Exec β) : (Exec.hang >>= f) = Exec.hang := rfl

@[simp] theorem Exec.pure_eq {α : Type} (a : α) : (pure a : Exec α) = Exec.ok a := rfl

theorem Exec.bind_eq_ok {α β : Type} (x : Exec α) (f : α → Exec β) (b : β) :
    (x >>= f) = .ok b ↔ ∃ a, x = .ok a ∧ f a = .ok b := by
  cases x with
  | ok a => simp
  | crash => simp [show (Exec.crash >>= f) = Exec.crash from rfl]
  | hang => simp [show (Exec.hang >>= f) = Exec.hang from rfl]

/-! ## Reads and writes at a known position -/

theorem getD_mid (pre : List Nat) (x : Nat) (lab post : List Nat) (j : Nat) (hj : j < lab.length) :
    (pre ++ x :: (lab ++ post)).getD (pre.length + 1 + j) 0 = lab.getD j 0 := by
  rw [List.getD_append_right _ _ _ _ (by omega)]
  rw [show pre.length + 1 + j - pre.length = j + 1 by omega]
  simp [List.getElem?_append_left hj]

theorem Slice.get_mid (s : Slice) (pre : List Nat) (x : Nat) (post : List Nat) (i : Nat)
    (h : s.arr = pre ++ x :: post) (hi : i = pre.length) (hl : i < s.len) :
    s.get i = .ok x := by
  subst hi
  simp [Slice.get, hl, h, List.getElem_append_right]

theorem Slice.slice_mid (s : Slice) (pre mid post : List Nat) (lo hi : Nat)
    (h : s.arr = pre ++ (mid ++ post)) (hlo : lo = pre.length) (hhi : hi = lo + mid.length) :
    s.slice lo hi = .ok mid := by
  subst hlo; subst hhi
  simp [Slice.slice, h]

theorem Slice.u16_mid (s : Slice) (pre post : List Nat) (a b off : Nat)
    (h : s.arr = pre ++ a :: b :: post) (hoff : off = pre.length) :
    s.u16 off = .ok (a * 256 + b) := by
  have := Slice.slice_mid s pre [a, b] post off (off + 2) (by simpa using h) hoff rfl
  simp [Slice.u16, this]

theorem take_set_le (l : List Nat) (L n a : Nat) (h : L ≤ n) : (l.set n a).take L = l.take L := by
  apply List.ext_getElem?
  intro i
  simp only [List.getElem?_take]
  split
  · rw [List.getElem?_set_ne (by omega)]
  · rfl

theorem putU16_at (pre post : List Nat) (a b off v : Nat) (h : off = pre.length) :
    putU16 (pre ++ a :: b :: post) off v = .ok (pre ++ (v / 256 % 256) :: (v % 256) :: post) := by
  subst h
  simp [putU16]

theorem putU32_at (pre post : List Nat) (a b c d off v : Nat) (h : off = pre.length) :
    putU32 (pre ++ a :: b :: c :: d :: post) off v = .ok (pre ++ (be32 v ++ post)) := by
  subst h
  simp [putU32, be32]

theorem copyAt_at (pre mid post src : List Nat) (off : Nat) (h : off = pre.length)
    (hm : mid.length = src.length) :
    copyAt (pre ++ (mid ++ post)) off src = .ok (pre ++ (src ++ post)) := by
  subst h
  rw [copyAt, if_pos (by simp)]
  congr 1
  rw [List.take_left' rfl, List.append_assoc]
  congr 1
  have h2 : List.take ((pre ++ (mid ++ post)).length - pre.length) src = src := by
    apply List.take_of_length_le; simp; omega
  rw [h2]
  congr 1
  rw [List.drop_append_eq_append_drop]
  simp [hm]

theorem To4_length (ip : List Nat) (h : To4 ip ≠ []) : (To4 ip).length = 4 := by
  by_cases h4 : ip.length = 4
  · simp [To4, h4]
  · by_cases h16 : ip.length = 16 ∧ ip.take 10 = List.replicate 10 0 ∧ ip.getD 10 0 = 0xff
        ∧ ip.getD 11 0 = 0xff
    · rw [To4, if_neg h4, if_pos h16, List.length_drop, h16.1]
    · exact absurd (by rw [To4, if_neg h4, if_neg h16]) h

theorem To4_IPv4 (a b c d : Nat) : To4 (IPv4 a b c d) = [a, b, c, d] := by
  simp [To4, IPv4]

theorem To4_To4 (ip : IP) (h : To4 ip ≠ []) : To4 (To4 ip) = To4 ip := by
  have := To4_length ip h
  rw [To4, if_pos this]

/-! ## The iteration budgets of GetQName and GetNameOffset are enough -/

theorem GetNameOffset.loop_total (s : Slice) : ∀ (fuel offset : Nat),
    0 < fuel → s.len < fuel + offset → ∃ n, GetNameOffset.loop s fuel offset = .ok n := by
  intro fuel
  induction fuel with
  | zero => intro offset h; omega
  | succ f ih =>
    intro offset _ hlen
    rw [GetNameOffset.loop]
    split
    · exact ⟨0, rfl⟩
    · rename_i hoff
      rw [Slice.get, if_pos (by omega)]
      simp only [Exec.bind_ok]
      split
      · exact ⟨_, rfl⟩
      · split
        · try dsimp only
          split
          · exact ⟨0, rfl⟩
          · exact ih _ (by omega) (by omega)
        · exact ⟨_, rfl⟩

theorem GetNameOffset_total (s : Slice) (offset : Nat) : ∃ n, GetNameOffset s offset = .ok n :=
  GetNameOffset.loop_total s (s.len + 1) offset (by omega) (by omega)

theorem GetQName.labels_ne_hang (s : Slice) : ∀ (fuel : Nat) (qname : List Nat) (off : Nat),
    0 < fuel → s.len < fuel + off → GetQName.labels s fuel qname off ≠ .hang := by
  intro fuel
  induction fuel with
  | zero => intro qname off h; omega
  | succ f ih =>
    intro qname off _ hlen
    rw [GetQName.labels]
    split
    · intro h; cases h
    · rename_i hoff
      rw [Slice.get, if_pos (by omega)]
      simp only [Exec.bind_ok]
      split
      · intro h; cases h
      · try dsimp only
        split
        · intro h; cases h
        · rename_i hlab hend
          rw [Slice.slice]
          split
          · simp only [Exec.bind_ok]
            exact ih _ _ (by omega) (by omega)
          · intro h; cases h

theorem GetQName_ne_hang (s : Slice) : GetQName s ≠ .hang := by
  rw [GetQName]
  try dsimp only
  split
  · intro h; cases h
  · rw [Slice.get]
    split
    · simp only [Exec.bind_ok]
      rw [Slice.slice]
      split
      · simp only [Exec.bind_ok]
        have hl := GetQName.labels_ne_hang s (s.len + 1)
          (List.take (13 + s.arr.getD 12 0 - 13) (List.drop 13 s.arr)) (13 + s.arr.getD 12 0)
          (by omega) (by omega)
        cases hr : GetQName.labels s (s.len + 1)
            (List.take (13 + s.arr.getD 12 0 - 13) (List.drop 13 s.arr)) (13 + s.arr.getD 12 0) with
        | hang => exact absurd hr hl
        | crash => intro h; cases h
        | ok r =>
          simp only [Exec.bind_ok]
          cases r with
          | none => intro h; cases h
          | some q =>
            try dsimp only
            split
            · intro h; cases h
            · rw [Slice.u16, Slice.slice]
              split
              · intro h; cases h
              · intro h; cases h
      · intro h; cases h
    · intro h; cases h

/-! ## C1: PackRequest then GetQName -/

theorem runeCountFrom_ascii (name : List Nat) (h : ∀ b ∈ name, b < 128) :
    runeCountFrom 0 name = name.length := by
  induction name with
  | nil => rfl
  | cons c rest ih =>
    have hc : c < 128 := h c (List.mem_cons_self _ _)
    have hs : runeSize c rest = 1 := by simp [runeSize, hc]
    simp only [runeCountFrom, hs, List.length_cons]
    rw [ih (fun b hb => h b (List.mem_cons_of_mem _ hb))]
    omega

theorem PackQName.loop_skip (k : Nat) : ∀ (m i : Nat) (Q : List Nat) (o l : Nat),
    (∀ j, j < k → Q.getD (i + j) 0 ≠ 46) →
    PackQName.loop (k + m) i Q o l = PackQName.loop m (i + k) Q o (l + k) := by
  induction k with
  | zero => intro m i Q o l _; simp
  | succ k ih =>
    intro m i Q o l h
    have h0 : Q.getD i 0 ≠ 46 := by simpa using h 0 (Nat.succ_pos k)
    have : k + 1 + m = (k + m) + 1 := by omega
    rw [this, PackQName.loop, if_neg h0, ih m (i + 1) Q o (l + 1)]
    · congr 1 <;> omega
    · intro j hj
      have := h (j + 1) (by omega)
      rwa [show i + (j + 1) = i + 1 + j by omega] at this

theorem PackQName.loop_labels (rest : List (List Nat)) : ∀ (pre : List Nat) (x : Nat) (lab : List Nat),
    (∀ b ∈ lab, b ≠ 46) → (∀ l ∈ rest, ∀ b ∈ l, b ≠ 46) →
    lab.length < 256 → (∀ l ∈ rest, l.length < 256) →
    (let r := PackQName.loop (restLen lab rest) (pre.length + 1)
        (pre ++ x :: (lab ++ (dotted rest ++ [0]))) pre.length 0
     r.1.set r.2.1 (r.2.2 % 256)) = pre ++ (encodeLabels (lab :: rest) ++ [0]) := by
  induction rest with
  | nil =>
    intro pre x lab hlab _ hlen _
    have hs := PackQName.loop_skip lab.length 0 (pre.length + 1)
      (pre ++ x :: (lab ++ (dotted [] ++ [0]))) pre.length 0 (by
        intro j hj
        rw [getD_mid pre x lab _ j hj]
        have : lab.getD j 0 ∈ lab := by
          rw [List.getD_eq_getElem _ _ hj]; exact List.getElem_mem _
        exact hlab _ this)
    simp only [restLen, dotted, List.length_nil, Nat.add_zero] at hs ⊢
    rw [hs]
    simp [PackQName.loop, encodeLabels, Nat.mod_eq_of_lt hlen]
  | cons lab2 rest ih =>
    intro pre x lab hlab hrest hlen hrlen
    have hs := PackQName.loop_skip lab.length (restLen lab2 rest + 1) (pre.length + 1)
      (pre ++ x :: (lab ++ (dotted (lab2 :: rest) ++ [0]))) pre.length 0 (by
        intro j hj
        rw [getD_mid pre x lab _ j hj]
        have : lab.getD j 0 ∈ lab := by
          rw [List.getD_eq_getElem _ _ hj]; exact List.getElem_mem _
        exact hlab _ this)
    have hn : restLen lab (lab2 :: rest) = lab.length + (restLen lab2 rest + 1) := by
      simp [restLen, dotted]
    rw [hn]
    simp only []
    rw [hs]
    have hdot : (pre ++ x :: (lab ++ (dotted (lab2 :: rest) ++ [0]))).getD
        (pre.length + 1 + lab.length) 0 = 46 := by
      rw [List.getD_append_right _ _ _ _ (by omega)]
      rw [show pre.length + 1 + lab.length - pre.length = lab.length + 1 by omega]
      simp [dotted, List.getElem_append_right]
    rw [PackQName.loop, if_pos hdot]
    have hset : (pre ++ x :: (lab ++ (dotted (lab2 :: rest) ++ [0]))).set pre.length
        ((0 + lab.length) % 256) =
        (pre ++ lab.length :: lab) ++ 46 :: (lab2 ++ (dotted rest ++ [0])) := by
      simp [dotted, Nat.mod_eq_of_lt hlen]
    rw [hset]
    have := ih (pre ++ lab.length :: lab) 46 lab2 (hrest lab2 (List.mem_cons_self _ _))
      (fun l hl => hrest l (List.mem_cons_of_mem _ hl)) (hrlen lab2 (List.mem_cons_self _ _))
      (fun l hl => hrlen l (List.mem_cons_of_mem _ hl))
    simp only [List.length_append, List.length_cons] at this
    rw [show pre.length + 1 + lab.length + 1 = pre.length + (lab.length + 1) + 1 by omega,
      show pre.length + 1 + lab.length = pre.length + (lab.length + 1) by omega]
    rw [this]
    simp [encodeLabels]

theorem intercalate_dotted (lab : List Nat) (rest : List (List Nat)) :
    List.intercalate [46] (lab :: rest) = lab ++ dotted rest := by
  induction rest generalizing lab with
  | nil => simp [List.intercalate, dotted]
  | cons l2 rest ih =>
    have := ih l2
    simp only [List.intercalate, List.intersperse] at this ⊢
    simp [dotted, this]

theorem length_dotted_lt (lab : List Nat) (rest : List (List Nat)) (l : List Nat)
    (hl : l ∈ lab :: rest) : l.length ≤ (lab ++ dotted rest).length := by
  induction rest generalizing lab with
  | nil => simp at hl; simp [hl, dotted]
  | cons l2 rest ih =>
    rcases List.mem_cons.1 hl with h | h
    · simp [h]
    · have := ih l2 h
      simp [dotted] at this ⊢
      omega

theorem dotted_ascii (rest : List (List Nat))
    (hb : ∀ l ∈ rest, ∀ b ∈ l, b < 128 ∧ b ≠ 46) : ∀ b ∈ dotted rest, b < 128 := by
  induction rest with
  | nil => intro b h; simp [dotted] at h
  | cons l2 rest ih =>
    intro b h
    simp only [dotted, List.mem_append, List.mem_cons] at h
    rcases h with h | h
    · rcases h with h | h
      · omega
      · exact (hb l2 (by simp) b h).1
    · exact ih (fun l hl => hb l (List.mem_cons_of_mem _ hl)) b h

theorem PackQName_labels (lab : List Nat) (rest : List (List Nat))
    (hb : ∀ l ∈ lab :: rest, ∀ b ∈ l, b < 128 ∧ b ≠ 46)
    (hlen : (lab ++ dotted rest).length < 256) :
    PackQName (lab ++ dotted rest) = encodeLabels (lab :: rest) ++ [0] := by
  have hascii : ∀ b ∈ lab ++ dotted rest, b < 128 := by
    intro b hb2
    rcases List.mem_append.1 hb2 with h | h
    · exact (hb lab (by simp) b h).1
    · exact dotted_ascii rest (fun l hl => hb l (List.mem_cons_of_mem _ hl)) b h
  have hcount : stringsCountEmpty (lab ++ dotted rest) = (lab ++ dotted rest).length + 1 := by
    simp [stringsCountEmpty, runeCountFrom_ascii _ hascii]
  have hQ : List.take 1 (List.replicate ((lab ++ dotted rest).length + 1 + 1) 0) ++
      List.take ((List.replicate ((lab ++ dotted rest).length + 1 + 1) 0).length - 1)
        (lab ++ dotted rest) ++
      List.drop (1 + (lab ++ dotted rest).length)
        (List.replicate ((lab ++ dotted rest).length + 1 + 1) 0) =
      [] ++ 0 :: (lab ++ (dotted rest ++ [0])) := by
    have h1 : List.take 1 (List.replicate ((lab ++ dotted rest).length + 1 + 1) 0) = [0] := by
      simp [List.replicate_succ]
    have h2 : List.drop (1 + (lab ++ dotted rest).length)
        (List.replicate ((lab ++ dotted rest).length + 1 + 1) 0) = [0] := by
      rw [List.drop_replicate,
        show (lab ++ dotted rest).length + 1 + 1 - (1 + (lab ++ dotted rest).length) = 1 by omega]
      rfl
    rw [h1, h2, List.take_of_length_le (by simp)]
    simp
  have := PackQName.loop_labels rest [] 0 lab (fun b h => (hb lab (by simp) b h).2)
    (fun l hl b h => (hb l (List.mem_cons_of_mem _ hl) b h).2)
    (lt_of_le_of_lt (length_dotted_lt lab rest lab (by simp)) hlen)
    (fun l hl => lt_of_le_of_lt (length_dotted_lt lab rest l (List.mem_cons_of_mem _ hl)) hlen)
  simp only [PackQName, hcount, hQ]
  simp only [List.length_nil, Nat.zero_add, List.nil_append] at this ⊢
  have hr : (lab ++ dotted rest).length + 1 - 1 = restLen lab rest := by
    simp [restLen]
  rw [hr]
  exact this

theorem length_encodeLabels_ge (ls : List (List Nat)) : ls.length ≤ (encodeLabels ls).length := by
  induction ls with
  | nil => simp
  | cons l ls ih => simp [encodeLabels]; omega

theorem length_encodeLabels (l0 : List Nat) (ls : List (List Nat)) :
    (encodeLabels (l0 :: ls)).length = (l0 ++ dotted ls).length + 1 := by
  induction ls generalizing l0 with
  | nil => simp [encodeLabels, dotted]
  | cons l ls ih =>
    have := ih l
    simp only [encodeLabels, dotted, List.length_cons, List.length_append] at this ⊢
    omega

theorem GetQName.labels_ok (ls : List (List Nat)) :
    ∀ (pre post qname : List Nat) (s : Slice) (fuel off : Nat),
      s.arr = pre ++ (encodeLabels ls ++ 0 :: post) → off = pre.length →
      off + (encodeLabels ls).length + 1 ≤ s.len →
      ls.length < fuel → (∀ l ∈ ls, l ≠ []) →
      GetQName.labels s fuel qname off =
        .ok (some (qname ++ dotted ls, off + (encodeLabels ls).length + 1)) := by
  induction ls with
  | nil =>
    intro pre post qname s fuel off h hoff hlen hfuel _
    obtain ⟨f, rfl⟩ : ∃ f, fuel = f + 1 := ⟨fuel - 1, by simp at hfuel; omega⟩
    simp only [encodeLabels, List.nil_append, List.length_nil, Nat.add_zero] at h hlen ⊢
    have hg := Slice.get_mid s pre 0 post off h hoff (by omega)
    simp [GetQName.labels, hg, dotted, show ¬ s.len ≤ off by omega]
  | cons l ls ih =>
    intro pre post qname s fuel off h hoff hlen hfuel hne
    obtain ⟨f, rfl⟩ : ∃ f, fuel = f + 1 := ⟨fuel - 1, by simp at hfuel; omega⟩
    have hl0 : l.length ≠ 0 := by
      have := hne l (List.mem_cons_self _ _)
      simpa using this
    simp only [encodeLabels, List.length_cons, List.length_append] at h hlen
    have hg := Slice.get_mid s pre l.length (l ++ encodeLabels ls ++ 0 :: post) off
      (by simpa using h) hoff (by omega)
    have hs := Slice.slice_mid s (pre ++ [l.length]) l (encodeLabels ls ++ 0 :: post)
      (off + 1) (off + 1 + l.length) (by simpa using h) (by simp [hoff]) rfl
    have hrec := ih (pre ++ l.length :: l) post (qname ++ 46 :: l) s f (off + 1 + l.length)
      (by simpa using h) (by simp [hoff]; omega)
      (by omega) (by simp at hfuel; omega) (fun x hx => hne x (List.mem_cons_of_mem _ hx))
    rw [GetQName.labels, if_neg (by omega)]
    simp only [hg, Exec.bind_ok, hl0, if_false, hs]
    rw [if_neg (by omega)]
    simp only [Exec.bind_ok, hrec]
    simp [dotted, encodeLabels]
    omega

theorem GetQName_wellformed (s : Slice) (hdr l0 : List Nat) (ls : List (List Nat))
    (qh ql : Nat) (post : List Nat)
    (h : s.arr = hdr ++ (encodeLabels (l0 :: ls) ++ 0 :: qh :: ql :: post))
    (hh : hdr.length = 12) (hne : ∀ l ∈ ls, l ≠ [])
    (hlen : 12 + (encodeLabels (l0 :: ls)).length + 5 ≤ s.len) :
    GetQName s = .ok (l0 ++ dotted ls, qh * 256 + ql, 12 + (encodeLabels (l0 :: ls)).length + 5) := by
  simp only [encodeLabels, List.length_cons, List.length_append] at h hlen ⊢
  have hg := Slice.get_mid s hdr l0.length (l0 ++ encodeLabels ls ++ 0 :: qh :: ql :: post) 12
    (by simpa using h) hh.symm (by omega)
  have hs := Slice.slice_mid s (hdr ++ [l0.length]) l0 (encodeLabels ls ++ 0 :: qh :: ql :: post)
    13 (13 + l0.length) (by simpa using h) (by simp [hh]) rfl
  have hlab := GetQName.labels_ok ls (hdr ++ l0.length :: l0) (qh :: ql :: post) l0 s (s.len + 1)
    (13 + l0.length) (by simpa using h) (by simp [hh]; omega) (by omega)
    (by have := length_encodeLabels_ge ls; omega) hne
  have hq := Slice.slice_mid s (hdr ++ l0.length :: (l0 ++ encodeLabels ls ++ [0])) [qh, ql] post
    (13 + l0.length + (encodeLabels ls).length + 1)
    (13 + l0.length + (encodeLabels ls).length + 1 + 2)
    (by simpa using h) (by simp [hh]; omega) rfl
  rw [GetQName, if_neg (by omega)]
  simp only [hg, Exec.bind_ok, hs, hlab]
  rw [if_neg (by omega)]
  simp only [Slice.u16, hq, Exec.bind_ok]
  simp
  omega

theorem putU16_filled {L : Nat} {X R : List Nat} (h : Filled L X R) (off v : Nat)
    (hL : L ≤ off) (hb : off + 2 ≤ 512) : ∃ R2, putU16 R off v = .ok R2 ∧ Filled L X R2 := by
  refine ⟨_, by rw [putU16, if_pos (by rw [h.1]; exact hb)], ?_, ?_⟩
  · simp [h.1]
  · rw [take_set_le _ _ _ _ (by omega), take_set_le _ _ _ _ hL, h.2]

theorem setByte_filled {L : Nat} {X R : List Nat} (h : Filled L X R) (off v : Nat)
    (hL : L ≤ off) (hb : off + 1 ≤ 512) : ∃ R2, setByte R off v = .ok R2 ∧ Filled L X R2 := by
  refine ⟨_, by rw [setByte, if_pos (by rw [h.1]; omega)], ?_, ?_⟩
  · simp [h.1]
  · rw [take_set_le _ _ _ _ hL, h.2]

theorem copyAt_filled {L : Nat} {X R : List Nat} (h : Filled L X R) (off : Nat) (src : List Nat)
    (hL : L ≤ off) (hb : off + src.length ≤ 512) :
    ∃ R2, copyAt R off src = .ok R2 ∧ Filled L X R2 := by
  refine ⟨_, by rw [copyAt, if_pos (by rw [h.1]; omega)], ?_, ?_⟩
  · simp [h.1]; omega
  · rw [List.append_assoc, List.take_append_of_le_length (by simp [h.1]; omega),
      List.take_take, Nat.min_eq_left hL, h.2]

theorem putU16_extend {L : Nat} {X R : List Nat} (h : Filled L X R) (off v : Nat)
    (hL : off = L) (hb : off + 2 ≤ 512) :
    ∃ R2, putU16 R off v = .ok R2 ∧ Filled (L + 2) (X ++ [v / 256 % 256, v % 256]) R2 := by
  subst hL
  have hR : R = X ++ R.drop off := by rw [← h.2, List.take_append_drop]
  have hX : X.length = off := by rw [← h.2, List.length_take, h.1]; omega
  obtain ⟨a, b, post, hd⟩ : ∃ a b post, R.drop off = a :: b :: post := by
    have hl : (R.drop off).length = 512 - off := by rw [List.length_drop, h.1]
    match hm : R.drop off, hl with
    | [], hl => simp at hl; omega
    | [_], hl => simp at hl; omega
    | a :: b :: post, _ => exact ⟨a, b, post, rfl⟩
  rw [hd] at hR
  refine ⟨X ++ (v / 256 % 256) :: (v % 256) :: post, ?_, ?_, ?_⟩
  · rw [hR]; exact putU16_at X post a b off v hX.symm ▸ rfl
  · have := congrArg List.length hR
    simp at this ⊢; rw [h.1] at this; omega
  · rw [show X ++ (v / 256 % 256) :: (v % 256) :: post = (X ++ [v / 256 % 256, v % 256]) ++ post by simp]
    rw [List.take_left' (by simp [hX])]

theorem copyAt_extend {L : Nat} {X R : List Nat} (h : Filled L X R) (off : Nat) (src : List Nat)
    (hL : off = L) (hb : off + src.length ≤ 512) :
    ∃ R2, copyAt R off src = .ok R2 ∧ Filled (L + src.length) (X ++ src) R2 := by
  subst hL
  obtain ⟨h1, h2⟩ := h
  have hX : X.length = off := by rw [← h2, List.length_take, h1]; omega
  refine ⟨_, by rw [copyAt, if_pos (by rw [h1]; omega)], ?_, ?_⟩
  · simp only [List.length_append, List.length_take, List.length_drop, h1]; omega
  · have hs : List.take (512 - off) src = src := List.take_of_length_le (by omega)
    rw [h2, h1, hs]
    exact List.take_left' (by simp [hX])

theorem PackRequest_shape (E : Env) (name : List Nat) (qtype id : Nat) (ecs : List Nat)
    (hq : (PackQName name).length ≤ 400)
    (hecs : ecs = [] ∨ (E.ParseIP ecs).length = 4 ∨ (E.ParseIP ecs).length = 16) :
    ∃ s hdr post, PackRequest E name qtype id ecs = .ok s ∧ hdr.length = 12 ∧
      s.arr = hdr ++ (PackQName name ++ (qtype / 256 % 256) :: (qtype % 256) :: post) ∧
      12 + (PackQName name).length + 4 ≤ s.len := by
  have f0 : Filled 0 [] (List.replicate 512 0) := ⟨List.length_replicate _ _, List.take_zero _⟩
  obtain ⟨R1, e1, f1⟩ := putU16_filled f0 0 id (by omega) (by omega)
  obtain ⟨R2, e2, f2⟩ := putU16_filled f1 2 0x0100 (by omega) (by omega)
  obtain ⟨R3, e3, f3⟩ := putU16_filled f2 4 1 (by omega) (by omega)
  obtain ⟨R4, e4, f4⟩ := putU16_filled f3 6 0 (by omega) (by omega)
  obtain ⟨R5, e5, f5⟩ := putU16_filled f4 8 0 (by omega) (by omega)
  obtain ⟨R6, e6, f6⟩ : ∃ R6, (if ecs ≠ [] then putU16 R5 10 1 else putU16 R5 10 0) = .ok R6 ∧
      Filled 0 [] R6 := by
    split
    · exact putU16_filled f5 10 1 (by omega) (by omega)
    · exact putU16_filled f5 10 0 (by omega) (by omega)
  have g6 : Filled 12 (R6.take 12) R6 := ⟨f6.1, rfl⟩
  have hh : (R6.take 12).length = 12 := by rw [List.length_take, f6.1]; rfl
  obtain ⟨R7, e7, f7⟩ := copyAt_extend g6 12 (PackQName name) rfl (by omega)
  obtain ⟨R8, e8, f8⟩ := putU16_extend f7 ((PackQName name).length + 12) qtype (by omega) (by omega)
  obtain ⟨R9, e9, f9⟩ := putU16_extend f8 ((PackQName name).length + 12 + 2) 0x01 (by omega) (by omega)
  have fin : ∀ R len, Filled (12 + (PackQName name).length + 2 + 2)
      (R6.take 12 ++ PackQName name ++ [qtype / 256 % 256, qtype % 256] ++ [1 / 256 % 256, 1 % 256]) R →
      12 + (PackQName name).length + 4 ≤ len →
      ∃ post, R = R6.take 12 ++ (PackQName name ++ (qtype / 256 % 256) :: (qtype % 256) :: post) := by
    intro R len hf _
    refine ⟨[1 / 256 % 256, 1 % 256] ++ R.drop (12 + (PackQName name).length + 2 + 2), ?_⟩
    conv_lhs => rw [← List.take_append_drop (12 + (PackQName name).length + 2 + 2) R, hf.2]
    simp
  unfold PackRequest
  simp only [e1, e2, e3, e4, e5, Exec.bind_ok]
  by_cases hE : ecs = []
  · obtain ⟨post, hp⟩ := fin R9 ((PackQName name).length + 12 + 2 + 2) f9 (by omega)
    refine ⟨⟨R9, (PackQName name).length + 12 + 2 + 2⟩, R6.take 12, post, ?_, hh, hp, ?_⟩
    · have e6b : putU16 R5 10 0 = .ok R6 := by simpa [hE] using e6
      simp only [hE, ne_eq, not_true_eq_false, if_false, e6b, e7, e8, e9, Exec.bind_ok, f9.1]
      rw [if_pos (by omega)]; rfl
    · show 12 + (PackQName name).length + 4 ≤ (PackQName name).length + 12 + 2 + 2
      omega
  · have h416 : (E.ParseIP ecs).length = 4 ∨ (E.ParseIP ecs).length = 16 := by
      rcases hecs with h | h
      · exact absurd h hE
      · exact h
    obtain ⟨Ra, ea, fa⟩ := setByte_filled f9 ((PackQName name).length + 12 + 2 + 2) 0 (by omega) (by omega)
    obtain ⟨Rb, eb, fb⟩ := putU16_filled fa ((PackQName name).length + 12 + 2 + 2 + 1) 41 (by omega) (by omega)
    obtain ⟨Rc, ec, fc⟩ := putU16_filled fb ((PackQName name).length + 12 + 2 + 2 + 1 + 2) 4096 (by omega) (by omega)
    obtain ⟨Rd, ed, fd⟩ := setByte_filled fc ((PackQName name).length + 12 + 2 + 2 + 1 + 2 + 2) 0 (by omega) (by omega)
    obtain ⟨Re, ee, fe⟩ := setByte_filled fd ((PackQName name).length + 12 + 2 + 2 + 1 + 2 + 2 + 1) 0 (by omega) (by omega)
    obtain ⟨Rf, ef, ff⟩ := putU16_filled fe ((PackQName name).length + 12 + 2 + 2 + 1 + 2 + 2 + 1 + 1) 0x800 (by omega) (by omega)
    have e6b : putU16 R5 10 1 = .ok R6 := by simpa [hE] using e6
    simp only [hE, ne_eq, not_false_eq_true, if_true, e6b, e7, e8, e9, ea, eb, ec, ed, ee, ef,
      Exec.bind_ok]
    by_cases h4 : To4 (E.ParseIP ecs) = []
    · have h7 : 7 ≤ (E.ParseIP ecs).length := by
        rcases h416 with h | h
        · exact absurd h4 (by simp [To4, h]; intro h0; simp [h0] at h)
        · omega
      obtain ⟨Rg, eg, fg⟩ := putU16_filled ff ((PackQName name).length + 12 + 2 + 2 + 1 + 2 + 2 + 1 + 1 + 2) 15 (by omega) (by omega)
      obtain ⟨Rh, eh, fh⟩ := putU16_filled fg ((PackQName name).length + 12 + 2 + 2 + 1 + 2 + 2 + 1 + 1 + 2 + 2) 8 (by omega) (by omega)
      obtain ⟨Ri, ei, fi⟩ := putU16_filled fh ((PackQName name).length + 12 + 2 + 2 + 1 + 2 + 2 + 1 + 1 + 2 + 2 + 2) 11 (by omega) (by omega)
      obtain ⟨Rj, ej, fj⟩ := putU16_filled fi ((PackQName name).length + 12 + 2 + 2 + 1 + 2 + 2 + 1 + 1 + 2 + 2 + 2 + 2) 2 (by omega) (by omega)
      obtain ⟨Rk, ek, fk⟩ := setByte_filled fj ((PackQName name).length + 12 + 2 + 2 + 1 + 2 + 2 + 1 + 1 + 2 + 2 + 2 + 2 + 2) 56 (by omega) (by omega)
      obtain ⟨Rl, el, fl⟩ := setByte_filled fk ((PackQName name).length + 12 + 2 + 2 + 1 + 2 + 2 + 1 + 1 + 2 + 2 + 2 + 2 + 2 + 1) 0 (by omega) (by omega)
      obtain ⟨Rm, em, fm⟩ := copyAt_filled fl ((PackQName name).length + 12 + 2 + 2 + 1 + 2 + 2 + 1 + 1 + 2 + 2 + 2 + 2 + 2 + 1 + 1)
        ((E.ParseIP ecs).take 7) (by omega) (by simp; omega)
      obtain ⟨post, hp⟩ := fin Rm ((PackQName name).length + 12 + 2 + 2) fm (by omega)
      refine ⟨⟨Rm, (PackQName name).length + 12 + 2 + 2 + 1 + 2 + 2 + 1 + 1 + 2 + 2 + 2 + 2 + 2 + 1 + 1 + 7⟩,
        R6.take 12, post, ?_, hh, hp, ?_⟩
      · simp only [h4, ne_eq, not_true_eq_false, if_false, eg, eh, ei, ej, ek, el, Exec.bind_ok,
          if_pos h7, em, fm.1]
        rw [if_pos (by omega)]; rfl
      · dsimp only
        omega
    · have h3 : 3 ≤ (To4 (E.ParseIP ecs)).length := by rw [To4_length _ h4]; omega
      obtain ⟨Rg, eg, fg⟩ := putU16_filled ff ((PackQName name).length + 12 + 2 + 2 + 1 + 2 + 2 + 1 + 1 + 2) 11 (by omega) (by omega)
      obtain ⟨Rh, eh, fh⟩ := putU16_filled fg ((PackQName name).length + 12 + 2 + 2 + 1 + 2 + 2 + 1 + 1 + 2 + 2) 8 (by omega) (by omega)
      obtain ⟨Ri, ei, fi⟩ := putU16_filled fh ((PackQName name).length + 12 + 2 + 2 + 1 + 2 + 2 + 1 + 1 + 2 + 2 + 2) 7 (by omega) (by omega)
      obtain ⟨Rj, ej, fj⟩ := putU16_filled fi ((PackQName name).length + 12 + 2 + 2 + 1 + 2 + 2 + 1 + 1 + 2 + 2 + 2 + 2) 1 (by omega) (by omega)
      obtain ⟨Rk, ek, fk⟩ := setByte_filled fj ((PackQName name).length + 12 + 2 + 2 + 1 + 2 + 2 + 1 + 1 + 2 + 2 + 2 + 2 + 2) 24 (by omega) (by omega)
      obtain ⟨Rl, el, fl⟩ := setByte_filled fk ((PackQName name).length + 12 + 2 + 2 + 1 + 2 + 2 + 1 + 1 + 2 + 2 + 2 + 2 + 2 + 1) 0 (by omega) (by omega)
      obtain ⟨Rm, em, fm⟩ := copyAt_filled fl ((PackQName name).length + 12 + 2 + 2 + 1 + 2 + 2 + 1 + 1 + 2 + 2 + 2 + 2 + 2 + 1 + 1)
        ((To4 (E.ParseIP ecs)).take 3) (by omega) (by simp; omega)
      obtain ⟨post, hp⟩ := fin Rm ((PackQName name).length + 12 + 2 + 2) fm (by omega)
      refine ⟨⟨Rm, (PackQName name).length + 12 + 2 + 2 + 1 + 2 + 2 + 1 + 1 + 2 + 2 + 2 + 2 + 2 + 1 + 1 + 3⟩,
        R6.take 12, post, ?_, hh, hp, ?_⟩
      · simp only [h4, ne_eq, not_false_eq_true, if_true, eg, eh, ei, ej, ek, el, Exec.bind_ok,
          if_pos h3, em, fm.1]
        rw [if_pos (by omega)]; rfl
      · dsimp only
        omega

/-- C1: for a name of one or more non-empty dot-separated ASCII labels (at most 253
bytes in all), every 16-bit query type, every id and every empty or valid ecs string,
`PackRequest` builds a query and `GetQName` reads back from it exactly the name, the
query type and the end offset `len(name) + 18`. -/
theorem GetQName_PackRequest (E : Env) (labels : List (List Nat)) (qtype id : Nat)
    (ecs : List Nat) (hne : labels ≠ [])
    (hlab : ∀ l ∈ labels, l ≠ [] ∧ ∀ b ∈ l, b < 128 ∧ b ≠ 46)
    (hlen : (List.intercalate [46] labels).length ≤ 253) (hq : qtype < 65536)
    (hecs : ecs = [] ∨ (E.ParseIP ecs).length = 4 ∨ (E.ParseIP ecs).length = 16) :
    ∃ request, PackRequest E (List.intercalate [46] labels) qtype id ecs = .ok request ∧
      GetQName request =
        .ok (List.intercalate [46] labels, qtype, (List.intercalate [46] labels).length + 18) := by
  obtain ⟨l0, ls, rfl⟩ : ∃ l0 ls, labels = l0 :: ls := by
    cases labels with
    | nil => exact absurd rfl hne
    | cons a b => exact ⟨a, b, rfl⟩
  rw [intercalate_dotted] at hlen ⊢
  have hpq := PackQName_labels l0 ls (fun l hl => (hlab l hl).2) (by omega)
  have hel := length_encodeLabels l0 ls
  obtain ⟨s, hdr, post, hs, hh, harr, hslen⟩ := PackRequest_shape E (l0 ++ dotted ls) qtype id ecs
    (by rw [hpq, List.length_append, hel, List.length_singleton]; omega) hecs
  rw [hpq] at harr hslen
  refine ⟨s, hs, ?_⟩
  have := GetQName_wellformed s hdr l0 ls (qtype / 256 % 256) (qtype % 256) post
    (by simpa using harr) hh (fun l hl => (hlab l (List.mem_cons_of_mem _ hl)).1)
    (by rw [List.length_append, List.length_singleton] at hslen; omega)
  rw [this, hel]
  have h1 : qtype / 256 % 256 * 256 + qtype % 256 = qtype := by omega
  have h2 : 12 + ((l0 ++ dotted ls).length + 1) + 5 = (l0 ++ dotted ls).length + 18 := by omega
  rw [h1, h2]

/-- C1 at `www.example.com`, type AAAA, id 0x1234, ecs `1.2.3.4`. -/
theorem GetQName_PackRequest_witness :
    ∃ request, PackRequest Env.sample (List.intercalate [46] [str "www", str "example", str "com"])
        28 4660 (str "1.2.3.4") = .ok request ∧
      GetQName request = .ok (List.intercalate [46] [str "www", str "example", str "com"], 28,
        (List.intercalate [46] [str "www", str "example", str "com"]).length + 18) :=
  GetQName_PackRequest Env.sample [str "www", str "example", str "com"] 28 4660 (str "1.2.3.4")
    (by decide) (by decide) (by decide) (by decide) (by decide)

/-! ## C2: BuildResponse then GetAnswers -/

theorem rrOf_length (ttl : Nat) (ip : IP) (h : To4 ip ≠ [] ∨ ip.length = 16) :
    (rrOf ttl ip).length = if To4 ip ≠ [] then 16 else 28 := by
  unfold rrOf
  split
  · rename_i h4; simp [be32, To4_length ip h4]
  · rename_i h4
    rcases h with h | h
    · exact absurd h h4
    · simp [be32, h]

theorem packA.measure_eq (ttl : Nat) (ips : List IP)
    (h : ∀ ip ∈ ips, To4 ip ≠ [] ∨ ip.length = 16) :
    packA.measure ips = (ips.length, (rrsOf ttl ips).length) := by
  induction ips with
  | nil => rfl
  | cons ip ips ih =>
    have hi := ih (fun x hx => h x (List.mem_cons_of_mem _ hx))
    have hr := rrOf_length ttl ip (h ip (List.mem_cons_self _ _))
    simp only [packA.measure, hi, rrsOf, List.length_append, List.length_cons, hr]
    split <;> simp <;> omega

theorem packA.fill_eq (ttl : Nat) (ips : List IP) :
    ∀ (done : List Nat) (length : Nat), (∀ ip ∈ ips, To4 ip ≠ [] ∨ ip.length = 16) →
      length = done.length →
      packA.fill ttl ips (done ++ List.replicate (rrsOf ttl ips).length 0) length =
        .ok (done ++ rrsOf ttl ips) := by
  induction ips with
  | nil => intro done length _ _; simp [packA.fill, rrsOf]
  | cons ip ips ih =>
    intro done length h hl
    have hr := rrOf_length ttl ip (h ip (List.mem_cons_self _ _))
    have hi := fun d l => ih d l (fun x hx => h x (List.mem_cons_of_mem _ hx))
    simp only [rrsOf, List.length_append]
    by_cases h4 : To4 ip ≠ []
    · rw [if_pos h4] at hr
      have hl4 := To4_length ip h4
      rw [hr, show 16 + (rrsOf ttl ips).length = 6 + (4 + (2 + (4 + (rrsOf ttl ips).length))) by omega]
      simp only [List.replicate_add]
      rw [packA.fill, if_pos h4]
      rw [copyAt_at done _ _ _ length hl (by simp)]
      simp only [Exec.bind_ok]
      rw [show done ++ ([0xC0, 0x0C, 0x00, 1, 0x00, 0x01] ++ (List.replicate 4 0 ++
          (List.replicate 2 0 ++ (List.replicate 4 0 ++ List.replicate (rrsOf ttl ips).length 0))))
        = (done ++ [0xC0, 0x0C, 0x00, 1, 0x00, 0x01]) ++ 0 :: 0 :: 0 :: 0 ::
          (List.replicate 2 0 ++ (List.replicate 4 0 ++ List.replicate (rrsOf ttl ips).length 0))
        by simp [List.replicate]]
      rw [putU32_at _ _ _ _ _ _ _ _ (by simp [hl])]
      simp only [Exec.bind_ok]
      rw [show done ++ [0xC0, 0x0C, 0x00, 1, 0x00, 0x01] ++ (be32 ttl ++
          (List.replicate 2 0 ++ (List.replicate 4 0 ++ List.replicate (rrsOf ttl ips).length 0)))
        = (done ++ [0xC0, 0x0C, 0x00, 1, 0x00, 0x01] ++ be32 ttl) ++
          (List.replicate 2 0 ++ (List.replicate 4 0 ++ List.replicate (rrsOf ttl ips).length 0))
        by simp]
      rw [copyAt_at _ _ _ [0x00, 0x04] _ (by simp [hl, be32]) (by simp)]
      simp only [Exec.bind_ok]
      rw [show done ++ [0xC0, 0x0C, 0x00, 1, 0x00, 0x01] ++ be32 ttl ++ ([0x00, 0x04] ++
          (List.replicate 4 0 ++ List.replicate (rrsOf ttl ips).length 0))
        = (done ++ [0xC0, 0x0C, 0x00, 1, 0x00, 0x01] ++ be32 ttl ++ [0x00, 0x04]) ++
          (List.replicate 4 0 ++ List.replicate (rrsOf ttl ips).length 0)
        by simp]
      rw [copyAt_at _ _ _ (To4 ip) _ (by simp [hl, be32]) (by simp [hl4])]
      simp only [Exec.bind_ok]
      rw [← List.append_assoc, hi _ _ (by simp [hl, be32, hl4])]
      simp [rrOf, h4]
    · rw [if_neg h4] at hr
      have hl16 : ip.length = 16 := by
        rcases h ip (List.mem_cons_self _ _) with h | h
        · exact absurd h h4
        · exact h
      rw [hr, show 28 + (rrsOf ttl ips).length = 6 + (4 + (2 + (16 + (rrsOf ttl ips).length))) by omega]
      simp only [List.replicate_add]
      rw [packA.fill, if_neg h4]
      rw [copyAt_at done _ _ _ length hl (by simp)]
      simp only [Exec.bind_ok]
      rw [show done ++ ([0xC0, 0x0C, 0x00, 28, 0x00, 0x01] ++ (List.replicate 4 0 ++
          (List.replicate 2 0 ++ (List.replicate 16 0 ++ List.replicate (rrsOf ttl ips).length 0))))
        = (done ++ [0xC0, 0x0C, 0x00, 28, 0x00, 0x01]) ++ 0 :: 0 :: 0 :: 0 ::
          (List.replicate 2 0 ++ (List.replicate 16 0 ++ List.replicate (rrsOf ttl ips).length 0))
        by simp [List.replicate]]
      rw [putU32_at _ _ _ _ _ _ _ _ (by simp [hl])]
      simp only [Exec.bind_ok]
      rw [show done ++ [0xC0, 0x0C, 0x00, 28, 0x00, 0x01] ++ (be32 ttl ++
          (List.replicate 2 0 ++ (List.replicate 16 0 ++ List.replicate (rrsOf ttl ips).length 0)))
        = (done ++ [0xC0, 0x0C, 0x00, 28, 0x00, 0x01] ++ be32 ttl) ++
          (List.replicate 2 0 ++ (List.replicate 16 0 ++ List.replicate (rrsOf ttl ips).length 0))
        by simp]
      rw [copyAt_at _ _ _ [0x00, 0x10] _ (by simp [hl, be32]) (by simp)]
      simp only [Exec.bind_ok]
      rw [show done ++ [0xC0, 0x0C, 0x00, 28, 0x00, 0x01] ++ be32 ttl ++ ([0x00, 0x10] ++
          (List.replicate 16 0 ++ List.replicate (rrsOf ttl ips).length 0))
        = (done ++ [0xC0, 0x0C, 0x00, 28, 0x00, 0x01] ++ be32 ttl ++ [0x00, 0x10]) ++
          (List.replicate 16 0 ++ List.replicate (rrsOf ttl ips).length 0)
        by simp]
      rw [copyAt_at _ _ _ ip _ (by simp [hl, be32]) (by simp [hl16])]
      simp only [Exec.bind_ok]
      rw [← List.append_assoc, hi _ _ (by simp [hl, be32, hl16])]
      simp [rrOf, h4]

theorem packA_eq (ttl : Nat) (ips : List IP) (h : ∀ ip ∈ ips, To4 ip ≠ [] ∨ ip.length = 16) :
    packA ttl ips = .ok (ips.length, rrsOf ttl ips) := by
  have := packA.fill_eq ttl ips [] 0 h rfl
  simp only [List.nil_append] at this
  simp [packA, packA.measure_eq ttl ips h, this]

theorem GetNameOffset.loop_skips_labels (ls : List (List Nat)) :
    ∀ (pre post : List Nat) (s : Slice) (fuel off : Nat),
      s.arr = pre ++ (encodeLabels ls ++ 0 :: post) → off = pre.length →
      off + (encodeLabels ls).length + 3 ≤ s.len →
      ls.length < fuel → (∀ l ∈ ls, l ≠ [] ∧ l.length < 63) →
      GetNameOffset.loop s fuel off = .ok (off + (encodeLabels ls).length + 1) := by
  induction ls with
  | nil =>
    intro pre post s fuel off h hoff hlen hfuel _
    obtain ⟨f, rfl⟩ : ∃ f, fuel = f + 1 := ⟨fuel - 1, by simp at hfuel; omega⟩
    simp only [encodeLabels, List.nil_append, List.length_nil, Nat.add_zero] at h hlen ⊢
    have hg := Slice.get_mid s pre 0 post off h hoff (by omega)
    simp [GetNameOffset.loop, hg, show ¬ s.len ≤ off by omega]
  | cons l ls ih =>
    intro pre post s fuel off h hoff hlen hfuel hne
    obtain ⟨f, rfl⟩ : ∃ f, fuel = f + 1 := ⟨fuel - 1, by simp at hfuel; omega⟩
    have hl0 : l.length ≠ 0 := by
      have := (hne l (List.mem_cons_self _ _)).1
      simpa using this
    have hl63 := (hne l (List.mem_cons_self _ _)).2
    simp only [encodeLabels, List.length_cons, List.length_append] at h hlen
    have hg := Slice.get_mid s pre l.length (l ++ encodeLabels ls ++ 0 :: post) off
      (by simpa using h) hoff (by omega)
    have hrec := ih (pre ++ l.length :: l) post s f (off + 1 + l.length)
      (by simpa using h) (by simp [hoff]; omega)
      (by omega) (by simp at hfuel; omega) (fun x hx => hne x (List.mem_cons_of_mem _ hx))
    rw [GetNameOffset.loop, if_neg (by omega)]
    simp only [hg, Exec.bind_ok, hl0, if_false, hl63, if_true]
    rw [if_neg (by omega), hrec]
    simp [encodeLabels]
    omega

theorem GetNameOffset_pointer (s : Slice) (pre post : List Nat) (b off : Nat)
    (h : s.arr = pre ++ b :: post) (hoff : off = pre.length) (hlen : off < s.len)
    (hb : 63 ≤ b) : GetNameOffset s off = .ok (off + 2) := by
  have hg := Slice.get_mid s pre b post off h hoff hlen
  rw [GetNameOffset, GetNameOffset.loop, if_neg (by omega)]
  simp only [hg, Exec.bind_ok]
  rw [if_neg (by omega), if_neg (by omega)]
  rfl

theorem nsfilter_empty (E : Env) (ip : IP) : nsfilter E ServerOptions.empty ip = ip := by
  simp [nsfilter, ServerOptions.empty]

theorem be32_read (ttl : Nat) (h : ttl < 4294967296) :
    (((be32 ttl).getD 0 0 * 256 + (be32 ttl).getD 1 0) * 256 + (be32 ttl).getD 2 0) * 256
      + (be32 ttl).getD 3 0 = ttl := by
  simp [be32]
  omega

theorem GetAnswers.answer_rr (E : Env) (fuel ttl : Nat) (ip : IP) (s : Slice)
    (pre post : List Nat) (records : DNSRecords) (off : Nat)
    (h : s.arr = pre ++ (rrOf ttl ip ++ post)) (hoff : off = pre.length)
    (hlen : off + (rrOf ttl ip).length ≤ s.len) (hip : To4 ip ≠ [] ∨ ip.length = 16)
    (httl : ttl < 4294967296) :
    GetAnswers.answer E fuel ServerOptions.empty s records off =
      .ok (some (parsedInto E ttl records ip, off + (rrOf ttl ip).length)) := by
  have hrl := rrOf_length ttl ip hip
  by_cases h4 : To4 ip ≠ []
  · rw [if_pos h4] at hrl
    have hl4 := To4_length ip h4
    obtain ⟨x0, x1, x2, x3, hx⟩ : ∃ x0 x1 x2 x3, To4 ip = [x0, x1, x2, x3] := by
      match hm : To4 ip, hl4 with
      | [x0, x1, x2, x3], _ => exact ⟨x0, x1, x2, x3, rfl⟩
    have hrr : rrOf ttl ip = 0xC0 :: 0x0C :: 0x00 :: 1 :: 0x00 :: 0x01 :: (be32 ttl ++
        0x00 :: 0x04 :: [x0, x1, x2, x3]) := by simp [rrOf, h4, hx]
    rw [hrl] at hlen ⊢
    rw [hrr] at h
    have hp := GetNameOffset_pointer s pre _ 0xC0 off (by simpa using h) hoff (by omega) (by omega)
    have ht : s.u16 (off + 2) = .ok 1 := by
      simpa using Slice.u16_mid s (pre ++ [0xC0, 0x0C]) _ 0 1 (off + 2) (by simpa using h)
        (by simp [hoff])
    have httlr := Slice.slice_mid s (pre ++ [0xC0, 0x0C, 0, 1, 0, 1]) (be32 ttl)
      (0x00 :: 0x04 :: [x0, x1, x2, x3] ++ post) (off + 2 + 4) (off + 2 + 4 + 4)
      (by simpa using h) (by simp [hoff]) (by simp [be32])
    have hd : s.u16 (off + 2 + 4 + 4) = .ok 4 := by
      simpa using Slice.u16_mid s (pre ++ [0xC0, 0x0C, 0, 1, 0, 1] ++ be32 ttl) _ 0 4
        (off + 2 + 4 + 4) (by simpa using h) (by simp [hoff, be32])
    have hdata := Slice.slice_mid s (pre ++ [0xC0, 0x0C, 0, 1, 0, 1] ++ be32 ttl ++ [0, 4])
      [x0, x1, x2, x3] post (off + 2 + 4 + 4 + 2) (off + 2 + 4 + 4 + 2 + 4)
      (by simpa using h) (by simp [hoff, be32]) (by simp)
    unfold GetAnswers.answer
    simp only [hp, Exec.bind_ok]
    rw [if_neg (by omega), if_neg (by omega)]
    simp only [ht, Exec.bind_ok]
    rw [if_neg (by omega)]
    simp only [Slice.u32, httlr, Exec.bind_ok, Exec.pure_eq, be32_read ttl httl]
    rw [if_neg (by omega)]
    simp only [hd, Exec.bind_ok]
    simp only [↓reduceIte]
    rw [if_neg (by omega)]
    simp only [hdata, Exec.bind_ok, nsfilter_empty, To4_IPv4]
    simp [parsedInto, h4, hx, clampTTL]
  · rw [if_neg h4] at hrl
    have hl16 : ip.length = 16 := by
      rcases hip with h | h
      · exact absurd h h4
      · exact h
    have hne : ip ≠ [] := by intro h0; simp [h0] at hl16
    have hrr : rrOf ttl ip = 0xC0 :: 0x0C :: 0x00 :: 28 :: 0x00 :: 0x01 :: (be32 ttl ++
        0x00 :: 0x10 :: ip) := by simp [rrOf, h4]
    rw [hrl] at hlen ⊢
    rw [hrr] at h
    have hp := GetNameOffset_pointer s pre _ 0xC0 off (by simpa using h) hoff (by omega) (by omega)
    have ht : s.u16 (off + 2) = .ok 28 := by
      simpa using Slice.u16_mid s (pre ++ [0xC0, 0x0C]) _ 0 28 (off + 2) (by simpa using h)
        (by simp [hoff])
    have httlr := Slice.slice_mid s (pre ++ [0xC0, 0x0C, 0, 28, 0, 1]) (be32 ttl)
      (0x00 :: 0x10 :: ip ++ post) (off + 2 + 4) (off + 2 + 4 + 4)
      (by simpa using h) (by simp [hoff]) (by simp [be32])
    have hd : s.u16 (off + 2 + 4 + 4) = .ok 16 := by
      simpa using Slice.u16_mid s (pre ++ [0xC0, 0x0C, 0, 28, 0, 1] ++ be32 ttl) _ 0 16
        (off + 2 + 4 + 4) (by simpa using h) (by simp [hoff, be32])
    have hdata := Slice.slice_mid s (pre ++ [0xC0, 0x0C, 0, 28, 0, 1] ++ be32 ttl ++ [0, 16])
      ip post (off + 2 + 4 + 4 + 2) (off + 2 + 4 + 4 + 2 + 16)
      (by simpa using h) (by simp [hoff, be32]) (by simp [hl16])
    unfold GetAnswers.answer
    simp only [hp, Exec.bind_ok]
    rw [if_neg (by omega), if_neg (by omega)]
    simp only [ht, Exec.bind_ok]
    rw [if_neg (by omega)]
    simp only [Slice.u32, httlr, Exec.bind_ok, Exec.pure_eq, be32_read ttl httl]
    rw [if_neg (by omega)]
    simp only [hd, Exec.bind_ok]
    rw [if_neg (show ¬ ((28 : Nat) = 1) by decide)]
    simp only [↓reduceIte]
    rw [if_neg (by omega)]
    simp only [hdata, Exec.bind_ok, nsfilter_empty]
    simp [parsedInto, h4, hne, clampTTL]

theorem GetAnswers.answers_rrs (E : Env) (fuel ttl : Nat) (ips : List IP) :
    ∀ (s : Slice) (pre post : List Nat) (records : DNSRecords) (off : Nat),
      s.arr = pre ++ (rrsOf ttl ips ++ post) → off = pre.length →
      off + (rrsOf ttl ips).length ≤ s.len → (∀ ip ∈ ips, To4 ip ≠ [] ∨ ip.length = 16) →
      ttl < 4294967296 →
      GetAnswers.answers E fuel ServerOptions.empty s ips.length records off =
        (ips.foldl (parsedInto E ttl) records, .ok ()) := by
  induction ips with
  | nil => intro s pre post records off _ _ _ _ _; rfl
  | cons ip ips ih =>
    intro s pre post records off h hoff hlen hip httl
    simp only [rrsOf, List.length_append] at h hlen
    have h1 := GetAnswers.answer_rr E fuel ttl ip s pre (rrsOf ttl ips ++ post) records off
      (by simpa using h) hoff (by omega) (hip ip (List.mem_cons_self _ _)) httl
    have h2 := ih s (pre ++ rrOf ttl ip) post (parsedInto E ttl records ip)
      (off + (rrOf ttl ip).length) (by simpa using h) (by simp [hoff]) (by omega)
      (fun x hx => hip x (List.mem_cons_of_mem _ hx)) httl
    simp only [List.length_cons, GetAnswers.answers, h1, h2, List.foldl_cons]

theorem addressesOf_addAddress (E : Env) (set : Option RecordAddresses) (TTL : Nat) (ip : IP) :
    addressesOf (addAddress E set TTL ip) = addressesOf set ++ [ip] := by
  cases set <;> simp [addAddress, addressesOf]

theorem addAddress_isSome (E : Env) (set : Option RecordAddresses) (TTL : Nat) (ip : IP) :
    (addAddress E set TTL ip).isSome = true := by
  cases set <;> simp [addAddress]

theorem foldl_parsedInto_A (E : Env) (ttl : Nat) (ips : List IP) (h : ∀ ip ∈ ips, To4 ip ≠ []) :
    ∀ records : DNSRecords,
      addressesOf (ips.foldl (parsedInto E ttl) records).A =
        addressesOf records.A ++ ips.map To4 ∧
      (ips.foldl (parsedInto E ttl) records).AAAA = records.AAAA ∧
      (ips ≠ [] → (ips.foldl (parsedInto E ttl) records).A.isSome = true) := by
  induction ips with
  | nil => intro records; simp
  | cons ip ips ih =>
    intro records
    have h4 := h ip (List.mem_cons_self _ _)
    obtain ⟨i1, i2, i3⟩ := ih (fun x hx => h x (List.mem_cons_of_mem _ hx))
      (parsedInto E ttl records ip)
    have hp : parsedInto E ttl records ip =
        { records with A := addAddress E records.A (clampTTL E ttl) (To4 ip) } := by
      simp [parsedInto, h4]
    refine ⟨?_, ?_, ?_⟩
    · rw [List.foldl_cons, i1, hp]
      simp [addressesOf_addAddress]
    · rw [List.foldl_cons, i2, hp]
    · intro _
      by_cases hn : ips = []
      · subst hn
        simp [hp, addAddress_isSome]
      · exact i3 hn

theorem foldl_parsedInto_AAAA (E : Env) (ttl : Nat) (ips : List IP) (h : ∀ ip ∈ ips, To4 ip = []) :
    ∀ records : DNSRecords,
      addressesOf (ips.foldl (parsedInto E ttl) records).AAAA =
        addressesOf records.AAAA ++ ips ∧
      (ips.foldl (parsedInto E ttl) records).A = records.A ∧
      (ips ≠ [] → (ips.foldl (parsedInto E ttl) records).AAAA.isSome = true) := by
  induction ips with
  | nil => intro records; simp
  | cons ip ips ih =>
    intro records
    have h4 := h ip (List.mem_cons_self _ _)
    obtain ⟨i1, i2, i3⟩ := ih (fun x hx => h x (List.mem_cons_of_mem _ hx))
      (parsedInto E ttl records ip)
    have hp : parsedInto E ttl records ip =
        { records with AAAA := addAddress E records.AAAA (clampTTL E ttl) ip } := by
      simp [parsedInto, h4]
    refine ⟨?_, ?_, ?_⟩
    · rw [List.foldl_cons, i1, hp]
      simp [addressesOf_addAddress]
    · rw [List.foldl_cons, i2, hp]
    · intro _
      by_cases hn : ips = []
      · subst hn
        simp [hp, addAddress_isSome]
      · exact i3 hn

theorem BuildResponse_real (E : Env) (records : DNSRecords) (request : Slice) (qtype ttl : Nat)
    (i1 i2 f1 f2 q1 q2 a1 a2 n1 n2 r1 r2 : Nat) (body answer : List Nat) (count : Nat)
    (hb : request.bytes = [i1, i2, f1, f2, q1, q2, a1, a2, n1, n2, r1, r2] ++ body)
    (hl : request.len = 12 + body.length) (hidx : ¬ records.Index > 0)
    (hp : packAnswers E qtype ttl records = .ok (count, answer)) (hc : count > 0)
    (hfit : 12 + body.length + answer.length ≤ 1024) :
    BuildResponse E records request qtype ttl =
      .ok ⟨[i1, i2, 0x81, 0x80, q1, q2, count / 256 % 256, count % 256, n1, n2, r1, r2] ++
        (body ++ (answer ++ List.replicate (1024 - (12 + body.length + answer.length)) 0)),
        12 + body.length + answer.length⟩ := by
  have hrep : List.replicate 1024 0 = [] ++ (List.replicate (12 + body.length) 0 ++
      (List.replicate answer.length 0 ++
        List.replicate (1024 - (12 + body.length + answer.length)) 0)) := by
    rw [List.nil_append, ← List.replicate_add, ← List.replicate_add]
    congr 1; omega
  have hcopy := copyAt_at [] (List.replicate (12 + body.length) 0)
    (List.replicate answer.length 0 ++
        List.replicate (1024 - (12 + body.length + answer.length)) 0)
    ([i1, i2, f1, f2, q1, q2, a1, a2, n1, n2, r1, r2] ++ body) 0 rfl (by simp; omega)
  rw [← hrep] at hcopy
  have hcopy2 := copyAt_at ([i1, i2, 0x81, 0x80, q1, q2, count / 256 % 256, count % 256,
      n1, n2, r1, r2] ++ body) (List.replicate answer.length 0)
    (List.replicate (1024 - (12 + body.length + answer.length)) 0) answer (12 + body.length)
    (by simp; omega) (by simp)
  unfold BuildResponse
  simp only [hb, hcopy, Exec.bind_ok, hl, if_neg hidx, hp, if_pos hc]
  have e1 : setByte ([] ++ ([i1, i2, f1, f2, q1, q2, a1, a2, n1, n2, r1, r2] ++ body ++
      (List.replicate answer.length 0 ++
        List.replicate (1024 - (12 + body.length + answer.length)) 0))) 2 0x81 =
      .ok (i1 :: i2 :: 0x81 :: f2 :: q1 :: q2 :: a1 :: a2 :: n1 :: n2 :: r1 :: r2 :: (body ++
      (List.replicate answer.length 0 ++
        List.replicate (1024 - (12 + body.length + answer.length)) 0))) := by
    simp [setByte]
  simp only [e1, Exec.bind_ok]
  have e2 : ∀ Z : List Nat, setByte (i1 :: i2 :: 0x81 :: f2 :: q1 :: q2 :: a1 :: a2 :: n1 ::
      n2 :: r1 :: r2 :: Z) 3 0x80 =
      .ok (i1 :: i2 :: 0x81 :: 0x80 :: q1 :: q2 :: a1 :: a2 :: n1 :: n2 :: r1 :: r2 :: Z) := by
    intro Z; simp [setByte]
  have e3 : ∀ Z : List Nat, putU16 (i1 :: i2 :: 0x81 :: 0x80 :: q1 :: q2 :: a1 :: a2 :: n1 ::
      n2 :: r1 :: r2 :: Z) 6 count =
      .ok ([i1, i2, 0x81, 0x80, q1, q2, count / 256 % 256, count % 256, n1, n2, r1, r2] ++ Z) := by
    intro Z; simp [putU16]
  simp only [e2, e3, Exec.bind_ok]
  rw [← List.append_assoc, hcopy2]
  simp only [Exec.bind_ok, sliceTo]
  rw [if_pos (by simp; omega)]
  simp

theorem IPEqual_To4 (ip : IP) (h : To4 ip ≠ []) : IPEqual (To4 ip) ip = true := by
  by_cases h4 : ip.length = 4
  · simp [To4, h4, IPEqual]
  · by_cases h16 : ip.length = 16 ∧ ip.take 10 = List.replicate 10 0 ∧ ip.getD 10 0 = 0xff
        ∧ ip.getD 11 0 = 0xff
    · obtain ⟨hl, ht, ha, hb⟩ := h16
      match ip, hl with
      | [b0, b1, b2, b3, b4, b5, b6, b7, b8, b9, b10, b11, b12, b13, b14, b15], _ =>
        simp [List.replicate] at ht ha hb
        simp [To4, IPEqual, ht, ha, hb, List.replicate]
    · exact absurd (by rw [To4, if_neg h4, if_neg h16]) h

theorem forall2_IPEqual_To4 (ips : List IP) (h : ∀ ip ∈ ips, To4 ip ≠ []) :
    List.Forall₂ (fun a b => IPEqual a b = true) (ips.map To4) ips := by
  induction ips with
  | nil => exact List.Forall₂.nil
  | cons ip ips ih =>
    exact List.Forall₂.cons (IPEqual_To4 ip (h ip (List.mem_cons_self _ _)))
      (ih (fun x hx => h x (List.mem_cons_of_mem _ hx)))

theorem rrsOf_length_A (ttl : Nat) (ips : List IP) (h : ∀ ip ∈ ips, To4 ip ≠ []) :
    (rrsOf ttl ips).length = 16 * ips.length := by
  induction ips with
  | nil => rfl
  | cons ip ips ih =>
    have h4 := h ip (List.mem_cons_self _ _)
    have := rrOf_length ttl ip (Or.inl h4)
    rw [if_pos h4] at this
    simp only [rrsOf, List.length_append, List.length_cons, this,
      ih (fun x hx => h x (List.mem_cons_of_mem _ hx))]
    omega

theorem rrsOf_length_AAAA (ttl : Nat) (ips : List IP)
    (h : ∀ ip ∈ ips, ip.length = 16 ∧ To4 ip = []) :
    (rrsOf ttl ips).length = 28 * ips.length := by
  induction ips with
  | nil => rfl
  | cons ip ips ih =>
    have h4 := h ip (List.mem_cons_self _ _)
    have := rrOf_length ttl ip (Or.inr h4.1)
    rw [if_neg (by simp [h4.2])] at this
    simp only [rrsOf, List.length_append, List.length_cons, this,
      ih (fun x hx => h x (List.mem_cons_of_mem _ hx))]
    omega

theorem GetAnswers_of_response (E : Env) (fuel ttl : Nat)
    (i1 i2 f1 f2 n1 n2 r1 r2 t1 t2 c1 c2 : Nat) (labels : List (List Nat)) (ips : List IP)
    (Z : List Nat) (hlab : ∀ l ∈ labels, l ≠ [] ∧ l.length < 63)
    (hip : ∀ ip ∈ ips, To4 ip ≠ [] ∨ ip.length = 16) (hne : ips ≠ [])
    (hcount : ips.length < 65536) (httl : ttl < 4294967296) :
    GetAnswers E fuel DNSRecords.fresh
      ⟨[i1, i2, f1, f2, 0, 1, ips.length / 256 % 256, ips.length % 256, n1, n2, r1, r2] ++
        ((encodeLabels labels ++ [0, t1, t2, c1, c2]) ++ (rrsOf ttl ips ++ Z)),
        12 + ((encodeLabels labels).length + 5) + (rrsOf ttl ips).length⟩ ServerOptions.empty =
      (ips.foldl (parsedInto E ttl) DNSRecords.fresh, .ok ()) := by
  have hpos : 0 < ips.length := List.length_pos.2 hne
  have hq : Slice.u16 ⟨[i1, i2, f1, f2, 0, 1, ips.length / 256 % 256, ips.length % 256, n1, n2,
      r1, r2] ++ ((encodeLabels labels ++ [0, t1, t2, c1, c2]) ++ (rrsOf ttl ips ++ Z)),
      12 + ((encodeLabels labels).length + 5) + (rrsOf ttl ips).length⟩ 4 = .ok 1 := by
    simpa using Slice.u16_mid _ [i1, i2, f1, f2] _ 0 1 4 (by simp; rfl) rfl
  have ha : Slice.u16 ⟨[i1, i2, f1, f2, 0, 1, ips.length / 256 % 256, ips.length % 256, n1, n2,
      r1, r2] ++ ((encodeLabels labels ++ [0, t1, t2, c1, c2]) ++ (rrsOf ttl ips ++ Z)),
      12 + ((encodeLabels labels).length + 5) + (rrsOf ttl ips).length⟩ 6 = .ok ips.length := by
    have := Slice.u16_mid ⟨[i1, i2, f1, f2, 0, 1, ips.length / 256 % 256, ips.length % 256, n1, n2,
      r1, r2] ++ ((encodeLabels labels ++ [0, t1, t2, c1, c2]) ++ (rrsOf ttl ips ++ Z)),
      12 + ((encodeLabels labels).length + 5) + (rrsOf ttl ips).length⟩ [i1, i2, f1, f2, 0, 1]
      (n1 :: n2 :: r1 :: r2 :: ((encodeLabels labels ++ [0, t1, t2, c1, c2]) ++ (rrsOf ttl ips ++ Z)))
      (ips.length / 256 % 256) (ips.length % 256) 6 (by simp) rfl
    rw [this]; congr 1; omega
  have hn := GetNameOffset.loop_skips_labels labels
    [i1, i2, f1, f2, 0, 1, ips.length / 256 % 256, ips.length % 256, n1, n2, r1, r2]
    ([t1, t2, c1, c2] ++ (rrsOf ttl ips ++ Z))
    ⟨[i1, i2, f1, f2, 0, 1, ips.length / 256 % 256, ips.length % 256, n1, n2,
      r1, r2] ++ ((encodeLabels labels ++ [0, t1, t2, c1, c2]) ++ (rrsOf ttl ips ++ Z)),
      12 + ((encodeLabels labels).length + 5) + (rrsOf ttl ips).length⟩
    (12 + ((encodeLabels labels).length + 5) + (rrsOf ttl ips).length + 1) 12
    (by simp) rfl (by dsimp only; omega)
    (by have := length_encodeLabels_ge labels; omega) hlab
  have hans := GetAnswers.answers_rrs E fuel ttl ips
    ⟨[i1, i2, f1, f2, 0, 1, ips.length / 256 % 256, ips.length % 256, n1, n2,
      r1, r2] ++ ((encodeLabels labels ++ [0, t1, t2, c1, c2]) ++ (rrsOf ttl ips ++ Z)),
      12 + ((encodeLabels labels).length + 5) + (rrsOf ttl ips).length⟩
    ([i1, i2, f1, f2, 0, 1, ips.length / 256 % 256, ips.length % 256, n1, n2, r1, r2] ++
      (encodeLabels labels ++ [0, t1, t2, c1, c2])) Z DNSRecords.fresh
    (12 + (encodeLabels labels).length + 1 + 4) (by simp) (by simp; omega)
    (by dsimp only; omega) hip httl
  unfold GetAnswers
  dsimp only
  rw [if_neg (by omega)]
  simp only [hq, ha]
  rw [if_neg (by omega)]
  simp only [GetAnswers.questions, GetNameOffset, hn, Exec.bind_ok]
  rw [if_neg (by omega)]
  simp only [Exec.pure_eq, hans]

theorem packA_count_lt (ips : List IP) (n : Nat) (k : Nat) (h : n + k * ips.length ≤ 1024)
    (hk : 0 < k) : ips.length < 65536 := by
  have : ips.length ≤ k * ips.length := Nat.le_mul_of_pos_left _ hk
  omega

/-- C2: a well-formed single-question request (labels shorter than 63 bytes), any ttl and a
non-empty list `L` of IPv4 addresses (of IPv6 addresses that are not IPv4-mapped) whose
answers fit in 1024 bytes: `BuildResponse` for qtype 1 (28) from a record with `Index` 0
whose A (AAAA) set is `L` returns a message from which `GetAnswers`, under empty options
and into a fresh record, reads the addresses of `L` in order: the 4-byte forms `To4` of
`L`, each `IP.Equal` to the address it came from (the addresses of `L` unchanged). -/
theorem GetAnswers_BuildResponse (E : Env) (fuel : Nat) (request : Slice)
    (i1 i2 f1 f2 a1 a2 n1 n2 r1 r2 t1 t2 c1 c2 : Nat) (labels : List (List Nat))
    (records : DNSRecords) (set : RecordAddresses) (ttl : Nat)
    (hreq : request.bytes = [i1, i2, f1, f2, 0, 1, a1, a2, n1, n2, r1, r2] ++
      (encodeLabels labels ++ [0, t1, t2, c1, c2]))
    (hlen : request.len = 12 + ((encodeLabels labels).length + 5))
    (hlab : ∀ l ∈ labels, l ≠ [] ∧ l.length < 63) (httl : ttl < 4294967296)
    (hidx : records.Index = 0) (hne : set.Addresses ≠ []) :
    (records.A = some set → (∀ ip ∈ set.Addresses, To4 ip ≠ []) →
      request.len + 16 * set.Addresses.length ≤ 1024 →
      ∃ response parsed, BuildResponse E records request 1 ttl = .ok response ∧
        GetAnswers E fuel DNSRecords.fresh response ServerOptions.empty = (parsed, .ok ()) ∧
        parsed.A.map (fun a => a.Addresses) = some (set.Addresses.map To4) ∧
        List.Forall₂ (fun a b => IPEqual a b = true) (addressesOf parsed.A) set.Addresses) ∧
    (records.AAAA = some set → (∀ ip ∈ set.Addresses, ip.length = 16 ∧ To4 ip = []) →
      request.len + 28 * set.Addresses.length ≤ 1024 →
      ∃ response parsed, BuildResponse E records request 28 ttl = .ok response ∧
        GetAnswers E fuel DNSRecords.fresh response ServerOptions.empty = (parsed, .ok ()) ∧
        parsed.AAAA.map (fun a => a.Addresses) = some set.Addresses) := by
  have hpos : 0 < set.Addresses.length := List.length_pos.2 hne
  constructor
  · intro hA h4 hfit
    have hip : ∀ ip ∈ set.Addresses, To4 ip ≠ [] ∨ ip.length = 16 := fun ip h => Or.inl (h4 ip h)
    have hrl := rrsOf_length_A ttl set.Addresses h4
    have hpack : packAnswers E 1 ttl records = .ok (set.Addresses.length, rrsOf ttl set.Addresses) := by
      simp [packAnswers, hA, packA_eq ttl _ hip]
    have hb := BuildResponse_real E records request 1 ttl i1 i2 f1 f2 0 1 a1 a2 n1 n2 r1 r2
      (encodeLabels labels ++ [0, t1, t2, c1, c2]) (rrsOf ttl set.Addresses) set.Addresses.length
      hreq (by simp [hlen]) (by omega) hpack hpos (by simp [hrl]; omega)
    have hg := GetAnswers_of_response E fuel ttl i1 i2 0x81 0x80 n1 n2 r1 r2 t1 t2 c1 c2 labels
      set.Addresses (List.replicate (1024 - (12 + (encodeLabels labels ++ [0, t1, t2, c1, c2]).length
        + (rrsOf ttl set.Addresses).length)) 0) hlab hip hne
      (packA_count_lt _ _ 16 hfit (by omega)) httl
    obtain ⟨p1, _, p3⟩ := foldl_parsedInto_A E ttl set.Addresses h4 DNSRecords.fresh
    refine ⟨_, List.foldl (parsedInto E ttl) DNSRecords.fresh set.Addresses, hb, ?_, ?_, ?_⟩
    · simpa using hg
    · have hs := p3 hne
      cases hf : (List.foldl (parsedInto E ttl) DNSRecords.fresh set.Addresses).A with
      | none => rw [hf] at hs; simp at hs
      | some a =>
        rw [hf] at p1
        simpa [addressesOf, DNSRecords.fresh] using p1
    · rw [p1]
      simpa [addressesOf, DNSRecords.fresh] using forall2_IPEqual_To4 set.Addresses h4
  · intro hA h6 hfit
    have hip : ∀ ip ∈ set.Addresses, To4 ip ≠ [] ∨ ip.length = 16 := fun ip h => Or.inr (h6 ip h).1
    have hrl := rrsOf_length_AAAA ttl set.Addresses h6
    have hpack : packAnswers E 28 ttl records = .ok (set.Addresses.length, rrsOf ttl set.Addresses) := by
      simp [packAnswers, hA, packA_eq ttl _ hip]
    have hb := BuildResponse_real E records request 28 ttl i1 i2 f1 f2 0 1 a1 a2 n1 n2 r1 r2
      (encodeLabels labels ++ [0, t1, t2, c1, c2]) (rrsOf ttl set.Addresses) set.Addresses.length
      hreq (by simp [hlen]) (by omega) hpack hpos (by simp [hrl]; omega)
    have hg := GetAnswers_of_response E fuel ttl i1 i2 0x81 0x80 n1 n2 r1 r2 t1 t2 c1 c2 labels
      set.Addresses (List.replicate (1024 - (12 + (encodeLabels labels ++ [0, t1, t2, c1, c2]).length
        + (rrsOf ttl set.Addresses).length)) 0) hlab hip hne
      (packA_count_lt _ _ 28 hfit (by omega)) httl
    obtain ⟨p1, _, p3⟩ := foldl_parsedInto_AAAA E ttl set.Addresses (fun ip h => (h6 ip h).2)
      DNSRecords.fresh
    refine ⟨_, List.foldl (parsedInto E ttl) DNSRecords.fresh set.Addresses, hb, ?_, ?_⟩
    · simpa using hg
    · have hs := p3 hne
      cases hf : (List.foldl (parsedInto E ttl) DNSRecords.fresh set.Addresses).AAAA with
      | none => rw [hf] at hs; simp at hs
      | some a =>
        rw [hf] at p1
        simpa [addressesOf, DNSRecords.fresh] using p1

/-- C2 at the question `a.bc`: the A set [1.2.3.4, ::ffff:9.9.9.9] comes back as
[1.2.3.4, 9.9.9.9], the AAAA set [2001:db8::1] comes back unchanged. -/
theorem GetAnswers_BuildResponse_witness :
    (∃ response parsed,
      BuildResponse Env.sample ⟨0, 0, some ⟨0, [[1, 2, 3, 4], IPv4 9 9 9 9]⟩, none, []⟩
        (Slice.ofList ([0x12, 0x34, 1, 0, 0, 1, 0, 0, 0, 0, 0, 0] ++
          (encodeLabels [[97], [98, 99]] ++ [0, 0, 1, 0, 1]))) 1 60 = .ok response ∧
      GetAnswers Env.sample 0 DNSRecords.fresh response ServerOptions.empty = (parsed, .ok ()) ∧
      parsed.A.map (fun a => a.Addresses) = some ([[1, 2, 3, 4], IPv4 9 9 9 9].map To4) ∧
      List.Forall₂ (fun a b => IPEqual a b = true) (addressesOf parsed.A)
        [[1, 2, 3, 4], IPv4 9 9 9 9]) ∧
    (∃ response parsed,
      BuildResponse Env.sample
        ⟨0, 0, none, some ⟨0, [[0x20, 0x01, 0x0d, 0xb8, 0, 0, 0, 0, 0, 0, 0, 0, 0, 0, 0, 1]]⟩, []⟩
        (Slice.ofList ([0x12, 0x34, 1, 0, 0, 1, 0, 0, 0, 0, 0, 0] ++
          (encodeLabels [[97], [98, 99]] ++ [0, 0, 28, 0, 1]))) 28 60 = .ok response ∧
      GetAnswers Env.sample 0 DNSRecords.fresh response ServerOptions.empty = (parsed, .ok ()) ∧
      parsed.AAAA.map (fun a => a.Addresses) =
        some [[0x20, 0x01, 0x0d, 0xb8, 0, 0, 0, 0, 0, 0, 0, 0, 0, 0, 0, 1]]) :=
  ⟨(GetAnswers_BuildResponse Env.sample 0 _ 0x12 0x34 1 0 0 0 0 0 0 0 0 1 0 1 [[97], [98, 99]]
      ⟨0, 0, some ⟨0, [[1, 2, 3, 4], IPv4 9 9 9 9]⟩, none, []⟩ ⟨0, [[1, 2, 3, 4], IPv4 9 9 9 9]⟩ 60
      (by decide) (by decide) (by decide) (by decide) rfl (by decide)).1 rfl (by decide) (by decide),
   (GetAnswers_BuildResponse Env.sample 0 _ 0x12 0x34 1 0 0 0 0 0 0 0 0 28 0 1 [[97], [98, 99]]
      ⟨0, 0, none, some ⟨0, [[0x20, 0x01, 0x0d, 0xb8, 0, 0, 0, 0, 0, 0, 0, 0, 0, 0, 0, 1]]⟩, []⟩
      ⟨0, [[0x20, 0x01, 0x0d, 0xb8, 0, 0, 0, 0, 0, 0, 0, 0, 0, 0, 0, 1]]⟩ 60
      (by decide) (by decide) (by decide) (by decide) rfl (by decide)).2 rfl (by decide) (by decide)⟩

/-! ## C3: NSRequest on a short request -/

/-- With a capacity of at least 12 bytes the abort works: an empty name gives `(0, nil)` and
leaves the cache and the table alone. -/
theorem NSRequest_empty_name (E : Env) (fuel : Nat) (request : Slice) (cache : Bool) (w : World)
    (qtype e : Nat) (hq : GetQName request = .ok ([], qtype, e))
    (hcap : 12 ≤ request.arr.length) (he : e ≤ request.arr.length) :
    NSRequest E fuel request cache w = .ok ((0, none), w) := by
  unfold NSRequest
  simp only [hq, Exec.bind_ok]
  rw [if_pos hcap, putU16, if_pos (by omega)]
  simp only [Exec.bind_ok, sliceTo]
  rw [if_pos (by simpa using he)]
  simp

/-- C3 fails on the code: a request shorter than 12 bytes whose capacity is its length
(as `DNSTCPServer` allocates it) makes `NSRequest` panic at `request[10:12]`, which is
evaluated before the empty name is tested, instead of returning `(0, nil)`. -/
theorem NSRequest_short_request_crash (E : Env) (fuel : Nat) (bs : List Nat) (cache : Bool)
    (w : World) (h : bs.length < 12) :
    GetQName (Slice.ofList bs) = .ok ([], 0, 0) ∧
      NSRequest E fuel (Slice.ofList bs) cache w = .crash := by
  have hq : GetQName (Slice.ofList bs) = .ok ([], 0, 0) := by
    simp [GetQName, Slice.ofList]; omega
  refine ⟨hq, ?_⟩
  unfold NSRequest
  simp only [hq, Exec.bind_ok]
  rw [if_neg (by simp [Slice.ofList]; omega)]
  rfl

/-- C3 at the empty request, the frame `00 00` read by `DNSTCPServer`. -/
theorem NSRequest_short_request_crash_witness :
    GetQName (Slice.ofList []) = .ok ([], 0, 0) ∧
      NSRequest Env.sample 0 (Slice.ofList []) true World.init = .crash :=
  NSRequest_short_request_crash Env.sample 0 [] true World.init (by decide)

/-! ## C4: GetQName and the first label -/

theorem GetQName.labels_safe (s : Slice) (hwf : s.len ≤ s.arr.length) :
    ∀ (fuel : Nat) (qname : List Nat) (off : Nat), 0 < fuel → s.len < fuel + off →
      GetQName.labels s fuel qname off = .ok none ∨
      ∃ name e, GetQName.labels s fuel qname off = .ok (some (name, e)) ∧ e ≤ s.len := by
  intro fuel
  induction fuel with
  | zero => intro qname off h; omega
  | succ f ih =>
    intro qname off _ hlen
    rw [GetQName.labels]
    split
    · exact Or.inl rfl
    · rename_i hoff
      rw [Slice.get, if_pos (by omega)]
      simp only [Exec.bind_ok]
      split
      · exact Or.inr ⟨_, _, rfl, by omega⟩
      · try dsimp only
        split
        · exact Or.inl rfl
        · rename_i hlab hend
          rw [Slice.slice, if_pos (by omega)]
          simp only [Exec.bind_ok]
          exact ih _ _ (by omega) (by omega)

/-- When the first label lies inside the capacity, `GetQName` returns, and the end offset
it returns is inside the buffer. -/
theorem GetQName_safe (s : Slice) (hwf : s.len ≤ s.arr.length)
    (hfirst : 13 + s.arr.getD 12 0 ≤ s.arr.length) :
    ∃ name qtype e, GetQName s = .ok (name, qtype, e) ∧ e ≤ s.len := by
  rw [GetQName]
  try dsimp only
  split
  · exact ⟨_, _, _, rfl, by omega⟩
  · rename_i h13
    rw [Slice.get, if_pos (by omega)]
    simp only [Exec.bind_ok]
    rw [Slice.slice, if_pos (by omega)]
    simp only [Exec.bind_ok]
    rcases GetQName.labels_safe s hwf (s.len + 1)
        (List.take (13 + s.arr.getD 12 0 - 13) (List.drop 13 s.arr)) (13 + s.arr.getD 12 0)
        (by omega) (by omega) with h | ⟨name, e, h, he⟩
    · rw [h]; exact ⟨_, _, _, rfl, by omega⟩
    · rw [h]
      simp only [Exec.bind_ok]
      split
      · exact ⟨_, _, _, rfl, by omega⟩
      · rename_i hend
        rw [Slice.u16, Slice.slice, if_pos (by omega)]
        exact ⟨_, _, _, rfl, by omega⟩

/-- C4 fails on the code: the first label is sliced without a bounds test, so a buffer of
at least 13 bytes whose capacity is its length and whose first label runs past the end
makes `GetQName` panic instead of returning the empty name. -/
theorem GetQName_first_label_crash (bs : List Nat) (h13 : 13 ≤ bs.length)
    (hover : bs.length < 13 + bs.getD 12 0) : GetQName (Slice.ofList bs) = .crash := by
  unfold GetQName
  simp only [Slice.ofList]
  rw [if_neg (by omega)]
  simp only [Slice.get, if_pos (show 12 < bs.length by omega), Exec.bind_ok, Slice.slice]
  rw [if_neg (by omega)]
  rfl

/-- C4 at 13 bytes with first label length 5. -/
theorem GetQName_first_label_crash_witness :
    GetQName (Slice.ofList [0, 0, 0, 0, 0, 0, 0, 0, 0, 0, 0, 0, 5]) = .crash :=
  GetQName_first_label_crash [0, 0, 0, 0, 0, 0, 0, 0, 0, 0, 0, 0, 5] (by decide) (by decide)

/-! ## C5: GetAnswers and CNAME answers -/

theorem GetName.loop_self_pointer (s : Slice) (p : Nat) (h0 : s.get p = .ok 0xC0)
    (h1 : s.get (p + 1) = .ok p) : ∀ fuel name, GetName.loop s fuel name p = .hang := by
  intro fuel
  induction fuel with
  | zero => intro name; rfl
  | succ f ih =>
    intro name
    rw [GetName.loop]
    simp only [h0, Exec.bind_ok, h1, ih]
    rfl

/-- C5 fails on the code: `GetName` indexes `buf[offset]` without a bounds test and follows
pointers without a bound. A response that ends right after the RDLENGTH of a CNAME
answer makes `GetAnswers` panic, and a CNAME answer whose RDATA is a pointer to itself
makes it recurse for ever (it is out of budget for every budget). -/
theorem GetAnswers_cname_unsafe (E : Env) (fuel : Nat) (options : ServerOptions) :
    GetAnswers E (fuel + 1) DNSRecords.fresh
        (Slice.ofList [0, 0, 0x81, 0x80, 0, 0, 0, 1, 0, 0, 0, 0,
          0, 0, 5, 0, 1, 0, 0, 0, 60, 0, 0]) options = (DNSRecords.fresh, .crash) ∧
      GetAnswers E fuel DNSRecords.fresh
        (Slice.ofList [0, 0, 0x81, 0x80, 0, 0, 0, 1, 0, 0, 0, 0,
          0, 0, 5, 0, 1, 0, 0, 0, 60, 0, 2, 0xC0, 23]) options = (DNSRecords.fresh, .hang) := by
  refine ⟨rfl, ?_⟩
  have hs : Slice.ofList [0, 0, 0x81, 0x80, 0, 0, 0, 1, 0, 0, 0, 0,
      0, 0, 5, 0, 1, 0, 0, 0, 60, 0, 2, 0xC0, 23] = ⟨[0, 0, 0x81, 0x80, 0, 0, 0, 1, 0, 0, 0, 0,
      0, 0, 5, 0, 1, 0, 0, 0, 60, 0, 2, 0xC0, 23], 25⟩ := rfl
  rw [hs]
  generalize hsd : (⟨[0, 0, 0x81, 0x80, 0, 0, 0, 1, 0, 0, 0, 0,
      0, 0, 5, 0, 1, 0, 0, 0, 60, 0, 2, 0xC0, 23], 25⟩ : Slice) = s
  have hlen : s.len = 25 := by rw [← hsd]
  have h := GetName.loop_self_pointer s 23 (by rw [← hsd]; rfl) (by rw [← hsd]; rfl) fuel []
  have hn : GetNameOffset s 12 = .ok 13 := by rw [← hsd]; rfl
  have ht : s.u16 13 = .ok 5 := by rw [← hsd]; rfl
  have httl : s.u32 17 = .ok 60 := by rw [← hsd]; rfl
  have hd : s.u16 21 = .ok 2 := by rw [← hsd]; rfl
  have hq : s.u16 4 = .ok 0 := by rw [← hsd]; rfl
  have hc : s.u16 6 = .ok 1 := by rw [← hsd]; rfl
  have ha : GetAnswers.answer E fuel options s DNSRecords.fresh 12 = .hang := by
    unfold GetAnswers.answer
    simp only [hn, Exec.bind_ok, hlen]
    rw [if_neg (by decide), if_neg (by decide)]
    simp only [ht, Exec.bind_ok]
    rw [if_neg (by decide)]
    simp only [httl, Exec.bind_ok]
    rw [if_neg (by decide)]
    simp only [hd, Exec.bind_ok]
    rw [if_neg (by decide), if_neg (by decide), if_neg (by decide)]
    simp only [↓reduceIte, GetName, h]
    rfl
  unfold GetAnswers
  simp only [hlen, hq, hc]
  rw [if_neg (by decide), if_neg (by decide)]
  simp only [GetAnswers.questions, GetAnswers.answers, ha]

/-! ## C6: a filtered answer and the answers after it -/

/-- C6 fails on the code: the `continue` of a filtered A answer skips `offset +=
DataLength`, so the next pass parses the RDATA of the filtered answer as a record. With
BadSubnet 10.0.0.0/8 and the answers 10.0.0.1, 1.2.3.4 the address list stays empty (no
set is created), where the claim has [1.2.3.4]. -/
theorem GetAnswers_filtered_answer_derails (E : Env) (fuel : Nat) :
    [[10, 0, 0, 1], [1, 2, 3, 4]].filter
        (fun ip => !(IPNet.Contains ⟨[10, 0, 0, 0], [255, 0, 0, 0]⟩ ip)) = [[1, 2, 3, 4]] ∧
      GetAnswers E fuel DNSRecords.fresh
        (Slice.ofList [0x12, 0x34, 0x81, 0x80, 0, 1, 0, 2, 0, 0, 0, 0,
          1, 97, 2, 98, 99, 0, 0, 1, 0, 1,
          0xC0, 0x0C, 0, 1, 0, 1, 0, 0, 0, 60, 0, 4, 10, 0, 0, 1,
          0xC0, 0x0C, 0, 1, 0, 1, 0, 0, 0, 60, 0, 4, 1, 2, 3, 4])
        { ServerOptions.empty with BadSubnet := some ⟨[10, 0, 0, 0], [255, 0, 0, 0]⟩ } =
        (DNSRecords.fresh, .ok ()) :=
  ⟨by decide, rfl⟩

/-! ## C7: no added address lies inside BadSubnet -/

theorem GetAnswers.answer_cases (E : Env) (fuel : Nat) (options : ServerOptions)
    (response : Slice) (records r2 : DNSRecords) (offset off2 : Nat)
    (h : GetAnswers.answer E fuel options response records offset = .ok (some (r2, off2))) :
    r2 = records ∨
    (∃ TTL a b c d, To4 (nsfilter E options (IPv4 a b c d)) ≠ [] ∧
      r2 = { records with A := addAddress E records.A TTL (To4 (nsfilter E options (IPv4 a b c d))) }) ∨
    (∃ TTL ip, nsfilter E options ip ≠ [] ∧
      r2 = { records with AAAA := addAddress E records.AAAA TTL (nsfilter E options ip) }) := by
  unfold GetAnswers.answer at h
  rw [Exec.bind_eq_ok] at h
  obtain ⟨o1, -, h⟩ := h
  try dsimp only at h
  split at h
  · cases h
  try dsimp only at h
  split at h
  · cases h
  rw [Exec.bind_eq_ok] at h
  obtain ⟨AType, -, h⟩ := h
  try dsimp only at h
  split at h
  · cases h
  rw [Exec.bind_eq_ok] at h
  obtain ⟨TTL, -, h⟩ := h
  try dsimp only at h
  split at h
  · cases h
  rw [Exec.bind_eq_ok] at h
  obtain ⟨DL, -, h⟩ := h
  try dsimp only at h
  split at h
  · try dsimp only at h
    split at h
    · cases h
    rw [Exec.bind_eq_ok] at h
    obtain ⟨data, -, h⟩ := h
    try dsimp only at h
    split at h
    · left
      simp only [Exec.pure_eq, Exec.ok.injEq, Option.some.injEq, Prod.mk.injEq] at h
      exact h.1.symm
    · rename_i hne
      right; left
      simp only [Exec.pure_eq, Exec.ok.injEq, Option.some.injEq, Prod.mk.injEq] at h
      exact ⟨_, _, _, _, _, hne, h.1.symm⟩
  try dsimp only at h
  split at h
  · try dsimp only at h
    split at h
    · cases h
    rw [Exec.bind_eq_ok] at h
    obtain ⟨data, -, h⟩ := h
    try dsimp only at h
    split at h
    · left
      simp only [Exec.pure_eq, Exec.ok.injEq, Option.some.injEq, Prod.mk.injEq] at h
      exact h.1.symm
    · rename_i hne
      right; right
      simp only [Exec.pure_eq, Exec.ok.injEq, Option.some.injEq, Prod.mk.injEq] at h
      exact ⟨_, _, hne, h.1.symm⟩
  try dsimp only at h
  split at h
  · rw [Exec.bind_eq_ok] at h
    obtain ⟨x, -, h⟩ := h
    left
    simp only [Exec.pure_eq, Exec.ok.injEq, Option.some.injEq, Prod.mk.injEq] at h
    exact h.1.symm
  try dsimp only at h
  split at h
  · rw [Exec.bind_eq_ok] at h
    obtain ⟨x, -, h⟩ := h
    left
    simp only [Exec.pure_eq, Exec.ok.injEq, Option.some.injEq, Prod.mk.injEq] at h
    exact h.1.symm
  · left
    simp only [Exec.pure_eq, Exec.ok.injEq, Option.some.injEq, Prod.mk.injEq] at h
    exact h.1.symm

theorem Contains_To4 (n : IPNet) (ip : IP) (h : To4 ip ≠ []) :
    n.Contains (To4 ip) = n.Contains ip := by
  simp only [IPNet.Contains, To4_To4 ip h, h, ne_eq, not_false_eq_true, if_true]

theorem AddsOutside.refl (subnet : IPNet) (r : DNSRecords) : AddsOutside subnet r r :=
  ⟨⟨[], by simp, by simp⟩, ⟨[], by simp, by simp⟩⟩

theorem AddsOutside.trans {subnet : IPNet} {r1 r2 r3 : DNSRecords}
    (h12 : AddsOutside subnet r1 r2) (h23 : AddsOutside subnet r2 r3) :
    AddsOutside subnet r1 r3 := by
  obtain ⟨⟨a1, ha1, hc1⟩, ⟨b1, hb1, hd1⟩⟩ := h12
  obtain ⟨⟨a2, ha2, hc2⟩, ⟨b2, hb2, hd2⟩⟩ := h23
  refine ⟨⟨a1 ++ a2, by rw [ha2, ha1, List.append_assoc], ?_⟩,
    ⟨b1 ++ b2, by rw [hb2, hb1, List.append_assoc], ?_⟩⟩
  · intro ip hip
    rcases List.mem_append.1 hip with h | h
    · exact hc1 ip h
    · exact hc2 ip h
  · intro ip hip
    rcases List.mem_append.1 hip with h | h
    · exact hd1 ip h
    · exact hd2 ip h

theorem nsfilter_outside (E : Env) (options : ServerOptions) (subnet : IPNet) (ip : IP)
    (hbad : options.BadSubnet = some subnet) (hpd : options.PD = [])
    (h : nsfilter E options ip ≠ []) :
    nsfilter E options ip = ip ∧ subnet.Contains ip = false := by
  unfold nsfilter at h ⊢
  simp only [hbad, hpd, ne_eq, not_true_eq_false, if_false] at h ⊢
  by_cases hc : subnet.Contains ip = true
  · simp [hc] at h
  · simp only [hc, Bool.false_eq_true, if_false]
    exact ⟨trivial, trivial⟩

theorem GetAnswers.answer_outside (E : Env) (fuel : Nat) (options : ServerOptions)
    (subnet : IPNet) (hbad : options.BadSubnet = some subnet) (hpd : options.PD = [])
    (response : Slice) (records r2 : DNSRecords) (offset off2 : Nat)
    (h : GetAnswers.answer E fuel options response records offset = .ok (some (r2, off2))) :
    AddsOutside subnet records r2 := by
  rcases GetAnswers.answer_cases E fuel options response records r2 offset off2 h with
    h | ⟨TTL, a, b, c, d, hne, h⟩ | ⟨TTL, ip, hne, h⟩
  · rw [h]; exact AddsOutside.refl subnet records
  · have hf : nsfilter E options (IPv4 a b c d) ≠ [] := by
      intro h0; rw [h0] at hne; exact hne rfl
    obtain ⟨e1, e2⟩ := nsfilter_outside E options subnet _ hbad hpd hf
    rw [h]
    refine ⟨⟨[To4 (nsfilter E options (IPv4 a b c d))], addressesOf_addAddress _ _ _ _, ?_⟩,
      ⟨[], by simp, by simp⟩⟩
    intro ip hip
    rw [List.mem_singleton] at hip
    rw [hip, e1, Contains_To4 subnet _ (by rw [e1] at hne; exact hne), e2]
  · obtain ⟨e1, e2⟩ := nsfilter_outside E options subnet _ hbad hpd hne
    rw [h]
    refine ⟨⟨[], by simp, by simp⟩,
      ⟨[nsfilter E options ip], addressesOf_addAddress _ _ _ _, ?_⟩⟩
    intro x hx
    rw [List.mem_singleton] at hx
    rw [hx, e1, e2]

theorem GetAnswers.answers_outside (E : Env) (fuel : Nat) (options : ServerOptions)
    (subnet : IPNet) (hbad : options.BadSubnet = some subnet) (hpd : options.PD = [])
    (response : Slice) (n : Nat) :
    ∀ (records : DNSRecords) (offset : Nat),
      AddsOutside subnet records (GetAnswers.answers E fuel options response n records offset).1 := by
  induction n with
  | zero => intro records offset; exact AddsOutside.refl subnet records
  | succ n ih =>
    intro records offset
    rw [GetAnswers.answers]
    cases ha : GetAnswers.answer E fuel options response records offset with
    | ok r =>
      cases r with
      | none => exact AddsOutside.refl subnet records
      | some next =>
        obtain ⟨r2, off2⟩ := next
        exact AddsOutside.trans
          (GetAnswers.answer_outside E fuel options subnet hbad hpd response records r2 offset off2 ha)
          (ih r2 off2)
    | crash => exact AddsOutside.refl subnet records
    | hang => exact AddsOutside.refl subnet records

/-- C7: with `BadSubnet` set and no PD prefix, whatever the response bytes and however the
call ends, the IPv4 set and the IPv6 set of the record after `GetAnswers` are the sets
before the call followed by added addresses, none of which lies inside `BadSubnet`. -/
theorem GetAnswers_outside_BadSubnet (E : Env) (fuel : Nat) (records : DNSRecords)
    (response : Slice) (options : ServerOptions) (subnet : IPNet)
    (hbad : options.BadSubnet = some subnet) (hpd : options.PD = []) :
    (∃ added, addressesOf (GetAnswers E fuel records response options).1.A =
        addressesOf records.A ++ added ∧ ∀ ip ∈ added, subnet.Contains ip = false) ∧
    (∃ added, addressesOf (GetAnswers E fuel records response options).1.AAAA =
        addressesOf records.AAAA ++ added ∧ ∀ ip ∈ added, subnet.Contains ip = false) := by
  show AddsOutside subnet records (GetAnswers E fuel records response options).1
  unfold GetAnswers
  dsimp only
  split
  · exact AddsOutside.refl subnet records
  split
  · split
    · exact AddsOutside.refl subnet records
    split
    · exact AddsOutside.refl subnet records
    · exact GetAnswers.answers_outside E fuel options subnet hbad hpd response _ _ _
    · exact AddsOutside.refl subnet records
    · exact AddsOutside.refl subnet records
  · exact AddsOutside.refl subnet records
  · exact AddsOutside.refl subnet records
  · exact AddsOutside.refl subnet records

/-- C7 at the answers 1.2.3.4 and 10.0.0.1 with BadSubnet 10.0.0.0/8. -/
theorem GetAnswers_outside_BadSubnet_witness :
    (∃ added, addressesOf (GetAnswers Env.sample 0 DNSRecords.fresh
        (Slice.ofList [0x12, 0x34, 0x81, 0x80, 0, 1, 0, 2, 0, 0, 0, 0,
          1, 97, 2, 98, 99, 0, 0, 1, 0, 1,
          0xC0, 0x0C, 0, 1, 0, 1, 0, 0, 0, 60, 0, 4, 1, 2, 3, 4,
          0xC0, 0x0C, 0, 1, 0, 1, 0, 0, 0, 60, 0, 4, 10, 0, 0, 1])
        { ServerOptions.empty with BadSubnet := some ⟨[10, 0, 0, 0], [255, 0, 0, 0]⟩ }).1.A =
        addressesOf DNSRecords.fresh.A ++ added ∧
        ∀ ip ∈ added, IPNet.Contains ⟨[10, 0, 0, 0], [255, 0, 0, 0]⟩ ip = false) ∧
    (∃ added, addressesOf (GetAnswers Env.sample 0 DNSRecords.fresh
        (Slice.ofList [0x12, 0x34, 0x81, 0x80, 0, 1, 0, 2, 0, 0, 0, 0,
          1, 97, 2, 98, 99, 0, 0, 1, 0, 1,
          0xC0, 0x0C, 0, 1, 0, 1, 0, 0, 0, 60, 0, 4, 1, 2, 3, 4,
          0xC0, 0x0C, 0, 1, 0, 1, 0, 0, 0, 60, 0, 4, 10, 0, 0, 1])
        { ServerOptions.empty with BadSubnet := some ⟨[10, 0, 0, 0], [255, 0, 0, 0]⟩ }).1.AAAA =
        addressesOf DNSRecords.fresh.AAAA ++ added ∧
        ∀ ip ∈ added, IPNet.Contains ⟨[10, 0, 0, 0], [255, 0, 0, 0]⟩ ip = false) :=
  GetAnswers_outside_BadSubnet Env.sample 0 DNSRecords.fresh _
    { ServerOptions.empty with BadSubnet := some ⟨[10, 0, 0, 0], [255, 0, 0, 0]⟩ }
    ⟨[10, 0, 0, 0], [255, 0, 0, 0]⟩ rfl rfl

/-! ## C8: cache lookup with ancestor fallback -/

theorem indexByte_none (s : List Nat) (h : indexByte 46 s = none) : dotSuffixes s = [] := by
  induction s with
  | nil => rfl
  | cons b bs ih =>
    rw [indexByte] at h
    split at h
    · cases h
    · rename_i hb
      rw [dotSuffixes, if_neg hb]
      exact ih (by simpa using h)

theorem indexByte_some (s : List Nat) : ∀ off, indexByte 46 s = some off →
    dotSuffixes s = s.drop off :: dotSuffixes (s.drop (off + 1)) := by
  induction s with
  | nil => intro off h; cases h
  | cons b bs ih =>
    intro off h
    rw [indexByte] at h
    split at h
    · rename_i hb
      cases h
      rw [dotSuffixes, if_pos hb]
      rfl
    · rename_i hb
      rw [dotSuffixes, if_neg hb]
      cases hi : indexByte 46 bs with
      | none => rw [hi] at h; cases h
      | some o =>
        rw [hi] at h
        simp only [Option.map_some', Option.some.injEq] at h
        subst h
        simpa using ih o hi

theorem seedFromAncestor_eq (name : List Nat) (records : Nat) (w : World) (n : Nat) :
    ∀ offset, seedFromAncestor name records n offset w =
      match ((dotSuffixes (name.drop offset)).take n).findSome? (LoadDNSCache w) with
      | some top => w.setCell records (w.cell top)
      | none => w := by
  induction n with
  | zero => intro offset; simp [seedFromAncestor]
  | succ n ih =>
    intro offset
    rw [seedFromAncestor]
    cases hi : indexByte 46 (name.drop offset) with
    | none => simp [indexByte_none _ hi]
    | some off =>
      rw [indexByte_some _ off hi]
      simp only [List.drop_drop, List.take_succ_cons, List.findSome?_cons]
      cases hl : LoadDNSCache w (name.drop (offset + off)) with
      | some top => rfl
      | none =>
        simp only []
        rw [ih (offset + off + 1), Nat.add_assoc]

theorem dotSuffixes_length (name : List Nat) :
    ∀ s ∈ dotSuffixes name, s.length ≤ name.length := by
  induction name with
  | nil => intro s h; simp [dotSuffixes] at h
  | cons b bs ih =>
    intro s h
    rw [dotSuffixes] at h
    split at h
    · rcases List.mem_cons.1 h with h | h
      · rw [h]
      · have := ih s h
        simp only [List.length_cons]; omega
    · have := ih s h
      simp only [List.length_cons]; omega

theorem dotSuffixes_ne (name : List Nat) (hdot : name.head? ≠ some 46) :
    ∀ s ∈ dotSuffixes name, s ≠ name := by
  cases name with
  | nil => intro s h; simp [dotSuffixes] at h
  | cons b bs =>
    intro s h heq
    have hb : b ≠ 46 := by simpa using hdot
    rw [dotSuffixes, if_neg hb] at h
    have := dotSuffixes_length bs s h
    rw [heq] at this
    simp at this

theorem findSome_congr {α β : Type} (l : List α) (f g : α → Option β)
    (h : ∀ a ∈ l, f a = g a) : l.findSome? f = l.findSome? g := by
  induction l with
  | nil => rfl
  | cons a l ih =>
    simp only [List.findSome?_cons, h a (List.mem_cons_self _ _)]
    rw [ih (fun x hx => h x (List.mem_cons_of_mem _ hx))]

theorem getD_append_zero (cells : List DNSRecordsCell) (p : Nat) :
    (cells ++ [(⟨0, 0, none, none, []⟩ : DNSRecordsCell)]).getD p ⟨0, 0, none, none, []⟩ =
      cells.getD p ⟨0, 0, none, none, []⟩ := by
  by_cases h : p < cells.length
  · rw [List.getD_append _ _ _ _ h]
  · have h1 : cells.getD p ⟨0, 0, none, none, []⟩ = ⟨0, 0, none, none, []⟩ :=
      List.getD_eq_default _ _ (by omega)
    rw [List.getD_append_right _ _ _ _ (by omega), h1]
    cases hp : p - cells.length with
    | zero => rfl
    | succ k => rfl

/-- C8 as stated fails on the code: with entries for exactly `a.example.com` and
`example.com` and `SubdomainDepth` 2, the lookup of `b.a.example.com` tries the keys
`.a.example.com` and `.example.com`, finds nothing and leaves the new record empty: it
does not carry the index 7 and hints 9 of the `example.com` record. -/
theorem lookupRecords_plain_keys_not_found :
    2 ≤ Env.sample.SubdomainDepth ∧
    LoadDNSCache World.plainKeys (str "b.a.example.com") = none ∧
    LoadDNSCache World.plainKeys (str "a.example.com") = some 0 ∧
    LoadDNSCache World.plainKeys (str "example.com") = some 1 ∧
    (World.plainKeys.cell 1).Index = 7 ∧ (World.plainKeys.cell 1).Hint = 9 ∧
    (lookupRecords Env.sample (str "b.a.example.com") World.plainKeys).2.cell
      (lookupRecords Env.sample (str "b.a.example.com") World.plainKeys).1 =
      ⟨0, 0, none, none, []⟩ := by
  decide

/-- C8, amended: for a name with no exact cache entry that does not begin with a dot, the
cache lookup at the start of `NSLookup` and `NSRequest` stores a new record for the name
and tries as ancestor keys the suffixes of the name that begin with a dot (for
`b.a.example.com`: `.a.example.com`, then `.example.com`), nearest first, at most
`SubdomainDepth` of them. The new record is a copy of the first such entry (same
virtual index, hints and address sets); it is the fresh empty record when none of these
keys has an entry. Nothing else in the state changes. -/
theorem lookupRecords_ancestor (E : Env) (w : World) (name : List Nat)
    (hmiss : LoadDNSCache w name = none) (hdot : name.head? ≠ some 46) :
    LoadDNSCache (lookupRecords E name w).2 name = some (lookupRecords E name w).1 ∧
    (∀ top, cachedAncestor w E.SubdomainDepth name = some top →
      (lookupRecords E name w).2.cell (lookupRecords E name w).1 = w.cell top) ∧
    (cachedAncestor w E.SubdomainDepth name = none →
      (lookupRecords E name w).2.cell (lookupRecords E name w).1 = ⟨0, 0, none, none, []⟩) ∧
    (lookupRecords E name w).2.sets = w.sets ∧ (lookupRecords E name w).2.Nose = w.Nose := by
  have hfind : ((dotSuffixes name).take E.SubdomainDepth).findSome?
      (LoadDNSCache (StoreDNSCache w.newRecords.2 name w.newRecords.1)) =
      cachedAncestor w E.SubdomainDepth name := by
    apply findSome_congr
    intro s hs
    have hne := dotSuffixes_ne name hdot s (List.mem_of_mem_take hs)
    have hb : (s == name) = false := by simpa using hne
    simp [LoadDNSCache, StoreDNSCache, World.newRecords, List.lookup, hb]
  have hl : lookupRecords E name w = (w.cells.length,
      match cachedAncestor w E.SubdomainDepth name with
      | some top => (StoreDNSCache w.newRecords.2 name w.newRecords.1).setCell w.cells.length
          ((StoreDNSCache w.newRecords.2 name w.newRecords.1).cell top)
      | none => StoreDNSCache w.newRecords.2 name w.newRecords.1) := by
    rw [lookupRecords, hmiss]
    simp only []
    rw [seedFromAncestor_eq, List.drop_zero, hfind]
    rfl
  rw [hl]
  cases hc : cachedAncestor w E.SubdomainDepth name with
  | none =>
    refine ⟨?_, ?_, ?_, rfl, rfl⟩
    · simp [LoadDNSCache, StoreDNSCache, World.newRecords, List.lookup]
    · intro top h; cases h
    · intro _
      simp [World.cell, StoreDNSCache, World.newRecords]
  | some top =>
    refine ⟨?_, ?_, ?_, rfl, rfl⟩
    · simp [LoadDNSCache, StoreDNSCache, World.newRecords, World.setCell, List.lookup]
    · intro t h
      cases h
      have hz := getD_append_zero w.cells top
      simp only [World.cell, World.setCell, StoreDNSCache, World.newRecords]
      simpa [List.getD_eq_getElem?_getD] using hz
    · intro h; cases h

/-- C8, amended, with entries for exactly `.a.example.com` and `.example.com` and
`SubdomainDepth` 2: `b.a.example.com` gets the record of `.a.example.com`, the nearest
ancestor key, and `c.other.com` gets a fresh record. -/
theorem lookupRecords_ancestor_witness :
    (lookupRecords Env.sample (str "b.a.example.com") World.dottedKeys).2.cell
        (lookupRecords Env.sample (str "b.a.example.com") World.dottedKeys).1 =
      World.dottedKeys.cell 0 ∧
    (lookupRecords Env.sample (str "c.other.com") World.dottedKeys).2.cell
        (lookupRecords Env.sample (str "c.other.com") World.dottedKeys).1 =
      ⟨0, 0, none, none, []⟩ :=
  ⟨(lookupRecords_ancestor Env.sample World.dottedKeys (str "b.a.example.com")
      (by decide) (by decide)).2.1 0 (by decide),
   (lookupRecords_ancestor Env.sample World.dottedKeys (str "c.other.com")
      (by decide) (by decide)).2.2.1 (by decide)⟩

/-! ## C9: NSLookup twice without an upstream -/

/-- C9 fails on the code: the default branch of the scheme switch assigns the index
without testing `records.Index == 0`. From the initial state, two calls for
`example.com` with the upstream `virtual://x` return index 1, then index 2, and `Nose`
holds the name twice. -/
theorem NSLookup_reassigns_index :
    ∃ w1 w2,
      NSLookup Env.sample 0 (str "example.com") 0 (str "virtual://x") World.init =
        .ok ((1, []), w1) ∧
      NSLookup Env.sample 0 (str "example.com") 0 (str "virtual://x") w1 = .ok ((2, []), w2) ∧
      (w1.view 0).Index = 1 ∧ (w2.view 0).Index = 2 ∧
      w1.Nose = [str "phantom.socks", str "example.com"] ∧
      w2.Nose = [str "phantom.socks", str "example.com", str "example.com"] :=
  ⟨_, _, rfl, rfl, rfl, rfl, rfl, rfl⟩

/-! ## C10: the virtual A answer -/

theorem be32_virtual (p i : Nat) (hp : p < 256) (hi : i < 65536) :
    be32 (p * 16777216 + i) = [p, 0, i / 256 % 256, i % 256] := by
  simp only [be32, List.cons.injEq, and_true]
  refine ⟨?_, ?_, ?_, ?_⟩ <;> omega

theorem BuildResponse_virtual_A (E : Env) (records : DNSRecords) (request : Slice) (ttl : Nat)
    (i1 i2 f1 f2 q1 q2 a1 a2 n1 n2 r1 r2 : Nat) (body : List Nat)
    (hb : request.bytes = [i1, i2, f1, f2, q1, q2, a1, a2, n1, n2, r1, r2] ++ body)
    (hl : request.len = 12 + body.length) (hidx : records.Index > 0)
    (hfit : 12 + body.length + 16 ≤ 1024) :
    BuildResponse E records request 1 ttl =
      .ok ⟨[i1, i2, 0x81, 0x80, q1, q2, 0, 1, n1, n2, r1, r2] ++
        (body ++ ([0xC0, 0x0C, 0x00, 1, 0x00, 0x01, 0x00, 0x00, 0x00, 0x10, 0x00, 0x04,
            E.VirtualAddrPrefix % 256, 0, (records.Index % 65536).toNat / 256 % 256,
            (records.Index % 65536).toNat % 256] ++
          List.replicate (1024 - (12 + body.length + 16)) 0)),
        12 + body.length + 16⟩ := by
  have hrep : List.replicate 1024 0 = [] ++ (List.replicate (12 + body.length) 0 ++
      (List.replicate 14 0 ++ (List.replicate 2 0 ++
        List.replicate (1024 - (12 + body.length + 16)) 0))) := by
    rw [List.nil_append, ← List.replicate_add, ← List.replicate_add, ← List.replicate_add]
    congr 1; omega
  have hcopy := copyAt_at [] (List.replicate (12 + body.length) 0)
    (List.replicate 14 0 ++ (List.replicate 2 0 ++
        List.replicate (1024 - (12 + body.length + 16)) 0))
    ([i1, i2, f1, f2, q1, q2, a1, a2, n1, n2, r1, r2] ++ body) 0 rfl (by simp; omega)
  rw [← hrep] at hcopy
  have hcopy2 := fun (x y : Nat) => copyAt_at ([i1, i2, 0x81, 0x80, q1, q2, x, y,
      n1, n2, r1, r2] ++ body) (List.replicate 14 0)
    (List.replicate 2 0 ++ List.replicate (1024 - (12 + body.length + 16)) 0)
    [0xC0, 0x0C, 0x00, 1, 0x00, 0x01, 0x00, 0x00, 0x00, 0x10, 0x00, 0x04,
      E.VirtualAddrPrefix % 256, 0] (12 + body.length) (by simp; omega) (by simp)
  have hput := fun (x y : Nat) => putU16_at ([i1, i2, 0x81, 0x80, q1, q2, x, y,
      n1, n2, r1, r2] ++ body ++ [0xC0, 0x0C, 0x00, 1, 0x00, 0x01, 0x00, 0x00, 0x00, 0x10, 0x00,
      0x04, E.VirtualAddrPrefix % 256, 0])
    (List.replicate (1024 - (12 + body.length + 16)) 0) 0 0 (12 + body.length + 14)
    (records.Index % 65536).toNat (by simp; omega)
  unfold BuildResponse
  simp only [hb, hcopy, Exec.bind_ok, hl, if_pos hidx, if_true]
  have e1 : ∀ Z : List Nat, setByte ([] ++ ([i1, i2, f1, f2, q1, q2, a1, a2, n1, n2, r1, r2] ++
      body ++ Z)) 2 0x81 =
      .ok (i1 :: i2 :: 0x81 :: f2 :: q1 :: q2 :: a1 :: a2 :: n1 :: n2 :: r1 :: r2 ::
        (body ++ Z)) := by
    intro Z; simp [setByte]
  have e2 : ∀ Z : List Nat, setByte (i1 :: i2 :: 0x81 :: f2 :: q1 :: q2 :: a1 :: a2 :: n1 ::
      n2 :: r1 :: r2 :: Z) 3 0x80 =
      .ok ([i1, i2, 0x81, 0x80, q1, q2, a1, a2, n1, n2, r1, r2] ++ Z) := by
    intro Z; simp [setByte]
  have e3 : ∀ Z : List Nat, putU16 ([i1, i2, 0x81, 0x80, q1, q2, a1, a2, n1,
      n2, r1, r2] ++ Z) 6 1 =
      .ok ([i1, i2, 0x81, 0x80, q1, q2, 0, 1, n1, n2, r1, r2] ++ Z) := by
    intro Z; simp [putU16]
  simp only [e1, e2, Exec.bind_ok]
  rw [← List.append_assoc, hcopy2]
  simp only [Exec.bind_ok]
  have hrw : [i1, i2, 0x81, 0x80, q1, q2, a1, a2, n1, n2, r1, r2] ++ body ++
      ([0xC0, 0x0C, 0x00, 1, 0x00, 0x01, 0x00, 0x00, 0x00, 0x10, 0x00, 0x04,
        E.VirtualAddrPrefix % 256, 0] ++
        (List.replicate 2 0 ++ List.replicate (1024 - (12 + body.length + 16)) 0)) =
      ([i1, i2, 0x81, 0x80, q1, q2, a1, a2, n1, n2, r1, r2] ++ body ++
        [0xC0, 0x0C, 0x00, 1, 0x00, 0x01, 0x00, 0x00, 0x00, 0x10, 0x00, 0x04,
        E.VirtualAddrPrefix % 256, 0]) ++
        0 :: 0 :: List.replicate (1024 - (12 + body.length + 16)) 0 := by
    simp [List.replicate]
  rw [hrw, hput]
  simp only [Exec.bind_ok, List.append_assoc, e3, sliceTo]
  rw [if_pos (by simp; omega)]
  simp

theorem index_toNat (i : Int) (h1 : 1 ≤ i) (h2 : i < 65536) :
    (i % 65536).toNat = i.toNat ∧ i.toNat < 65536 ∧ 1 ≤ i.toNat := by
  have : i % 65536 = i := Int.emod_eq_of_lt (by omega) h2
  rw [this]
  omega

theorem copyAt_ok_length (dst : List Nat) (off : Nat) (src : List Nat) (h : off ≤ dst.length) :
    ∃ r, copyAt dst off src = .ok r ∧ r.length = dst.length := by
  refine ⟨_, by rw [copyAt, if_pos h], ?_⟩
  simp only [List.length_append, List.length_take, List.length_drop]
  omega

theorem setByte_ok_length (dst : List Nat) (i v : Nat) (h : i < dst.length) :
    ∃ r, setByte dst i v = .ok r ∧ r.length = dst.length :=
  ⟨_, by rw [setByte, if_pos h], by simp⟩

theorem BuildResponse_virtual_long_crash (E : Env) (records : DNSRecords) (request : Slice)
    (ttl : Nat) (h : 1008 < request.len) (hidx : records.Index > 0) :
    BuildResponse E records request 1 ttl = .crash := by
  obtain ⟨R1, e1, l1⟩ := copyAt_ok_length (List.replicate 1024 0) 0 request.bytes (Nat.zero_le _)
  rw [List.length_replicate] at l1
  obtain ⟨R2, e2, l2⟩ := setByte_ok_length R1 2 0x81 (by omega)
  obtain ⟨R3, e3, l3⟩ := setByte_ok_length R2 3 0x80 (by omega)
  unfold BuildResponse
  simp only [e1, e2, e3, Exec.bind_ok, if_pos hidx, if_true]
  by_cases hc : request.len ≤ R3.length
  · obtain ⟨R4, e4, l4⟩ := copyAt_ok_length R3 request.len
      [0xC0, 0x0C, 0x00, 1, 0x00, 0x01, 0x00, 0x00, 0x00, 0x10, 0x00, 0x04,
        E.VirtualAddrPrefix % 256, 0] hc
    simp only [e4, Exec.bind_ok]
    rw [putU16, if_neg (by omega)]
    rfl
  · rw [copyAt, if_neg hc]
    rfl

set_option maxRecDepth 10000 in
/-- C10 as stated fails on the code: the index is written with `uint16(records.Index)`, so
index 65537, which is below 2^24, gives the same response as index 1, and its address is
`VirtualAddrPrefix.0.0.1`; and a request of 1009 bytes leaves no room for the record in
the 1024-byte response: the call panics. -/
theorem BuildResponse_index_truncated :
    (1 : Int) ≤ 65537 ∧ (65537 : Int) < 2 ^ 24 ∧
      BuildResponse Env.sample ⟨65537, 0, none, none, []⟩
        (Slice.ofList [0x12, 0x34, 1, 0, 0, 1, 0, 0, 0, 0, 0, 0, 1, 97, 0, 0, 1, 0, 1]) 1 0 =
      BuildResponse Env.sample ⟨1, 0, none, none, []⟩
        (Slice.ofList [0x12, 0x34, 1, 0, 0, 1, 0, 0, 0, 0, 0, 0, 1, 97, 0, 0, 1, 0, 1]) 1 0 ∧
      (BuildResponse Env.sample ⟨65537, 0, none, none, []⟩
        (Slice.ofList [0x12, 0x34, 1, 0, 0, 1, 0, 0, 0, 0, 0, 0, 1, 97, 0, 0, 1, 0, 1]) 1 0).bind
        (fun r => .ok (r.bytes.drop 31)) = .ok [255, 0, 0, 1] ∧
      BuildResponse Env.sample ⟨1, 0, none, none, []⟩ ⟨List.replicate 1024 0, 1009⟩ 1 0 = .crash :=
  ⟨by decide, by decide, rfl, rfl,
    BuildResponse_virtual_long_crash Env.sample _ _ 0 (by decide) (by decide)⟩

/-- C10, amended: for every request of 12 to 1008 bytes and every record with virtual index
`i` in 1 .. 2^16-1, `BuildResponse` for qtype 1 returns the request bytes with flags
0x81 0x80 and ANCOUNT 1, followed by exactly one A record: name pointer 0xC00C, type 1,
class 1, TTL 16, RDLENGTH 4 and the address with `VirtualAddrPrefix` as its topmost 8
bits and `i` as its remaining 24 bits. Two records with different indices in that range
get different responses. -/
theorem BuildResponse_virtual_address (E : Env) (records : DNSRecords) (request : Slice)
    (ttl : Nat) (i1 i2 f1 f2 q1 q2 a1 a2 n1 n2 r1 r2 : Nat) (body : List Nat)
    (hb : request.bytes = [i1, i2, f1, f2, q1, q2, a1, a2, n1, n2, r1, r2] ++ body)
    (hl : request.len = 12 + body.length) (hfit : request.len ≤ 1008)
    (hi1 : 1 ≤ records.Index) (hi2 : records.Index < 65536) :
    (∃ response, BuildResponse E records request 1 ttl = .ok response ∧
      response.len = request.len + 16 ∧
      response.bytes = [i1, i2, 0x81, 0x80, q1, q2, 0, 1, n1, n2, r1, r2] ++ body ++
        [0xC0, 0x0C, 0, 1, 0, 1, 0, 0, 0, 16, 0, 4] ++
        be32 (E.VirtualAddrPrefix % 256 * 16777216 + records.Index.toNat)) ∧
    (∀ other : DNSRecords, 1 ≤ other.Index → other.Index < 65536 →
      BuildResponse E other request 1 ttl = BuildResponse E records request 1 ttl →
      other.Index = records.Index) := by
  have hv := BuildResponse_virtual_A E records request ttl i1 i2 f1 f2 q1 q2 a1 a2 n1 n2 r1 r2
    body hb hl (by omega) (by omega)
  obtain ⟨t1, t2, t3⟩ := index_toNat records.Index hi1 hi2
  constructor
  · refine ⟨_, hv, by simp [hl], ?_⟩
    rw [be32_virtual _ _ (Nat.mod_lt _ (by omega)) t2, t1]
    simp only [Slice.bytes]
    have harr : [i1, i2, 0x81, 0x80, q1, q2, 0, 1, n1, n2, r1, r2] ++
        (body ++ ([0xC0, 0x0C, 0x00, 1, 0x00, 0x01, 0x00, 0x00, 0x00, 0x10, 0x00, 0x04,
            E.VirtualAddrPrefix % 256, 0, records.Index.toNat / 256 % 256,
            records.Index.toNat % 256] ++
          List.replicate (1024 - (12 + body.length + 16)) 0)) =
        ([i1, i2, 0x81, 0x80, q1, q2, 0, 1, n1, n2, r1, r2] ++ body ++
        [0xC0, 0x0C, 0, 1, 0, 1, 0, 0, 0, 16, 0, 4] ++
        [E.VirtualAddrPrefix % 256, 0, records.Index.toNat / 256 % 256,
          records.Index.toNat % 256]) ++ List.replicate (1024 - (12 + body.length + 16)) 0 := by
      simp
    rw [harr]
    exact List.take_left' (by simp; omega)
  · intro other ho1 ho2 heq
    have hv2 := BuildResponse_virtual_A E other request ttl i1 i2 f1 f2 q1 q2 a1 a2 n1 n2 r1 r2
      body hb hl (by omega) (by omega)
    obtain ⟨u1, u2, u3⟩ := index_toNat other.Index ho1 ho2
    rw [hv, hv2, u1, t1] at heq
    simp at heq
    have : other.Index.toNat = records.Index.toNat := by omega
    omega

/-- C10, amended, at index 5 and the question `a`: the answer carries 255.0.0.5. -/
theorem BuildResponse_virtual_address_witness :
    (∃ response, BuildResponse Env.sample ⟨5, 0, none, none, []⟩
        (Slice.ofList [0x12, 0x34, 1, 0, 0, 1, 0, 0, 0, 0, 0, 0, 1, 97, 0, 0, 1, 0, 1]) 1 0 =
        .ok response ∧
      response.len =
        (Slice.ofList [0x12, 0x34, 1, 0, 0, 1, 0, 0, 0, 0, 0, 0, 1, 97, 0, 0, 1, 0, 1]).len + 16 ∧
      response.bytes = [0x12, 0x34, 0x81, 0x80, 0, 1, 0, 1, 0, 0, 0, 0] ++ [1, 97, 0, 0, 1, 0, 1] ++
        [0xC0, 0x0C, 0, 1, 0, 1, 0, 0, 0, 16, 0, 4] ++
        be32 (Env.sample.VirtualAddrPrefix % 256 * 16777216 + (5 : Int).toNat)) ∧
    (∀ other : DNSRecords, 1 ≤ other.Index → other.Index < 65536 →
      BuildResponse Env.sample other
        (Slice.ofList [0x12, 0x34, 1, 0, 0, 1, 0, 0, 0, 0, 0, 0, 1, 97, 0, 0, 1, 0, 1]) 1 0 =
      BuildResponse Env.sample ⟨5, 0, none, none, []⟩
        (Slice.ofList [0x12, 0x34, 1, 0, 0, 1, 0, 0, 0, 0, 0, 0, 1, 97, 0, 0, 1, 0, 1]) 1 0 →
      other.Index = (5 : Int)) :=
  BuildResponse_virtual_address Env.sample ⟨5, 0, none, none, []⟩
    (Slice.ofList [0x12, 0x34, 1, 0, 0, 1, 0, 0, 0, 0, 0, 0, 1, 97, 0, 0, 1, 0, 1]) 0
    0x12 0x34 1 0 0 1 0 0 0 0 0 0 [1, 97, 0, 0, 1, 0, 1] (by decide) (by decide) (by decide)
    (by decide) (by decide)

/-! ## C11: NSRequest under a virtual-only policy -/

theorem World.cell_setCell (w : World) (p : Nat) (c : DNSRecordsCell) (h : p < w.cells.length) :
    (w.setCell p c).cell p = c := by
  simp [World.cell, World.setCell, List.getD_eq_getElem?_getD, h]

theorem lookupRecords_fresh (E : Env) (w : World) (name : List Nat)
    (hmiss : LoadDNSCache w name = none) (hdot : name.head? ≠ some 46)
    (hanc : cachedAncestor w E.SubdomainDepth name = none) :
    lookupRecords E name w = (w.cells.length,
      ⟨w.cells ++ [⟨0, 0, none, none, []⟩], w.sets, (name, w.cells.length) :: w.DNSCache,
        w.Nose⟩) := by
  have hfind : ((dotSuffixes name).take E.SubdomainDepth).findSome?
      (LoadDNSCache (StoreDNSCache w.newRecords.2 name w.newRecords.1)) =
      cachedAncestor w E.SubdomainDepth name := by
    apply findSome_congr
    intro s hs
    have hne := dotSuffixes_ne name hdot s (List.mem_of_mem_take hs)
    have hb : (s == name) = false := by simpa using hne
    simp [LoadDNSCache, StoreDNSCache, World.newRecords, List.lookup, hb]
  rw [lookupRecords, hmiss]
  simp only []
  rw [seedFromAncestor_eq, List.drop_zero, hfind, hanc]
  rfl

theorem NSRequest_query_prologue (request : Slice)
    (i1 i2 f1 f2 q1 q2 a1 a2 n1 n2 r1 r2 qh ql c1 c2 : Nat) (l0 : List Nat)
    (ls : List (List Nat)) (post : List Nat)
    (h : request.arr = [i1, i2, f1, f2, q1, q2, a1, a2, n1, n2, r1, r2] ++
      (encodeLabels (l0 :: ls) ++ 0 :: qh :: ql :: c1 :: c2 :: post))
    (hlen : 12 + (encodeLabels (l0 :: ls)).length + 5 ≤ request.len)
    (hne : ∀ l ∈ ls, l ≠ []) :
    GetQName request = .ok (l0 ++ dotted ls, qh * 256 + ql,
      12 + (encodeLabels (l0 :: ls)).length + 5) ∧
    12 ≤ request.arr.length ∧
    putU16 request.arr 10 0 =
      .ok ([i1, i2, f1, f2, q1, q2, a1, a2, n1, n2, 0, 0] ++
        (encodeLabels (l0 :: ls) ++ 0 :: qh :: ql :: c1 :: c2 :: post)) ∧
    sliceTo ([i1, i2, f1, f2, q1, q2, a1, a2, n1, n2, 0, 0] ++
        (encodeLabels (l0 :: ls) ++ 0 :: qh :: ql :: c1 :: c2 :: post))
        (12 + (encodeLabels (l0 :: ls)).length + 5) =
      .ok ⟨[i1, i2, f1, f2, q1, q2, a1, a2, n1, n2, 0, 0] ++
        (encodeLabels (l0 :: ls) ++ 0 :: qh :: ql :: c1 :: c2 :: post),
        12 + (encodeLabels (l0 :: ls)).length + 5⟩ ∧
    (⟨[i1, i2, f1, f2, q1, q2, a1, a2, n1, n2, 0, 0] ++
        (encodeLabels (l0 :: ls) ++ 0 :: qh :: ql :: c1 :: c2 :: post),
        12 + (encodeLabels (l0 :: ls)).length + 5⟩ : Slice).bytes =
      [i1, i2, f1, f2, q1, q2, a1, a2, n1, n2, 0, 0] ++
        (encodeLabels (l0 :: ls) ++ [0, qh, ql, c1, c2]) := by
  refine ⟨?_, ?_, ?_, ?_, ?_⟩
  · exact GetQName_wellformed request _ l0 ls qh ql (c1 :: c2 :: post) h rfl hne hlen
  · rw [h]; simp
  · rw [h]
    have := putU16_at [i1, i2, f1, f2, q1, q2, a1, a2, n1, n2]
      (encodeLabels (l0 :: ls) ++ 0 :: qh :: ql :: c1 :: c2 :: post) r1 r2 10 0 rfl
    simpa using this
  · rw [sliceTo, if_pos (by simp; omega)]
  · simp only [Slice.bytes]
    have e : [i1, i2, f1, f2, q1, q2, a1, a2, n1, n2, 0, 0] ++
        (encodeLabels (l0 :: ls) ++ 0 :: qh :: ql :: c1 :: c2 :: post) =
        ([i1, i2, f1, f2, q1, q2, a1, a2, n1, n2, 0, 0] ++
        (encodeLabels (l0 :: ls) ++ [0, qh, ql, c1, c2])) ++ post := by simp
    rw [e]
    exact List.take_left' (by simp; omega)

theorem World.cell_last (cells : List DNSRecordsCell) (c : DNSRecordsCell)
    (sets : List RecordAddresses) (cache : List (List Nat × Nat)) (nose : List (List Nat)) :
    World.cell ⟨cells ++ [c], sets, cache, nose⟩ cells.length = c := by
  simp [World.cell, List.getD_eq_getElem?_getD]

theorem World.setCell_last (cells : List DNSRecordsCell) (c d : DNSRecordsCell)
    (sets : List RecordAddresses) (cache : List (List Nat × Nat)) (nose : List (List Nat)) :
    World.setCell ⟨cells ++ [c], sets, cache, nose⟩ cells.length d =
      ⟨cells ++ [d], sets, cache, nose⟩ := by
  simp [World.setCell]

theorem NSRequest_virtual_only_eq (E : Env) (fuel : Nat) (request : Slice) (cache : Bool)
    (w : World) (i1 i2 f1 f2 q1 q2 a1 a2 n1 n2 r1 r2 c1 c2 : Nat) (l0 : List Nat)
    (ls : List (List Nat)) (post : List Nat) (server : PhantomInterface)
    (h : request.arr = [i1, i2, f1, f2, q1, q2, a1, a2, n1, n2, r1, r2] ++
      (encodeLabels (l0 :: ls) ++ 0 :: 0 :: 1 :: c1 :: c2 :: post))
    (hlen : 12 + (encodeLabels (l0 :: ls)).length + 5 ≤ request.len)
    (hl0 : l0 ≠ []) (hne : ∀ l ∈ ls, l ≠ []) (hdot : l0.head? ≠ some 46)
    (hsize : (encodeLabels (l0 :: ls)).length ≤ 991)
    (hmiss : LoadDNSCache w (l0 ++ dotted ls) = none)
    (hanc : cachedAncestor w E.SubdomainDepth (l0 ++ dotted ls) = none)
    (hcfg : E.ConfigLookup (l0 ++ dotted ls) = some server) (hdns : server.DNS = [])
    (hproto : server.Protocol ≠ 0) (hk : w.Nose ≠ []) :
    NSRequest E fuel request cache w = .ok ((Int.ofNat w.Nose.length,
      some ⟨[i1, i2, 0x81, 0x80, q1, q2, 0, 1, n1, n2, 0, 0] ++
        ((encodeLabels (l0 :: ls) ++ [0, 0, 1, c1, c2]) ++
          ([0xC0, 0x0C, 0x00, 1, 0x00, 0x01, 0x00, 0x00, 0x00, 0x10, 0x00, 0x04,
            E.VirtualAddrPrefix % 256, 0, w.Nose.length / 256 % 256, w.Nose.length % 256] ++
          List.replicate (1024 - (12 + ((encodeLabels (l0 :: ls)).length + 5) + 16)) 0)),
        12 + ((encodeLabels (l0 :: ls)).length + 5) + 16⟩),
      ⟨w.cells ++ [⟨Int.ofNat w.Nose.length, Nat.land server.Hint E.OPT_DNS, none, none, []⟩],
        w.sets, if cache then (l0 ++ dotted ls, w.cells.length) :: w.DNSCache else w.DNSCache,
        w.Nose ++ [l0 ++ dotted ls]⟩) := by
  obtain ⟨hq, h12, hput, hsl, hbytes⟩ := NSRequest_query_prologue request i1 i2 f1 f2 q1 q2 a1 a2
    n1 n2 r1 r2 0 1 c1 c2 l0 ls post h hlen hne
  have hq1 : GetQName request = Exec.ok (l0 ++ dotted ls, 1,
      12 + (encodeLabels (l0 :: ls)).length + 5) := by simpa using hq
  have hname : l0 ++ dotted ls ≠ [] := by simp [hl0]
  have hhead : (l0 ++ dotted ls).head? ≠ some 46 := by
    cases l0 with
    | nil => exact absurd rfl hl0
    | cons a t => simpa using hdot
  have hr : (if cache then lookupRecords E (l0 ++ dotted ls) w else w.newRecords) =
      (w.cells.length, ⟨w.cells ++ [⟨0, 0, none, none, []⟩], w.sets,
        if cache then (l0 ++ dotted ls, w.cells.length) :: w.DNSCache else w.DNSCache,
        w.Nose⟩) := by
    cases cache with
    | true => simp only [if_true]; exact lookupRecords_fresh E w _ hmiss hhead hanc
    | false => rfl
  have hkpos : 0 < w.Nose.length := List.length_pos.2 hk
  have hb := BuildResponse_virtual_A E
    ⟨Int.ofNat w.Nose.length, Nat.land server.Hint E.OPT_DNS, none, none, []⟩
    ⟨[i1, i2, f1, f2, q1, q2, a1, a2, n1, n2, 0, 0] ++
        (encodeLabels (l0 :: ls) ++ 0 :: 0 :: 1 :: c1 :: c2 :: post),
        12 + (encodeLabels (l0 :: ls)).length + 5⟩ 3600
    i1 i2 f1 f2 q1 q2 a1 a2 n1 n2 0 0 (encodeLabels (l0 :: ls) ++ [0, 0, 1, c1, c2]) hbytes
    (by simp; omega) (by simp; omega) (by simp; omega)
  have hidx : ((Int.ofNat w.Nose.length % 65536).toNat / 256 % 256 = w.Nose.length / 256 % 256) ∧
      ((Int.ofNat w.Nose.length % 65536).toNat % 256 = w.Nose.length % 256) := by
    have : (Int.ofNat w.Nose.length % 65536).toNat = w.Nose.length % 65536 := by
      simp; omega
    rw [this]; omega
  rw [hidx.1, hidx.2] at hb
  unfold NSRequest
  simp only [hq1, Exec.bind_ok]
  rw [if_pos h12]
  simp only [hput, hsl, Exec.bind_ok]
  rw [if_neg hname]
  simp only [hr, World.cell_last, World.setCell_last, hcfg, hdns]
  rw [if_neg (by simp), if_neg (by simp), if_neg (by simp), if_neg (by simp)]
  simp only [if_true]
  rw [if_pos ⟨trivial, hproto⟩]
  simp only [assignIndex, World.cell_last, World.setCell_last, World.view, Option.map_none']
  rw [hb]
  simp

/-- C11: a type-A query for a name with no cache entry and no cached ancestor, under a
policy entry with an empty upstream URL and a non-zero protocol, where `Nose` holds
`k` entries (0 < k < 256): `NSRequest` returns `k` and a response whose only answer is
the A record `VirtualAddrPrefix.0.0.k`; the state after the call has `Nose` with the name
appended at position `k` and the earlier entries unchanged, a new record with index `k`
(stored under the name when `cache` is set) and nothing else changed; and the outcome is
the same whatever the five transports do, so no upstream is consulted. -/
theorem NSRequest_virtual_only (E : Env) (fuel : Nat) (request : Slice) (cache : Bool)
    (w : World) (i1 i2 f1 f2 q1 q2 a1 a2 n1 n2 r1 r2 c1 c2 : Nat) (l0 : List Nat)
    (ls : List (List Nat)) (post : List Nat) (server : PhantomInterface)
    (h : request.arr = [i1, i2, f1, f2, q1, q2, a1, a2, n1, n2, r1, r2] ++
      (encodeLabels (l0 :: ls) ++ 0 :: 0 :: 1 :: c1 :: c2 :: post))
    (hlen : 12 + (encodeLabels (l0 :: ls)).length + 5 ≤ request.len)
    (hl0 : l0 ≠ []) (hne : ∀ l ∈ ls, l ≠ []) (hdot : l0.head? ≠ some 46)
    (hsize : (encodeLabels (l0 :: ls)).length ≤ 991)
    (hmiss : LoadDNSCache w (l0 ++ dotted ls) = none)
    (hanc : cachedAncestor w E.SubdomainDepth (l0 ++ dotted ls) = none)
    (hcfg : E.ConfigLookup (l0 ++ dotted ls) = some server) (hdns : server.DNS = [])
    (hproto : server.Protocol ≠ 0) (hk : w.Nose ≠ []) (hk256 : w.Nose.length < 256) :
    (∃ response, NSRequest E fuel request cache w = .ok ((Int.ofNat w.Nose.length, some response),
        ⟨w.cells ++ [⟨Int.ofNat w.Nose.length, Nat.land server.Hint E.OPT_DNS, none, none, []⟩],
          w.sets, if cache then (l0 ++ dotted ls, w.cells.length) :: w.DNSCache else w.DNSCache,
          w.Nose ++ [l0 ++ dotted ls]⟩) ∧
      response.bytes = [i1, i2, 0x81, 0x80, q1, q2, 0, 1, n1, n2, 0, 0] ++
        (encodeLabels (l0 :: ls) ++ [0, 0, 1, c1, c2]) ++
        [0xC0, 0x0C, 0, 1, 0, 1, 0, 0, 0, 16, 0, 4, E.VirtualAddrPrefix % 256, 0, 0,
          w.Nose.length]) ∧
    ∀ udp tcp tls https tfo,
      NSRequest (E.withTransports udp tcp tls https tfo) fuel request cache w =
        NSRequest E fuel request cache w := by
  have he := NSRequest_virtual_only_eq E fuel request cache w i1 i2 f1 f2 q1 q2 a1 a2 n1 n2
    r1 r2 c1 c2 l0 ls post server h hlen hl0 hne hdot hsize hmiss hanc hcfg hdns hproto hk
  refine ⟨⟨_, he, ?_⟩, ?_⟩
  · have e1 : w.Nose.length / 256 % 256 = 0 := by omega
    have e2 : w.Nose.length % 256 = w.Nose.length := by omega
    rw [e1, e2]
    simp only [Slice.bytes]
    have harr : [i1, i2, 0x81, 0x80, q1, q2, 0, 1, n1, n2, 0, 0] ++
        ((encodeLabels (l0 :: ls) ++ [0, 0, 1, c1, c2]) ++
          ([0xC0, 0x0C, 0x00, 1, 0x00, 0x01, 0x00, 0x00, 0x00, 0x10, 0x00, 0x04,
            E.VirtualAddrPrefix % 256, 0, 0, w.Nose.length] ++
          List.replicate (1024 - (12 + ((encodeLabels (l0 :: ls)).length + 5) + 16)) 0)) =
        ([i1, i2, 0x81, 0x80, q1, q2, 0, 1, n1, n2, 0, 0] ++
        (encodeLabels (l0 :: ls) ++ [0, 0, 1, c1, c2]) ++
        [0xC0, 0x0C, 0, 1, 0, 1, 0, 0, 0, 16, 0, 4, E.VirtualAddrPrefix % 256, 0, 0,
          w.Nose.length]) ++
          List.replicate (1024 - (12 + ((encodeLabels (l0 :: ls)).length + 5) + 16)) 0 := by
      simp
    rw [harr]
    exact List.take_left' (by simp; omega)
  · intro udp tcp tls https tfo
    rw [he]
    exact NSRequest_virtual_only_eq (E.withTransports udp tcp tls https tfo) fuel request cache
      w i1 i2 f1 f2 q1 q2 a1 a2 n1 n2 r1 r2 c1 c2 l0 ls post server h hlen hl0 hne hdot hsize
      hmiss hanc hcfg hdns hproto hk

/-- C11 at the initial state, where `Nose` holds one entry: the query for `example.com`
under a policy with no upstream and protocol 1 gets index 1 and the answer 255.0.0.1. -/
theorem NSRequest_virtual_only_witness :
    (∃ response, NSRequest Env.virtualOnly 0
        (Slice.ofList ([0x12, 0x34, 1, 0, 0, 1, 0, 0, 0, 0, 0, 0] ++
          (encodeLabels [str "example", str "com"] ++ [0, 0, 1, 0, 1]))) true World.init =
        .ok ((Int.ofNat World.init.Nose.length, some response),
        ⟨World.init.cells ++ [⟨Int.ofNat World.init.Nose.length,
            Nat.land 0 Env.virtualOnly.OPT_DNS, none, none, []⟩],
          World.init.sets, if true then (str "example" ++ dotted [str "com"],
            World.init.cells.length) :: World.init.DNSCache else World.init.DNSCache,
          World.init.Nose ++ [str "example" ++ dotted [str "com"]]⟩) ∧
      response.bytes = [0x12, 0x34, 0x81, 0x80, 0, 1, 0, 1, 0, 0, 0, 0] ++
        (encodeLabels [str "example", str "com"] ++ [0, 0, 1, 0, 1]) ++
        [0xC0, 0x0C, 0, 1, 0, 1, 0, 0, 0, 16, 0, 4, Env.virtualOnly.VirtualAddrPrefix % 256,
          0, 0, World.init.Nose.length]) ∧
    ∀ udp tcp tls https tfo,
      NSRequest (Env.virtualOnly.withTransports udp tcp tls https tfo) 0
        (Slice.ofList ([0x12, 0x34, 1, 0, 0, 1, 0, 0, 0, 0, 0, 0] ++
          (encodeLabels [str "example", str "com"] ++ [0, 0, 1, 0, 1]))) true World.init =
        NSRequest Env.virtualOnly 0
          (Slice.ofList ([0x12, 0x34, 1, 0, 0, 1, 0, 0, 0, 0, 0, 0] ++
            (encodeLabels [str "example", str "com"] ++ [0, 0, 1, 0, 1]))) true World.init :=
  NSRequest_virtual_only Env.virtualOnly 0 _ true World.init 0x12 0x34 1 0 0 1 0 0 0 0 0 0 0 1
    (str "example") [str "com"] [] ⟨0, [], 1⟩ rfl (by decide) (by decide) (by decide)
    (by decide) (by decide) (by decide) (by decide) rfl rfl (by decide) (by decide) (by decide)

/-! ## C12: NSRequest in real mode -/

theorem GetAnswers_of_response_into (E : Env) (fuel ttl : Nat) (records : DNSRecords)
    (i1 i2 f1 f2 n1 n2 r1 r2 t1 t2 c1 c2 : Nat) (labels : List (List Nat)) (ips : List IP)
    (Z : List Nat) (hlab : ∀ l ∈ labels, l ≠ [] ∧ l.length < 63)
    (hip : ∀ ip ∈ ips, To4 ip ≠ [] ∨ ip.length = 16) (hne : ips ≠ [])
    (hcount : ips.length < 65536) (httl : ttl < 4294967296) :
    GetAnswers E fuel records
      ⟨[i1, i2, f1, f2, 0, 1, ips.length / 256 % 256, ips.length % 256, n1, n2, r1, r2] ++
        ((encodeLabels labels ++ [0, t1, t2, c1, c2]) ++ (rrsOf ttl ips ++ Z)),
        12 + ((encodeLabels labels).length + 5) + (rrsOf ttl ips).length⟩ ServerOptions.empty =
      (ips.foldl (parsedInto E ttl) records, .ok ()) := by
  have hpos : 0 < ips.length := List.length_pos.2 hne
  have hq : Slice.u16 ⟨[i1, i2, f1, f2, 0, 1, ips.length / 256 % 256, ips.length % 256, n1, n2,
      r1, r2] ++ ((encodeLabels labels ++ [0, t1, t2, c1, c2]) ++ (rrsOf ttl ips ++ Z)),
      12 + ((encodeLabels labels).length + 5) + (rrsOf ttl ips).length⟩ 4 = .ok 1 := by
    simpa using Slice.u16_mid _ [i1, i2, f1, f2] _ 0 1 4 (by simp; rfl) rfl
  have ha : Slice.u16 ⟨[i1, i2, f1, f2, 0, 1, ips.length / 256 % 256, ips.length % 256, n1, n2,
      r1, r2] ++ ((encodeLabels labels ++ [0, t1, t2, c1, c2]) ++ (rrsOf ttl ips ++ Z)),
      12 + ((encodeLabels labels).length + 5) + (rrsOf ttl ips).length⟩ 6 = .ok ips.length := by
    have := Slice.u16_mid ⟨[i1, i2, f1, f2, 0, 1, ips.length / 256 % 256, ips.length % 256, n1, n2,
      r1, r2] ++ ((encodeLabels labels ++ [0, t1, t2, c1, c2]) ++ (rrsOf ttl ips ++ Z)),
      12 + ((encodeLabels labels).length + 5) + (rrsOf ttl ips).length⟩ [i1, i2, f1, f2, 0, 1]
      (n1 :: n2 :: r1 :: r2 :: ((encodeLabels labels ++ [0, t1, t2, c1, c2]) ++ (rrsOf ttl ips ++ Z)))
      (ips.length / 256 % 256) (ips.length % 256) 6 (by simp) rfl
    rw [this]; congr 1; omega
  have hn := GetNameOffset.loop_skips_labels labels
    [i1, i2, f1, f2, 0, 1, ips.length / 256 % 256, ips.length % 256, n1, n2, r1, r2]
    ([t1, t2, c1, c2] ++ (rrsOf ttl ips ++ Z))
    ⟨[i1, i2, f1, f2, 0, 1, ips.length / 256 % 256, ips.length % 256, n1, n2,
      r1, r2] ++ ((encodeLabels labels ++ [0, t1, t2, c1, c2]) ++ (rrsOf ttl ips ++ Z)),
      12 + ((encodeLabels labels).length + 5) + (rrsOf ttl ips).length⟩
    (12 + ((encodeLabels labels).length + 5) + (rrsOf ttl ips).length + 1) 12
    (by simp) rfl (by dsimp only; omega)
    (by have := length_encodeLabels_ge labels; omega) hlab
  have hans := GetAnswers.answers_rrs E fuel ttl ips
    ⟨[i1, i2, f1, f2, 0, 1, ips.length / 256 % 256, ips.length % 256, n1, n2,
      r1, r2] ++ ((encodeLabels labels ++ [0, t1, t2, c1, c2]) ++ (rrsOf ttl ips ++ Z)),
      12 + ((encodeLabels labels).length + 5) + (rrsOf ttl ips).length⟩
    ([i1, i2, f1, f2, 0, 1, ips.length / 256 % 256, ips.length % 256, n1, n2, r1, r2] ++
      (encodeLabels labels ++ [0, t1, t2, c1, c2])) Z records
    (12 + (encodeLabels labels).length + 1 + 4) (by simp) (by simp; omega)
    (by dsimp only; omega) hip httl
  unfold GetAnswers
  dsimp only
  rw [if_neg (by omega)]
  simp only [hq, ha]
  rw [if_neg (by omega)]
  simp only [GetAnswers.questions, GetNameOffset, hn, Exec.bind_ok]
  rw [if_neg (by omega)]
  simp only [Exec.pure_eq, hans]

theorem rrsOf_single (t x1 x2 x3 x4 : Nat) :
    rrsOf t [[x1, x2, x3, x4]] = [0xC0, 0x0C, 0, 1, 0, 1] ++ be32 t ++ [0, 4, x1, x2, x3, x4] := by
  simp [rrsOf, rrOf, To4]

theorem World.cell_last_view (cells : List DNSRecordsCell) (c : DNSRecordsCell)
    (sets : List RecordAddresses) (cache : List (List Nat × Nat)) (nose : List (List Nat)) :
    World.view ⟨cells ++ [c], sets, cache, nose⟩ cells.length =
      ⟨c.Index, c.Hint, c.A.map fun q => sets.getD q ⟨0, []⟩,
        c.AAAA.map fun q => sets.getD q ⟨0, []⟩, c.Echo⟩ := by
  simp [World.view, World.cell_last]

theorem applyFallback_A_last (cells : List DNSRecordsCell) (i : Int) (hint q : Nat)
    (aaaa : Option Nat) (echo : List Nat) (options : ServerOptions)
    (sets : List RecordAddresses) (cache : List (List Nat × Nat)) (nose : List (List Nat)) :
    applyFallback 1 cells.length options ⟨cells ++ [⟨i, hint, some q, aaaa, echo⟩], sets, cache, nose⟩ =
      (false, ⟨cells ++ [⟨i, hint, some q, aaaa, echo⟩], sets, cache, nose⟩) := by
  simp [applyFallback, World.cell_last, World.setCell_last]

theorem NSRequest_real_A_eq (E : Env) (fuel : Nat) (request : Slice) (cache : Bool)
    (w : World) (i1 i2 f1 f2 q1 q2 a1 a2 n1 n2 r1 r2 c1 c2 : Nat) (l0 : List Nat)
    (ls : List (List Nat)) (post : List Nat) (server : PhantomInterface) (u : URL)
    (u1 u2 g1 g2 m1 m2 s1 s2 d1 d2 t x1 x2 x3 x4 : Nat) (Z : List Nat)
    (h : request.arr = [i1, i2, f1, f2, q1, q2, a1, a2, n1, n2, r1, r2] ++
      (encodeLabels (l0 :: ls) ++ 0 :: 0 :: 1 :: c1 :: c2 :: post))
    (hlen : 12 + (encodeLabels (l0 :: ls)).length + 5 ≤ request.len)
    (hlab : ∀ l ∈ l0 :: ls, l ≠ [] ∧ l.length < 63) (hdot : l0.head? ≠ some 46)
    (hsize : (encodeLabels (l0 :: ls)).length ≤ 991)
    (hmiss : LoadDNSCache w (l0 ++ dotted ls) = none)
    (hanc : cachedAncestor w E.SubdomainDepth (l0 ++ dotted ls) = none)
    (hcfg : E.ConfigLookup (l0 ++ dotted ls) = some server) (hdns : server.DNS ≠ [])
    (hurl : E.urlParse server.DNS = some u) (hscheme : u.Scheme = str "udp")
    (hquery : u.RawQuery = [])
    (hmod : Nat.land server.Hint E.OPT_MODIFY = 0) (hproto : server.Protocol = 0)
    (httl : t < 4294967296)
    (hup : E.UDPlookup ([i1, i2, f1, f2, q1, q2, a1, a2, n1, n2, 0, 0] ++
        (encodeLabels (l0 :: ls) ++ [0, 0, 1, c1, c2])) u.Host =
      some ⟨[u1, u2, g1, g2, 0, 1, 0, 1, m1, m2, s1, s2] ++
        ((encodeLabels (l0 :: ls) ++ [0, 0, 1, d1, d2]) ++
          (([0xC0, 0x0C, 0, 1, 0, 1] ++ be32 t ++ [0, 4, x1, x2, x3, x4]) ++ Z)),
        12 + ((encodeLabels (l0 :: ls)).length + 5) + 16⟩) :
    NSRequest E fuel request cache w = .ok ((0,
      some ⟨[i1, i2, 0x81, 0x80, q1, q2, 0, 1, n1, n2, 0, 0] ++
        ((encodeLabels (l0 :: ls) ++ [0, 0, 1, c1, c2]) ++
          (([0xC0, 0x0C, 0, 1, 0, 1] ++ be32 0 ++ [0, 4, x1, x2, x3, x4]) ++
          List.replicate (1024 - (12 + ((encodeLabels (l0 :: ls)).length + 5) + 16)) 0)),
        12 + ((encodeLabels (l0 :: ls)).length + 5) + 16⟩),
      ⟨w.cells ++ [⟨0, Nat.land server.Hint E.OPT_DNS, some w.sets.length, none, []⟩],
        w.sets ++ [⟨wrapInt64 (Int.ofNat (clampTTL E t) + E.now), [[x1, x2, x3, x4]]⟩],
        if cache then (l0 ++ dotted ls, w.cells.length) :: w.DNSCache else w.DNSCache,
        w.Nose⟩) := by
  have hne : ∀ l ∈ ls, l ≠ [] := fun l hl => (hlab l (List.mem_cons_of_mem _ hl)).1
  have hl0 : l0 ≠ [] := (hlab l0 (List.mem_cons_self _ _)).1
  obtain ⟨hq, h12, hput, hsl, hbytes⟩ := NSRequest_query_prologue request i1 i2 f1 f2 q1 q2 a1 a2
    n1 n2 r1 r2 0 1 c1 c2 l0 ls post h hlen hne
  have hq1 : GetQName request = Exec.ok (l0 ++ dotted ls, 1,
      12 + (encodeLabels (l0 :: ls)).length + 5) := by simpa using hq
  have hname : l0 ++ dotted ls ≠ [] := by simp [hl0]
  have hhead : (l0 ++ dotted ls).head? ≠ some 46 := by
    cases l0 with
    | nil => exact absurd rfl hl0
    | cons a t => simpa using hdot
  have hr : (if cache then lookupRecords E (l0 ++ dotted ls) w else w.newRecords) =
      (w.cells.length, ⟨w.cells ++ [⟨0, 0, none, none, []⟩], w.sets,
        if cache then (l0 ++ dotted ls, w.cells.length) :: w.DNSCache else w.DNSCache,
        w.Nose⟩) := by
    cases cache with
    | true => simp only [if_true]; exact lookupRecords_fresh E w _ hmiss hhead hanc
    | false => rfl
  have hga := GetAnswers_of_response_into E fuel t
    ⟨0, Nat.land server.Hint E.OPT_DNS, none, none, []⟩ u1 u2 g1 g2 m1 m2 s1 s2 0 1 d1 d2
    (l0 :: ls) [[x1, x2, x3, x4]] Z hlab (by simp [To4]) (by simp) (by simp) httl
  rw [rrsOf_single] at hga
  have hga2 : GetAnswers E fuel ⟨0, Nat.land server.Hint E.OPT_DNS, none, none, []⟩
      ⟨[u1, u2, g1, g2, 0, 1, 0, 1, m1, m2, s1, s2] ++
        ((encodeLabels (l0 :: ls) ++ [0, 0, 1, d1, d2]) ++
          (([0xC0, 0x0C, 0, 1, 0, 1] ++ be32 t ++ [0, 4, x1, x2, x3, x4]) ++ Z)),
        12 + ((encodeLabels (l0 :: ls)).length + 5) + 16⟩ ServerOptions.empty =
      (⟨0, Nat.land server.Hint E.OPT_DNS,
        some ⟨wrapInt64 (Int.ofNat (clampTTL E t) + E.now), [[x1, x2, x3, x4]]⟩, none, []⟩,
        .ok ()) := by
    have e16 : ([0xC0, 0x0C, 0, 1, 0, 1] ++ be32 t ++ [0, 4, x1, x2, x3, x4]).length = 16 := rfl
    have e0 : [[x1, x2, x3, x4]].length / 256 % 256 = 0 := by simp
    have e1 : [[x1, x2, x3, x4]].length % 256 = 1 := by simp
    have e4 : To4 [x1, x2, x3, x4] = [x1, x2, x3, x4] := rfl
    rw [e16, e0, e1] at hga
    rw [hga]
    simp only [List.foldl_cons, List.foldl_nil, parsedInto, e4]
    rw [if_pos (by simp)]
    rfl
  have hpack : packAnswers E 1 0 ⟨0, Nat.land server.Hint E.OPT_DNS,
        some ⟨wrapInt64 (Int.ofNat (clampTTL E t) + E.now), [[x1, x2, x3, x4]]⟩, none, []⟩ =
      .ok (1, [0xC0, 0x0C, 0, 1, 0, 1] ++ be32 0 ++ [0, 4, x1, x2, x3, x4]) := by
    have := packA_eq 0 [[x1, x2, x3, x4]] (by simp [To4])
    rw [rrsOf_single] at this
    simpa [packAnswers] using this
  have hb := BuildResponse_real E ⟨0, Nat.land server.Hint E.OPT_DNS,
        some ⟨wrapInt64 (Int.ofNat (clampTTL E t) + E.now), [[x1, x2, x3, x4]]⟩, none, []⟩
    ⟨[i1, i2, f1, f2, q1, q2, a1, a2, n1, n2, 0, 0] ++
        (encodeLabels (l0 :: ls) ++ 0 :: 0 :: 1 :: c1 :: c2 :: post),
        12 + (encodeLabels (l0 :: ls)).length + 5⟩ 1 0
    i1 i2 f1 f2 q1 q2 a1 a2 n1 n2 0 0 (encodeLabels (l0 :: ls) ++ [0, 0, 1, c1, c2])
    ([0xC0, 0x0C, 0, 1, 0, 1] ++ be32 0 ++ [0, 4, x1, x2, x3, x4]) 1 hbytes
    (by simp; omega) (by simp) hpack (by decide) (by simp only [List.length_append, List.length_cons, List.length_nil, be32]; omega)
  unfold NSRequest
  simp only [hq1, Exec.bind_ok]
  rw [if_pos h12]
  simp only [hput, hsl, Exec.bind_ok]
  rw [if_neg hname]
  simp only [hr, World.cell_last, World.setCell_last, hcfg]
  rw [if_neg (by simp), if_neg (by simp), if_neg (by simp), if_neg (by simp)]
  simp only [if_neg hdns, hurl, hquery]
  rw [if_neg (by simp), if_neg (by simp), if_neg (by simp)]
  simp only [ne_eq, not_true_eq_false, if_false, Exec.pure_eq, Exec.bind_ok, if_pos hscheme,
    hbytes, hup]
  simp only [World.GetAnswers, World.cell_last_view, World.cell_last, Option.map_none', hga2,
    writeBackSet, World.setCell_last, Exec.bind_ok]
  simp only [applyFallback_A_last, World.cell_last_view, World.cell_last]
  rw [if_neg (by simp), if_neg (by simp [hmod, hproto])]
  simp only [World.cell_last_view, World.cell_last, Option.map_some', Option.map_none']
  have hget : (w.sets ++ [(⟨wrapInt64 (Int.ofNat (clampTTL E t) + E.now), [[x1, x2, x3, x4]]⟩ :
      RecordAddresses)]).getD w.sets.length ⟨0, []⟩ =
      ⟨wrapInt64 (Int.ofNat (clampTTL E t) + E.now), [[x1, x2, x3, x4]]⟩ := by
    simp [List.getD_eq_getElem?_getD]
  rw [hget, hb]
  have e4 : (be32 0).length = 4 := rfl
  simp [e4]

/-- C12 fails as stated: the upstream answers the query for `example.com` with the A
record 1.2.3.4 and TTL 60, and `NSRequest` returns index 0 and a response whose single
answer is 1.2.3.4 with TTL 0, not 60: every A and AAAA response of `NSRequest` is built with
the TTL argument 0. -/
theorem NSRequest_real_ttl_not_echoed :
    Env.udpUpstream.UDPlookup ([0x12, 0x34, 1, 0, 0, 1, 0, 0, 0, 0, 0, 0] ++
        (encodeLabels [str "example", str "com"] ++ [0, 0, 1, 0, 1])) (str "127.0.0.1:53") =
      some (Slice.ofList ([0x12, 0x34, 0x81, 0x80, 0, 1, 0, 1, 0, 0, 0, 0] ++
        (encodeLabels [str "example", str "com"] ++ [0, 0, 1, 0, 1]) ++
        [0xC0, 0x0C, 0, 1, 0, 1, 0, 0, 0, 60, 0, 4, 1, 2, 3, 4])) ∧
    ∃ response w, NSRequest Env.udpUpstream 0
        (Slice.ofList ([0x12, 0x34, 1, 0, 0, 1, 0, 0, 0, 0, 0, 0] ++
          (encodeLabels [str "example", str "com"] ++ [0, 0, 1, 0, 1]))) true World.init =
        .ok ((0, some response), w) ∧
      response.bytes = [0x12, 0x34, 0x81, 0x80, 0, 1, 0, 1, 0, 0, 0, 0] ++
        (encodeLabels [str "example", str "com"] ++ [0, 0, 1, 0, 1]) ++
        [0xC0, 0x0C, 0, 1, 0, 1, 0, 0, 0, 0, 0, 4, 1, 2, 3, 4] ∧
      response.bytes ≠ [0x12, 0x34, 0x81, 0x80, 0, 1, 0, 1, 0, 0, 0, 0] ++
        (encodeLabels [str "example", str "com"] ++ [0, 0, 1, 0, 1]) ++
        [0xC0, 0x0C, 0, 1, 0, 1, 0, 0, 0, 60, 0, 4, 1, 2, 3, 4] := by
  refine ⟨by decide, _, _, NSRequest_real_A_eq Env.udpUpstream 0 _ true World.init
    0x12 0x34 1 0 0 1 0 0 0 0 0 0 0 1 (str "example") [str "com"] []
    ⟨0, str "udp://127.0.0.1:53", 0⟩ ⟨str "udp", str "127.0.0.1:53", []⟩
    0x12 0x34 0x81 0x80 0 0 0 0 0 1 60 1 2 3 4 [] rfl (by decide) (by decide) (by decide)
    (by decide) (by decide) (by decide) rfl (by decide) (by decide) rfl rfl rfl rfl
    (by decide) (by decide), by decide, by decide⟩

/-- C12, amended: a type-A query for a name with no cache entry and no cached ancestor,
under a policy entry with a udp upstream URL without query string, no
address-modification hint and protocol 0; the upstream answers with the question and a
single A record with address `x1.x2.x3.x4` and TTL `t`. Then `NSRequest` returns index 0
and a response with ANCOUNT 1 whose single answer is the A record `x1.x2.x3.x4` with
TTL 0; the TTL `t` goes into the expiry of the cached address set only. -/
theorem NSRequest_real_A (E : Env) (fuel : Nat) (request : Slice) (cache : Bool)
    (w : World) (i1 i2 f1 f2 q1 q2 a1 a2 n1 n2 r1 r2 c1 c2 : Nat) (l0 : List Nat)
    (ls : List (List Nat)) (post : List Nat) (server : PhantomInterface) (u : URL)
    (u1 u2 g1 g2 m1 m2 s1 s2 d1 d2 t x1 x2 x3 x4 : Nat) (Z : List Nat)
    (h : request.arr = [i1, i2, f1, f2, q1, q2, a1, a2, n1, n2, r1, r2] ++
      (encodeLabels (l0 :: ls) ++ 0 :: 0 :: 1 :: c1 :: c2 :: post))
    (hlen : 12 + (encodeLabels (l0 :: ls)).length + 5 ≤ request.len)
    (hlab : ∀ l ∈ l0 :: ls, l ≠ [] ∧ l.length < 63) (hdot : l0.head? ≠ some 46)
    (hsize : (encodeLabels (l0 :: ls)).length ≤ 991)
    (hmiss : LoadDNSCache w (l0 ++ dotted ls) = none)
    (hanc : cachedAncestor w E.SubdomainDepth (l0 ++ dotted ls) = none)
    (hcfg : E.ConfigLookup (l0 ++ dotted ls) = some server) (hdns : server.DNS ≠ [])
    (hurl : E.urlParse server.DNS = some u) (hscheme : u.Scheme = str "udp")
    (hquery : u.RawQuery = [])
    (hmod : Nat.land server.Hint E.OPT_MODIFY = 0) (hproto : server.Protocol = 0)
    (httl : t < 4294967296)
    (hup : E.UDPlookup ([i1, i2, f1, f2, q1, q2, a1, a2, n1, n2, 0, 0] ++
        (encodeLabels (l0 :: ls) ++ [0, 0, 1, c1, c2])) u.Host =
      some ⟨[u1, u2, g1, g2, 0, 1, 0, 1, m1, m2, s1, s2] ++
        ((encodeLabels (l0 :: ls) ++ [0, 0, 1, d1, d2]) ++
          (([0xC0, 0x0C, 0, 1, 0, 1] ++ be32 t ++ [0, 4, x1, x2, x3, x4]) ++ Z)),
        12 + ((encodeLabels (l0 :: ls)).length + 5) + 16⟩) :
    ∃ response, NSRequest E fuel request cache w = .ok ((0, some response),
        ⟨w.cells ++ [⟨0, Nat.land server.Hint E.OPT_DNS, some w.sets.length, none, []⟩],
          w.sets ++ [⟨wrapInt64 (Int.ofNat (clampTTL E t) + E.now), [[x1, x2, x3, x4]]⟩],
          if cache then (l0 ++ dotted ls, w.cells.length) :: w.DNSCache else w.DNSCache,
          w.Nose⟩) ∧
      response.bytes = [i1, i2, 0x81, 0x80, q1, q2, 0, 1, n1, n2, 0, 0] ++
        (encodeLabels (l0 :: ls) ++ [0, 0, 1, c1, c2]) ++
        [0xC0, 0x0C, 0, 1, 0, 1, 0, 0, 0, 0, 0, 4, x1, x2, x3, x4] := by
  refine ⟨_, NSRequest_real_A_eq E fuel request cache w i1 i2 f1 f2 q1 q2 a1 a2 n1 n2 r1 r2
    c1 c2 l0 ls post server u u1 u2 g1 g2 m1 m2 s1 s2 d1 d2 t x1 x2 x3 x4 Z h hlen hlab hdot
    hsize hmiss hanc hcfg hdns hurl hscheme hquery hmod hproto httl hup, ?_⟩
  simp only [Slice.bytes]
  have harr : [i1, i2, 0x81, 0x80, q1, q2, 0, 1, n1, n2, 0, 0] ++
      ((encodeLabels (l0 :: ls) ++ [0, 0, 1, c1, c2]) ++
        (([0xC0, 0x0C, 0, 1, 0, 1] ++ be32 0 ++ [0, 4, x1, x2, x3, x4]) ++
        List.replicate (1024 - (12 + ((encodeLabels (l0 :: ls)).length + 5) + 16)) 0)) =
      ([i1, i2, 0x81, 0x80, q1, q2, 0, 1, n1, n2, 0, 0] ++
      (encodeLabels (l0 :: ls) ++ [0, 0, 1, c1, c2]) ++
      [0xC0, 0x0C, 0, 1, 0, 1, 0, 0, 0, 0, 0, 4, x1, x2, x3, x4]) ++
        List.replicate (1024 - (12 + ((encodeLabels (l0 :: ls)).length + 5) + 16)) 0 := by
    simp [be32]
  rw [harr]
  exact List.take_left' (by simp; omega)

/-- C12, amended, for `example.com` with the upstream answer 1.2.3.4, TTL 60: the
response carries 1.2.3.4 with TTL 0. -/
theorem NSRequest_real_A_witness :
    ∃ response, NSRequest Env.udpUpstream 0
        (Slice.ofList ([0x12, 0x34, 1, 0, 0, 1, 0, 0, 0, 0, 0, 0] ++
          (encodeLabels [str "example", str "com"] ++ [0, 0, 1, 0, 1]))) true World.init =
        .ok ((0, some response),
        ⟨World.init.cells ++ [⟨0, Nat.land 0 Env.udpUpstream.OPT_DNS,
            some World.init.sets.length, none, []⟩],
          World.init.sets ++ [⟨wrapInt64 (Int.ofNat (clampTTL Env.udpUpstream 60) +
            Env.udpUpstream.now), [[1, 2, 3, 4]]⟩],
          if true then (str "example" ++ dotted [str "com"], World.init.cells.length) ::
            World.init.DNSCache else World.init.DNSCache,
          World.init.Nose⟩) ∧
      response.bytes = [0x12, 0x34, 0x81, 0x80, 0, 1, 0, 1, 0, 0, 0, 0] ++
        (encodeLabels [str "example", str "com"] ++ [0, 0, 1, 0, 1]) ++
        [0xC0, 0x0C, 0, 1, 0, 1, 0, 0, 0, 0, 0, 4, 1, 2, 3, 4] :=
  NSRequest_real_A Env.udpUpstream 0 _ true World.init
    0x12 0x34 1 0 0 1 0 0 0 0 0 0 0 1 (str "example") [str "com"] []
    ⟨0, str "udp://127.0.0.1:53", 0⟩ ⟨str "udp", str "127.0.0.1:53", []⟩
    0x12 0x34 0x81 0x80 0 0 0 0 0 1 60 1 2 3 4 [] rfl (by decide) (by decide) (by decide)
    (by decide) (by decide) (by decide) rfl (by decide) (by decide) rfl rfl rfl rfl
    (by decide) (by decide)

/-! ## C13: the virtual AAAA answer -/

theorem BuildResponse_virtual_AAAA_eq (E : Env) (records : DNSRecords) (request : Slice)
    (ttl i1 i2 f1 f2 : Nat) (body : List Nat)
    (hb : request.bytes = [i1, i2, f1, f2] ++ body)
    (hl : request.len = 4 + body.length) (hidx : records.Index > 0)
    (hfit : request.len ≤ 1024) :
    BuildResponse E records request 28 ttl =
      .ok ⟨[i1, i2, 0x81, 0x80] ++ (body ++ List.replicate (1024 - (4 + body.length)) 0),
        4 + body.length⟩ := by
  have hrep : List.replicate 1024 0 = [] ++ (List.replicate (4 + body.length) 0 ++
      List.replicate (1024 - (4 + body.length)) 0) := by
    rw [List.nil_append, ← List.replicate_add]
    congr 1; omega
  have hcopy := copyAt_at [] (List.replicate (4 + body.length) 0)
    (List.replicate (1024 - (4 + body.length)) 0) ([i1, i2, f1, f2] ++ body) 0 rfl
    (by simp; omega)
  rw [← hrep] at hcopy
  unfold BuildResponse
  simp only [hb, hcopy, Exec.bind_ok, hl, if_pos hidx]
  have e1 : ∀ Z : List Nat, setByte ([] ++ ([i1, i2, f1, f2] ++ body ++ Z)) 2 0x81 =
      .ok (i1 :: i2 :: 0x81 :: f2 :: (body ++ Z)) := by
    intro Z; simp [setByte]
  have e2 : ∀ Z : List Nat, setByte (i1 :: i2 :: 0x81 :: f2 :: Z) 3 0x80 =
      .ok (i1 :: i2 :: 0x81 :: 0x80 :: Z) := by
    intro Z; simp [setByte]
  simp only [e1, e2, Exec.bind_ok]
  rw [if_neg (by decide), if_pos trivial, sliceTo, if_pos (by simp; omega)]
  rfl

/-- C13 fails as stated: for the query for `example.com` with the flag bytes 0x01 0x00
and a record with virtual index 5, `BuildResponse` for qtype 28 returns bytes that
differ from the request in the flag bytes, which are 0x81 0x80. -/
theorem BuildResponse_virtual_AAAA_sets_flags :
    ∃ response, BuildResponse Env.sample ⟨5, 0, none, none, []⟩
        (Slice.ofList ([0x12, 0x34, 1, 0] ++ ([0, 1, 0, 0, 0, 0, 0, 0] ++
          (encodeLabels [str "example", str "com"] ++ [0, 0, 28, 0, 1])))) 28 0 = .ok response ∧
      response.bytes = [0x12, 0x34, 0x81, 0x80] ++ ([0, 1, 0, 0, 0, 0, 0, 0] ++
          (encodeLabels [str "example", str "com"] ++ [0, 0, 28, 0, 1])) ∧
      response.bytes ≠ (Slice.ofList ([0x12, 0x34, 1, 0] ++ ([0, 1, 0, 0, 0, 0, 0, 0] ++
          (encodeLabels [str "example", str "com"] ++ [0, 0, 28, 0, 1])))).bytes :=
  ⟨_, BuildResponse_virtual_AAAA_eq Env.sample ⟨5, 0, none, none, []⟩ _ 0 0x12 0x34 1 0
    ([0, 1, 0, 0, 0, 0, 0, 0] ++ (encodeLabels [str "example", str "com"] ++ [0, 0, 28, 0, 1]))
    (by decide) (by decide) (by decide) (by decide), by decide, by decide⟩

/-- C13, amended: for every request of 4 to 1024 bytes and every record with virtual
index > 0, `BuildResponse` for qtype 28 returns the request bytes with bytes 2 and 3,
the flags, set to 0x81 0x80 and nothing else changed: the length is that of the request
and no answer is appended. -/
theorem BuildResponse_virtual_AAAA (E : Env) (records : DNSRecords) (request : Slice)
    (ttl i1 i2 f1 f2 : Nat) (body : List Nat)
    (hb : request.bytes = [i1, i2, f1, f2] ++ body)
    (hl : request.len = 4 + body.length) (hidx : records.Index > 0)
    (hfit : request.len ≤ 1024) :
    ∃ response, BuildResponse E records request 28 ttl = .ok response ∧
      response.len = request.len ∧ response.bytes = [i1, i2, 0x81, 0x80] ++ body := by
  refine ⟨_, BuildResponse_virtual_AAAA_eq E records request ttl i1 i2 f1 f2 body hb hl hidx
    hfit, by simp [hl], ?_⟩
  simp only [Slice.bytes]
  rw [← List.append_assoc]
  exact List.take_left' (by simp; omega)

/-- C13, amended, at the AAAA query for `example.com` and index 5. -/
theorem BuildResponse_virtual_AAAA_witness :
    ∃ response, BuildResponse Env.sample ⟨5, 0, none, none, []⟩
        (Slice.ofList ([0x12, 0x34, 1, 0] ++ ([0, 1, 0, 0, 0, 0, 0, 0] ++
          (encodeLabels [str "example", str "com"] ++ [0, 0, 28, 0, 1])))) 28 0 = .ok response ∧
      response.len = (Slice.ofList ([0x12, 0x34, 1, 0] ++ ([0, 1, 0, 0, 0, 0, 0, 0] ++
          (encodeLabels [str "example", str "com"] ++ [0, 0, 28, 0, 1])))).len ∧
      response.bytes = [0x12, 0x34, 0x81, 0x80] ++ ([0, 1, 0, 0, 0, 0, 0, 0] ++
          (encodeLabels [str "example", str "com"] ++ [0, 0, 28, 0, 1])) :=
  BuildResponse_virtual_AAAA Env.sample ⟨5, 0, none, none, []⟩ _ 0 0x12 0x34 1 0
    ([0, 1, 0, 0, 0, 0, 0, 0] ++ (encodeLabels [str "example", str "com"] ++ [0, 0, 28, 0, 1]))
    (by decide) (by decide) (by decide) (by decide)

/-! ## C14: the DNS64 rewrite -/

theorem TCPlookupDNS64.skipName_total (s : Slice) : ∀ (fuel offset : Nat),
    0 < fuel → s.len < fuel + offset → ∃ r, TCPlookupDNS64.skipName s fuel offset = .ok r := by
  intro fuel
  induction fuel with
  | zero => intro offset h; omega
  | succ f ih =>
    intro offset _ hlen
    rw [TCPlookupDNS64.skipName]
    split
    · exact ⟨none, rfl⟩
    · rename_i hoff
      rw [Slice.get, if_pos (by omega)]
      simp only [Exec.bind_ok]
      split
      · exact ⟨_, rfl⟩
      · split
        · try dsimp only
          split
          · exact ⟨none, rfl⟩
          · exact ih _ (by omega) (by omega)
        · exact ⟨_, rfl⟩

theorem TCPlookupDNS64.skipName_name (ls : List (List Nat)) :
    ∀ (pre term post : List Nat) (s : Slice) (fuel off : Nat),
      s.arr = pre ++ (encodeLabels ls ++ (term ++ post)) → off = pre.length →
      off + (encodeLabels ls).length + term.length + 2 ≤ s.len →
      ls.length < fuel → (∀ l ∈ ls, l ≠ [] ∧ l.length < 63) →
      (term = [0] ∨ ∃ p q, term = [p, q] ∧ 63 ≤ p) →
      TCPlookupDNS64.skipName s fuel off =
        .ok (some (off + (encodeLabels ls).length + term.length)) := by
  induction ls with
  | nil =>
    intro pre term post s fuel off h hoff hlen hfuel _ hterm
    obtain ⟨f, rfl⟩ : ∃ f, fuel = f + 1 := ⟨fuel - 1, by simp at hfuel; omega⟩
    simp only [encodeLabels, List.nil_append, List.length_nil, Nat.add_zero] at h hlen ⊢
    rcases hterm with rfl | ⟨p, q, rfl, hp⟩
    · have hg := Slice.get_mid s pre 0 post off (by simpa using h) hoff
        (by simp at hlen; omega)
      simp [TCPlookupDNS64.skipName, hg, show ¬ s.len ≤ off by simp at hlen; omega]
    · have hg := Slice.get_mid s pre p (q :: post) off (by simpa using h) hoff
        (by simp at hlen; omega)
      rw [TCPlookupDNS64.skipName, if_neg (by simp at hlen; omega)]
      simp only [hg, Exec.bind_ok]
      rw [if_neg (by omega), if_neg (by omega)]
      rfl
  | cons l ls ih =>
    intro pre term post s fuel off h hoff hlen hfuel hne hterm
    obtain ⟨f, rfl⟩ : ∃ f, fuel = f + 1 := ⟨fuel - 1, by simp at hfuel; omega⟩
    have hl0 : l.length ≠ 0 := by
      have := (hne l (List.mem_cons_self _ _)).1
      simpa using this
    have hl63 := (hne l (List.mem_cons_self _ _)).2
    simp only [encodeLabels, List.length_cons, List.length_append] at h hlen
    have hg := Slice.get_mid s pre l.length (l ++ encodeLabels ls ++ (term ++ post)) off
      (by simpa using h) hoff (by omega)
    have hrec := ih (pre ++ l.length :: l) term post s f (off + 1 + l.length)
      (by simpa using h) (by simp [hoff]; omega)
      (by omega) (by simp at hfuel; omega) (fun x hx => hne x (List.mem_cons_of_mem _ hx)) hterm
    rw [TCPlookupDNS64.skipName, if_neg (by omega)]
    simp only [hg, Exec.bind_ok, hl0, if_false, hl63, if_true]
    rw [if_neg (by omega), hrec]
    simp [encodeLabels]
    omega

theorem copyAt_append (pre rest src : List Nat) (off : Nat) (hoff : off = pre.length)
    (h : src.length ≤ rest.length) :
    copyAt (pre ++ rest) off src = .ok (pre ++ (src ++ rest.drop src.length)) := by
  have := copyAt_at pre (rest.take src.length) (rest.drop src.length) src off hoff
    (by simp; omega)
  rwa [List.take_append_drop] at this

theorem putU16_append (pre rest : List Nat) (off v : Nat) (hoff : off = pre.length)
    (h : 2 ≤ rest.length) :
    putU16 (pre ++ rest) off v = .ok (pre ++ ([v / 256 % 256, v % 256] ++ rest.drop 2)) := by
  match rest, h with
  | a :: b :: post, _ => simpa using putU16_at pre post a b off v hoff

theorem u16_split (v : Nat) (h : v < 65536) : v / 256 % 256 * 256 + v % 256 = v := by omega

theorem TCPlookupDNS64.answers_step (s pfx : Slice) (r : RR) (n : Nat)
    (pre post out rest : List Nat) (off : Nat)
    (h : s.arr = pre ++ (r.wire ++ post)) (hoff : off = pre.length)
    (hlen : off + r.wire.length ≤ s.len) (hwf : r.WellFormed) (hpfx : 12 ≤ pfx.arr.length)
    (hfit : (r.dns64 pfx.arr).length ≤ rest.length) :
    TCPlookupDNS64.answers s pfx (n + 1) (out ++ rest) off out.length off =
      TCPlookupDNS64.answers s pfx n
        (out ++ (r.dns64 pfx.arr ++ rest.drop (r.dns64 pfx.arr).length))
        (off + r.wire.length) (out.length + (r.dns64 pfx.arr).length)
        (off + r.wire.length) := by
  obtain ⟨⟨labels, term, hname, hlab, hterm⟩, htyp, hct, hrd, hA⟩ := hwf
  have hterm2 : term.length ≤ 2 := by
    rcases hterm with rfl | ⟨p, q, rfl, _⟩ <;> simp
  have hwire : r.wire.length = r.name.length + 10 + r.rdata.length := by
    simp [RR.wire, hct]; omega
  have harr : s.arr = pre ++ (r.name ++ ((r.typ / 256 % 256) :: (r.typ % 256) ::
      (r.classTTL ++ ((r.rdata.length / 256 % 256) :: (r.rdata.length % 256) ::
        (r.rdata ++ post))))) := by
    rw [h]; simp [RR.wire]
  have hskip : TCPlookupDNS64.skipName s (s.len + 1) off = .ok (some (off + r.name.length)) := by
    have := TCPlookupDNS64.skipName_name labels pre term
      ((r.typ / 256 % 256) :: (r.typ % 256) ::
      (r.classTTL ++ ((r.rdata.length / 256 % 256) :: (r.rdata.length % 256) ::
        (r.rdata ++ post)))) s (s.len + 1) off
      (by rw [harr, hname]; simp) hoff
      (by rw [hname] at hwire; simp at hwire; omega)
      (by have := length_encodeLabels_ge labels; rw [hname] at hwire; simp at hwire; omega)
      hlab hterm
    rw [this, hname]; simp; omega
  have hsl1 : s.slice off (off + r.name.length) = .ok r.name :=
    Slice.slice_mid s pre r.name _ off _ harr hoff rfl
  have hty : s.u16 (off + r.name.length) = .ok r.typ := by
    have := Slice.u16_mid s (pre ++ r.name) (r.classTTL ++ ((r.rdata.length / 256 % 256) ::
      (r.rdata.length % 256) :: (r.rdata ++ post))) (r.typ / 256 % 256) (r.typ % 256)
      (off + r.name.length) (by rw [harr]; simp) (by simp [hoff])
    rw [this, u16_split _ htyp]
  have hdl : s.u16 (off + r.name.length + 8) = .ok r.rdata.length := by
    have := Slice.u16_mid s (pre ++ (r.name ++ ((r.typ / 256 % 256) :: (r.typ % 256) ::
      r.classTTL))) (r.rdata ++ post) (r.rdata.length / 256 % 256) (r.rdata.length % 256)
      (off + r.name.length + 8) (by rw [harr]; simp) (by simp [hoff, hct]; omega)
    rw [this, u16_split _ hrd]
  rw [TCPlookupDNS64.answers]
  simp only [hskip, Exec.bind_ok]
  rw [if_neg (by omega)]
  have e1 : off + r.name.length - off = r.name.length := by omega
  have hd64 : (r.dns64 pfx.arr).length =
      if r.typ = 1 then r.name.length + 22 + r.rdata.length else r.wire.length := by
    unfold RR.dns64
    split
    · simp [hct, Nat.min_eq_left hpfx]; omega
    · rfl
  have hc1 : copyAt (out ++ rest) out.length r.name =
      .ok ((out ++ r.name) ++ rest.drop r.name.length) := by
    rw [copyAt_append out rest r.name _ rfl (by rw [hd64] at hfit; split at hfit <;> omega)]
    simp
  simp only [hsl1, Exec.bind_ok, hty, hc1, e1]
  rw [if_neg (by omega)]
  simp only [hdl, Exec.bind_ok]
  by_cases hA1 : r.typ = 1
  · have h4 := hA hA1
    rw [hd64, if_pos hA1] at hfit
    rw [if_pos hA1, if_neg (by omega)]
    have hp1 : putU16 ((out ++ r.name) ++ rest.drop r.name.length) (out.length + r.name.length) 28 =
        .ok ((out ++ r.name ++ [0, 28]) ++ rest.drop (r.name.length + 2)) := by
      rw [putU16_append _ _ _ _ (by simp) (by simp; omega)]
      simp [List.drop_drop, Nat.add_comm]
    have hsl2 : s.slice (off + r.name.length + 2) (off + r.name.length + 2 + 6) = .ok r.classTTL :=
      Slice.slice_mid s (pre ++ (r.name ++ [r.typ / 256 % 256, r.typ % 256])) r.classTTL
        ((r.rdata.length / 256 % 256) :: (r.rdata.length % 256) :: (r.rdata ++ post)) _ _
        (by rw [harr]; simp) (by simp [hoff]; omega) (by rw [hct])
    have hc2 : copyAt ((out ++ r.name ++ [0, 28]) ++ rest.drop (r.name.length + 2))
        (out.length + r.name.length + 2) r.classTTL =
        .ok ((out ++ r.name ++ [0, 28] ++ r.classTTL) ++ rest.drop (r.name.length + 8)) := by
      rw [copyAt_append _ _ _ _ (by simp; omega) (by simp; omega)]
      simp [List.drop_drop, hct, Nat.add_comm]
    have hp2 : putU16 ((out ++ r.name ++ [0, 28] ++ r.classTTL) ++ rest.drop (r.name.length + 8))
        (out.length + r.name.length + 2 + 6) ((r.rdata.length + 12) % 65536) =
        .ok ((out ++ r.name ++ [0, 28] ++ r.classTTL ++ [0, 16]) ++
          rest.drop (r.name.length + 10)) := by
      rw [putU16_append _ _ _ _ (by simp [hct]; omega) (by simp; omega)]
      simp [List.drop_drop, h4, Nat.add_comm]
      congr 1; omega
    have hps : pfx.slice 0 12 = .ok (pfx.arr.take 12) := by
      simp [Slice.slice, hpfx]
    have hc3 : copyAt ((out ++ r.name ++ [0, 28] ++ r.classTTL ++ [0, 16]) ++
          rest.drop (r.name.length + 10)) (out.length + r.name.length + 2 + 6 + 2)
          (pfx.arr.take 12) =
        .ok ((out ++ r.name ++ [0, 28] ++ r.classTTL ++ [0, 16] ++ pfx.arr.take 12) ++
          rest.drop (r.name.length + 22)) := by
      rw [copyAt_append _ _ _ _ (by simp [hct]; omega) (by simp [Nat.min_eq_left hpfx]; omega)]
      simp [List.drop_drop, Nat.min_eq_left hpfx, Nat.add_comm]
    have hsl3 : s.slice (off + r.name.length + 2 + 6 + 2)
        (off + r.name.length + 8 + 2 + r.rdata.length) = .ok r.rdata :=
      Slice.slice_mid s (pre ++ (r.name ++ ((r.typ / 256 % 256) :: (r.typ % 256) ::
        (r.classTTL ++ [r.rdata.length / 256 % 256, r.rdata.length % 256])))) r.rdata post _ _
        (by rw [harr]; simp) (by simp [hoff, hct]; omega) (by omega)
    have hc4 : copyAt ((out ++ r.name ++ [0, 28] ++ r.classTTL ++ [0, 16] ++ pfx.arr.take 12) ++
          rest.drop (r.name.length + 22)) (out.length + r.name.length + 2 + 6 + 2 + 12) r.rdata =
        .ok (out ++ (r.dns64 pfx.arr ++ rest.drop (r.dns64 pfx.arr).length)) := by
      rw [copyAt_append _ _ _ _ (by simp [hct, Nat.min_eq_left hpfx]; omega) (by simp; omega)]
      rw [hd64, if_pos hA1]
      simp [RR.dns64, hA1, List.drop_drop, Nat.add_comm]
    simp only [hp1, hsl2, hc2, hp2, hps, hc3, hsl3, hc4, Exec.bind_ok]
    congr 1
    · omega
    · rw [hd64, if_pos hA1]; omega
    · omega
  · rw [hd64, if_neg hA1] at hfit
    rw [if_neg hA1]
    have hsl2 : s.slice (off + r.name.length) (off + r.name.length + 8 + 2 + r.rdata.length) =
        .ok ((r.typ / 256 % 256) :: (r.typ % 256) ::
          (r.classTTL ++ ((r.rdata.length / 256 % 256) :: (r.rdata.length % 256) :: r.rdata))) :=
      Slice.slice_mid s (pre ++ r.name) _ post _ _
        (by rw [harr]; simp) (by simp [hoff]) (by simp [hct]; omega)
    have hc2 : copyAt ((out ++ r.name) ++ rest.drop r.name.length) (out.length + r.name.length)
        ((r.typ / 256 % 256) :: (r.typ % 256) ::
          (r.classTTL ++ ((r.rdata.length / 256 % 256) :: (r.rdata.length % 256) :: r.rdata))) =
        .ok (out ++ (r.dns64 pfx.arr ++ rest.drop (r.dns64 pfx.arr).length)) := by
      rw [copyAt_append _ _ _ _ (by simp) (by simp [hct]; omega)]
      rw [hd64, if_neg hA1, hwire]
      simp [RR.dns64, hA1, RR.wire, List.drop_drop, hct, Nat.add_comm]
      congr 1; omega
    simp only [hsl2, hc2, Exec.bind_ok]
    congr 1
    · omega
    · rw [hd64, if_neg hA1]; omega
    · omega

theorem TCPlookupDNS64.answers_all (s pfx : Slice) (hpfx : 12 ≤ pfx.arr.length)
    (rrs : List RR) :
    ∀ (pre post out rest : List Nat) (off : Nat),
      s.arr = pre ++ (RR.wires rrs ++ post) → off = pre.length →
      off + (RR.wires rrs).length ≤ s.len → (∀ r ∈ rrs, r.WellFormed) →
      (RR.dns64s pfx.arr rrs).length ≤ rest.length →
      TCPlookupDNS64.answers s pfx rrs.length (out ++ rest) off out.length off =
        .ok (some (out ++ (RR.dns64s pfx.arr rrs ++ rest.drop (RR.dns64s pfx.arr rrs).length),
          out.length + (RR.dns64s pfx.arr rrs).length)) := by
  induction rrs with
  | nil =>
    intro pre post out rest off _ _ _ _ _
    simp [TCPlookupDNS64.answers, RR.dns64s]
  | cons r rrs ih =>
    intro pre post out rest off h hoff hlen hwf hfit
    simp only [RR.wires, RR.dns64s, List.length_append] at h hlen hfit ⊢
    rw [List.length_cons, TCPlookupDNS64.answers_step s pfx r rrs.length pre
      (RR.wires rrs ++ post) out rest off (by simpa using h) hoff (by omega)
      (hwf r (List.mem_cons_self _ _)) hpfx (by omega)]
    have := ih (pre ++ r.wire) post (out ++ r.dns64 pfx.arr)
      (rest.drop (r.dns64 pfx.arr).length) (off + r.wire.length) (by simpa using h)
      (by simp [hoff]) (by omega) (fun x hx => hwf x (List.mem_cons_of_mem _ hx))
      (by simp; omega)
    simp only [List.length_append, List.append_assoc] at this
    rw [this]
    simp [List.drop_drop, Nat.add_comm, Nat.add_assoc]

theorem RR.dns64s_take (pfx : Slice) (h : 12 ≤ pfx.len) (rrs : List RR) :
    RR.dns64s pfx.bytes rrs = RR.dns64s pfx.arr rrs := by
  have ht : pfx.bytes.take 12 = pfx.arr.take 12 := by
    simp [Slice.bytes, List.take_take, Nat.min_eq_left h]
  induction rrs with
  | nil => rfl
  | cons r rrs ih => simp only [RR.dns64s, RR.dns64, ht, ih]

theorem TCPlookupDNS64_eq (E : Env) (request : Slice) (address : List Nat) (pfx response : Slice)
    (arr : List Nat) (i1 i2 f1 f2 q1 q2 n1 n2 r1 r2 t1 t2 c1 c2 : Nat) (qn : List Nat)
    (rrs : List RR) (Z : List Nat)
    (hput : putU16 request.arr (12 + qn.length) 1 = .ok arr)
    (hup : E.TCPlookup (arr.take request.len) address = some response)
    (hresp : response.arr = [i1, i2, f1, f2, q1, q2, rrs.length / 256 % 256, rrs.length % 256,
      n1, n2, r1, r2] ++ (qn ++ [t1, t2, c1, c2]) ++ (RR.wires rrs ++ Z))
    (hlen : response.len = 12 + (qn.length + 4) + (RR.wires rrs).length)
    (hcount : rrs.length < 65536) (hwf : ∀ r ∈ rrs, r.WellFormed)
    (hpfx : 12 ≤ pfx.arr.length)
    (hfit : 12 + (qn.length + 4) + (RR.dns64s pfx.arr rrs).length ≤ 1024) :
    TCPlookupDNS64 E request address (12 + qn.length + 4) pfx = .ok (arr, some (some
      ⟨([i1, i2, f1, f2, q1, q2, rrs.length / 256 % 256, rrs.length % 256, n1, n2, r1, r2] ++
        (qn ++ [0, 28, c1, c2])) ++ (RR.dns64s pfx.arr rrs ++
          (List.replicate 1024 0).drop (12 + (qn.length + 4) + (RR.dns64s pfx.arr rrs).length)),
        12 + (qn.length + 4) + (RR.dns64s pfx.arr rrs).length⟩)) := by
  have hR : (List.replicate 1024 0).length = 1024 := List.length_replicate _ _
  unfold TCPlookupDNS64
  generalize List.replicate 1024 0 = R at hR ⊢
  have hhead : response.slice 0 (12 + qn.length + 4) =
      .ok ([i1, i2, f1, f2, q1, q2, rrs.length / 256 % 256, rrs.length % 256,
        n1, n2, r1, r2] ++ (qn ++ [t1, t2, c1, c2])) :=
    Slice.slice_mid response [] _ (RR.wires rrs ++ Z) 0 _ (by rw [hresp]; simp) rfl (by simp; omega)
  have hc0 : copyAt R 0 ([i1, i2, f1, f2, q1, q2, rrs.length / 256 % 256, rrs.length % 256,
        n1, n2, r1, r2] ++ (qn ++ [t1, t2, c1, c2])) =
      .ok (([i1, i2, f1, f2, q1, q2, rrs.length / 256 % 256, rrs.length % 256,
        n1, n2, r1, r2] ++ qn) ++ t1 :: t2 :: (c1 :: c2 :: R.drop (12 + (qn.length + 4)))) := by
    have := copyAt_append [] R ([i1, i2, f1, f2, q1, q2, rrs.length / 256 % 256,
      rrs.length % 256, n1, n2, r1, r2] ++ (qn ++ [t1, t2, c1, c2])) 0 rfl (by simp; omega)
    rw [List.nil_append] at this
    rw [this]
    simp
    congr 1; omega
  have hp0 := putU16_at ([i1, i2, f1, f2, q1, q2, rrs.length / 256 % 256, rrs.length % 256,
        n1, n2, r1, r2] ++ qn) (c1 :: c2 :: R.drop (12 + (qn.length + 4))) t1 t2
        (12 + qn.length) 28 (by simp; omega)
  have hcnt : response.u16 6 = .ok rrs.length := by
    have := Slice.u16_mid response [i1, i2, f1, f2, q1, q2]
      (n1 :: n2 :: r1 :: r2 :: ((qn ++ [t1, t2, c1, c2]) ++ (RR.wires rrs ++ Z)))
      (rrs.length / 256 % 256) (rrs.length % 256) 6 (by rw [hresp]; simp) rfl
    rw [this, u16_split _ hcount]
  have hans := TCPlookupDNS64.answers_all response pfx hpfx rrs
    ([i1, i2, f1, f2, q1, q2, rrs.length / 256 % 256, rrs.length % 256,
        n1, n2, r1, r2] ++ (qn ++ [t1, t2, c1, c2])) Z
    ([i1, i2, f1, f2, q1, q2, rrs.length / 256 % 256, rrs.length % 256,
        n1, n2, r1, r2] ++ (qn ++ [0, 28, c1, c2])) (R.drop (12 + (qn.length + 4)))
    (12 + qn.length + 4) (by rw [hresp]) (by simp; omega) (by rw [hlen]; omega) hwf
    (by simp; omega)
  rw [if_pos (by omega)]
  simp only [show 12 + qn.length + 4 - 4 = 12 + qn.length by omega, hput, Exec.bind_ok, hup,
    hhead, hc0, hp0, hcnt]
  have e1 : ([i1, i2, f1, f2, q1, q2, rrs.length / 256 % 256, rrs.length % 256,
        n1, n2, r1, r2] ++ qn) ++ (28 / 256 % 256) :: (28 % 256) ::
        (c1 :: c2 :: R.drop (12 + (qn.length + 4))) =
      ([i1, i2, f1, f2, q1, q2, rrs.length / 256 % 256, rrs.length % 256,
        n1, n2, r1, r2] ++ (qn ++ [0, 28, c1, c2])) ++ R.drop (12 + (qn.length + 4)) := by
    simp
  have e2 : 12 + qn.length + 4 = ([i1, i2, f1, f2, q1, q2, rrs.length / 256 % 256,
      rrs.length % 256, n1, n2, r1, r2] ++ (qn ++ [0, 28, c1, c2])).length := by
    simp; omega
  rw [e1]
  nth_rewrite 2 [e2]
  rw [hans]
  simp only [Exec.bind_ok]
  rw [sliceTo, if_pos (by simp; omega)]
  simp [List.drop_drop, Nat.add_comm, Nat.add_assoc, Nat.add_left_comm]

/-- C14: `TCPlookupDNS64` on an upstream response made of a 12-byte header whose ANCOUNT
is the number of records, a question that ends at `offset`, and well-formed answer
records, with a prefix of at least 12 bytes and an output that fits 1024 bytes: the
result is the header unchanged, the question with its QTYPE set to 28, and the DNS64
images of the records in the same order, where a record that is not of type A is
copied byte for byte and an A record becomes its name, type 28, its class and TTL,
RDLENGTH 16 and the first 12 prefix bytes followed by the 4 address bytes. -/
theorem TCPlookupDNS64_rewrite (E : Env) (request : Slice) (address : List Nat)
    (pfx response : Slice) (arr : List Nat)
    (i1 i2 f1 f2 q1 q2 n1 n2 r1 r2 t1 t2 c1 c2 : Nat) (qn : List Nat)
    (rrs : List RR) (Z : List Nat)
    (hput : putU16 request.arr (12 + qn.length) 1 = .ok arr)
    (hup : E.TCPlookup (arr.take request.len) address = some response)
    (hresp : response.arr = [i1, i2, f1, f2, q1, q2, rrs.length / 256 % 256, rrs.length % 256,
      n1, n2, r1, r2] ++ (qn ++ [t1, t2, c1, c2]) ++ (RR.wires rrs ++ Z))
    (hlen : response.len = 12 + (qn.length + 4) + (RR.wires rrs).length)
    (hcount : rrs.length < 65536) (hwf : ∀ r ∈ rrs, r.WellFormed)
    (hpfx : 12 ≤ pfx.len) (hcap : pfx.len ≤ pfx.arr.length)
    (hfit : 12 + (qn.length + 4) + (RR.dns64s pfx.bytes rrs).length ≤ 1024) :
    ∃ result, TCPlookupDNS64 E request address (12 + qn.length + 4) pfx =
        .ok (arr, some (some result)) ∧
      result.bytes = [i1, i2, f1, f2, q1, q2, rrs.length / 256 % 256, rrs.length % 256,
        n1, n2, r1, r2] ++ (qn ++ [0, 28, c1, c2]) ++ RR.dns64s pfx.bytes rrs := by
  rw [RR.dns64s_take pfx hpfx rrs] at hfit ⊢
  refine ⟨_, TCPlookupDNS64_eq E request address pfx response arr i1 i2 f1 f2 q1 q2 n1 n2 r1 r2
    t1 t2 c1 c2 qn rrs Z hput hup hresp hlen hcount hwf (by omega) hfit, ?_⟩
  simp only [Slice.bytes]
  rw [← List.append_assoc]
  exact List.take_left' (by simp; omega)

/-- C14 for the AAAA query for `example.com`, an upstream answer with the single A record
93.184.216.34 and the prefix `64:ff9b::`: the result carries exactly one AAAA record,
`64:ff9b::5db8:d822`. -/
theorem TCPlookupDNS64_rewrite_witness :
    ∃ result, TCPlookupDNS64 Env.dns64Upstream
        (Slice.ofList ([0x12, 0x34, 1, 0, 0, 1, 0, 0, 0, 0, 0, 0] ++
          (encodeLabels [str "example", str "com"] ++ [0, 0, 28, 0, 1]))) (str "8.8.8.8:53")
        (12 + (encodeLabels [str "example", str "com"] ++ [0]).length + 4)
        (Slice.ofList [0, 0x64, 0xff, 0x9b, 0, 0, 0, 0, 0, 0, 0, 0, 0, 0, 0, 0]) =
        .ok ([0x12, 0x34, 1, 0, 0, 1, 0, 0, 0, 0, 0, 0] ++
          (encodeLabels [str "example", str "com"] ++ [0, 0, 1, 0, 1]), some (some result)) ∧
      result.bytes = [0x12, 0x34, 0x81, 0x80, 0, 1, 0, 1, 0, 0, 0, 0] ++
        ((encodeLabels [str "example", str "com"] ++ [0]) ++ [0, 28, 0, 1]) ++
        [0xC0, 0x0C, 0, 28, 0, 1, 0, 0, 0, 60, 0, 16,
          0, 0x64, 0xff, 0x9b, 0, 0, 0, 0, 0, 0, 0, 0, 93, 184, 216, 34] :=
  TCPlookupDNS64_rewrite Env.dns64Upstream _ (str "8.8.8.8:53")
    (Slice.ofList [0, 0x64, 0xff, 0x9b, 0, 0, 0, 0, 0, 0, 0, 0, 0, 0, 0, 0])
    (Slice.ofList ([0x12, 0x34, 0x81, 0x80, 0, 1, 0, 1, 0, 0, 0, 0] ++
      ((encodeLabels [str "example", str "com"] ++ [0]) ++ [0, 1, 0, 1]) ++
      [0xC0, 0x0C, 0, 1, 0, 1, 0, 0, 0, 60, 0, 4, 93, 184, 216, 34]))
    _ 0x12 0x34 0x81 0x80 0 1 0 0 0 0 0 1 0 1 (encodeLabels [str "example", str "com"] ++ [0])
    [⟨[0xC0, 0x0C], 1, [0, 1, 0, 0, 0, 60], [93, 184, 216, 34]⟩] [] (by decide) (by decide) (by decide)
    (by decide) (by decide)
    (fun r hr => by
      rw [List.mem_singleton] at hr
      subst hr
      exact ⟨⟨[], [0xC0, 0x0C], rfl, by simp, Or.inr ⟨_, _, rfl, by decide⟩⟩,
        by decide, rfl, by decide, fun _ => rfl⟩)
    (by decide) (by decide) (by decide)

/-! ## C15: PackRequest and EDNS -/

theorem setByte_extend {L : Nat} {X R : List Nat} (h : Filled L X R) (off v : Nat)
    (hL : off = L) (hb : off + 1 ≤ 512) :
    ∃ R2, setByte R off v = .ok R2 ∧ Filled (L + 1) (X ++ [v % 256]) R2 := by
  subst hL
  have hR : R = X ++ R.drop off := by rw [← h.2, List.take_append_drop]
  have hX : X.length = off := by rw [← h.2, List.length_take, h.1]; omega
  obtain ⟨a, post, hd⟩ : ∃ a post, R.drop off = a :: post := by
    have hl : (R.drop off).length = 512 - off := by rw [List.length_drop, h.1]
    match hm : R.drop off, hl with
    | [], hl => simp at hl; omega
    | a :: post, _ => exact ⟨a, post, rfl⟩
  rw [hd] at hR
  refine ⟨X ++ (v % 256) :: post, ?_, ?_, ?_⟩
  · rw [setByte, if_pos (by rw [h.1]; omega)]
    congr 1
    conv_lhs => rw [hR]
    rw [← hX]
    simp
  · have := congrArg List.length hR
    simp at this ⊢; rw [h.1] at this; omega
  · rw [show X ++ (v % 256) :: post = (X ++ [v % 256]) ++ post by simp]
    rw [List.take_left' (by simp [hX])]

theorem runeCountFrom_le : ∀ (name : List Nat) (skip : Nat), runeCountFrom skip name ≤ name.length := by
  intro name
  induction name with
  | nil => intro skip; simp [runeCountFrom]
  | cons c rest ih =>
    intro skip
    cases skip with
    | zero =>
      rw [runeCountFrom]
      have := ih (runeSize c rest - 1)
      simp; omega
    | succ k =>
      rw [runeCountFrom]
      have := ih k
      simp; omega

theorem PackQName.loop_length : ∀ (n i : Nat) (Q : List Nat) (o l : Nat),
    (PackQName.loop n i Q o l).1.length = Q.length := by
  intro n
  induction n with
  | zero => intro i Q o l; rfl
  | succ n ih =>
    intro i Q o l
    rw [PackQName.loop]
    split
    · rw [ih]; simp
    · rw [ih]

theorem PackQName_length_le (name : List Nat) : (PackQName name).length ≤ name.length + 2 := by
  have h := runeCountFrom_le name 0
  unfold PackQName
  simp only [List.length_set, PackQName.loop_length, List.length_append, List.length_take,
    List.length_drop, List.length_replicate, stringsCountEmpty]
  omega

theorem PackRequest_question (name : List Nat) (qtype id ar : Nat)
    (hq : (PackQName name).length ≤ 400) :
    ∃ R1 R2 R3 R4 R5 R6 R7 R8 R9,
      putU16 (List.replicate 512 0) 0 id = .ok R1 ∧ putU16 R1 2 0x0100 = .ok R2 ∧
      putU16 R2 4 1 = .ok R3 ∧ putU16 R3 6 0 = .ok R4 ∧ putU16 R4 8 0 = .ok R5 ∧
      putU16 R5 10 ar = .ok R6 ∧ copyAt R6 12 (PackQName name) = .ok R7 ∧
      putU16 R7 ((PackQName name).length + 12) qtype = .ok R8 ∧
      putU16 R8 ((PackQName name).length + 12 + 2) 0x01 = .ok R9 ∧
      Filled ((PackQName name).length + 12 + 2 + 2)
        ([id / 256 % 256, id % 256, 1, 0, 0, 1, 0, 0, 0, 0, ar / 256 % 256, ar % 256] ++
          PackQName name ++ [qtype / 256 % 256, qtype % 256, 0, 1]) R9 := by
  have f0 : Filled 0 [] (List.replicate 512 0) := ⟨List.length_replicate _ _, List.take_zero _⟩
  obtain ⟨R1, e1, f1⟩ := putU16_extend f0 0 id rfl (by omega)
  obtain ⟨R2, e2, f2⟩ := putU16_extend f1 2 0x0100 rfl (by omega)
  obtain ⟨R3, e3, f3⟩ := putU16_extend f2 4 1 rfl (by omega)
  obtain ⟨R4, e4, f4⟩ := putU16_extend f3 6 0 rfl (by omega)
  obtain ⟨R5, e5, f5⟩ := putU16_extend f4 8 0 rfl (by omega)
  obtain ⟨R6, e6, f6⟩ := putU16_extend f5 10 ar rfl (by omega)
  obtain ⟨R7, e7, f7⟩ := copyAt_extend f6 12 (PackQName name) rfl (by omega)
  obtain ⟨R8, e8, f8⟩ := putU16_extend f7 ((PackQName name).length + 12) qtype (by omega) (by omega)
  obtain ⟨R9, e9, f9⟩ := putU16_extend f8 ((PackQName name).length + 12 + 2) 0x01 (by omega)
    (by omega)
  refine ⟨R1, R2, R3, R4, R5, R6, R7, R8, R9, e1, e2, e3, e4, e5, e6, e7, e8, e9, ?_⟩
  have hL : 0 + 2 + 2 + 2 + 2 + 2 + 2 + (PackQName name).length + 2 + 2 =
      (PackQName name).length + 12 + 2 + 2 := by omega
  rw [hL] at f9
  simpa using f9

theorem PackRequest_plain (E : Env) (name : List Nat) (qtype id : Nat)
    (hq : (PackQName name).length ≤ 400) :
    ∃ s, PackRequest E name qtype id [] = .ok s ∧
      s.bytes = [id / 256 % 256, id % 256, 1, 0, 0, 1, 0, 0, 0, 0, 0, 0] ++
          PackQName name ++ [qtype / 256 % 256, qtype % 256, 0, 1] := by
  obtain ⟨R1, R2, R3, R4, R5, R6, R7, R8, R9, e1, e2, e3, e4, e5, e6, e7, e8, e9, f9⟩ :=
    PackRequest_question name qtype id 0 hq
  refine ⟨⟨R9, (PackQName name).length + 12 + 2 + 2⟩, ?_, f9.2⟩
  unfold PackRequest
  simp only [e1, e2, e3, e4, e5, Exec.bind_ok, ne_eq, not_true_eq_false, if_false, e6, e7, e8, e9,
    f9.1]
  rw [if_pos (by omega)]; rfl

theorem PackRequest_opt (name : List Nat) (qtype id : Nat)
    (hq : (PackQName name).length ≤ 400) :
    ∃ R1 R2 R3 R4 R5 R6 R7 R8 R9 Ra Rb Rc Rd Re Rf,
      putU16 (List.replicate 512 0) 0 id = .ok R1 ∧ putU16 R1 2 0x0100 = .ok R2 ∧
      putU16 R2 4 1 = .ok R3 ∧ putU16 R3 6 0 = .ok R4 ∧ putU16 R4 8 0 = .ok R5 ∧
      putU16 R5 10 1 = .ok R6 ∧ copyAt R6 12 (PackQName name) = .ok R7 ∧
      putU16 R7 ((PackQName name).length + 12) qtype = .ok R8 ∧
      putU16 R8 ((PackQName name).length + 12 + 2) 0x01 = .ok R9 ∧
      setByte R9 ((PackQName name).length + 12 + 2 + 2) 0 = .ok Ra ∧
      putU16 Ra ((PackQName name).length + 12 + 2 + 2 + 1) 41 = .ok Rb ∧
      putU16 Rb ((PackQName name).length + 12 + 2 + 2 + 1 + 2) 4096 = .ok Rc ∧
      setByte Rc ((PackQName name).length + 12 + 2 + 2 + 1 + 2 + 2) 0 = .ok Rd ∧
      setByte Rd ((PackQName name).length + 12 + 2 + 2 + 1 + 2 + 2 + 1) 0 = .ok Re ∧
      putU16 Re ((PackQName name).length + 12 + 2 + 2 + 1 + 2 + 2 + 1 + 1) 0x800 = .ok Rf ∧
      Filled ((PackQName name).length + 12 + 2 + 2 + 1 + 2 + 2 + 1 + 1 + 2)
        ([id / 256 % 256, id % 256, 1, 0, 0, 1, 0, 0, 0, 0, 0, 1] ++
          PackQName name ++ [qtype / 256 % 256, qtype % 256, 0, 1] ++
          [0, 0, 41, 16, 0, 0, 0, 8, 0]) Rf := by
  obtain ⟨R1, R2, R3, R4, R5, R6, R7, R8, R9, e1, e2, e3, e4, e5, e6, e7, e8, e9, f9⟩ :=
    PackRequest_question name qtype id 1 hq
  obtain ⟨Ra, ea, fa⟩ := setByte_extend f9 ((PackQName name).length + 12 + 2 + 2) 0 rfl (by omega)
  obtain ⟨Rb, eb, fb⟩ := putU16_extend fa ((PackQName name).length + 12 + 2 + 2 + 1) 41 rfl
    (by omega)
  obtain ⟨Rc, ec, fc⟩ := putU16_extend fb ((PackQName name).length + 12 + 2 + 2 + 1 + 2) 4096 rfl
    (by omega)
  obtain ⟨Rd, ed, fd⟩ := setByte_extend fc ((PackQName name).length + 12 + 2 + 2 + 1 + 2 + 2) 0 rfl
    (by omega)
  obtain ⟨Re, ee, fe⟩ := setByte_extend fd ((PackQName name).length + 12 + 2 + 2 + 1 + 2 + 2 + 1) 0
    rfl (by omega)
  obtain ⟨Rf, ef, ff⟩ := putU16_extend fe
    ((PackQName name).length + 12 + 2 + 2 + 1 + 2 + 2 + 1 + 1) 0x800 rfl (by omega)
  refine ⟨R1, R2, R3, R4, R5, R6, R7, R8, R9, Ra, Rb, Rc, Rd, Re, Rf, e1, e2, e3, e4, e5, e6, e7,
    e8, e9, ea, eb, ec, ed, ee, ef, ?_⟩
  simpa using ff

theorem PackRequest_ecs4 (E : Env) (name : List Nat) (qtype id : Nat) (ecs : List Nat)
    (a b c d : Nat) (hq : (PackQName name).length ≤ 400) (hE : ecs ≠ [])
    (h4 : To4 (E.ParseIP ecs) = [a, b, c, d]) :
    ∃ s, PackRequest E name qtype id ecs = .ok s ∧
      s.bytes = [id / 256 % 256, id % 256, 1, 0, 0, 1, 0, 0, 0, 0, 0, 1] ++
          PackQName name ++ [qtype / 256 % 256, qtype % 256, 0, 1] ++
          [0, 0, 41, 16, 0, 0, 0, 8, 0] ++ [0, 11, 0, 8, 0, 7, 0, 1, 24, 0, a, b, c] := by
  obtain ⟨R1, R2, R3, R4, R5, R6, R7, R8, R9, Ra, Rb, Rc, Rd, Re, Rf, e1, e2, e3, e4, e5, e6, e7,
    e8, e9, ea, eb, ec, ed, ee, ef, ff⟩ := PackRequest_opt name qtype id hq
  obtain ⟨Rg, eg, fg⟩ := putU16_extend ff
    ((PackQName name).length + 12 + 2 + 2 + 1 + 2 + 2 + 1 + 1 + 2) 11 rfl (by omega)
  obtain ⟨Rh, eh, fh⟩ := putU16_extend fg
    ((PackQName name).length + 12 + 2 + 2 + 1 + 2 + 2 + 1 + 1 + 2 + 2) 8 rfl (by omega)
  obtain ⟨Ri, ei, fi⟩ := putU16_extend fh
    ((PackQName name).length + 12 + 2 + 2 + 1 + 2 + 2 + 1 + 1 + 2 + 2 + 2) 7 rfl (by omega)
  obtain ⟨Rj, ej, fj⟩ := putU16_extend fi
    ((PackQName name).length + 12 + 2 + 2 + 1 + 2 + 2 + 1 + 1 + 2 + 2 + 2 + 2) 1 rfl (by omega)
  obtain ⟨Rk, ek, fk⟩ := setByte_extend fj
    ((PackQName name).length + 12 + 2 + 2 + 1 + 2 + 2 + 1 + 1 + 2 + 2 + 2 + 2 + 2) 24 rfl
    (by omega)
  obtain ⟨Rl, el, fl⟩ := setByte_extend fk
    ((PackQName name).length + 12 + 2 + 2 + 1 + 2 + 2 + 1 + 1 + 2 + 2 + 2 + 2 + 2 + 1) 0 rfl
    (by omega)
  obtain ⟨Rm, em, fm⟩ := copyAt_extend fl
    ((PackQName name).length + 12 + 2 + 2 + 1 + 2 + 2 + 1 + 1 + 2 + 2 + 2 + 2 + 2 + 1 + 1)
    [a, b, c] rfl (by simp; omega)
  refine ⟨⟨Rm, (PackQName name).length + 12 + 2 + 2 + 1 + 2 + 2 + 1 + 1 + 2 + 2 + 2 + 2 + 2 + 1
    + 1 + 3⟩, ?_, ?_⟩
  · have h4n : To4 (E.ParseIP ecs) ≠ [] := by rw [h4]; simp
    have h3 : 3 ≤ (To4 (E.ParseIP ecs)).length := by rw [h4]; simp
    have ht : (To4 (E.ParseIP ecs)).take 3 = [a, b, c] := by rw [h4]; rfl
    unfold PackRequest
    simp only [e1, e2, e3, e4, e5, Exec.bind_ok]
    simp only [hE, ne_eq, not_false_eq_true, if_true, e6, e7, e8, e9, ea, eb, ec, ed, ee, ef,
      Exec.bind_ok]
    simp only [h4n, ne_eq, not_false_eq_true, if_true, eg, eh, ei, ej, ek, el, Exec.bind_ok,
      if_pos h3, ht, em, fm.1]
    rw [if_pos (by omega)]; rfl
  · have := fm.2
    simp only [Slice.bytes]
    simpa using this

theorem PackRequest_ecs6 (E : Env) (name : List Nat) (qtype id : Nat) (ecs : List Nat)
    (hq : (PackQName name).length ≤ 400) (hE : ecs ≠ [])
    (h4 : To4 (E.ParseIP ecs) = []) (h16 : (E.ParseIP ecs).length = 16) :
    ∃ s, PackRequest E name qtype id ecs = .ok s ∧
      s.bytes = [id / 256 % 256, id % 256, 1, 0, 0, 1, 0, 0, 0, 0, 0, 1] ++
          PackQName name ++ [qtype / 256 % 256, qtype % 256, 0, 1] ++
          [0, 0, 41, 16, 0, 0, 0, 8, 0] ++ [0, 15, 0, 8, 0, 11, 0, 2, 56, 0] ++
          (E.ParseIP ecs).take 7 := by
  obtain ⟨R1, R2, R3, R4, R5, R6, R7, R8, R9, Ra, Rb, Rc, Rd, Re, Rf, e1, e2, e3, e4, e5, e6, e7,
    e8, e9, ea, eb, ec, ed, ee, ef, ff⟩ := PackRequest_opt name qtype id hq
  obtain ⟨Rg, eg, fg⟩ := putU16_extend ff
    ((PackQName name).length + 12 + 2 + 2 + 1 + 2 + 2 + 1 + 1 + 2) 15 rfl (by omega)
  obtain ⟨Rh, eh, fh⟩ := putU16_extend fg
    ((PackQName name).length + 12 + 2 + 2 + 1 + 2 + 2 + 1 + 1 + 2 + 2) 8 rfl (by omega)
  obtain ⟨Ri, ei, fi⟩ := putU16_extend fh
    ((PackQName name).length + 12 + 2 + 2 + 1 + 2 + 2 + 1 + 1 + 2 + 2 + 2) 11 rfl (by omega)
  obtain ⟨Rj, ej, fj⟩ := putU16_extend fi
    ((PackQName name).length + 12 + 2 + 2 + 1 + 2 + 2 + 1 + 1 + 2 + 2 + 2 + 2) 2 rfl (by omega)
  obtain ⟨Rk, ek, fk⟩ := setByte_extend fj
    ((PackQName name).length + 12 + 2 + 2 + 1 + 2 + 2 + 1 + 1 + 2 + 2 + 2 + 2 + 2) 56 rfl
    (by omega)
  obtain ⟨Rl, el, fl⟩ := setByte_extend fk
    ((PackQName name).length + 12 + 2 + 2 + 1 + 2 + 2 + 1 + 1 + 2 + 2 + 2 + 2 + 2 + 1) 0 rfl
    (by omega)
  have h7 : ((E.ParseIP ecs).take 7).length = 7 := by simp [h16]
  obtain ⟨Rm, em, fm⟩ := copyAt_extend fl
    ((PackQName name).length + 12 + 2 + 2 + 1 + 2 + 2 + 1 + 1 + 2 + 2 + 2 + 2 + 2 + 1 + 1)
    ((E.ParseIP ecs).take 7) rfl (by rw [h7]; omega)
  rw [h7] at fm
  refine ⟨⟨Rm, (PackQName name).length + 12 + 2 + 2 + 1 + 2 + 2 + 1 + 1 + 2 + 2 + 2 + 2 + 2 + 1
    + 1 + 7⟩, ?_, ?_⟩
  · have h7l : 7 ≤ (E.ParseIP ecs).length := by omega
    unfold PackRequest
    simp only [e1, e2, e3, e4, e5, Exec.bind_ok]
    simp only [hE, ne_eq, not_false_eq_true, if_true, e6, e7, e8, e9, ea, eb, ec, ed, ee, ef,
      Exec.bind_ok]
    simp only [h4, ne_eq, not_true_eq_false, if_false, eg, eh, ei, ej, ek, el, Exec.bind_ok,
      if_pos h7l, em, fm.1]
    rw [if_pos (by omega)]; rfl
  · have := fm.2
    simp only [Slice.bytes]
    simpa using this

/-- The request for an ecs that is empty or that `net.ParseIP` accepts: for every name of
at most 253 bytes, every qtype and every id, `PackRequest` with an empty ecs returns the header with ARCOUNT 0, the question, and nothing after
it. With a non-empty ecs that parses to the IPv4 address `a.b.c.d` it returns the header
with ARCOUNT 1, the question and one OPT record (root name, type 41, payload size 4096,
two zero bytes, Z 0x0800) whose RDLENGTH is 11 and whose RDATA is the single option with
code 8, length 7, family 1, source prefix length 24, scope 0 and the octets `a, b, c`.
With a non-empty ecs that parses to an IPv6 address the RDLENGTH is 15 and the option has
code 8, length 11, family 2, source prefix length 56, scope 0 and the first 7 octets of
the address. -/
theorem PackRequest_edns (E : Env) (name : List Nat) (qtype id : Nat)
    (hname : name.length ≤ 253) :
    (∃ s, PackRequest E name qtype id [] = .ok s ∧
      s.bytes = [id / 256 % 256, id % 256, 1, 0, 0, 1, 0, 0, 0, 0, 0, 0] ++
          PackQName name ++ [qtype / 256 % 256, qtype % 256, 0, 1]) ∧
    (∀ ecs a b c d, ecs ≠ [] → To4 (E.ParseIP ecs) = [a, b, c, d] →
      ∃ s, PackRequest E name qtype id ecs = .ok s ∧
        s.bytes = [id / 256 % 256, id % 256, 1, 0, 0, 1, 0, 0, 0, 0, 0, 1] ++
          PackQName name ++ [qtype / 256 % 256, qtype % 256, 0, 1] ++
          [0, 0, 41, 16, 0, 0, 0, 8, 0] ++ [0, 11, 0, 8, 0, 7, 0, 1, 24, 0, a, b, c]) ∧
    (∀ ecs, ecs ≠ [] → To4 (E.ParseIP ecs) = [] → (E.ParseIP ecs).length = 16 →
      ∃ s, PackRequest E name qtype id ecs = .ok s ∧
        s.bytes = [id / 256 % 256, id % 256, 1, 0, 0, 1, 0, 0, 0, 0, 0, 1] ++
          PackQName name ++ [qtype / 256 % 256, qtype % 256, 0, 1] ++
          [0, 0, 41, 16, 0, 0, 0, 8, 0] ++ [0, 15, 0, 8, 0, 11, 0, 2, 56, 0] ++
          (E.ParseIP ecs).take 7 ∧
        ([0, 8, 0, 11, 0, 2, 56, 0] ++ (E.ParseIP ecs).take 7).length = 15) := by
  have hq : (PackQName name).length ≤ 400 := by
    have := PackQName_length_le name
    omega
  refine ⟨PackRequest_plain E name qtype id hq, ?_, ?_⟩
  · intro ecs a b c d hE h4
    exact PackRequest_ecs4 E name qtype id ecs a b c d hq hE h4
  · intro ecs hE h4 h16
    obtain ⟨s, h1, h2⟩ := PackRequest_ecs6 E name qtype id ecs hq hE h4 h16
    exact ⟨s, h1, h2, by simp [h16]⟩

/-- The request for `example.com`, type A, id 0x1234 and the client subnet `1.2.3.4`: the
OPT record carries family 1, source prefix length 24 and the octets 1, 2, 3. -/
theorem PackRequest_edns_witness :
    ∃ s, PackRequest Env.sample (str "example.com") 1 0x1234 (str "1.2.3.4") = .ok s ∧
      s.bytes = [0x1234 / 256 % 256, 0x1234 % 256, 1, 0, 0, 1, 0, 0, 0, 0, 0, 1] ++
        PackQName (str "example.com") ++ [1 / 256 % 256, 1 % 256, 0, 1] ++
        [0, 0, 41, 16, 0, 0, 0, 8, 0] ++ [0, 11, 0, 8, 0, 7, 0, 1, 24, 0, 1, 2, 3] :=
  (PackRequest_edns Env.sample (str "example.com") 1 0x1234 (by decide)).2.1
    (str "1.2.3.4") 1 2 3 4 (by decide) (by decide)

/-- C15 fails on the code for a non-empty ecs that `net.ParseIP` rejects: for every name
of at most 253 bytes, every qtype and id, and every such ecs, `PackRequest` writes the
header with ARCOUNT 1 and the fixed part of the OPT record, takes the IPv6 branch because
`ecsip.To4()` is nil, and panics at `ecsip[:7]` on the nil address. It returns no
request, so no OPT record is appended. -/
theorem PackRequest_unparsed_ecs_panics (E : Env) (name : List Nat) (qtype id : Nat)
    (ecs : List Nat) (hname : name.length ≤ 253) (hE : ecs ≠ [])
    (hnil : E.ParseIP ecs = []) :
    PackRequest E name qtype id ecs = .crash := by
  have hq : (PackQName name).length ≤ 400 := by
    have := PackQName_length_le name
    omega
  obtain ⟨R1, R2, R3, R4, R5, R6, R7, R8, R9, Ra, Rb, Rc, Rd, Re, Rf, e1, e2, e3, e4, e5, e6, e7,
    e8, e9, ea, eb, ec, ed, ee, ef, ff⟩ := PackRequest_opt name qtype id hq
  obtain ⟨Rg, eg, fg⟩ := putU16_extend ff
    ((PackQName name).length + 12 + 2 + 2 + 1 + 2 + 2 + 1 + 1 + 2) 15 rfl (by omega)
  obtain ⟨Rh, eh, fh⟩ := putU16_extend fg
    ((PackQName name).length + 12 + 2 + 2 + 1 + 2 + 2 + 1 + 1 + 2 + 2) 8 rfl (by omega)
  obtain ⟨Ri, ei, fi⟩ := putU16_extend fh
    ((PackQName name).length + 12 + 2 + 2 + 1 + 2 + 2 + 1 + 1 + 2 + 2 + 2) 11 rfl (by omega)
  obtain ⟨Rj, ej, fj⟩ := putU16_extend fi
    ((PackQName name).length + 12 + 2 + 2 + 1 + 2 + 2 + 1 + 1 + 2 + 2 + 2 + 2) 2 rfl (by omega)
  obtain ⟨Rk, ek, fk⟩ := setByte_extend fj
    ((PackQName name).length + 12 + 2 + 2 + 1 + 2 + 2 + 1 + 1 + 2 + 2 + 2 + 2 + 2) 56 rfl
    (by omega)
  obtain ⟨Rl, el, fl⟩ := setByte_extend fk
    ((PackQName name).length + 12 + 2 + 2 + 1 + 2 + 2 + 1 + 1 + 2 + 2 + 2 + 2 + 2 + 1) 0 rfl
    (by omega)
  have h4 : ¬ To4 (E.ParseIP ecs) ≠ [] := by rw [hnil]; decide
  have h7 : ¬ 7 ≤ (E.ParseIP ecs).length := by rw [hnil]; decide
  unfold PackRequest
  simp only [e1, e2, e3, e4, e5, Exec.bind_ok]
  simp only [hE, ne_eq, not_false_eq_true, if_true, e6, e7, e8, e9, ea, eb, ec, ed, ee, ef,
    Exec.bind_ok]
  rw [if_neg h4]
  simp only [eg, eh, ei, ej, ek, el, Exec.bind_ok, if_neg h7]
  rfl

/-- C15 at the name `example.com`, type A, id 0x1234 and the ecs `1.2.3.0/24`, which
`net.ParseIP` rejects: `PackRequest` panics. -/
theorem PackRequest_unparsed_ecs_panics_witness :
    PackRequest Env.sample (str "example.com") 1 0x1234 (str "1.2.3.0/24") = .crash :=
  PackRequest_unparsed_ecs_panics Env.sample (str "example.com") 1 0x1234 (str "1.2.3.0/24")
    (by decide) (by decide) (by decide)

/-! ## C16: the HTTPS record of packAnswers -/

theorem Exec.Returns.bind {α β : Type} {x : Exec α} {f : α → Exec β} {P : α → Prop}
    {Q : β → Prop} (hx : x.Returns P) (hf : ∀ a, P a → (f a).Returns Q) :
    (x >>= f).Returns Q := by
  obtain ⟨a, rfl, ha⟩ := hx
  exact hf a ha

theorem Exec.Returns.mono {α : Type} {x : Exec α} {P Q : α → Prop} (hx : x.Returns P)
    (h : ∀ a, P a → Q a) : x.Returns Q := by
  obtain ⟨a, e, ha⟩ := hx
  exact ⟨a, e, h a ha⟩

theorem Exec.Returns.pure {α : Type} {a : α} {Q : α → Prop} (h : Q a) :
    (Pure.pure a : Exec α).Returns Q := ⟨a, rfl, h⟩

theorem Exec.Returns.ok {α : Type} {a : α} {Q : α → Prop} (h : Q a) :
    (Exec.ok a).Returns Q := ⟨a, rfl, h⟩

theorem Exec.Returns.ite {α : Type} {c : Prop} [Decidable c] {x y : Exec α} {Q : α → Prop}
    (hx : c → x.Returns Q) (hy : ¬ c → y.Returns Q) : (if c then x else y).Returns Q := by
  split
  · exact hx ‹_›
  · exact hy ‹_›

theorem copyAt_returns (dst : List Nat) (off : Nat) (src : List Nat) (h : off ≤ dst.length) :
    (copyAt dst off src).Returns fun r => r.length = dst.length :=
  copyAt_ok_length dst off src h

theorem setByte_returns (dst : List Nat) (i v : Nat) (h : i < dst.length) :
    (setByte dst i v).Returns fun r => r.length = dst.length :=
  setByte_ok_length dst i v h

theorem putU16_returns (dst : List Nat) (off v : Nat) (h : off + 2 ≤ dst.length) :
    (putU16 dst off v).Returns fun r => r.length = dst.length :=
  ⟨_, by rw [putU16, if_pos h], by simp⟩

theorem putU32_returns (dst : List Nat) (off v : Nat) (h : off + 4 ≤ dst.length) :
    (putU32 dst off v).Returns fun r => r.length = dst.length :=
  ⟨_, by rw [putU32, if_pos h], by simp⟩

theorem packAnswers.hint4_all (ips : List IP) : ∀ (answers : List Nat) (length : Nat),
    (∀ ip ∈ ips, To4 ip ≠ []) → length + 4 * ips.length ≤ answers.length →
    (packAnswers.hint4 ips answers length).Returns fun r =>
      ∃ a, r = some (a, length + 4 * ips.length) ∧ a.length = answers.length := by
  induction ips with
  | nil => intro answers length _ _; exact ⟨_, rfl, answers, rfl, rfl⟩
  | cons ip ips ih =>
    intro answers length h hl
    simp only [List.length_cons] at hl
    obtain ⟨r1, e1, l1⟩ := copyAt_ok_length answers length (To4 ip) (by omega)
    obtain ⟨r2, e2, a, ha, la⟩ := ih r1 (length + 4)
      (fun x hx => h x (List.mem_cons_of_mem _ hx)) (by omega)
    refine ⟨r2, ?_, a, ?_, by omega⟩
    · rw [packAnswers.hint4]
      simp only [if_neg (h ip (List.mem_cons_self _ _)), e1, Exec.bind_ok, e2]
    · rw [ha]
      simp only [List.length_cons, Option.some.injEq, Prod.mk.injEq, true_and]
      omega

theorem packAnswers.hint4_some (ips : List IP) : ∀ (answers : List Nat) (length : Nat),
    (∃ ip ∈ ips, To4 ip = []) → length + 4 * ips.length ≤ answers.length →
    packAnswers.hint4 ips answers length = .ok none := by
  induction ips with
  | nil => intro answers length h _; obtain ⟨ip, hm, _⟩ := h; cases hm
  | cons ip ips ih =>
    intro answers length h hl
    simp only [List.length_cons] at hl
    rw [packAnswers.hint4]
    by_cases h4 : To4 ip = []
    · simp only [if_pos h4]
    · obtain ⟨r1, e1, l1⟩ := copyAt_ok_length answers length (To4 ip) (by omega)
      simp only [if_neg h4, e1, Exec.bind_ok]
      apply ih
      · obtain ⟨x, hm, hx⟩ := h
        rcases List.mem_cons.1 hm with rfl | hm
        · exact absurd hx h4
        · exact ⟨x, hm, hx⟩
      · omega

theorem packAnswers.hint6_ok (ips : List IP) : ∀ (answers : List Nat) (length : Nat),
    length + 16 * ips.length ≤ answers.length →
    (packAnswers.hint6 ips answers length).Returns fun _ => True := by
  induction ips with
  | nil => intro answers length _; exact ⟨_, rfl, trivial⟩
  | cons ip ips ih =>
    intro answers length hl
    simp only [List.length_cons] at hl
    obtain ⟨r1, e1, l1⟩ := copyAt_ok_length answers length (To16 ip) (by omega)
    obtain ⟨r2, e2, _⟩ := ih r1 (length + 16) (by omega)
    exact ⟨r2, by rw [packAnswers.hint6]; simp only [e1, Exec.bind_ok, e2], trivial⟩

theorem packAnswers_https_returns (E : Env) (ttl : Nat) (records : DNSRecords)
    (hfit : 37 + records.Echo.length + 4 * (addressesOf records.A).length +
      16 * (addressesOf records.AAAA).length < 65536) :
    (packAnswers E 65 ttl records).Returns fun r =>
      if (Nat.land records.Hint (Nat.lor E.OPT_HTTPS E.OPT_HTTP3) = 0 ∧ records.Echo = [] ∧
          records.A = none ∧ records.AAAA = none) ∨ (∃ ip ∈ addressesOf records.A, To4 ip = [])
      then r = (0, []) else r.1 = 1 := by
  unfold packAnswers
  rw [if_neg (by decide), if_neg (by decide), if_pos rfl]
  lift_lets
  intro alpn h3 h2 c15 t ta tl1 echoLen tl2 v4Count tl3 v6Count tl4 answers0 jp3 jp2 jp1 svc
    len19 jpb jpa
  have hv4 : v4Count = (addressesOf records.A).length := by
    simp only [v4Count, addressesOf]; cases records.A <;> rfl
  have hv6 : v6Count = (addressesOf records.AAAA).length := by
    simp only [v6Count, addressesOf]; cases records.AAAA <;> rfl
  have he : echoLen = records.Echo.length := rfl
  have hc15 : c15 = 15 := rfl
  have hsvc : svc = 17 := rfl
  have h19 : len19 = 19 := rfl
  have ht1 : tl1 = 15 + (if alpn = true then 4 + (if h3 = true then 3 else 0) +
      (if h2 = true then 3 else 0) else 0) := by
    simp only [tl1, ta, t, c15]
    cases alpn <;> cases h3 <;> cases h2 <;> rfl
  have ht2 : tl2 = tl1 + (if echoLen > 0 then 4 + echoLen else 0) := by
    simp only [tl2]
    split
    · have h1 : tl1 ≤ 25 := by rw [ht1]; split <;> (try split) <;> (try split) <;> omega
      omega
    · rfl
  have ht3 : tl3 = tl2 + (if records.A.isSome = true then 4 + v4Count * 4 else 0) := by
    have h1 : tl1 ≤ 25 := by rw [ht1]; split <;> (try split) <;> (try split) <;> omega
    have h2 : tl2 ≤ 29 + echoLen := by rw [ht2]; split <;> omega
    simp only [tl3]
    split
    · omega
    · rfl
  have ht4 : tl4 = tl3 + (if records.AAAA.isSome = true then 4 + v6Count * 16 else 0) := by
    have h1 : tl1 ≤ 25 := by rw [ht1]; split <;> (try split) <;> (try split) <;> omega
    have h2 : tl2 ≤ 29 + echoLen := by rw [ht2]; split <;> omega
    have h3 : tl3 ≤ 33 + echoLen + v4Count * 4 := by rw [ht3]; split <;> omega
    simp only [tl4]
    split
    · omega
    · rfl
  have hlen0 : answers0.length = tl4 := List.length_replicate _ _
  clear_value v4Count v6Count tl1 tl2 tl3 tl4 echoLen c15 svc len19 answers0
  subst hc15 hsvc h19
  have hjp3 : ∀ a l, l + (if records.AAAA.isSome = true then 4 + v6Count * 16 else 0) ≤ a.length →
      (jp3 (some (a, l))).Returns fun r => r.1 = 1 := by
    intro a l hl
    simp only [jp3]
    cases hAAAA : records.AAAA with
    | none => exact ⟨_, rfl, rfl⟩
    | some s =>
      rw [hAAAA] at hl hv6
      simp only [Option.isSome_some, if_true, addressesOf] at hl hv6
      refine (copyAt_returns a l [0, 6] (by omega)).bind fun a1 h1 => ?_
      refine (putU16_returns a1 (l + 2) _ (by omega)).bind fun a2 h2 => ?_
      refine (packAnswers.hint6_ok s.Addresses a2 (l + 2 + 2) (by omega)).bind fun r _ => ?_
      exact Exec.Returns.pure rfl
  have hjp2 : ∀ a l, l + (if records.A.isSome = true then 4 + v4Count * 4 else 0) +
      (if records.AAAA.isSome = true then 4 + v6Count * 16 else 0) ≤ a.length →
      (jp2 (a, l)).Returns fun r =>
        if ∃ ip ∈ addressesOf records.A, To4 ip = [] then r = (0, []) else r.1 = 1 := by
    intro a l hl
    simp only [jp2]
    cases hA : records.A with
    | none =>
      rw [hA] at hl
      simp only [Option.isSome_none, Bool.false_eq_true, if_false, Nat.add_zero] at hl
      simp only [Exec.pure_eq, Exec.bind_ok]
      refine (hjp3 a l hl).mono fun r hr => ?_
      rw [if_neg (by simp [addressesOf])]
      exact hr
    | some s =>
      rw [hA] at hl hv4
      simp only [Option.isSome_some, if_true, addressesOf] at hl hv4
      refine (copyAt_returns a l [0, 4] (by omega)).bind fun a1 h1 => ?_
      refine (putU16_returns a1 (l + 2) _ (by omega)).bind fun a2 h2 => ?_
      by_cases hb : ∃ ip ∈ s.Addresses, To4 ip = []
      · rw [packAnswers.hint4_some s.Addresses a2 (l + 2 + 2) hb (by omega)]
        simp only [Exec.bind_ok, jp3]
        refine Exec.Returns.pure ?_
        rw [if_pos (by simpa [addressesOf] using hb)]
      · refine (packAnswers.hint4_all s.Addresses a2 (l + 2 + 2)
          (fun ip hip h0 => hb ⟨ip, hip, h0⟩) (by omega)).bind fun r hr => ?_
        obtain ⟨a3, rfl, h3l⟩ := hr
        refine (hjp3 a3 _ (by omega)).mono fun r hr => ?_
        rw [if_neg (by simpa [addressesOf] using hb)]
        exact hr
  have hjp1 : ∀ a l, l + (if echoLen > 0 then 4 + echoLen else 0) +
      (if records.A.isSome = true then 4 + v4Count * 4 else 0) +
      (if records.AAAA.isSome = true then 4 + v6Count * 16 else 0) ≤ a.length →
      (jp1 (a, l)).Returns fun r =>
        if ∃ ip ∈ addressesOf records.A, To4 ip = [] then r = (0, []) else r.1 = 1 := by
    intro a l hl
    simp only [jp1]
    refine Exec.Returns.ite (fun hc => ?_) (fun hc => ?_)
    · rw [if_pos hc] at hl
      refine (copyAt_returns a l [0, 5] (by omega)).bind fun a1 h1 => ?_
      refine (putU16_returns a1 (l + 2) _ (by omega)).bind fun a2 h2 => ?_
      refine (copyAt_returns a2 (l + 2 + 2) records.Echo (by omega)).bind fun a3 h3 => ?_
      simp only [Exec.pure_eq, Exec.bind_ok]
      exact hjp2 a3 _ (by omega)
    · rw [if_neg hc] at hl
      simp only [Exec.pure_eq, Exec.bind_ok]
      exact hjp2 a l (by omega)
  have hjpb : ∀ a l, 19 ≤ a.length → l + (if echoLen > 0 then 4 + echoLen else 0) +
      (if records.A.isSome = true then 4 + v4Count * 4 else 0) +
      (if records.AAAA.isSome = true then 4 + v6Count * 16 else 0) ≤ a.length →
      (jpb (a, l)).Returns fun r =>
        if ∃ ip ∈ addressesOf records.A, To4 ip = [] then r = (0, []) else r.1 = 1 := by
    intro a l h19 hl
    simp only [jpb]
    refine (putU16_returns a _ _ (by omega)).bind fun a1 h1 => ?_
    simp only [Exec.pure_eq, Exec.bind_ok]
    exact hjp1 a1 l (by omega)
  have hjpa : ∀ a l, 19 ≤ a.length → l + (if h2 = true then 3 else 0) +
      (if echoLen > 0 then 4 + echoLen else 0) +
      (if records.A.isSome = true then 4 + v4Count * 4 else 0) +
      (if records.AAAA.isSome = true then 4 + v6Count * 16 else 0) ≤ a.length →
      (jpa (a, l)).Returns fun r =>
        if ∃ ip ∈ addressesOf records.A, To4 ip = [] then r = (0, []) else r.1 = 1 := by
    intro a l h19 hl
    simp only [jpa]
    refine Exec.Returns.ite (fun hc => ?_) (fun hc => ?_)
    · rw [if_pos hc] at hl
      refine (copyAt_returns a l _ (by omega)).bind fun a1 h1 => ?_
      simp only [Exec.pure_eq, Exec.bind_ok]
      exact hjpb a1 _ (by omega) (by omega)
    · rw [if_neg hc] at hl
      simp only [Exec.pure_eq, Exec.bind_ok]
      exact hjpb a l h19 (by omega)
  refine Exec.Returns.ite (fun hc => ?_) (fun hc => ?_)
  · refine Exec.Returns.ok ?_
    rw [if_pos]
    left
    have e1 : ¬ alpn = true := by
      intro h; rw [if_pos h] at ht1; split at ht3 <;> split at ht4 <;> split at ht2 <;> omega
    have e2 : ¬ echoLen > 0 := by
      intro h; rw [if_pos h] at ht2; split at ht3 <;> split at ht4 <;> omega
    have e3 : ¬ records.A.isSome = true := by
      intro h; rw [if_pos h] at ht3; split at ht4 <;> omega
    have e4 : ¬ records.AAAA.isSome = true := by
      intro h; rw [if_pos h] at ht4; omega
    refine ⟨?_, ?_, ?_, ?_⟩
    · simpa [alpn] using e1
    · apply List.eq_nil_of_length_eq_zero; omega
    · simpa using e3
    · simpa using e4
  · have hnot : ¬ (Nat.land records.Hint (Nat.lor E.OPT_HTTPS E.OPT_HTTP3) = 0 ∧
        records.Echo = [] ∧ records.A = none ∧ records.AAAA = none) := by
      rintro ⟨n1, n2, n3, n4⟩
      have e1 : ¬ alpn = true := by simp [alpn, n1]
      rw [if_neg e1] at ht1
      rw [n2] at he
      rw [he] at ht2
      rw [n3] at ht3
      rw [n4] at ht4
      simp at ht2 ht3 ht4
      omega
    have hT : 15 + (if alpn = true then 4 + (if h3 = true then 3 else 0) +
        (if h2 = true then 3 else 0) else 0) + (if echoLen > 0 then 4 + echoLen else 0) +
        (if records.A.isSome = true then 4 + v4Count * 4 else 0) +
        (if records.AAAA.isSome = true then 4 + v6Count * 16 else 0) = answers0.length := by
      omega
    have hrest : (do
        let answers ← copyAt answers0 0 [192, 12, 0, 65, 0, 1]
        let answers ← putU32 answers 6 ttl
        let answers ← putU16 answers 10 ((tl4 + 65536 - 12) % 65536)
        let answers ← putU16 answers 12 1
        let answers ← setByte answers 14 0
        if alpn = true then do
            let answers ← copyAt answers 15 [0, 1, 0, 0]
            if h3 = true then do
                let answers ← copyAt answers 19 [2, 104, 51]
                let y ← pure (answers, 19 + 3)
                jpa y
              else do
                let y ← pure (answers, 19)
                jpa y
          else do
            let y ← pure (answers, 15)
            jp1 y).Returns fun r =>
        if ∃ ip ∈ addressesOf records.A, To4 ip = [] then r = (0, []) else r.1 = 1 := by
      have h15 : 15 ≤ answers0.length := by omega
      refine (copyAt_returns answers0 0 _ (by omega)).bind fun a1 h1 => ?_
      refine (putU32_returns a1 6 _ (by omega)).bind fun a2 h2 => ?_
      refine (putU16_returns a2 10 _ (by omega)).bind fun a3 h3 => ?_
      refine (putU16_returns a3 12 _ (by omega)).bind fun a4 h4 => ?_
      refine (setByte_returns a4 14 _ (by omega)).bind fun a5 h5 => ?_
      refine Exec.Returns.ite (fun hc => ?_) (fun hc => ?_)
      · rw [if_pos hc] at hT
        refine (copyAt_returns a5 15 _ (by omega)).bind fun a6 h6 => ?_
        refine Exec.Returns.ite (fun hc3 => ?_) (fun hc3 => ?_)
        · rw [if_pos hc3] at hT
          refine (copyAt_returns a6 19 _ (by omega)).bind fun a7 h7 => ?_
          simp only [Exec.pure_eq, Exec.bind_ok]
          exact hjpa a7 _ (by omega) (by omega)
        · rw [if_neg hc3] at hT
          simp only [Exec.pure_eq, Exec.bind_ok]
          exact hjpa a6 _ (by omega) (by omega)
      · rw [if_neg hc] at hT
        simp only [Exec.pure_eq, Exec.bind_ok]
        exact hjp1 a5 _ (by omega)
    refine hrest.mono fun r hr => ?_
    have hiff : ((Nat.land records.Hint (Nat.lor E.OPT_HTTPS E.OPT_HTTP3) = 0 ∧
        records.Echo = [] ∧ records.A = none ∧ records.AAAA = none) ∨
        ∃ ip ∈ addressesOf records.A, To4 ip = []) ↔
        ∃ ip ∈ addressesOf records.A, To4 ip = [] :=
      ⟨fun h => h.resolve_left hnot, Or.inr⟩
    simp only [hiff]
    exact hr

/-- C16 fails as stated: a record set with no hint bit, an empty Echo, no AAAA set and
an A set that is present but empty holds no address, and `packAnswers` for qtype 65
returns one RR for it, with an `ipv4hint` parameter of length 0. -/
theorem packAnswers_https_empty_set :
    Nat.land (⟨0, 0, some ⟨0, []⟩, none, []⟩ : DNSRecords).Hint
        (Nat.lor Env.sample.OPT_HTTPS Env.sample.OPT_HTTP3) = 0 ∧
      (⟨0, 0, some ⟨0, []⟩, none, []⟩ : DNSRecords).Echo = [] ∧
      addressesOf (⟨0, 0, some ⟨0, []⟩, none, []⟩ : DNSRecords).A = [] ∧
      addressesOf (⟨0, 0, some ⟨0, []⟩, none, []⟩ : DNSRecords).AAAA = [] ∧
      packAnswers Env.sample 65 0 ⟨0, 0, some ⟨0, []⟩, none, []⟩ =
        .ok (1, [0xC0, 0x0C, 0, 65, 0, 1, 0, 0, 0, 0, 0, 7, 0, 1, 0, 0, 4, 0, 0]) := by
  decide

/-- C16, amended: for every record set whose HTTPS record stays within the 16-bit
length and every ttl, `packAnswers` for qtype 65 returns count 0 or count 1, and it
returns count 0 exactly when none of its parameters apply (neither the HTTP/2 nor the
HTTP/3 hint bit is set, Echo is empty and both address sets are absent) or the A set
holds an address that is not IPv4. A set that is present but empty applies. -/
theorem packAnswers_https_count (E : Env) (ttl : Nat) (records : DNSRecords)
    (hfit : 37 + records.Echo.length + 4 * (addressesOf records.A).length +
      16 * (addressesOf records.AAAA).length < 65536) :
    ∃ r, packAnswers E 65 ttl records = .ok r ∧ (r.1 = 0 ∨ r.1 = 1) ∧
      (r.1 = 0 ↔ (Nat.land records.Hint (Nat.lor E.OPT_HTTPS E.OPT_HTTP3) = 0 ∧
          records.Echo = [] ∧ records.A = none ∧ records.AAAA = none) ∨
        ∃ ip ∈ addressesOf records.A, To4 ip = []) := by
  obtain ⟨r, e, hq⟩ := packAnswers_https_returns E ttl records hfit
  refine ⟨r, e, ?_⟩
  by_cases hc : (Nat.land records.Hint (Nat.lor E.OPT_HTTPS E.OPT_HTTP3) = 0 ∧
          records.Echo = [] ∧ records.A = none ∧ records.AAAA = none) ∨
        ∃ ip ∈ addressesOf records.A, To4 ip = []
  · rw [if_pos hc] at hq
    subst hq
    exact ⟨Or.inl rfl, fun _ => hc, fun _ => rfl⟩
  · rw [if_neg hc] at hq
    exact ⟨Or.inr hq, fun h => by omega, fun h => absurd h hc⟩

/-- C16, amended, for a record set with the HTTP/2 hint bit and one IPv4 address. -/
theorem packAnswers_https_count_witness :
    ∃ r, packAnswers Env.sample 65 0 ⟨0, 2, some ⟨0, [[1, 2, 3, 4]]⟩, none, []⟩ = .ok r ∧
      (r.1 = 0 ∨ r.1 = 1) ∧
      (r.1 = 0 ↔ (Nat.land (⟨0, 2, some ⟨0, [[1, 2, 3, 4]]⟩, none, []⟩ : DNSRecords).Hint
            (Nat.lor Env.sample.OPT_HTTPS Env.sample.OPT_HTTP3) = 0 ∧
          (⟨0, 2, some ⟨0, [[1, 2, 3, 4]]⟩, none, []⟩ : DNSRecords).Echo = [] ∧
          (⟨0, 2, some ⟨0, [[1, 2, 3, 4]]⟩, none, []⟩ : DNSRecords).A = none ∧
          (⟨0, 2, some ⟨0, [[1, 2, 3, 4]]⟩, none, []⟩ : DNSRecords).AAAA = none) ∨
        ∃ ip ∈ addressesOf (⟨0, 2, some ⟨0, [[1, 2, 3, 4]]⟩, none, []⟩ : DNSRecords).A,
          To4 ip = []) :=
  packAnswers_https_count Env.sample 0 ⟨0, 2, some ⟨0, [[1, 2, 3, 4]]⟩, none, []⟩ (by decide)

/-! ## C17: the type restriction of NSRequest -/

theorem BuildResponse_withTransports (E : Env) (udp tcp tls : List Nat → List Nat → Option Slice)
    (https : List Nat → URL → List Nat → Option Slice)
    (tfo : List Nat → List Nat → Option Slice) (records : DNSRecords) (request : Slice)
    (qtype ttl : Nat) :
    BuildResponse (E.withTransports udp tcp tls https tfo) records request qtype ttl =
      BuildResponse E records request qtype ttl := rfl

theorem ParseOptions_withTransports (E : Env) (udp tcp tls : List Nat → List Nat → Option Slice)
    (https : List Nat → URL → List Nat → Option Slice)
    (tfo : List Nat → List Nat → Option Slice) (s : List Nat) :
    ParseOptions (E.withTransports udp tcp tls https tfo) s = ParseOptions E s := rfl

theorem lookupRecords_withTransports (E : Env) (udp tcp tls : List Nat → List Nat → Option Slice)
    (https : List Nat → URL → List Nat → Option Slice)
    (tfo : List Nat → List Nat → Option Slice) (name : List Nat) (w : World) :
    lookupRecords (E.withTransports udp tcp tls https tfo) name w = lookupRecords E name w := rfl

theorem NSRequest_type_restricted_eq (E : Env) (fuel : Nat) (request : Slice) (cache : Bool)
    (w : World) (i1 i2 f1 f2 q1 q2 a1 a2 n1 n2 r1 r2 qtype c1 c2 : Nat) (l0 : List Nat)
    (ls : List (List Nat)) (post : List Nat) (server : PhantomInterface) (u : URL)
    (p : Nat) (w1 : World)
    (h : request.arr = [i1, i2, f1, f2, q1, q2, a1, a2, n1, n2, r1, r2] ++
      (encodeLabels (l0 :: ls) ++ 0 :: 0 :: qtype :: c1 :: c2 :: post))
    (hlen : 12 + (encodeLabels (l0 :: ls)).length + 5 ≤ request.len)
    (hl0 : l0 ≠ []) (hne : ∀ l ∈ ls, l ≠ [])
    (hr : (if cache then lookupRecords E (l0 ++ dotted ls) w else w.newRecords) = (p, w1))
    (hcfg : E.ConfigLookup (l0 ++ dotted ls) = some server) (hdns : server.DNS ≠ [])
    (hurl : E.urlParse server.DNS = some u) (hquery : u.RawQuery ≠ [])
    (htyp : ((ParseOptions E u.RawQuery).Typ = str "A" ∧ qtype = 28) ∨
      ((ParseOptions E u.RawQuery).Typ = str "AAAA" ∧ qtype = 1))
    (hA : qtype = 1 → (w1.cell p).A = none) (hAAAA : qtype = 28 → (w1.cell p).AAAA = none) :
    NSRequest E fuel request cache w =
      (BuildResponse E
        ((w1.setCell p { w1.cell p with Hint := Nat.land server.Hint E.OPT_DNS }).view p)
        ⟨[i1, i2, f1, f2, q1, q2, a1, a2, n1, n2, 0, 0] ++
          (encodeLabels (l0 :: ls) ++ 0 :: 0 :: qtype :: c1 :: c2 :: post),
          12 + (encodeLabels (l0 :: ls)).length + 5⟩ qtype 0).bind fun response =>
        Exec.ok ((((w1.setCell p { w1.cell p with Hint := Nat.land server.Hint E.OPT_DNS }).cell
          p).Index, some response),
          w1.setCell p { w1.cell p with Hint := Nat.land server.Hint E.OPT_DNS }) := by
  obtain ⟨hq, h12, hput, hsl, hbytes⟩ := NSRequest_query_prologue request i1 i2 f1 f2 q1 q2 a1 a2
    n1 n2 r1 r2 0 qtype c1 c2 l0 ls post h hlen hne
  have hq1 : GetQName request = Exec.ok (l0 ++ dotted ls, qtype,
      12 + (encodeLabels (l0 :: ls)).length + 5) := by simpa using hq
  have hname : l0 ++ dotted ls ≠ [] := by simp [hl0]
  unfold NSRequest
  simp only [hq1, Exec.bind_ok]
  rw [if_pos h12]
  simp only [hput, hsl, Exec.bind_ok]
  rw [if_neg hname]
  simp only [hr]
  have hq28 : qtype = 1 ∨ qtype = 28 := by
    rcases htyp with ⟨_, h⟩ | ⟨_, h⟩
    · exact Or.inr h
    · exact Or.inl h
  rw [if_neg (by rintro ⟨e, hn⟩; exact hn (hA e)), if_neg (by rintro ⟨e, hn⟩; exact hn (hAAAA e)),
    if_neg (by rintro ⟨e, _⟩; omega), if_neg (by rintro ⟨e1, e2, _⟩; omega)]
  simp only [hcfg, if_neg hdns, hurl]
  simp only [if_pos hquery]
  rcases htyp with ⟨hT, h28⟩ | ⟨hT, h1⟩
  · rw [if_pos ⟨hquery, hT, h28⟩]
    rfl
  · rw [if_neg (by rintro ⟨_, _, e⟩; omega), if_pos ⟨hquery, hT, h1⟩]
    rfl

theorem World.cell_setCell_hint (w : World) (p h : Nat) :
    ((w.setCell p { w.cell p with Hint := h }).cell p).Index = (w.cell p).Index ∧
    ((w.setCell p { w.cell p with Hint := h }).cell p).A = (w.cell p).A ∧
    ((w.setCell p { w.cell p with Hint := h }).cell p).AAAA = (w.cell p).AAAA := by
  by_cases hp : p < w.cells.length
  · rw [World.cell_setCell w p _ hp]
    exact ⟨rfl, rfl, rfl⟩
  · have : w.setCell p { w.cell p with Hint := h } = w := by
      simp only [World.setCell]
      rw [List.set_eq_of_length_le (by omega)]
    rw [this]
    exact ⟨rfl, rfl, rfl⟩

theorem BuildResponse_real_empty (E : Env) (records : DNSRecords) (request : Slice)
    (qtype ttl i1 i2 f1 f2 : Nat) (body answer : List Nat)
    (hb : request.bytes = [i1, i2, f1, f2] ++ body)
    (hl : request.len = 4 + body.length) (hidx : ¬ records.Index > 0)
    (hp : packAnswers E qtype ttl records = .ok (0, answer))
    (hfit : request.len ≤ 1024) :
    BuildResponse E records request qtype ttl =
      .ok ⟨[i1, i2, 0x81, 0x80] ++ (body ++ List.replicate (1024 - (4 + body.length)) 0),
        4 + body.length⟩ := by
  have hrep : List.replicate 1024 0 = [] ++ (List.replicate (4 + body.length) 0 ++
      List.replicate (1024 - (4 + body.length)) 0) := by
    rw [List.nil_append, ← List.replicate_add]
    congr 1; omega
  have hcopy := copyAt_at [] (List.replicate (4 + body.length) 0)
    (List.replicate (1024 - (4 + body.length)) 0) ([i1, i2, f1, f2] ++ body) 0 rfl
    (by simp; omega)
  rw [← hrep] at hcopy
  unfold BuildResponse
  simp only [hb, hcopy, Exec.bind_ok, hl, if_neg hidx, hp]
  have e1 : ∀ Z : List Nat, setByte ([] ++ ([i1, i2, f1, f2] ++ body ++ Z)) 2 0x81 =
      .ok (i1 :: i2 :: 0x81 :: f2 :: (body ++ Z)) := by
    intro Z; simp [setByte]
  have e2 : ∀ Z : List Nat, setByte (i1 :: i2 :: 0x81 :: f2 :: Z) 3 0x80 =
      .ok (i1 :: i2 :: 0x81 :: 0x80 :: Z) := by
    intro Z; simp [setByte]
  simp only [e1, e2, Exec.bind_ok]
  rw [if_neg (by decide), sliceTo, if_pos (by simp; omega)]
  rfl

theorem take_append_append (hd body rest : List Nat) (n : Nat)
    (hn : n = hd.length + body.length) : List.take n (hd ++ (body ++ rest)) = hd ++ body := by
  rw [← List.append_assoc]
  exact List.take_left' (by simp [hn])

set_option maxRecDepth 100000 in
/-- C17 fails as stated, in a state reached from the initial one. Under a policy with the
upstream `udp://127.0.0.1:53?type=AAAA` and protocol 1, the AAAA query for `example.com`
is answered upstream and gives the record the virtual index 1. The A query for the same
name that follows is not sent upstream, and its response carries one answer, the
virtual A record 255.0.0.1 with ANCOUNT 1, not zero answers. -/
theorem NSRequest_type_restricted_virtual_answer :
    ∃ first, NSRequest Env.typeAAAA 10
        (Slice.ofList ([0x12, 0x34, 1, 0, 0, 1, 0, 0, 0, 0, 0, 0] ++
          (encodeLabels [str "example", str "com"] ++ [0, 0, 28, 0, 1]))) true World.init =
        .ok ((1, some first), World.afterAAAA) ∧
      ∃ response w, NSRequest Env.typeAAAA 10
          (Slice.ofList ([0x12, 0x35, 1, 0, 0, 1, 0, 0, 0, 0, 0, 0] ++
            (encodeLabels [str "example", str "com"] ++ [0, 0, 1, 0, 1]))) true
          World.afterAAAA =
          .ok ((1, some response), w) ∧
        response.bytes = [0x12, 0x35, 0x81, 0x80, 0, 1, 0, 1, 0, 0, 0, 0] ++
          (encodeLabels [str "example", str "com"] ++ [0, 0, 1, 0, 1]) ++
          [0xC0, 0x0C, 0, 1, 0, 1, 0, 0, 0, 16, 0, 4, 255, 0, 0, 1] :=
  ⟨_, rfl, _, _, rfl, rfl⟩

/-- C17, amended: a well-formed A or AAAA query whose cached record (`p` in the state
`w1` after the cache lookup) has no address set of the asked family, under a policy
whose upstream URL has a query string with `type=A` for an AAAA question or `type=AAAA`
for an A question. `NSRequest` returns the index of the record and a response built
without an upstream: the outcome is the same whatever the five transports do. The
response is the query with the flags 0x81 0x80 and no answer, except for an A question
on a record with virtual index > 0, where it carries the single virtual A answer. -/
theorem NSRequest_type_restricted (E : Env) (fuel : Nat) (request : Slice) (cache : Bool)
    (w : World) (i1 i2 f1 f2 q1 q2 n1 n2 r1 r2 qtype c1 c2 : Nat) (l0 : List Nat)
    (ls : List (List Nat)) (post : List Nat) (server : PhantomInterface) (u : URL)
    (p : Nat) (w1 : World)
    (h : request.arr = [i1, i2, f1, f2, q1, q2, 0, 0, n1, n2, r1, r2] ++
      (encodeLabels (l0 :: ls) ++ 0 :: 0 :: qtype :: c1 :: c2 :: post))
    (hlen : 12 + (encodeLabels (l0 :: ls)).length + 5 ≤ request.len)
    (hl0 : l0 ≠ []) (hne : ∀ l ∈ ls, l ≠ [])
    (hsize : (encodeLabels (l0 :: ls)).length ≤ 991)
    (hr : (if cache then lookupRecords E (l0 ++ dotted ls) w else w.newRecords) = (p, w1))
    (hcfg : E.ConfigLookup (l0 ++ dotted ls) = some server) (hdns : server.DNS ≠ [])
    (hurl : E.urlParse server.DNS = some u) (hquery : u.RawQuery ≠ [])
    (htyp : ((ParseOptions E u.RawQuery).Typ = str "A" ∧ qtype = 28) ∨
      ((ParseOptions E u.RawQuery).Typ = str "AAAA" ∧ qtype = 1))
    (hA : qtype = 1 → (w1.cell p).A = none) (hAAAA : qtype = 28 → (w1.cell p).AAAA = none) :
    (∃ response, NSRequest E fuel request cache w = .ok (((w1.cell p).Index, some response),
        w1.setCell p { w1.cell p with Hint := Nat.land server.Hint E.OPT_DNS }) ∧
      (qtype = 1 ∧ (w1.cell p).Index > 0 →
        response.bytes = [i1, i2, 0x81, 0x80, q1, q2, 0, 1, n1, n2, 0, 0] ++
          (encodeLabels (l0 :: ls) ++ [0, 0, qtype, c1, c2]) ++
          [0xC0, 0x0C, 0, 1, 0, 1, 0, 0, 0, 16, 0, 4, E.VirtualAddrPrefix % 256, 0,
            ((w1.cell p).Index % 65536).toNat / 256 % 256,
            ((w1.cell p).Index % 65536).toNat % 256]) ∧
      (¬ (qtype = 1 ∧ (w1.cell p).Index > 0) →
        response.bytes = [i1, i2, 0x81, 0x80, q1, q2, 0, 0, n1, n2, 0, 0] ++
          (encodeLabels (l0 :: ls) ++ [0, 0, qtype, c1, c2]))) ∧
    ∀ udp tcp tls https tfo,
      NSRequest (E.withTransports udp tcp tls https tfo) fuel request cache w =
        NSRequest E fuel request cache w := by
  have he := NSRequest_type_restricted_eq E fuel request cache w i1 i2 f1 f2 q1 q2 0 0 n1 n2
    r1 r2 qtype c1 c2 l0 ls post server u p w1 h hlen hl0 hne hr hcfg hdns hurl hquery htyp hA
    hAAAA
  refine ⟨?_, ?_⟩
  · obtain ⟨_, _, _, _, hbytes⟩ := NSRequest_query_prologue request i1 i2 f1 f2 q1 q2 0 0
      n1 n2 r1 r2 0 qtype c1 c2 l0 ls post h hlen hne
    obtain ⟨hci, hca, hcaaaa⟩ := World.cell_setCell_hint w1 p (Nat.land server.Hint E.OPT_DNS)
    have hvi : ((w1.setCell p { w1.cell p with Hint := Nat.land server.Hint E.OPT_DNS }).view
        p).Index = (w1.cell p).Index := hci
    have hq28 : qtype = 1 ∨ qtype = 28 := by
      rcases htyp with ⟨_, h⟩ | ⟨_, h⟩
      · exact Or.inr h
      · exact Or.inl h
    rw [he, hci]
    by_cases hidx : (w1.cell p).Index > 0
    · rcases hq28 with h1 | h28
      · subst h1
        have hb := BuildResponse_virtual_A E
          ((w1.setCell p { w1.cell p with Hint := Nat.land server.Hint E.OPT_DNS }).view p) _ 0
          i1 i2 f1 f2 q1 q2 0 0 n1 n2 0 0 (encodeLabels (l0 :: ls) ++ [0, 0, 1, c1, c2]) hbytes
          (by simp; omega) (by rw [hvi]; exact hidx) (by simp; omega)
        rw [hb, hvi]
        refine ⟨_, rfl, fun _ => ?_, fun hn => absurd ⟨rfl, hidx⟩ hn⟩
        simp only [Slice.bytes]
        rw [← List.append_assoc, ← List.append_assoc]
        exact List.take_left' (by simp; omega)
      · subst h28
        have hb := BuildResponse_virtual_AAAA_eq E
          ((w1.setCell p { w1.cell p with Hint := Nat.land server.Hint E.OPT_DNS }).view p) _ 0
          i1 i2 f1 f2 ([q1, q2, 0, 0, n1, n2, 0, 0] ++
            (encodeLabels (l0 :: ls) ++ [0, 0, 28, c1, c2])) (by rw [hbytes]; rfl)
          (by simp; omega) (by rw [hvi]; exact hidx) (by simp; omega)
        rw [hb]
        refine ⟨_, rfl, fun hc => absurd hc.1 (by decide), fun _ => ?_⟩
        simp only [Slice.bytes]
        rw [take_append_append _ _ _ _ (by simp)]
        rfl
    · have hp : packAnswers E qtype 0
          ((w1.setCell p { w1.cell p with Hint := Nat.land server.Hint E.OPT_DNS }).view p) =
          .ok (0, []) := by
        rcases hq28 with h1 | h28
        · subst h1
          have : ((w1.setCell p { w1.cell p with Hint := Nat.land server.Hint E.OPT_DNS }).view
              p).A = none := by
            show Option.map _ ((w1.setCell p { w1.cell p with
              Hint := Nat.land server.Hint E.OPT_DNS }).cell p).A = none
            rw [hca, hA rfl]
            rfl
          simp only [packAnswers, this, if_true]
        · subst h28
          have : ((w1.setCell p { w1.cell p with Hint := Nat.land server.Hint E.OPT_DNS }).view
              p).AAAA = none := by
            show Option.map _ ((w1.setCell p { w1.cell p with
              Hint := Nat.land server.Hint E.OPT_DNS }).cell p).AAAA = none
            rw [hcaaaa, hAAAA rfl]
            rfl
          simp only [packAnswers, this]
          rfl
      have hb := BuildResponse_real_empty E
        ((w1.setCell p { w1.cell p with Hint := Nat.land server.Hint E.OPT_DNS }).view p) _
        qtype 0 i1 i2 f1 f2 ([q1, q2, 0, 0, n1, n2, 0, 0] ++
          (encodeLabels (l0 :: ls) ++ [0, 0, qtype, c1, c2])) [] (by rw [hbytes]; rfl)
        (by simp; omega) (by rw [hvi]; exact hidx) hp (by simp; omega)
      rw [hb]
      refine ⟨_, rfl, fun hc => absurd hc.2 hidx, fun _ => ?_⟩
      simp only [Slice.bytes]
      rw [take_append_append _ _ _ _ (by simp)]
      rfl
  · intro udp tcp tls https tfo
    rw [he]
    exact NSRequest_type_restricted_eq (E.withTransports udp tcp tls https tfo) fuel request cache
      w i1 i2 f1 f2 q1 q2 0 0 n1 n2 r1 r2 qtype c1 c2 l0 ls post server u p w1 h hlen hl0 hne hr
      hcfg hdns hurl hquery htyp hA hAAAA

/-- C17, amended, at the A query for `example.com` in the state `World.afterAAAA` under
the policy of `Env.typeAAAA`: index 1, and the response carries the virtual A answer
255.0.0.1. -/
theorem NSRequest_type_restricted_witness :
    ∃ response, NSRequest Env.typeAAAA 10
        (Slice.ofList ([0x12, 0x35, 1, 0, 0, 1, 0, 0, 0, 0, 0, 0] ++
          (encodeLabels [str "example", str "com"] ++ [0, 0, 1, 0, 1]))) true World.afterAAAA =
        .ok (((World.afterAAAA.cell 0).Index, some response),
          World.afterAAAA.setCell 0 { World.afterAAAA.cell 0 with
            Hint := Nat.land 0 Env.typeAAAA.OPT_DNS }) ∧
      (1 = 1 ∧ (World.afterAAAA.cell 0).Index > 0 →
        response.bytes = [0x12, 0x35, 0x81, 0x80, 0, 1, 0, 1, 0, 0, 0, 0] ++
          (encodeLabels [str "example", str "com"] ++ [0, 0, 1, 0, 1]) ++
          [0xC0, 0x0C, 0, 1, 0, 1, 0, 0, 0, 16, 0, 4, Env.typeAAAA.VirtualAddrPrefix % 256, 0,
            ((World.afterAAAA.cell 0).Index % 65536).toNat / 256 % 256,
            ((World.afterAAAA.cell 0).Index % 65536).toNat % 256]) ∧
      (¬ (1 = 1 ∧ (World.afterAAAA.cell 0).Index > 0) →
        response.bytes = [0x12, 0x35, 0x81, 0x80, 0, 1, 0, 0, 0, 0, 0, 0] ++
          (encodeLabels [str "example", str "com"] ++ [0, 0, 1, 0, 1])) :=
  (NSRequest_type_restricted Env.typeAAAA 10 _ true World.afterAAAA 0x12 0x35 1 0 0 1 0 0 0 0 1
    0 1 (str "example") [str "com"] [] ⟨0, str "udp://127.0.0.1:53?type=AAAA", 1⟩
    ⟨str "udp", str "127.0.0.1:53", str "type=AAAA"⟩ 0 World.afterAAAA rfl (by decide)
    (by decide) (by decide) (by decide) (by decide) rfl (by decide) (by decide) (by decide)
    (Or.inr ⟨by decide, rfl⟩) (fun _ => rfl) (fun h => absurd h (by decide))).1

/-! ## C18: the IPv6 hint of NSRequest -/

set_option maxRecDepth 100000 in
/-- C18 fails on the code for an upstream URL without a query string. The policy gives
`example.com` the IPv6-preferred hint and the upstream `udp://127.0.0.1:53`, and the
client sends the A query with ID 0x1234. A transport that answers only that very
query, with QTYPE 1, is answered by: `NSRequest` returns its A record. A transport
that answers only the same query with QTYPE 28 fails: `NSRequest` returns `(0, nil)`.
With the query string `domain=x` in the URL the transport that answers only the query
with QTYPE 28, the same name and the ID 0x1234 is answered by. -/
theorem NSRequest_ipv6_hint_needs_query_string :
    (∃ response w, NSRequest (Env.ipv6Hint (str "udp://127.0.0.1:53")
          ([0x12, 0x34, 1, 0, 0, 1, 0, 0, 0, 0, 0, 0] ++
            (encodeLabels [str "example", str "com"] ++ [0, 0, 1, 0, 1]))
          [0xC0, 0x0C, 0, 1, 0, 1, 0, 0, 0, 60, 0, 4, 1, 2, 3, 4]) 10
        (Slice.ofList ([0x12, 0x34, 1, 0, 0, 1, 0, 0, 0, 0, 0, 0] ++
          (encodeLabels [str "example", str "com"] ++ [0, 0, 1, 0, 1]))) true World.init =
        .ok ((0, some response), w) ∧
      response.bytes = [0x12, 0x34, 0x81, 0x80, 0, 1, 0, 1, 0, 0, 0, 0] ++
        (encodeLabels [str "example", str "com"] ++ [0, 0, 1, 0, 1]) ++
        [0xC0, 0x0C, 0, 1, 0, 1, 0, 0, 0, 0, 0, 4, 1, 2, 3, 4]) ∧
    (∃ w, NSRequest (Env.ipv6Hint (str "udp://127.0.0.1:53")
          ([0x12, 0x34, 1, 0, 0, 1, 0, 0, 0, 0, 0, 0] ++
            (encodeLabels [str "example", str "com"] ++ [0, 0, 28, 0, 1]))
          [0xC0, 0x0C, 0, 28, 0, 1, 0, 0, 0, 60, 0, 16, 0x20, 0x01, 0x0d, 0xb8, 0, 0, 0, 0, 0, 0,
            0, 0, 0, 0, 0, 1]) 10
        (Slice.ofList ([0x12, 0x34, 1, 0, 0, 1, 0, 0, 0, 0, 0, 0] ++
          (encodeLabels [str "example", str "com"] ++ [0, 0, 1, 0, 1]))) true World.init =
        .ok ((0, none), w)) ∧
    (∃ response w, NSRequest (Env.ipv6Hint (str "udp://127.0.0.1:53?domain=x")
          ([0x12, 0x34, 1, 0, 0, 1, 0, 0, 0, 0, 0, 0] ++
            (encodeLabels [str "example", str "com"] ++ [0, 0, 28, 0, 1]))
          [0xC0, 0x0C, 0, 28, 0, 1, 0, 0, 0, 60, 0, 16, 0x20, 0x01, 0x0d, 0xb8, 0, 0, 0, 0, 0, 0,
            0, 0, 0, 0, 0, 1]) 10
        (Slice.ofList ([0x12, 0x34, 1, 0, 0, 1, 0, 0, 0, 0, 0, 0] ++
          (encodeLabels [str "example", str "com"] ++ [0, 0, 1, 0, 1]))) true World.init =
        .ok ((0, some response), w) ∧
      w.sets = [⟨1060, [[0x20, 0x01, 0x0d, 0xb8, 0, 0, 0, 0, 0, 0, 0, 0, 0, 0, 0, 1]]⟩,
        ⟨0, []⟩]) :=
  ⟨⟨_, _, rfl, rfl⟩, ⟨_, rfl⟩, ⟨_, _, rfl, rfl⟩⟩

/-! ## C19: the fallback address -/

theorem applyFallback_A (p : Nat) (options : ServerOptions) (w : World)
    (hp : p < w.cells.length) (hnil : (w.cell p).A = none) :
    ((applyFallback 1 p options w).2.view p).A =
      some ⟨0, if options.Fallback ≠ [] ∧ To4 options.Fallback ≠ [] then [options.Fallback]
        else []⟩ := by
  unfold applyFallback
  simp only [if_true, hnil, true_and]
  by_cases h : options.Fallback ≠ [] ∧ To4 options.Fallback ≠ []
  · simp only [if_pos h]
    simp [World.view, World.cell, World.setCell, World.newSet, List.getD_eq_getElem?_getD, hp]
  · simp only [if_neg h]
    simp [World.view, World.cell, World.setCell, World.newSet, List.getD_eq_getElem?_getD, hp]

theorem applyFallback_AAAA (p : Nat) (options : ServerOptions) (w : World)
    (hp : p < w.cells.length) (hnil : (w.cell p).AAAA = none) :
    ((applyFallback 28 p options w).2.view p).AAAA =
      some ⟨0, if options.Fallback ≠ [] ∧ To4 options.Fallback = [] then [options.Fallback]
        else []⟩ := by
  unfold applyFallback
  rw [if_neg (by decide)]
  simp only [if_true, hnil, true_and]
  by_cases h : options.Fallback ≠ [] ∧ To4 options.Fallback = []
  · simp only [if_pos h]
    simp [World.view, World.cell, World.setCell, World.newSet, List.getD_eq_getElem?_getD, hp]
  · simp only [if_neg h]
    simp [World.view, World.cell, World.setCell, World.newSet, List.getD_eq_getElem?_getD, hp]

theorem NSLookup_udp_exchange (E : Env) (fuel : Nat) (name : List Nat) (hint : Nat)
    (server : List Nat) (w : World) (u : URL) (p : Nat) (w1 w3 : World) (req response : Slice)
    (hlook : lookupRecords E name w = (p, w1))
    (hA : Nat.land hint E.OPT_IPV6 = 0 → (w1.cell p).A = none)
    (hAAAA : Nat.land hint E.OPT_IPV6 ≠ 0 → (w1.cell p).AAAA = none)
    (hurl : E.urlParse server = some u) (hhost : u.Host ≠ []) (hscheme : u.Scheme = str "udp")
    (hreq : PackRequest E name (if Nat.land hint E.OPT_IPV6 ≠ 0 then 28 else 1) 0
      (if u.RawQuery ≠ [] then ParseOptions E u.RawQuery else ServerOptions.empty).ECS = .ok req)
    (hup : E.UDPlookup req.bytes u.Host = some response)
    (hga : World.GetAnswers E fuel p response
      (if u.RawQuery ≠ [] then ParseOptions E u.RawQuery else ServerOptions.empty)
      (if (w1.cell p).Index = 0 ∧ hint ≠ 0 then assignIndex name p (some hint) w1 else w1) =
      .ok w3) :
    NSLookup E fuel name hint server w =
      .ok ((((applyFallback (if Nat.land hint E.OPT_IPV6 ≠ 0 then 28 else 1) p
          (if u.RawQuery ≠ [] then ParseOptions E u.RawQuery else ServerOptions.empty) w3).2.cell
            p).Index,
        (applyFallback (if Nat.land hint E.OPT_IPV6 ≠ 0 then 28 else 1) p
          (if u.RawQuery ≠ [] then ParseOptions E u.RawQuery else ServerOptions.empty)
          w3).2.addresses
          (if Nat.land hint E.OPT_IPV6 ≠ 0 then
            ((applyFallback 28 p
              (if u.RawQuery ≠ [] then ParseOptions E u.RawQuery else ServerOptions.empty)
              w3).2.cell p).AAAA
          else ((applyFallback 1 p
              (if u.RawQuery ≠ [] then ParseOptions E u.RawQuery else ServerOptions.empty)
              w3).2.cell p).A)),
        (applyFallback (if Nat.land hint E.OPT_IPV6 ≠ 0 then 28 else 1) p
          (if u.RawQuery ≠ [] then ParseOptions E u.RawQuery else ServerOptions.empty) w3).2) := by
  have hb : ∀ {α β : Type} (a : α) (f : α → Exec β), (Exec.ok a).bind f = f a := fun _ _ => rfl
  unfold NSLookup
  simp only [hlook]
  by_cases h6 : Nat.land hint E.OPT_IPV6 ≠ 0
  · simp only [if_pos h6] at hreq ⊢
    rw [if_neg (by rintro ⟨e, _⟩; exact absurd e (by decide)),
      if_neg (by rintro ⟨_, hn⟩; exact hn (hAAAA h6))]
    simp only [hurl, if_pos hhost, if_pos hscheme, hreq, Exec.bind_ok, Exec.pure_eq, hup, hb,
      Function.comp, hga]
    rfl
  · simp only [if_neg h6] at hreq ⊢
    rw [if_neg (by rintro ⟨_, hn⟩; exact hn (hA (not_not.1 h6))),
      if_neg (by rintro ⟨e, _⟩; exact absurd e (by decide))]
    simp only [hurl, if_pos hhost, if_pos hscheme, hreq, Exec.bind_ok, Exec.pure_eq, hup, hb,
      Function.comp, hga]
    rfl

theorem World.addresses_view (w : World) (p : Nat) :
    w.addresses (w.cell p).A = addressesOf (w.view p).A ∧
    w.addresses (w.cell p).AAAA = addressesOf (w.view p).AAAA := by
  constructor
  · simp only [World.view, World.addresses, addressesOf]
    cases (w.cell p).A <;> rfl
  · simp only [World.view, World.addresses, addressesOf]
    cases (w.cell p).AAAA <;> rfl

/-- C19: the fallback block of `NSLookup` and `NSRequest`, run after `GetAnswers` on a
record whose set of the requested family is still nil, that is, no address of that
family was accepted. For an A question the record's IPv4 set becomes `[Fallback]` with
expiry 0 when `options.Fallback` is set and is an IPv4 address, and the empty set with
expiry 0 otherwise; for an AAAA question the same holds for the IPv6 set, with
`Fallback` an address that is not IPv4. -/
theorem applyFallback_substitutes (p : Nat) (options : ServerOptions) (w : World)
    (hp : p < w.cells.length) :
    ((w.cell p).A = none →
      ((applyFallback 1 p options w).2.view p).A =
        some ⟨0, if options.Fallback ≠ [] ∧ To4 options.Fallback ≠ [] then [options.Fallback]
          else []⟩) ∧
    ((w.cell p).AAAA = none →
      ((applyFallback 28 p options w).2.view p).AAAA =
        some ⟨0, if options.Fallback ≠ [] ∧ To4 options.Fallback = [] then [options.Fallback]
          else []⟩) :=
  ⟨applyFallback_A p options w hp, applyFallback_AAAA p options w hp⟩

/-- C19 for a record with no set and the fallback `1.2.3.4`: the IPv4 set becomes
`[1.2.3.4]` with expiry 0, and for an AAAA question the IPv6 set becomes empty. -/
theorem applyFallback_substitutes_witness :
    ((World.plainKeys.cell 0).A = none →
      ((applyFallback 1 0 { ServerOptions.empty with Fallback := IPv4 1 2 3 4 }
          World.plainKeys).2.view 0).A =
        some ⟨0, if ({ ServerOptions.empty with Fallback := IPv4 1 2 3 4 } :
            ServerOptions).Fallback ≠ [] ∧
            To4 ({ ServerOptions.empty with Fallback := IPv4 1 2 3 4 } :
              ServerOptions).Fallback ≠ [] then
            [({ ServerOptions.empty with Fallback := IPv4 1 2 3 4 } : ServerOptions).Fallback]
          else []⟩) ∧
    ((World.plainKeys.cell 0).AAAA = none →
      ((applyFallback 28 0 { ServerOptions.empty with Fallback := IPv4 1 2 3 4 }
          World.plainKeys).2.view 0).AAAA =
        some ⟨0, if ({ ServerOptions.empty with Fallback := IPv4 1 2 3 4 } :
            ServerOptions).Fallback ≠ [] ∧
            To4 ({ ServerOptions.empty with Fallback := IPv4 1 2 3 4 } :
              ServerOptions).Fallback = [] then
            [({ ServerOptions.empty with Fallback := IPv4 1 2 3 4 } : ServerOptions).Fallback]
          else []⟩) :=
  applyFallback_substitutes 0 { ServerOptions.empty with Fallback := IPv4 1 2 3 4 }
    World.plainKeys (by decide)

/-- The fallback in `NSLookup`, end to end over udp: when the exchange succeeds and
`GetAnswers` leaves the set of the requested family nil, `NSLookup` returns `[Fallback]`
if the fallback is set and of the requested family, and no address otherwise. -/
theorem NSLookup_fallback (E : Env) (fuel : Nat) (name : List Nat) (hint : Nat)
    (server : List Nat) (w : World) (u : URL) (p : Nat) (w1 w3 : World) (req response : Slice)
    (hlook : lookupRecords E name w = (p, w1))
    (hA : Nat.land hint E.OPT_IPV6 = 0 → (w1.cell p).A = none)
    (hAAAA : Nat.land hint E.OPT_IPV6 ≠ 0 → (w1.cell p).AAAA = none)
    (hurl : E.urlParse server = some u) (hhost : u.Host ≠ []) (hscheme : u.Scheme = str "udp")
    (hreq : PackRequest E name (if Nat.land hint E.OPT_IPV6 ≠ 0 then 28 else 1) 0
      (if u.RawQuery ≠ [] then ParseOptions E u.RawQuery else ServerOptions.empty).ECS = .ok req)
    (hup : E.UDPlookup req.bytes u.Host = some response)
    (hga : World.GetAnswers E fuel p response
      (if u.RawQuery ≠ [] then ParseOptions E u.RawQuery else ServerOptions.empty)
      (if (w1.cell p).Index = 0 ∧ hint ≠ 0 then assignIndex name p (some hint) w1 else w1) =
      .ok w3)
    (hp : p < w3.cells.length)
    (hnoneA : Nat.land hint E.OPT_IPV6 = 0 → (w3.cell p).A = none)
    (hnoneAAAA : Nat.land hint E.OPT_IPV6 ≠ 0 → (w3.cell p).AAAA = none) :
    ∃ index wf, NSLookup E fuel name hint server w = .ok ((index,
      if (if u.RawQuery ≠ [] then ParseOptions E u.RawQuery else ServerOptions.empty).Fallback ≠ []
          ∧ (To4 (if u.RawQuery ≠ [] then ParseOptions E u.RawQuery
              else ServerOptions.empty).Fallback = [] ↔ Nat.land hint E.OPT_IPV6 ≠ 0) then
        [(if u.RawQuery ≠ [] then ParseOptions E u.RawQuery else ServerOptions.empty).Fallback]
      else []), wf) := by
  rw [NSLookup_udp_exchange E fuel name hint server w u p w1 w3 req response hlook hA hAAAA hurl
    hhost hscheme hreq hup hga]
  generalize hopt : (if u.RawQuery ≠ [] then ParseOptions E u.RawQuery
    else ServerOptions.empty) = options
  have hadd : (applyFallback (if Nat.land hint E.OPT_IPV6 ≠ 0 then 28 else 1) p options
      w3).2.addresses
        (if Nat.land hint E.OPT_IPV6 ≠ 0 then ((applyFallback 28 p options w3).2.cell p).AAAA
          else ((applyFallback 1 p options w3).2.cell p).A) =
      (if options.Fallback ≠ [] ∧ (To4 options.Fallback = [] ↔ Nat.land hint E.OPT_IPV6 ≠ 0)
        then [options.Fallback] else []) := by
    by_cases h6 : Nat.land hint E.OPT_IPV6 ≠ 0
    · simp only [if_pos h6]
      rw [(World.addresses_view _ p).2, applyFallback_AAAA p _ w3 hp (hnoneAAAA h6)]
      simp only [addressesOf, iff_true_right h6]
    · simp only [if_neg h6]
      rw [(World.addresses_view _ p).1, applyFallback_A p _ w3 hp (hnoneA (not_not.1 h6))]
      simp only [addressesOf, iff_false_right h6, ne_eq]
  rw [hadd]
  exact ⟨_, _, rfl⟩

set_option maxRecDepth 100000 in
/-- The fallback in `NSRequest`, end to end: the upstream answers the A query for
`example.com` with no record and the policy has `fallback=1.2.3.4`; the response carries
the A record 1.2.3.4 and the record's IPv4 set is `[1.2.3.4]` with expiry 0. -/
theorem NSRequest_fallback_example :
    ∃ response w, NSRequest Env.fallbackUpstream 10
        (Slice.ofList ([0x12, 0x34, 1, 0, 0, 1, 0, 0, 0, 0, 0, 0] ++
          (encodeLabels [str "example", str "com"] ++ [0, 0, 1, 0, 1]))) true World.init =
        .ok ((0, some response), w) ∧
      response.bytes = [0x12, 0x34, 0x81, 0x80, 0, 1, 0, 1, 0, 0, 0, 0] ++
        (encodeLabels [str "example", str "com"] ++ [0, 0, 1, 0, 1]) ++
        [0xC0, 0x0C, 0, 1, 0, 1, 0, 0, 0, 0, 0, 4, 1, 2, 3, 4] ∧
      (w.view 0).A = some ⟨0, [IPv4 1 2 3 4]⟩ :=
  ⟨_, _, rfl, rfl, rfl⟩

/-! ## C20: ParseOptions and unrecognised keys -/

theorem splitByte_ne_nil (sep : Nat) (s : List Nat) : splitByte sep s ≠ [] := by
  cases s with
  | nil => simp [splitByte]
  | cons b bs =>
    rw [splitByte]
    split
    · simp
    · split <;> simp

theorem splitByte_nosep (sep : Nat) (seg : List Nat) (h : sep ∉ seg) :
    splitByte sep seg = [seg] := by
  induction seg with
  | nil => rfl
  | cons b bs ih =>
    rw [List.mem_cons, not_or] at h
    rw [splitByte, if_neg (fun e => h.1 e.symm), ih h.2]

theorem splitByte_front (sep : Nat) (seg s : List Nat) (h : sep ∉ seg) :
    splitByte sep (seg ++ sep :: s) = seg :: splitByte sep s := by
  induction seg with
  | nil => simp [splitByte]
  | cons b bs ih =>
    rw [List.mem_cons, not_or] at h
    rw [List.cons_append, splitByte, if_neg (fun e => h.1 e.symm), ih h.2]

theorem splitByte_back (sep : Nat) (s seg : List Nat) (h : sep ∉ seg) :
    splitByte sep (s ++ sep :: seg) = splitByte sep s ++ [seg] := by
  induction s with
  | nil => simp [splitByte, splitByte_nosep sep seg h]
  | cons b bs ih =>
    rw [List.cons_append, splitByte, splitByte, ih]
    by_cases hb : b = sep
    · simp [hb]
    · simp only [if_neg hb]
      cases hs : splitByte sep bs with
      | nil => exact absurd hs (splitByte_ne_nil sep bs)
      | cons p ps => rfl

theorem indexByte_absent (c : Nat) (seg : List Nat) (h : c ∉ seg) : indexByte c seg = none := by
  induction seg with
  | nil => rfl
  | cons b bs ih =>
    rw [List.mem_cons, not_or] at h
    rw [indexByte, if_neg (fun e => h.1 e.symm), ih h.2]
    rfl

theorem indexByte_first (c : Nat) (key value : List Nat) (h : c ∉ key) :
    indexByte c (key ++ c :: value) = some key.length := by
  induction key with
  | nil => simp [indexByte]
  | cons b bs ih =>
    rw [List.mem_cons, not_or] at h
    rw [List.cons_append, indexByte, if_neg (fun e => h.1 e.symm), ih h.2]
    rfl

theorem ParseOptions.step_pair (E : Env) (o : ServerOptions) (key value : List Nat)
    (h : 61 ∉ key) :
    ParseOptions.step E o (key ++ 61 :: value) =
      if key = str "ecs" then { o with ECS := value }
      else if key = str "pd" then { o with PD := value }
      else if key = str "type" then { o with Typ := value }
      else if key = str "domain" then { o with Domain := value }
      else if key = str "badsubnet" then { o with BadSubnet := E.ParseCIDR value }
      else if key = str "fallback" then { o with Fallback := E.ParseIP value }
      else o := by
  unfold ParseOptions.step
  rw [indexByte_first 61 key value h]
  have ht : List.take key.length (key ++ 61 :: value) = key := by simp
  have hd : List.drop (key.length + 1) (key ++ 61 :: value) = value := by
    clear h ht
    induction key with
    | nil => rfl
    | cons b bs ih => exact ih
  simp only [ht, hd]

theorem ParseOptions.step_bare (E : Env) (o : ServerOptions) (seg : List Nat) (h : 61 ∉ seg) :
    ParseOptions.step E o seg = o := by
  unfold ParseOptions.step
  rw [indexByte_absent 61 seg h]

theorem ParseOptions_back (E : Env) (s seg : List Nat) (h : 38 ∉ seg) :
    ParseOptions E (s ++ 38 :: seg) = ParseOptions.step E (ParseOptions E s) seg := by
  unfold ParseOptions
  rw [splitByte_back 38 s seg h, List.foldl_append]
  rfl

theorem ParseOptions_front (E : Env) (seg s : List Nat) (h : 38 ∉ seg)
    (hs : ParseOptions.step E ServerOptions.empty seg = ServerOptions.empty) :
    ParseOptions E (seg ++ 38 :: s) = ParseOptions E s := by
  unfold ParseOptions
  rw [splitByte_front 38 seg s h, List.foldl_cons, hs]

/-- C20: `ParseOptions` ignores unrecognised keys. For a key and a value that are
tokens of the option string (no `&` in either, no `=` in the key) and a key outside
`ecs`, `pd`, `type`, `domain`, `badsubnet`, `fallback`, the pair `key=value` changes
nothing, whether it is appended to `s` after `&` or placed first; the same holds for a
segment without `=`; and each recognised key appended to `s` changes only its own field
of the options parsed from `s`. -/
theorem ParseOptions_ignores_unrecognised (E : Env) (s key value : List Nat)
    (hk38 : 38 ∉ key) (hk61 : 61 ∉ key) (hv38 : 38 ∉ value)
    (hkey : key ∉ [str "ecs", str "pd", str "type", str "domain", str "badsubnet",
      str "fallback"]) :
    ParseOptions E (s ++ 38 :: (key ++ 61 :: value)) = ParseOptions E s ∧
    ParseOptions E ((key ++ 61 :: value) ++ 38 :: s) = ParseOptions E s ∧
    (∀ seg, 38 ∉ seg → 61 ∉ seg →
      ParseOptions E (s ++ 38 :: seg) = ParseOptions E s ∧
      ParseOptions E (seg ++ 38 :: s) = ParseOptions E s) ∧
    ParseOptions E (s ++ 38 :: (str "ecs" ++ 61 :: value)) =
      { ParseOptions E s with ECS := value } ∧
    ParseOptions E (s ++ 38 :: (str "pd" ++ 61 :: value)) =
      { ParseOptions E s with PD := value } ∧
    ParseOptions E (s ++ 38 :: (str "type" ++ 61 :: value)) =
      { ParseOptions E s with Typ := value } ∧
    ParseOptions E (s ++ 38 :: (str "domain" ++ 61 :: value)) =
      { ParseOptions E s with Domain := value } ∧
    ParseOptions E (s ++ 38 :: (str "badsubnet" ++ 61 :: value)) =
      { ParseOptions E s with BadSubnet := E.ParseCIDR value } ∧
    ParseOptions E (s ++ 38 :: (str "fallback" ++ 61 :: value)) =
      { ParseOptions E s with Fallback := E.ParseIP value } := by
  have hpair : 38 ∉ key ++ 61 :: value := by
    simp only [List.mem_append, List.mem_cons, not_or]
    exact ⟨hk38, by decide, hv38⟩
  have hstep : ∀ o, ParseOptions.step E o (key ++ 61 :: value) = o := by
    intro o
    rw [ParseOptions.step_pair E o key value hk61]
    simp only [List.mem_cons, List.mem_singleton, not_or] at hkey
    rw [if_neg hkey.1, if_neg hkey.2.1, if_neg hkey.2.2.1, if_neg hkey.2.2.2.1,
      if_neg hkey.2.2.2.2.1, if_neg hkey.2.2.2.2.2.1]
  have hrec : ∀ k : List Nat, 38 ∉ k → 61 ∉ k →
      ParseOptions E (s ++ 38 :: (k ++ 61 :: value)) =
        ParseOptions.step E (ParseOptions E s) (k ++ 61 :: value) := by
    intro k h38 _
    apply ParseOptions_back
    simp only [List.mem_append, List.mem_cons, not_or]
    exact ⟨h38, by decide, hv38⟩
  refine ⟨?_, ?_, ?_, ?_, ?_, ?_, ?_, ?_, ?_⟩
  · rw [ParseOptions_back E s _ hpair, hstep]
  · exact ParseOptions_front E _ s hpair (hstep _)
  · intro seg h38 h61
    exact ⟨by rw [ParseOptions_back E s seg h38, ParseOptions.step_bare E _ seg h61],
      ParseOptions_front E seg s h38 (ParseOptions.step_bare E _ seg h61)⟩
  · rw [hrec _ (by decide) (by decide), ParseOptions.step_pair E _ _ value (by decide)]
    rfl
  · rw [hrec _ (by decide) (by decide), ParseOptions.step_pair E _ _ value (by decide)]
    rfl
  · rw [hrec _ (by decide) (by decide), ParseOptions.step_pair E _ _ value (by decide)]
    rfl
  · rw [hrec _ (by decide) (by decide), ParseOptions.step_pair E _ _ value (by decide)]
    rfl
  · rw [hrec _ (by decide) (by decide), ParseOptions.step_pair E _ _ value (by decide)]
    rfl
  · rw [hrec _ (by decide) (by decide), ParseOptions.step_pair E _ _ value (by decide)]
    rfl

/-- C20 for `s = "ecs=1.2.3.0/24"`, the unrecognised key `foo` and the value `bar`. -/
theorem ParseOptions_ignores_unrecognised_witness :
    ParseOptions Env.sample (str "ecs=1.2.3.0/24" ++ 38 :: (str "foo" ++ 61 :: str "bar")) =
      ParseOptions Env.sample (str "ecs=1.2.3.0/24") ∧
    (ParseOptions Env.sample (str "ecs=1.2.3.0/24")).ECS = str "1.2.3.0/24" :=
  ⟨(ParseOptions_ignores_unrecognised Env.sample (str "ecs=1.2.3.0/24") (str "foo") (str "bar")
    (by decide) (by decide) (by decide) (by decide)).1, by decide⟩

/-! ## C21: the pointers of GetName -/

/-- C21 fails on the code: the recursion of `GetName` at a pointer has no bound. On the
2-byte message `c0 00`, a pointer to itself, `GetName` at offset 0 is out of budget for
every budget: it never returns. On `01 61 00 | c0 00 | c0 03` the call at offset 5
follows the pointer to offset 3, which is a pointer to offset 0, and returns the name
`a` reached through two pointers. A single pointer to an uncompressed name is read as
the claim says: on `01 61 00 | 02 62 63 c0 00 | 00 00` the call at offset 3 returns
`bc.a` and offset 8, just past the pointer. -/
theorem GetName_indirection_unbounded :
    (∀ fuel, GetName fuel (Slice.ofList [0xC0, 0]) 0 = .hang) ∧
    (∀ fuel, GetName (fuel + 4) (Slice.ofList [1, 97, 0, 0xC0, 0, 0xC0, 3]) 5 =
      .ok (str "a", 7)) ∧
    (∀ fuel, GetName (fuel + 4) (Slice.ofList [1, 97, 0, 2, 98, 99, 0xC0, 0, 0, 0]) 3 =
      .ok (str "bc.a", 8)) :=
  ⟨fun fuel => GetName.loop_self_pointer (Slice.ofList [0xC0, 0]) 0 (by decide) (by decide) fuel [],
    fun _ => rfl, fun _ => rfl⟩

/-! ## C22: GetAnswers on a truncated response -/

/-- C22 fails on the code: a truncation that ends right after the RDLENGTH of a CNAME
answer makes `GetAnswers` panic. The 56-byte response has the question `a.bc`, the CNAME
answer `x.yz` and the A answer 1.2.3.4; `GetAnswers` completes on it and on its
truncations to 33 and 36 bytes, and it panics on the truncation to 34 bytes, both when
the truncation is a `response[:34]` of the same array and when it is a copy of the first
34 bytes: `GetName` reads `buf[34]` with no bounds test. -/
theorem GetAnswers_truncated_cname_panics (E : Env) (fuel : Nat) (options : ServerOptions) :
    (GetAnswers E (fuel + 3) DNSRecords.fresh
      (Slice.ofList [0x12, 0x34, 0x81, 0x80, 0, 1, 0, 2, 0, 0, 0, 0,
        1, 97, 2, 98, 99, 0, 0, 1, 0, 1,
        0xC0, 12, 0, 5, 0, 1, 0, 0, 0, 60, 0, 6, 1, 120, 2, 121, 122, 0,
        0xC0, 34, 0, 1, 0, 1, 0, 0, 0, 60, 0, 4, 1, 2, 3, 4]) ServerOptions.empty).2 = .ok () ∧
    addressesOf (GetAnswers E (fuel + 3) DNSRecords.fresh
      (Slice.ofList [0x12, 0x34, 0x81, 0x80, 0, 1, 0, 2, 0, 0, 0, 0,
        1, 97, 2, 98, 99, 0, 0, 1, 0, 1,
        0xC0, 12, 0, 5, 0, 1, 0, 0, 0, 60, 0, 6, 1, 120, 2, 121, 122, 0,
        0xC0, 34, 0, 1, 0, 1, 0, 0, 0, 60, 0, 4, 1, 2, 3, 4]) ServerOptions.empty).1.A =
      [[1, 2, 3, 4]] ∧
    GetAnswers E (fuel + 1) DNSRecords.fresh
      (Slice.ofList [0x12, 0x34, 0x81, 0x80, 0, 1, 0, 2, 0, 0, 0, 0,
        1, 97, 2, 98, 99, 0, 0, 1, 0, 1,
        0xC0, 12, 0, 5, 0, 1, 0, 0, 0, 60, 0, 6]) options = (DNSRecords.fresh, .crash) ∧
    GetAnswers E (fuel + 1) DNSRecords.fresh
      ⟨[0x12, 0x34, 0x81, 0x80, 0, 1, 0, 2, 0, 0, 0, 0,
        1, 97, 2, 98, 99, 0, 0, 1, 0, 1,
        0xC0, 12, 0, 5, 0, 1, 0, 0, 0, 60, 0, 6, 1, 120, 2, 121, 122, 0,
        0xC0, 34, 0, 1, 0, 1, 0, 0, 0, 60, 0, 4, 1, 2, 3, 4], 34⟩ options =
      (DNSRecords.fresh, .crash) ∧
    GetAnswers E (fuel + 1) DNSRecords.fresh
      (Slice.ofList [0x12, 0x34, 0x81, 0x80, 0, 1, 0, 2, 0, 0, 0, 0,
        1, 97, 2, 98, 99, 0, 0, 1, 0, 1,
        0xC0, 12, 0, 5, 0, 1, 0, 0, 0, 60, 0]) options = (DNSRecords.fresh, .ok ()) ∧
    GetAnswers E (fuel + 1) DNSRecords.fresh
      (Slice.ofList [0x12, 0x34, 0x81, 0x80, 0, 1, 0, 2, 0, 0, 0, 0,
        1, 97, 2, 98, 99, 0, 0, 1, 0, 1,
        0xC0, 12, 0, 5, 0, 1, 0, 0, 0, 60, 0, 6, 1, 120]) options =
      (DNSRecords.fresh, .ok ()) :=
  ⟨rfl, rfl, rfl, rfl, rfl, rfl⟩

/-! ## C23: GetAnswers applied twice -/

theorem mergeSet_none_left (d : Option RecordAddresses) : mergeSet none d = d := by
  cases d <;> rfl

theorem mergeSet_assoc (a b c : Option RecordAddresses) :
    mergeSet (mergeSet a b) c = mergeSet a (mergeSet b c) := by
  cases a <;> cases b <;> cases c <;> simp [mergeSet, List.append_assoc]

theorem mergeSet_addAddress (E : Env) (s : Option RecordAddresses) (TTL : Nat) (ip : IP) :
    addAddress E s TTL ip = mergeSet s (addAddress E none TTL ip) := by
  cases s <;> rfl

theorem addressesOf_mergeSet (s d : Option RecordAddresses) :
    addressesOf (mergeSet s d) = addressesOf s ++ addressesOf d := by
  cases s <;> cases d <;> simp [mergeSet, addressesOf]

theorem mergeSet_expiry_twice (s d : Option RecordAddresses) :
    (mergeSet (mergeSet s d) d).map (fun x => x.TTL) = (mergeSet s d).map (fun x => x.TTL) := by
  cases s <;> cases d <;> simp [mergeSet]

theorem DNSRecords.merge_fresh (d : DNSRecords) (h : d.Index = 0 ∧ d.Hint = 0 ∧ d.Echo = []) :
    DNSRecords.fresh.merge d = d := by
  obtain ⟨i, hi, a, b, e⟩ := d
  simp only at h
  obtain ⟨h1, h2, h3⟩ := h
  subst h1 h2 h3
  simp [DNSRecords.merge, DNSRecords.fresh, mergeSet_none_left]

theorem DNSRecords.merge_assoc (a b c : DNSRecords) :
    (a.merge b).merge c = a.merge (b.merge c) := by
  simp [DNSRecords.merge, mergeSet_assoc]

/-- One pass of the answer loop does not read the record: its result from any record is
its result from the fresh record merged into that record. -/
theorem GetAnswers.answer_merge (E : Env) (fuel : Nat) (options : ServerOptions)
    (response : Slice) (records : DNSRecords) (offset : Nat) :
    GetAnswers.answer E fuel options response records offset =
      (GetAnswers.answer E fuel options response DNSRecords.fresh offset).bind fun o =>
        .ok (o.map fun x => (records.merge x.1, x.2)) := by
  have hm : records.merge DNSRecords.fresh = records := by
    simp [DNSRecords.merge, DNSRecords.fresh, mergeSet]
  have h4 : ∀ TTL ip, ({ records with A := addAddress E records.A TTL ip } : DNSRecords) =
      records.merge { DNSRecords.fresh with A := addAddress E DNSRecords.fresh.A TTL ip } := by
    intro TTL ip
    simp only [DNSRecords.merge, DNSRecords.fresh, mergeSet_addAddress E records.A]
    cases records.AAAA <;> rfl
  have h6 : ∀ TTL ip, ({ records with AAAA := addAddress E records.AAAA TTL ip } : DNSRecords) =
      records.merge { DNSRecords.fresh with AAAA := addAddress E DNSRecords.fresh.AAAA TTL ip } := by
    intro TTL ip
    simp only [DNSRecords.merge, DNSRecords.fresh, mergeSet_addAddress E records.AAAA]
    cases records.A <;> rfl
  unfold GetAnswers.answer
  dsimp only
  cases GetNameOffset response offset with
  | crash => rfl
  | hang => rfl
  | ok o1 =>
    rw [Exec.bind_ok, Exec.bind_ok]
    by_cases c1 : o1 = 0
    · rw [if_pos c1, if_pos c1]; rfl
    rw [if_neg c1, if_neg c1]
    by_cases c2 : o1 + 2 > response.len
    · rw [if_pos c2, if_pos c2]; rfl
    rw [if_neg c2, if_neg c2]
    cases response.u16 o1 with
    | crash => rfl
    | hang => rfl
    | ok AType =>
      rw [Exec.bind_ok, Exec.bind_ok]
      by_cases c3 : o1 + 4 + 4 > response.len
      · rw [if_pos c3, if_pos c3]; rfl
      rw [if_neg c3, if_neg c3]
      cases response.u32 (o1 + 4) with
      | crash => rfl
      | hang => rfl
      | ok TTL =>
        rw [Exec.bind_ok, Exec.bind_ok]
        by_cases c4 : o1 + 4 + 4 + 2 > response.len
        · rw [if_pos c4, if_pos c4]; rfl
        rw [if_neg c4, if_neg c4]
        cases response.u16 (o1 + 4 + 4) with
        | crash => rfl
        | hang => rfl
        | ok DL =>
          rw [Exec.bind_ok, Exec.bind_ok]
          by_cases t1 : AType = 1
          · rw [if_pos t1, if_pos t1]
            by_cases c5 : o1 + 4 + 4 + 2 + 4 > response.len
            · rw [if_pos c5, if_pos c5]; rfl
            rw [if_neg c5, if_neg c5]
            cases response.slice (o1 + 4 + 4 + 2) (o1 + 4 + 4 + 2 + 4) with
            | crash => rfl
            | hang => rfl
            | ok data =>
              rw [Exec.bind_ok, Exec.bind_ok]
              by_cases c6 : To4 (nsfilter E options
                (IPv4 (data.getD 0 0) (data.getD 1 0) (data.getD 2 0) (data.getD 3 0))) = []
              · rw [if_pos c6, if_pos c6]
                simp only [Exec.pure_eq, Exec.bind, Option.map_some', hm]
              · rw [if_neg c6, if_neg c6]
                simp only [Exec.pure_eq, Exec.bind, Option.map_some', ← h4]
          rw [if_neg t1, if_neg t1]
          by_cases t28 : AType = 28
          · rw [if_pos t28, if_pos t28]
            by_cases c5 : o1 + 4 + 4 + 2 + 16 > response.len
            · rw [if_pos c5, if_pos c5]; rfl
            rw [if_neg c5, if_neg c5]
            cases response.slice (o1 + 4 + 4 + 2) (o1 + 4 + 4 + 2 + 16) with
            | crash => rfl
            | hang => rfl
            | ok data =>
              rw [Exec.bind_ok, Exec.bind_ok]
              by_cases c6 : nsfilter E options data = []
              · rw [if_pos c6, if_pos c6]
                simp only [Exec.pure_eq, Exec.bind, Option.map_some', hm]
              · rw [if_neg c6, if_neg c6]
                simp only [Exec.pure_eq, Exec.bind, Option.map_some', ← h6]
          rw [if_neg t28, if_neg t28]
          by_cases t65 : AType = 65
          · rw [if_pos t65, if_pos t65]
            cases response.sliceFrom (o1 + 4 + 4 + 2) with
            | crash => rfl
            | hang => rfl
            | ok x =>
              rw [Exec.bind_ok, Exec.bind_ok]
              simp only [Exec.pure_eq, Exec.bind, Option.map_some', hm]
          rw [if_neg t65, if_neg t65]
          by_cases t5 : AType = 5
          · rw [if_pos t5, if_pos t5]
            cases GetName fuel response (o1 + 4 + 4 + 2) with
            | crash => rfl
            | hang => rfl
            | ok x =>
              rw [Exec.bind_ok, Exec.bind_ok]
              simp only [Exec.pure_eq, Exec.bind, Option.map_some', hm]
          rw [if_neg t5, if_neg t5]
          simp only [Exec.pure_eq, Exec.bind, Option.map_some', hm]

theorem GetAnswers.answers_merge (E : Env) (fuel : Nat) (options : ServerOptions)
    (response : Slice) (n : Nat) : ∀ (records : DNSRecords) (offset : Nat),
    GetAnswers.answers E fuel options response n records offset =
      (records.merge (GetAnswers.answers E fuel options response n DNSRecords.fresh offset).1,
        (GetAnswers.answers E fuel options response n DNSRecords.fresh offset).2) := by
  have hm : ∀ r : DNSRecords, r.merge DNSRecords.fresh = r := by
    intro r
    simp [DNSRecords.merge, DNSRecords.fresh, mergeSet]
  induction n with
  | zero =>
    intro records offset
    simp only [GetAnswers.answers, hm]
  | succ n ih =>
    intro records offset
    rw [GetAnswers.answers, GetAnswers.answers, GetAnswers.answer_merge E fuel options response
      records offset]
    cases GetAnswers.answer E fuel options response DNSRecords.fresh offset with
    | crash => simp only [Exec.bind, hm]
    | hang => simp only [Exec.bind, hm]
    | ok o =>
      cases o with
      | none => simp only [Exec.bind, Option.map_none', hm]
      | some next =>
        simp only [Exec.bind, Option.map_some']
        rw [ih (records.merge next.1) next.2, ih next.1 next.2, DNSRecords.merge_assoc]

/-- The method `GetAnswers` does not read the record: the record after the call is the
record before it with the sets that the call gives a fresh record merged in. -/
theorem GetAnswers_merge (E : Env) (fuel : Nat) (records : DNSRecords) (response : Slice)
    (options : ServerOptions) :
    (GetAnswers E fuel records response options).1 =
      records.merge (GetAnswers E fuel DNSRecords.fresh response options).1 := by
  have hm : ∀ r : DNSRecords, r.merge DNSRecords.fresh = r := by
    intro r
    simp [DNSRecords.merge, DNSRecords.fresh, mergeSet]
  unfold GetAnswers
  dsimp only
  by_cases c1 : 12 > response.len
  · rw [if_pos c1, if_pos c1, hm]
  rw [if_neg c1, if_neg c1]
  cases response.u16 4 with
  | crash => cases response.u16 6 <;> simp only [hm]
  | hang => simp only [hm]
  | ok QD =>
    cases response.u16 6 with
    | crash => simp only [hm]
    | hang => simp only [hm]
    | ok AN =>
      simp only
      by_cases c2 : AN = 0
      · rw [if_pos c2, if_pos c2, hm]
      rw [if_neg c2, if_neg c2]
      cases GetAnswers.questions response QD 12 with
      | crash => simp only [hm]
      | hang => simp only [hm]
      | ok o =>
        cases o with
        | none => simp only [hm]
        | some off =>
          simp only
          rw [GetAnswers.answers_merge E fuel options response AN records off]

/-- C23, as the code has it: a second application of `GetAnswers` with the same response
is not idempotent on the address lists. For every response, options and record, the
second application leaves both expiry values as they were after the first, and it
appends to each address list, once more, the addresses that the response yields (the
lists that `GetAnswers` gives a fresh record); the first application had appended the
same addresses to the lists of the starting record. -/
theorem GetAnswers_twice_appends (E : Env) (fuel : Nat) (records : DNSRecords)
    (response : Slice) (options : ServerOptions) :
    addressesOf (GetAnswers E fuel (GetAnswers E fuel records response options).1 response
        options).1.A =
      addressesOf (GetAnswers E fuel records response options).1.A ++
        addressesOf (GetAnswers E fuel DNSRecords.fresh response options).1.A ∧
    addressesOf (GetAnswers E fuel (GetAnswers E fuel records response options).1 response
        options).1.AAAA =
      addressesOf (GetAnswers E fuel records response options).1.AAAA ++
        addressesOf (GetAnswers E fuel DNSRecords.fresh response options).1.AAAA ∧
    addressesOf (GetAnswers E fuel records response options).1.A =
      addressesOf records.A ++
        addressesOf (GetAnswers E fuel DNSRecords.fresh response options).1.A ∧
    addressesOf (GetAnswers E fuel records response options).1.AAAA =
      addressesOf records.AAAA ++
        addressesOf (GetAnswers E fuel DNSRecords.fresh response options).1.AAAA ∧
    (GetAnswers E fuel (GetAnswers E fuel records response options).1 response
        options).1.A.map (fun s => s.TTL) =
      (GetAnswers E fuel records response options).1.A.map (fun s => s.TTL) ∧
    (GetAnswers E fuel (GetAnswers E fuel records response options).1 response
        options).1.AAAA.map (fun s => s.TTL) =
      (GetAnswers E fuel records response options).1.AAAA.map (fun s => s.TTL) := by
  rw [GetAnswers_merge E fuel (GetAnswers E fuel records response options).1,
    GetAnswers_merge E fuel records]
  generalize (GetAnswers E fuel DNSRecords.fresh response options).1 = d
  simp only [DNSRecords.merge, addressesOf_mergeSet, mergeSet_expiry_twice, and_self]

/-- C23 as stated fails: from a fresh record, the response with the one A answer 1.2.3.4
gives the IPv4 list `[1.2.3.4]` at the first application of `GetAnswers` and
`[1.2.3.4, 1.2.3.4]` at the second. -/
theorem GetAnswers_twice_duplicates :
    addressesOf (GetAnswers Env.sample 0 DNSRecords.fresh
      (Slice.ofList [0x12, 0x34, 0x81, 0x80, 0, 1, 0, 1, 0, 0, 0, 0,
        1, 97, 2, 98, 99, 0, 0, 1, 0, 1,
        0xC0, 12, 0, 1, 0, 1, 0, 0, 0, 60, 0, 4, 1, 2, 3, 4]) ServerOptions.empty).1.A =
      [[1, 2, 3, 4]] ∧
    addressesOf (GetAnswers Env.sample 0 (GetAnswers Env.sample 0 DNSRecords.fresh
      (Slice.ofList [0x12, 0x34, 0x81, 0x80, 0, 1, 0, 1, 0, 0, 0, 0,
        1, 97, 2, 98, 99, 0, 0, 1, 0, 1,
        0xC0, 12, 0, 1, 0, 1, 0, 0, 0, 60, 0, 4, 1, 2, 3, 4]) ServerOptions.empty).1
      (Slice.ofList [0x12, 0x34, 0x81, 0x80, 0, 1, 0, 1, 0, 0, 0, 0,
        1, 97, 2, 98, 99, 0, 0, 1, 0, 1,
        0xC0, 12, 0, 1, 0, 1, 0, 0, 0, 60, 0, 4, 1, 2, 3, 4]) ServerOptions.empty).1.A =
      [[1, 2, 3, 4], [1, 2, 3, 4]] :=
  ⟨rfl, rfl⟩

/-! ## C24: the reply selection of UDPlookup -/

theorem UDPlookup.read_length (response d : List Nat) :
    (d.take response.length ++ response.drop d.length).length = response.length := by
  simp only [List.length_append, List.length_take, List.length_drop]
  omega

theorem UDPlookup.read_bytes (response d : List Nat) :
    (d.take response.length ++ response.drop d.length).take (min d.length response.length) =
      d.take response.length := by
  rw [List.take_append_of_le_length (by simp only [List.length_take]; omega)]
  rw [List.take_take]
  by_cases h : d.length ≤ response.length
  · rw [List.take_of_length_le (by omega), List.take_of_length_le h]
  · congr 1
    omega

theorem UDPlookup.read_byte11_short (response d : List Nat) (h : d.length < 12)
    (hr : 12 ≤ response.length) :
    (d.take response.length ++ response.drop d.length).getD 11 0 = response.getD 11 0 := by
  simp only [List.getD_eq_getElem?_getD]
  rw [List.getElem?_append_right (by simp only [List.length_take]; omega)]
  simp only [List.length_take, List.getElem?_drop]
  congr 2
  omega

theorem UDPlookup.read_byte11_long (response d : List Nat) (h : 12 ≤ d.length)
    (hr : 12 ≤ response.length) :
    (d.take response.length ++ response.drop d.length).getD 11 0 = d.getD 11 0 := by
  simp only [List.getD_eq_getElem?_getD]
  rw [List.getElem?_append_left (by simp only [List.length_take]; omega)]
  rw [List.getElem?_take_of_lt (by omega)]

theorem UDPlookup.loop_skips (request : Slice) (b : Nat) (hreq : request.get 11 = .ok b)
    (hb : b ≠ 0) (d : List Nat) (rest : List (Option (List Nat))) (hd : 12 ≤ d.length)
    (hd11 : d.getD 11 0 ≠ 0) :
    ∀ (skipped : List (List Nat)) (response : List Nat), 12 ≤ response.length →
      response.getD 11 0 = 0 → (∀ x ∈ skipped, x.length < 12 ∨ x.getD 11 0 = 0) →
      ∃ s, UDPlookup.loop request response (skipped.map some ++ some d :: rest) =
          .ok (some s, false) ∧ s.bytes = d.take response.length ∧
        s.arr.length = response.length := by
  intro skipped
  induction skipped with
  | nil =>
    intro response hr _ _
    have hlen := UDPlookup.read_length response d
    have h11 := UDPlookup.read_byte11_long response d hd hr
    simp only [List.map_nil, List.nil_append, UDPlookup.loop, hreq, Exec.bind_ok]
    rw [if_neg hb]
    simp only [Slice.ofList, Slice.get, hlen, show 11 < response.length by omega, if_true,
      Exec.bind_ok, h11]
    rw [if_pos (Nat.pos_of_ne_zero hd11)]
    simp only [sliceTo, hlen, show min d.length response.length ≤ response.length by omega,
      if_true, Exec.bind_ok, Exec.pure_eq]
    exact ⟨_, rfl, UDPlookup.read_bytes response d, hlen⟩
  | cons x xs ih =>
    intro response hr h0 hskip
    have hlen := UDPlookup.read_length response x
    have h11 : (x.take response.length ++ response.drop x.length).getD 11 0 = 0 := by
      rcases hskip x (List.mem_cons_self x xs) with hx | hx
      · rw [UDPlookup.read_byte11_short response x hx hr, h0]
      · by_cases hl : x.length < 12
        · rw [UDPlookup.read_byte11_short response x hl hr, h0]
        · rw [UDPlookup.read_byte11_long response x (by omega) hr, hx]
    simp only [List.map_cons, List.cons_append, UDPlookup.loop, hreq, Exec.bind_ok]
    rw [if_neg hb]
    simp only [Slice.ofList, Slice.get, hlen, show 11 < response.length by omega, if_true,
      Exec.bind_ok, h11]
    rw [if_neg (by decide)]
    obtain ⟨s, hs, hbytes, harr⟩ := ih (x.take response.length ++ response.drop x.length)
      (by omega) h11 (fun y hy => hskip y (List.mem_cons_of_mem x hy))
    rw [hlen] at hbytes harr
    exact ⟨s, hs, hbytes, harr⟩

theorem UDPlookup_first (dial : List Nat → UDPConn) (request : Slice)
    (address d : List Nat) (rest : List (Option (List Nat))) (h12 : 12 ≤ request.len)
    (hdial : (dial address).dialErr = false) (hwrite : (dial address).writeErr = false)
    (h0 : request.arr.getD 11 0 = 0) (hreads : (dial address).reads = some d :: rest) :
    ∃ s, UDPlookup dial request address = .ok (some s, false) ∧ s.bytes = d.take 1024 := by
  have hreq : request.get 11 = .ok (request.arr.getD 11 0) := by
    simp only [Slice.get, show 11 < request.len by omega, if_true]
  unfold UDPlookup
  simp only [hdial, hwrite, Bool.false_eq_true, if_false, hreq, Exec.bind_ok, h0, if_true,
    hreads]
  have hlen := UDPlookup.read_length (List.replicate 1024 0) d
  simp only [sliceTo, hlen,
    show min d.length (List.replicate 1024 0).length ≤ (List.replicate 1024 0).length by omega,
    if_true, Exec.bind_ok, Exec.pure_eq]
  refine ⟨_, rfl, ?_⟩
  have hb := UDPlookup.read_bytes (List.replicate 1024 0) d
  rw [List.length_replicate] at hb
  simp only [Slice.bytes, List.length_replicate]
  exact hb

theorem UDPlookup_skips (dial : List Nat → UDPConn) (request : Slice)
    (address d : List Nat) (rest : List (Option (List Nat))) (h12 : 12 ≤ request.len)
    (hdial : (dial address).dialErr = false) (hwrite : (dial address).writeErr = false)
    (hne : request.arr.getD 11 0 ≠ 0) (skipped : List (List Nat))
    (hskip : ∀ x ∈ skipped, x.length < 12 ∨ x.getD 11 0 = 0) (hd : 12 ≤ d.length)
    (hd11 : d.getD 11 0 ≠ 0)
    (hreads : (dial address).reads = skipped.map some ++ some d :: rest) :
    ∃ s, UDPlookup dial request address = .ok (some s, false) ∧ s.bytes = d.take 1024 := by
  have hreq : request.get 11 = .ok (request.arr.getD 11 0) := by
    simp only [Slice.get, show 11 < request.len by omega, if_true]
  unfold UDPlookup
  simp only [hdial, hwrite, Bool.false_eq_true, if_false, hreq, Exec.bind_ok, hreads]
  rw [if_neg hne]
  obtain ⟨s, hs, hbytes, -⟩ := UDPlookup.loop_skips request _ hreq hne d rest hd hd11 skipped
    (List.replicate 1024 0) (by rw [List.length_replicate]; omega)
    (by rw [List.getD_eq_getElem?_getD, List.getElem?_replicate, if_pos (by decide)]; rfl) hskip
  rw [List.length_replicate] at hbytes
  exact ⟨s, hs, hbytes⟩

/-- C24 as stated fails: the test is on byte 11, not on the ID. A query with ID 0x1234
and byte 11 equal to 0 gets the first reply although its ID is 0; a query with ID 0 and
byte 11 equal to 1 does not get the first reply, whose byte 11 is 0, but the second. -/
theorem UDPlookup_selects_on_byte_11 :
    (∃ s, UDPlookup (fun _ => ⟨false, false,
          [some [0, 0, 0x81, 0x80, 0, 1, 0, 0, 0, 0, 0, 0, 1, 97, 0, 0, 1, 0, 1],
           some [0x12, 0x34, 0x81, 0x80, 0, 1, 0, 0, 0, 0, 0, 0, 1, 97, 0, 0, 1, 0, 1]]⟩)
        (Slice.ofList [0x12, 0x34, 1, 0, 0, 1, 0, 0, 0, 0, 0, 0, 1, 97, 0, 0, 1, 0, 1]) [] =
        .ok (some s, false) ∧
      s.bytes = [0, 0, 0x81, 0x80, 0, 1, 0, 0, 0, 0, 0, 0, 1, 97, 0, 0, 1, 0, 1]) ∧
    (∃ s, UDPlookup (fun _ => ⟨false, false,
          [some [0, 0, 0x81, 0x80, 0, 1, 0, 0, 0, 0, 0, 0, 1, 97, 0, 0, 1, 0, 1],
           some [0, 0, 0x81, 0x80, 0, 1, 0, 0, 0, 0, 0, 1, 1, 97, 0, 0, 1, 0, 1,
             0, 0, 41, 2, 0, 0, 0, 0, 0, 0, 0]]⟩)
        (Slice.ofList [0, 0, 1, 0, 0, 1, 0, 0, 0, 0, 0, 1, 1, 97, 0, 0, 1, 0, 1,
          0, 0, 41, 2, 0, 0, 0, 0, 0, 0, 0]) [] = .ok (some s, false) ∧
      s.bytes = [0, 0, 0x81, 0x80, 0, 1, 0, 0, 0, 0, 0, 1, 1, 97, 0, 0, 1, 0, 1,
        0, 0, 41, 2, 0, 0, 0, 0, 0, 0, 0]) :=
  ⟨UDPlookup_first (fun _ => ⟨false, false,
          [some [0, 0, 0x81, 0x80, 0, 1, 0, 0, 0, 0, 0, 0, 1, 97, 0, 0, 1, 0, 1],
           some [0x12, 0x34, 0x81, 0x80, 0, 1, 0, 0, 0, 0, 0, 0, 1, 97, 0, 0, 1, 0, 1]]⟩)
      (Slice.ofList [0x12, 0x34, 1, 0, 0, 1, 0, 0, 0, 0, 0, 0, 1, 97, 0, 0, 1, 0, 1]) []
      [0, 0, 0x81, 0x80, 0, 1, 0, 0, 0, 0, 0, 0, 1, 97, 0, 0, 1, 0, 1]
      [some [0x12, 0x34, 0x81, 0x80, 0, 1, 0, 0, 0, 0, 0, 0, 1, 97, 0, 0, 1, 0, 1]]
      (by decide) rfl rfl (by decide) rfl,
    UDPlookup_skips (fun _ => ⟨false, false,
          [some [0, 0, 0x81, 0x80, 0, 1, 0, 0, 0, 0, 0, 0, 1, 97, 0, 0, 1, 0, 1],
           some [0, 0, 0x81, 0x80, 0, 1, 0, 0, 0, 0, 0, 1, 1, 97, 0, 0, 1, 0, 1,
             0, 0, 41, 2, 0, 0, 0, 0, 0, 0, 0]]⟩)
      (Slice.ofList [0, 0, 1, 0, 0, 1, 0, 0, 0, 0, 0, 1, 1, 97, 0, 0, 1, 0, 1,
          0, 0, 41, 2, 0, 0, 0, 0, 0, 0, 0]) []
      [0, 0, 0x81, 0x80, 0, 1, 0, 0, 0, 0, 0, 1, 1, 97, 0, 0, 1, 0, 1,
        0, 0, 41, 2, 0, 0, 0, 0, 0, 0, 0] [] (by decide) rfl rfl (by decide)
      [[0, 0, 0x81, 0x80, 0, 1, 0, 0, 0, 0, 0, 0, 1, 97, 0, 0, 1, 0, 1]] (by decide) (by decide)
      (by decide) rfl⟩

/-- C24, as the code has it: the reply selection of `UDPlookup` reads byte 11 of the
query and of the replies, not the ID. With a dial and a write that succeed and a query
of at least 12 bytes: when byte 11 of the query is 0 the first datagram read is
returned; when it is not 0, every datagram that is shorter than 12 bytes or has byte 11
equal to 0 is skipped and the first datagram of at least 12 bytes with a non-zero byte
11 is returned. The returned bytes are the datagram, cut at 1024 bytes. -/
theorem UDPlookup_reply_selection (dial : List Nat → UDPConn) (request : Slice)
    (address d : List Nat) (rest : List (Option (List Nat))) (h12 : 12 ≤ request.len)
    (hdial : (dial address).dialErr = false) (hwrite : (dial address).writeErr = false) :
    (request.arr.getD 11 0 = 0 → (dial address).reads = some d :: rest →
      ∃ s, UDPlookup dial request address = .ok (some s, false) ∧ s.bytes = d.take 1024) ∧
    (request.arr.getD 11 0 ≠ 0 → ∀ skipped : List (List Nat),
      (∀ x ∈ skipped, x.length < 12 ∨ x.getD 11 0 = 0) → 12 ≤ d.length → d.getD 11 0 ≠ 0 →
      (dial address).reads = skipped.map some ++ some d :: rest →
      ∃ s, UDPlookup dial request address = .ok (some s, false) ∧ s.bytes = d.take 1024) :=
  ⟨fun h0 hreads => UDPlookup_first dial request address d rest h12 hdial hwrite h0 hreads,
    fun hne skipped hskip hd hd11 hreads =>
      UDPlookup_skips dial request address d rest h12 hdial hwrite hne skipped hskip hd hd11
        hreads⟩

/-- C24 for a query with byte 11 equal to 1: the 12-byte reply with byte 11 equal to 0 and
the 3-byte datagram are skipped, and the third datagram, with byte 11 equal to 1, is
returned. -/
theorem UDPlookup_reply_selection_witness :
    ∃ s, UDPlookup (fun _ => ⟨false, false,
          [some [0x12, 0x34, 0x81, 0x80, 0, 1, 0, 0, 0, 0, 0, 0], some [1, 2, 3],
           some [0x12, 0x34, 0x81, 0x80, 0, 1, 0, 0, 0, 0, 0, 1, 7], none]⟩)
        (Slice.ofList [0x12, 0x34, 1, 0, 0, 1, 0, 0, 0, 0, 0, 1, 7]) [] = .ok (some s, false) ∧
      s.bytes = List.take 1024 [0x12, 0x34, 0x81, 0x80, 0, 1, 0, 0, 0, 0, 0, 1, 7] :=
  (UDPlookup_reply_selection (fun _ => ⟨false, false,
          [some [0x12, 0x34, 0x81, 0x80, 0, 1, 0, 0, 0, 0, 0, 0], some [1, 2, 3],
           some [0x12, 0x34, 0x81, 0x80, 0, 1, 0, 0, 0, 0, 0, 1, 7], none]⟩)
      (Slice.ofList [0x12, 0x34, 1, 0, 0, 1, 0, 0, 0, 0, 0, 1, 7]) []
      [0x12, 0x34, 0x81, 0x80, 0, 1, 0, 0, 0, 0, 0, 1, 7] [none] (by decide) rfl rfl).2
    (by decide) [[0x12, 0x34, 0x81, 0x80, 0, 1, 0, 0, 0, 0, 0, 0], [1, 2, 3]] (by decide)
    (by decide) (by decide) rfl

/-! ## C25: the ANCOUNT of a real-mode response -/

/-- C25 as stated fails: `BuildResponse` leaves the ANCOUNT bytes of the request in
place when nothing is emitted. For the A query for `example.com` whose ANCOUNT field is
1 and a fresh record, `packAnswers` emits nothing and the response is the request with
the flags set: nothing follows the request bytes, and the ANCOUNT field is 1, not 0. -/
theorem BuildResponse_real_keeps_ancount :
    packAnswers Env.sample 1 0 DNSRecords.fresh = .ok (0, []) ∧
    ∃ response, BuildResponse Env.sample DNSRecords.fresh
        (Slice.ofList ([0x12, 0x34, 1, 0] ++ ([0, 1, 0, 1, 0, 0, 0, 0] ++
          (encodeLabels [str "example", str "com"] ++ [0, 0, 1, 0, 1])))) 1 0 = .ok response ∧
      response.bytes = [0x12, 0x34, 0x81, 0x80] ++ ([0, 1, 0, 1, 0, 0, 0, 0] ++
          (encodeLabels [str "example", str "com"] ++ [0, 0, 1, 0, 1])) ∧
      response.bytes.getD 6 0 * 256 + response.bytes.getD 7 0 = 1 := by
  have h := BuildResponse_real_empty Env.sample DNSRecords.fresh
    (Slice.ofList ([0x12, 0x34, 1, 0] ++ ([0, 1, 0, 1, 0, 0, 0, 0] ++
      (encodeLabels [str "example", str "com"] ++ [0, 0, 1, 0, 1])))) 1 0 0x12 0x34 1 0
    ([0, 1, 0, 1, 0, 0, 0, 0] ++ (encodeLabels [str "example", str "com"] ++ [0, 0, 1, 0, 1])) []
    (by decide) (by decide) (by decide) rfl (by decide)
  have hbytes : (⟨[0x12, 0x34, 0x81, 0x80] ++ (([0, 1, 0, 1, 0, 0, 0, 0] ++
      (encodeLabels [str "example", str "com"] ++ [0, 0, 1, 0, 1])) ++ List.replicate (1024 -
        (4 + ([0, 1, 0, 1, 0, 0, 0, 0] ++
          (encodeLabels [str "example", str "com"] ++ [0, 0, 1, 0, 1])).length)) 0),
      4 + ([0, 1, 0, 1, 0, 0, 0, 0] ++
          (encodeLabels [str "example", str "com"] ++ [0, 0, 1, 0, 1])).length⟩ : Slice).bytes =
      [0x12, 0x34, 0x81, 0x80] ++ ([0, 1, 0, 1, 0, 0, 0, 0] ++
          (encodeLabels [str "example", str "com"] ++ [0, 0, 1, 0, 1])) := by decide
  refine ⟨rfl, _, h, hbytes, ?_⟩
  rw [hbytes]
  decide

/-- C25, amended: for a request of 12 to 1024 bytes and a record with virtual index 0
(not above 0), when `packAnswers` emits nothing `BuildResponse` returns the request
bytes with the flags set to 0x81 0x80 and nothing else: nothing follows the request and
the ANCOUNT bytes are those of the request. When `packAnswers` emits `count > 0` records
and the result fits in 1024 bytes, the ANCOUNT bytes hold `count` as a 16-bit number and
the emitted records follow the request bytes. -/
theorem BuildResponse_real_ancount (E : Env) (records : DNSRecords) (request : Slice)
    (qtype ttl i1 i2 f1 f2 q1 q2 a1 a2 n1 n2 r1 r2 : Nat) (body : List Nat)
    (hb : request.bytes = [i1, i2, f1, f2, q1, q2, a1, a2, n1, n2, r1, r2] ++ body)
    (hl : request.len = 12 + body.length) (hidx : ¬ records.Index > 0) :
    (∀ answer, packAnswers E qtype ttl records = .ok (0, answer) → request.len ≤ 1024 →
      ∃ response, BuildResponse E records request qtype ttl = .ok response ∧
        response.bytes = [i1, i2, 0x81, 0x80, q1, q2, a1, a2, n1, n2, r1, r2] ++ body) ∧
    (∀ count answer, packAnswers E qtype ttl records = .ok (count, answer) → count > 0 →
      request.len + answer.length ≤ 1024 →
      ∃ response, BuildResponse E records request qtype ttl = .ok response ∧
        response.bytes = [i1, i2, 0x81, 0x80, q1, q2, count / 256 % 256, count % 256,
          n1, n2, r1, r2] ++ body ++ answer) := by
  constructor
  · intro answer hp hfit
    refine ⟨_, BuildResponse_real_empty E records request qtype ttl i1 i2 f1 f2
      ([q1, q2, a1, a2, n1, n2, r1, r2] ++ body) answer hb (by simp [hl]; omega) hidx hp hfit, ?_⟩
    simp only [Slice.bytes]
    rw [← List.append_assoc]
    exact List.take_left' (by simp; omega)
  · intro count answer hp hc hfit
    refine ⟨_, BuildResponse_real E records request qtype ttl i1 i2 f1 f2 q1 q2 a1 a2 n1 n2 r1 r2
      body answer count hb hl hidx hp hc (by omega), ?_⟩
    simp only [Slice.bytes]
    rw [← List.append_assoc, ← List.append_assoc]
    exact List.take_left' (by simp; omega)

/-- C25, amended, at the A query for `example.com` and a record with the IPv4 set
`[1.2.3.4]`: one record is emitted and the ANCOUNT bytes are 0, 1. -/
theorem BuildResponse_real_ancount_witness :
    ∃ response, BuildResponse Env.sample ⟨0, 0, some ⟨0, [[1, 2, 3, 4]]⟩, none, []⟩
        (Slice.ofList ([0x12, 0x34, 1, 0, 0, 1, 0, 0, 0, 0, 0, 0] ++
          (encodeLabels [str "example", str "com"] ++ [0, 0, 1, 0, 1]))) 1 60 = .ok response ∧
      response.bytes = [0x12, 0x34, 0x81, 0x80, 0, 1, 1 / 256 % 256, 1 % 256, 0, 0, 0, 0] ++
        (encodeLabels [str "example", str "com"] ++ [0, 0, 1, 0, 1]) ++
        [0xC0, 0x0C, 0, 1, 0, 1, 0, 0, 0, 60, 0, 4, 1, 2, 3, 4] :=
  (BuildResponse_real_ancount Env.sample ⟨0, 0, some ⟨0, [[1, 2, 3, 4]]⟩, none, []⟩
    (Slice.ofList ([0x12, 0x34, 1, 0, 0, 1, 0, 0, 0, 0, 0, 0] ++
      (encodeLabels [str "example", str "com"] ++ [0, 0, 1, 0, 1]))) 1 60
    0x12 0x34 1 0 0 1 0 0 0 0 0 0 (encodeLabels [str "example", str "com"] ++ [0, 0, 1, 0, 1])
    (by decide) (by decide) (by decide)).2 1
    [0xC0, 0x0C, 0, 1, 0, 1, 0, 0, 0, 60, 0, 4, 1, 2, 3, 4] (by decide) (by decide) (by decide)

/-! ## C26: the frame of BuildResponse -/

theorem Exec.Ensures.andThen {α β : Type} {x : Exec α} {f : α → Exec β} {P : α → Prop}
    {Q : β → Prop} (hx : x.Ensures P) (hf : ∀ a, P a → (f a).Ensures Q) :
    (x >>= f).Ensures Q := by
  intro b hb
  cases x with
  | ok a => exact hf a (hx a rfl) b hb
  | crash => cases hb
  | hang => cases hb

theorem Exec.Ensures.of_pure {α : Type} {a : α} {Q : α → Prop} (h : Q a) :
    (Pure.pure a : Exec α).Ensures Q := by
  intro b hb
  cases hb
  exact h

theorem Exec.Ensures.branch {α : Type} {c : Prop} [Decidable c] {x y : Exec α} {Q : α → Prop}
    (hx : c → x.Ensures Q) (hy : ¬ c → y.Ensures Q) : (if c then x else y).Ensures Q := by
  split
  · exact hx ‹_›
  · exact hy ‹_›

theorem copyAt_getD_below (dst : List Nat) (off : Nat) (src : List Nat) (r : List Nat)
    (h : copyAt dst off src = .ok r) (i : Nat) (hi : i < off) : r.getD i 0 = dst.getD i 0 := by
  unfold copyAt at h
  split at h
  · rename_i hoff
    cases h
    simp only [List.getD_eq_getElem?_getD, List.append_assoc]
    rw [List.getElem?_append_left (by simp only [List.length_take]; omega),
      List.getElem?_take_of_lt hi]
  · cases h

theorem copyAt_length (dst : List Nat) (off : Nat) (src : List Nat) (r : List Nat)
    (h : copyAt dst off src = .ok r) : r.length = dst.length := by
  unfold copyAt at h
  split at h
  · cases h
    simp only [List.length_append, List.length_take, List.length_drop]
    omega
  · cases h

theorem putU16_getD_other (dst : List Nat) (off v : Nat) (r : List Nat)
    (h : putU16 dst off v = .ok r) (i : Nat) (h1 : i ≠ off) (h2 : i ≠ off + 1) :
    r.getD i 0 = dst.getD i 0 := by
  unfold putU16 at h
  split at h
  · cases h
    simp only [List.getD_eq_getElem?_getD]
    rw [List.getElem?_set_ne (fun e => h2 e.symm), List.getElem?_set_ne (fun e => h1 e.symm)]
  · cases h

theorem putU16_length (dst : List Nat) (off v : Nat) (r : List Nat)
    (h : putU16 dst off v = .ok r) : r.length = dst.length := by
  unfold putU16 at h
  split at h
  · cases h
    simp only [List.length_set]
  · cases h

theorem copyAt_frame (X : List Nat) (L : Nat) (R : List Nat) (off : Nat) (src : List Nat)
    (hF : BuildResponse.Frame X L R) (h4 : 4 ≤ L) (hL : L ≤ off) :
    (copyAt R off src).Ensures (BuildResponse.Frame X L) := by
  intro r hr
  obtain ⟨f1, f2, f3, f4⟩ := hF
  refine ⟨by rw [copyAt_length R off src r hr, f1], ?_, ?_, ?_⟩
  · rw [copyAt_getD_below R off src r hr 2 (by omega), f2]
  · rw [copyAt_getD_below R off src r hr 3 (by omega), f3]
  · intro i hi i2 i3 i6 i7
    rw [copyAt_getD_below R off src r hr i (by omega), f4 i hi i2 i3 i6 i7]

theorem putU16_frame (X : List Nat) (L : Nat) (R : List Nat) (off v : Nat)
    (hF : BuildResponse.Frame X L R) (h4 : 4 ≤ L) (hL : L ≤ off ∨ off = 6) :
    (putU16 R off v).Ensures (BuildResponse.Frame X L) := by
  intro r hr
  obtain ⟨f1, f2, f3, f4⟩ := hF
  refine ⟨by rw [putU16_length R off v r hr, f1], ?_, ?_, ?_⟩
  · rw [putU16_getD_other R off v r hr 2 (by omega) (by omega), f2]
  · rw [putU16_getD_other R off v r hr 3 (by omega) (by omega), f3]
  · intro i hi i2 i3 i6 i7
    rw [putU16_getD_other R off v r hr i (by omega) (by omega), f4 i hi i2 i3 i6 i7]

theorem BuildResponse.frame_init (X : List Nat) (L : Nat) (hL : L ≤ 1024) {β : Type}
    (k : List Nat → Exec β) (Q : β → Prop)
    (hk : ∀ R, BuildResponse.Frame X L R → (k R).Ensures Q) :
    (copyAt (List.replicate 1024 0) 0 X >>= fun r =>
      setByte r 2 0x81 >>= fun r => setByte r 3 0x80 >>= k).Ensures Q := by
  intro r hr
  have h0 : copyAt (List.replicate 1024 0) 0 X =
      .ok (X.take 1024 ++ (List.replicate 1024 0).drop X.length) := by
    unfold copyAt
    rw [if_pos (Nat.zero_le _)]
    simp only [List.take_zero, List.nil_append, List.length_replicate, Nat.sub_zero,
      Nat.zero_add]
  have hlen : (X.take 1024 ++ (List.replicate 1024 0).drop X.length).length = 1024 := by
    simp only [List.length_append, List.length_take, List.length_drop, List.length_replicate]
    omega
  have hget : ∀ i, i < 1024 →
      (X.take 1024 ++ (List.replicate 1024 0).drop X.length).getD i 0 = X.getD i 0 := by
    intro i hi
    simp only [List.getD_eq_getElem?_getD]
    by_cases hx : i < X.length
    · rw [List.getElem?_append_left (by simp only [List.length_take]; omega),
        List.getElem?_take_of_lt hi]
    · rw [List.getElem?_append_right (by simp only [List.length_take]; omega)]
      rw [List.getElem?_eq_none (l := X) (by omega)]
      simp only [List.drop_replicate, List.getElem?_replicate, List.length_take]
      split <;> rfl
  generalize X.take 1024 ++ (List.replicate 1024 0).drop X.length = R0 at h0 hlen hget
  rw [h0] at hr
  simp only [Exec.bind_ok, setByte, List.length_set, hlen, show 2 < 1024 by decide,
    show 3 < 1024 by decide, if_true] at hr
  refine hk _ ⟨by simp only [List.length_set, hlen], ?_, ?_, ?_⟩ r hr
  · simp only [List.getD_eq_getElem?_getD]
    rw [List.getElem?_set_ne (by decide)]
    simp [List.getElem?_set, hlen]
  · simp only [List.getD_eq_getElem?_getD]
    simp [List.getElem?_set, hlen]
  · intro i hi i2 i3 _ _
    simp only [List.getD_eq_getElem?_getD]
    rw [List.getElem?_set_ne (fun e => i3 e.symm), List.getElem?_set_ne (fun e => i2 e.symm)]
    rw [← List.getD_eq_getElem?_getD, hget i (by omega), List.getD_eq_getElem?_getD]

theorem sliceTo_frame (X : List Nat) (L : Nat) (R : List Nat) (length : Nat)
    (hF : BuildResponse.Frame X L R) (h4 : 4 ≤ L) (hL : L ≤ length) :
    (sliceTo R length).Ensures fun s =>
      L ≤ s.len ∧ s.bytes.getD 2 0 = 0x81 ∧ s.bytes.getD 3 0 = 0x80 ∧
      ∀ i, i < L → i ≠ 2 → i ≠ 3 → i ≠ 6 → i ≠ 7 → s.bytes.getD i 0 = X.getD i 0 := by
  intro s hs
  unfold sliceTo at hs
  split at hs
  · cases hs
    obtain ⟨f1, f2, f3, f4⟩ := hF
    have hg : ∀ i, i < length → (R.take length).getD i 0 = R.getD i 0 := by
      intro i hi
      simp only [List.getD_eq_getElem?_getD]
      rw [List.getElem?_take_of_lt hi]
    refine ⟨hL, ?_, ?_, ?_⟩
    · simp only [Slice.bytes]
      rw [hg 2 (by omega), f2]
    · simp only [Slice.bytes]
      rw [hg 3 (by omega), f3]
    · intro i hi i2 i3 i6 i7
      simp only [Slice.bytes]
      rw [hg i (by omega), f4 i hi i2 i3 i6 i7]
  · cases hs

theorem BuildResponse_ensures (E : Env) (records : DNSRecords) (request : Slice)
    (qtype ttl : Nat) (h12 : 12 ≤ request.len) (h1024 : request.len ≤ 1024)
    (Q : Slice → Prop)
    (hQ : ∀ R length, BuildResponse.Frame request.bytes request.len R → request.len ≤ length →
      (sliceTo R length).Ensures Q) :
    (BuildResponse E records request qtype ttl).Ensures Q := by
  unfold BuildResponse
  refine BuildResponse.frame_init request.bytes request.len h1024 _ _ (fun R hF => ?_)
  refine Exec.Ensures.branch (fun hidx => ?_) (fun hidx => ?_)
  · refine Exec.Ensures.branch (fun hq => ?_) (fun hq => ?_)
    · refine (copyAt_frame _ _ R _ _ hF (by omega) (Nat.le_refl _)).andThen fun R1 h1 => ?_
      refine (putU16_frame _ _ R1 _ _ h1 (by omega) (Or.inl (by omega))).andThen fun R2 h2 => ?_
      refine (putU16_frame _ _ R2 _ _ h2 (by omega) (Or.inr rfl)).andThen fun R3 h3 => ?_
      exact hQ R3 _ h3 (by omega)
    refine Exec.Ensures.branch (fun hq => ?_) (fun hq => ?_)
    · exact hQ R _ hF (Nat.le_refl _)
    refine Exec.Ensures.branch (fun hq => ?_) (fun hq => ?_)
    · refine (copyAt_frame _ _ R _ _ hF (by omega) (Nat.le_refl _)).andThen fun R1 h1 => ?_
      lift_lets
      intro dataLenOffset length jp1
      have hd : dataLenOffset = request.len + 10 := rfl
      have hl : length = request.len + 15 := rfl
      have hjp1 : ∀ r l, BuildResponse.Frame request.bytes request.len r → request.len ≤ l →
          (jp1 (r, l)).Ensures Q := by
        intro r l hr hrl
        simp only [jp1]
        refine (copyAt_frame _ _ r _ _ hr (by omega) hrl).andThen fun r1 e1 => ?_
        refine (putU16_frame _ _ r1 _ _ e1 (by omega) (Or.inl (by omega))).andThen fun r2 e2 => ?_
        refine (putU16_frame _ _ r2 _ _ e2 (by omega) (Or.inr rfl)).andThen fun r3 e3 => ?_
        refine (putU16_frame _ _ r3 _ _ e3 (by omega) (Or.inl (by omega))).andThen fun r4 e4 => ?_
        exact hQ r4 _ e4 (by omega)
      clear_value dataLenOffset length jp1
      refine Exec.Ensures.branch (fun hc => ?_) (fun hc => ?_)
      · refine (copyAt_frame _ _ R1 _ _ h1 (by omega) (by omega)).andThen fun R2 h2 => ?_
        refine Exec.Ensures.branch (fun c3 => ?_) (fun c3 => ?_)
        · refine (copyAt_frame _ _ R2 _ _ h2 (by omega) (by omega)).andThen fun R3 h3 => ?_
          refine (copyAt_frame _ _ R3 _ _ h3 (by omega) (by omega)).andThen fun R4 h4 => ?_
          simp only [Exec.pure_eq, Exec.bind_ok]
          refine Exec.Ensures.branch (fun c2 => ?_) (fun c2 => ?_)
          · refine (copyAt_frame _ _ R4 _ _ h4 (by omega) (by omega)).andThen fun R5 h5 => ?_
            refine (putU16_frame _ _ R5 _ _ h5 (by omega) (Or.inl (by omega))).andThen
              fun R6 h6 => ?_
            exact hjp1 R6 _ h6 (by omega)
          · refine (putU16_frame _ _ R4 _ _ h4 (by omega) (Or.inl (by omega))).andThen
              fun R6 h6 => ?_
            exact hjp1 R6 _ h6 (by omega)
        · simp only [Exec.pure_eq, Exec.bind_ok]
          refine Exec.Ensures.branch (fun c2 => ?_) (fun c2 => ?_)
          · refine (copyAt_frame _ _ R2 _ _ h2 (by omega) (by omega)).andThen fun R5 h5 => ?_
            refine (putU16_frame _ _ R5 _ _ h5 (by omega) (Or.inl (by omega))).andThen
              fun R6 h6 => ?_
            exact hjp1 R6 _ h6 (by omega)
          · refine (putU16_frame _ _ R2 _ _ h2 (by omega) (Or.inl (by omega))).andThen
              fun R6 h6 => ?_
            exact hjp1 R6 _ h6 (by omega)
      · simp only [Exec.pure_eq, Exec.bind_ok]
        exact hjp1 R1 length h1 (by omega)
    · exact hQ R _ hF (Nat.le_refl _)
  · refine Exec.Ensures.andThen (P := fun _ => True) (fun _ _ => trivial) fun r _ => ?_
    refine Exec.Ensures.branch (fun hc => ?_) (fun hc => ?_)
    · refine (putU16_frame _ _ R _ _ hF (by omega) (Or.inr rfl)).andThen fun R1 h1 => ?_
      refine (copyAt_frame _ _ R1 _ _ h1 (by omega) (Nat.le_refl _)).andThen fun R2 h2 => ?_
      exact hQ R2 _ h2 (by omega)
    · exact hQ R _ hF (Nat.le_refl _)

/-- In virtual mode `BuildResponse` returns a response for every request that leaves room
for the longest synthesized record, 39 bytes. -/
theorem BuildResponse_virtual_returns (E : Env) (records : DNSRecords) (request : Slice)
    (qtype ttl : Nat) (hidx : records.Index > 0) (hfit : request.len + 39 ≤ 1024) :
    ∃ response, BuildResponse E records request qtype ttl = .ok response := by
  have key : (BuildResponse E records request qtype ttl).Returns fun _ => True := by
    unfold BuildResponse
    refine (copyAt_returns _ 0 _ (Nat.zero_le _)).bind fun R0 h0 => ?_
    rw [List.length_replicate] at h0
    refine (setByte_returns R0 2 _ (by omega)).bind fun Ra ha => ?_
    refine (setByte_returns Ra 3 _ (by omega)).bind fun R hR => ?_
    have hlen : R.length = 1024 := by omega
    have hs : ∀ (r : List Nat) (l : Nat), r.length = 1024 → l ≤ 1024 →
        (sliceTo r l).Returns fun _ => True := by
      intro r l hr hl
      exact ⟨_, by rw [sliceTo, if_pos (by omega)], trivial⟩
    rw [if_pos hidx]
    refine Exec.Returns.ite (fun hq => ?_) (fun hq => ?_)
    · refine (copyAt_returns R _ _ (by omega)).bind fun R1 h1 => ?_
      refine (putU16_returns R1 _ _ (by omega)).bind fun R2 h2 => ?_
      refine (putU16_returns R2 _ _ (by omega)).bind fun R3 h3 => ?_
      exact hs R3 _ (by omega) (by omega)
    refine Exec.Returns.ite (fun hq => ?_) (fun hq => ?_)
    · exact hs R _ hlen (by omega)
    refine Exec.Returns.ite (fun hq => ?_) (fun hq => ?_)
    · refine (copyAt_returns R _ _ (by omega)).bind fun R1 h1 => ?_
      lift_lets
      intro dataLenOffset length jp1
      have hd : dataLenOffset = request.len + 10 := rfl
      have hl : length = request.len + 15 := rfl
      have hjp1 : ∀ r l, r.length = 1024 → l + 8 ≤ 1024 →
          (jp1 (r, l)).Returns fun _ => True := by
        intro r l hr hrl
        simp only [jp1]
        refine (copyAt_returns r _ _ (by omega)).bind fun r1 e1 => ?_
        refine (putU16_returns r1 _ _ (by omega)).bind fun r2 e2 => ?_
        refine (putU16_returns r2 _ _ (by omega)).bind fun r3 e3 => ?_
        refine (putU16_returns r3 _ _ (by omega)).bind fun r4 e4 => ?_
        exact hs r4 _ (by omega) (by omega)
      clear_value dataLenOffset length jp1
      refine Exec.Returns.ite (fun hc => ?_) (fun hc => ?_)
      · refine (copyAt_returns R1 _ _ (by omega)).bind fun R2 h2 => ?_
        refine Exec.Returns.ite (fun c3 => ?_) (fun c3 => ?_)
        · refine (copyAt_returns R2 _ _ (by omega)).bind fun R3 h3 => ?_
          refine (copyAt_returns R3 _ _ (by omega)).bind fun R4 h4 => ?_
          simp only [Exec.pure_eq, Exec.bind_ok]
          refine Exec.Returns.ite (fun c2 => ?_) (fun c2 => ?_)
          · refine (copyAt_returns R4 _ _ (by omega)).bind fun R5 h5 => ?_
            refine (putU16_returns R5 _ _ (by omega)).bind fun R6 h6 => ?_
            exact hjp1 R6 _ (by omega) (by omega)
          · refine (putU16_returns R4 _ _ (by omega)).bind fun R6 h6 => ?_
            exact hjp1 R6 _ (by omega) (by omega)
        · simp only [Exec.pure_eq, Exec.bind_ok]
          refine Exec.Returns.ite (fun c2 => ?_) (fun c2 => ?_)
          · refine (copyAt_returns R2 _ _ (by omega)).bind fun R5 h5 => ?_
            refine (putU16_returns R5 _ _ (by omega)).bind fun R6 h6 => ?_
            exact hjp1 R6 _ (by omega) (by omega)
          · refine (putU16_returns R2 _ _ (by omega)).bind fun R6 h6 => ?_
            exact hjp1 R6 _ (by omega) (by omega)
      · simp only [Exec.pure_eq, Exec.bind_ok]
        exact hjp1 R1 length (by omega) (by omega)
    · exact hs R _ hlen (by omega)
  obtain ⟨r, hr, -⟩ := key
  exact ⟨r, hr⟩

/-- C26: for a request of 12 to 1024 bytes, whatever the qtype, the ttl and the record,
a response that `BuildResponse` returns is at least as long as the request, has the
flag bytes 2 and 3 equal to 0x81 and 0x80, and agrees with the request at every other
position below the request length except the ANCOUNT bytes 6 and 7: the ID, QDCOUNT,
NSCOUNT, ARCOUNT and the question section are those of the request, and everything
synthesized lies at or after position `len(request)`. -/
theorem BuildResponse_frame (E : Env) (records : DNSRecords) (request response : Slice)
    (qtype ttl : Nat) (h12 : 12 ≤ request.len) (h1024 : request.len ≤ 1024)
    (h : BuildResponse E records request qtype ttl = .ok response) :
    request.len ≤ response.len ∧ response.bytes.getD 2 0 = 0x81 ∧
    response.bytes.getD 3 0 = 0x80 ∧
    ∀ i, i < request.len → i ≠ 2 → i ≠ 3 → i ≠ 6 → i ≠ 7 →
      response.bytes.getD i 0 = request.bytes.getD i 0 :=
  BuildResponse_ensures E records request qtype ttl h12 h1024 _
    (fun R length hF hl => sliceTo_frame _ _ R length hF (by omega) hl) response h

set_option maxRecDepth 100000 in
/-- C26 at the HTTPS query for `example.com`, a record with virtual index 5 and the
HTTP/2 and HTTP/3 hints: `BuildResponse` returns a response, and the response keeps the
request bytes outside the flags and the ANCOUNT. -/
theorem BuildResponse_frame_witness :
    ∃ response, BuildResponse Env.sample ⟨5, 6, none, none, []⟩
        (Slice.ofList ([0x12, 0x34, 1, 0, 0, 1, 0, 0, 0, 0, 0, 0] ++
          (encodeLabels [str "example", str "com"] ++ [0, 0, 65, 0, 1]))) 65 0 = .ok response ∧
      (Slice.ofList ([0x12, 0x34, 1, 0, 0, 1, 0, 0, 0, 0, 0, 0] ++
          (encodeLabels [str "example", str "com"] ++ [0, 0, 65, 0, 1]))).len ≤ response.len ∧
      response.bytes.getD 2 0 = 0x81 ∧ response.bytes.getD 3 0 = 0x80 ∧
      ∀ i, i < (Slice.ofList ([0x12, 0x34, 1, 0, 0, 1, 0, 0, 0, 0, 0, 0] ++
          (encodeLabels [str "example", str "com"] ++ [0, 0, 65, 0, 1]))).len →
        i ≠ 2 → i ≠ 3 → i ≠ 6 → i ≠ 7 →
        response.bytes.getD i 0 = (Slice.ofList ([0x12, 0x34, 1, 0, 0, 1, 0, 0, 0, 0, 0, 0] ++
          (encodeLabels [str "example", str "com"] ++ [0, 0, 65, 0, 1]))).bytes.getD i 0 := by
  obtain ⟨response, h⟩ := BuildResponse_virtual_returns Env.sample ⟨5, 6, none, none, []⟩
    (Slice.ofList ([0x12, 0x34, 1, 0, 0, 1, 0, 0, 0, 0, 0, 0] ++
      (encodeLabels [str "example", str "com"] ++ [0, 0, 65, 0, 1]))) 65 0 (by decide) (by decide)
  exact ⟨response, h, BuildResponse_frame Env.sample ⟨5, 6, none, none, []⟩ _ response 65 0
    (by decide) (by decide) h⟩

end PhantomTCP
